import Mathlib

/-! # Halo construction of the atlas mesh library: a shallow embedding

The development follows `src/atlas/mesh/actions/BuildHalo.cc`. Two further parts follow
`ArrayT_impl::construct` of `src/atlas/array/gridtools/GridToolsArray.cc` and the gradient
of `src/atlas/numerics/fvm/Nabla.cc`.

Conventions of the embedding
* `gidx_t`, `uid_t` and `int` values are mathematical integers (`Int`); sizes and
  local indices are natural numbers.  Signed overflow is undefined behaviour in
  C++, so the embedding describes the executions in which it does not occur.
* `double` coordinates are exact rationals; where the rounding of `double` matters it is
  written out (`round_binary64`).
* The node fields (structure of arrays in the source) are stored row by row.
* A `std::set` is a strictly ascending list, a `std::map` an association list with
  one entry per key.
* Every MPI task runs the same code; a collective call is the point where the
  tasks meet.  The state of all tasks is a list indexed by the rank, and a
  collective is a function on that list.
* A thrown exception is fatal.  An `Outcome` records the state reached and the
  error, if any.
-/

namespace Atlas

/-! ## Data model -/

/-- Coordinate pair `(x, y)` of a node (`PointXY`, or a `double[2]`). -/
structure PointXY where
  x : Rat
  y : Rat
deriving DecidableEq, Inhabited

/-- One row of the node collection: the fields viewed by `BuildHaloHelper`. -/
structure Node where
  glb_idx : Int
  part : Int
  ridx : Int
  flags : Nat
  ghost : Int
  xy : PointXY
  lonlat : PointXY
deriving DecidableEq, Inhabited

/-- One row of the cell collection: global index, partition, halo, patch and the
row of the node connectivity. -/
structure Cell where
  glb_idx : Int
  part : Int
  halo : Int
  patch : Int
  nodes : List Nat
deriving DecidableEq, Inhabited

/-- Modelled from the spec: `mesh::Elements`, the cells of one element type, stored
contiguously; `nb_nodes` is the number of columns of its block connectivity
(`HybridElements.h` and `Elements.h` are not among the translated files). -/
structure Elements where
  nb_nodes : Nat
  cells : List Cell
deriving DecidableEq, Inhabited

/-- Keys of the mesh metadata written by `BuildHalo`: `"halo"` and
`"nb_nodes_including_halo[k]"`. -/
inductive MetaKey where
  | halo
  | nb_nodes_including_halo (k : Int)
deriving DecidableEq

/-- Metadata of a global-index field: `"max"` and `"human_readable"`. -/
structure FieldMetadata where
  max : Option Int
  human_readable : Option Bool
deriving DecidableEq, Inhabited

/-- Local mesh of one task. `cells` is the `HybridElements` container: one block
per element type, the cells of type `t` stored after all cells of earlier types. -/
structure Mesh where
  nodes : List Node
  cells : List Elements
  metadata : List (MetaKey × Int)
  nodes_global_index_metadata : FieldMetadata
  cells_global_index_metadata : FieldMetadata
deriving DecidableEq, Inhabited

/-- Modelled from the spec: `util::Metadata::get(key, value)`; the value is left
alone when the key is absent (`eckit` is not among the translated files). -/
def Metadata_get (m : List (MetaKey × Int)) (k : MetaKey) : Option Int :=
  (m.find? (fun kv => decide (kv.1 = k))).map Prod.snd

/-- Modelled from the spec: `util::Metadata::set(key, value)`, which replaces the
value stored under the key. -/
def Metadata_set (m : List (MetaKey × Int)) (k : MetaKey) (v : Int) : List (MetaKey × Int) :=
  (k, v) :: m.filter (fun kv => decide (kv.1 ≠ k))

/-- All cells in the numbering of `HybridElements` (all types together). -/
def Mesh.all_cells (m : Mesh) : List Cell :=
  (m.cells.map Elements.cells).flatten

/-- Number of cells of all types: `mesh.cells().size()`. -/
def Mesh.nb_cells (m : Mesh) : Nat :=
  m.all_cells.length

/-- Recorded halo depth: `int halo = 0; mesh.metadata().get("halo", halo)`. -/
def Mesh.halo (m : Mesh) : Int :=
  (Metadata_get m.metadata MetaKey.halo).getD 0

/-! ## Renumbering of global indices -/

/-- The `Entity` of the source: a global index `g` and its position `i` in the
gathered array; `operator<` compares `g` only. -/
structure Entity where
  g : Int
  i : Nat
deriving DecidableEq, Inhabited

/-- What `std::sort` guarantees with `Entity::operator<`: the result is a
rearrangement of the input in which no element is smaller than an earlier one.
The order of elements with equal `g` is left open. -/
def IsStdSort (sort : List Entity → List Entity) : Prop :=
  ∀ l, (sort l).Perm l ∧ (sort l).Pairwise (fun a b => ¬ b.g < a.g)

/-- A sort that satisfies `IsStdSort`: insertion sort on `g`. -/
def entity_insertion_sort (l : List Entity) : List Entity :=
  l.insertionSort (fun a b => a.g ≤ b.g)

/-- The list `points_to_edit` (or `cells_to_edit`) of one task. -/
def points_to_edit (do_all : Bool) (size : Nat) (periodic_local_index : List Nat) : List Nat :=
  if do_all then List.range size else periodic_local_index

/-- The renumbering loop on the root task: `gid` is advanced each time the key
changes with respect to the previous entry (`prev`, absent at `jnode = 0`), and
written at position `i` of the gathered array. -/
def renumber_walk : Int → Option Int → List Entity → List Int → List Int
  | _, _, [], gathered => gathered
  | gid, prev, e :: es, gathered =>
    let gid1 := match prev with
      | some p => if e.g ≠ p then gid + 1 else gid
      | none => gid
    renumber_walk gid1 (some e.g) es (gathered.set e.i gid1)

/-- Modelled from the spec: `scatterv` from the root with displacements equal to the
running sums of the counts: task `r` receives its `counts[r]` consecutive values. -/
def scatterv : List Int → List Nat → List (List Int)
  | _, [] => []
  | buf, c :: cs => buf.take c :: scatterv (buf.drop c) cs

/-- Last loop of the renumbering on one task:
`glb_idx_view(points_to_edit[j]) = glb_idx[j]`. -/
def write_back (view : List Int) (edit : List Nat) (glb_idx : List Int) : List Int :=
  (edit.zip glb_idx).foldl (fun a pv => a.set pv.1 pv.2) view

/-- Steps 1 to 3 of `make_nodes_global_index_human_readable` and of
`make_cells_global_index_human_readable` (the two bodies are the same text), for
all tasks together. `fields[r]` is the global-index array of task `r` with its
`points_to_edit`; `glb_idx_max` is the value on the root. The result is the
global-index array of every task. -/
def renumber_global_index (sort : List Entity → List Entity) (glb_idx_max : Int)
    (fields : List (List Int × List Nat)) : List (List Int) :=
  -- glb_idx[i] = view(points_to_edit[i])
  let glb_idx : List (List Int) := fields.map (fun f => f.2.map (fun p => f.1.getD p 0))
  -- 1) gather on the root
  let glb_idx_gathered : List Int := glb_idx.flatten
  -- 2) sort and renumber
  let node_sort := sort (glb_idx_gathered.enum.map (fun jg => Entity.mk jg.2 jg.1))
  let renumbered := renumber_walk (glb_idx_max + 1) none node_sort glb_idx_gathered
  -- 3) scatter back and store
  let scattered := scatterv renumbered (glb_idx.map List.length)
  List.zipWith (fun f new => write_back f.1 f.2 new) fields scattered

/-! ## Collaborators outside the translated files -/

/-- Output of `accumulate_facets` (`atlas/mesh/detail/AccumulateFacets.h`). -/
structure FacetData where
  facet_nodes : List Nat
  connectivity_facet_to_elem : List Int
  nb_facets : Nat
  nb_inner_facets : Nat
  missing_value : Int

/-- Functions called by `BuildHalo.cc` whose definitions are outside the
translated files; every result below holds for any choice of them.
* `unique_lonlat crd` is `util::unique_lonlat(const double[])`,
* `unique_lonlat_n crds` is `util::unique_lonlat(const double[], size_t npts)`,
* `accumulate_facets` is `mesh::detail::accumulate_facets`,
* `projection_lonlat` is `mesh.projection().lonlat(pxy)`,
* `sort_entities` is `std::sort` on a vector of `Entity`. -/
structure Externals where
  unique_lonlat : PointXY → Int
  unique_lonlat_n : List PointXY → Int
  accumulate_facets : Mesh → FacetData
  projection_lonlat : PointXY → PointXY
  sort_entities : List Entity → List Entity

/-- Modelled from the spec: the `Topology` bit flags of `mesh::Nodes` and the
operations of `util::Bitflags` (`Nodes.h` is not among the translated files). -/
def Topology_NONE : Nat := 0

/-- Modelled from the spec: the GHOST bit, `1 << 1`. -/
def Topology_GHOST : Nat := 2

/-- Modelled from the spec: the PERIODIC bit, `1 << 2`. -/
def Topology_PERIODIC : Nat := 4

/-- Modelled from the spec: the WEST bit, `1 << 4`. -/
def Topology_WEST : Nat := 16

/-- Modelled from the spec: the EAST bit, `1 << 5`. -/
def Topology_EAST : Nat := 32

/-- Modelled from the spec: `Topology::check(flags, bits)`, all of `bits` are set. -/
def Topology_check (flags bits : Nat) : Bool :=
  (flags &&& bits) == bits

/-- Modelled from the spec: `Topology::set(flags, bit)`, `flags |= bit`. -/
def Topology_set (flags bit : Nat) : Nat :=
  flags ||| bit

/-- Modelled from the spec: `Topology::reset(flags, bit)`, `flags = bit`. -/
def Topology_reset (_flags bit : Nat) : Nat :=
  bit

/-- Modelled from the spec: `PeriodicTransform::operator()(double crd[2], double
direction)`, which adds `direction * x_translation_` to the longitude
(`PeriodicTransform.h` is not among the translated files). -/
def PeriodicTransform_apply (x_translation : Rat) (crd : PointXY) (direction : Rat) : PointXY :=
  { x := crd.x + direction * x_translation, y := crd.y }

/-- The translation of `class EastWest`: `x_translation_ = -360.` -/
def EastWest : Rat := -360

/-- The translation of `class WestEast`: `x_translation_ = 360.` -/
def WestEast : Rat := 360

/-! ## Errors and outcomes -/

/-- One line of the message of `build_lookup_uid2node`: the values streamed into
`"Node uid: " uid "   " glb_idx(jnode) " (" xy(jnode) ")  has already been added as
node " glb_idx(other) " (" xy(other) ")"`. -/
structure DuplicateNote where
  uid : Int
  glb_idx : Int
  xy : PointXY
  other_glb_idx : Int
  other_xy : PointXY
deriving DecidableEq

/-- The exceptions thrown in `BuildHalo.cc`, with the values their messages are
built from, and the failure of a collective call that not all tasks take part in. -/
inductive Error where
  /-- `eckit::SeriousBug(notes.str())` of `build_lookup_uid2node`. -/
  | duplicate_node (notes : List DuplicateNote)
  /-- `eckit::SeriousBug` of `add_nodes`: "New node with uid ... Existing already loc ...". -/
  | new_node_exists (uid : Int) (glb_idx : Int) (xy : PointXY)
      (other : Nat) (other_glb_idx : Int) (other_xy : PointXY)
  /-- `ASSERT(false)` of `fill_sendbuffer`: "Node with uid ... needed by [p] was not found". -/
  | node_not_found (uid : Int) (p : Nat)
  /-- The tasks do not reach the same collective call. -/
  | collective_mismatch
deriving DecidableEq

/-- State reached by a piece of code, and the exception that ended it, if any. -/
structure Outcome (σ : Type) where
  state : σ
  error : Option Error
deriving DecidableEq

/-- Normal completion. -/
def Outcome.done {σ : Type} (s : σ) : Outcome σ :=
  { state := s, error := none }

/-- An exception was thrown in state `s`. -/
def Outcome.fatal {σ : Type} (s : σ) (e : Error) : Outcome σ :=
  { state := s, error := some e }

/-- Sequencing: the code that follows runs only after normal completion. -/
def Outcome.bind {σ : Type} (o : Outcome σ) (f : σ → Outcome σ) : Outcome σ :=
  match o.error with
  | none => f o.state
  | some _ => o

/-- First exception among the tasks, in rank order. -/
def first_error : List (Option Error) → Option Error
  | [] => none
  | some e :: _ => some e
  | none :: rest => first_error rest

/-! ## Containers of the standard library -/

/-- Insertion into a `std::set`: the new set and whether the value was inserted. -/
def set_insert {α : Type} [LinearOrder α] (s : List α) (v : α) : List α × Bool :=
  if v ∈ s then (s, false) else (s.orderedInsert (fun a b => a ≤ b) v, true)

/-- The map `Uid2Node` (`std::map<uid_t, int>`). -/
abbrev Uid2Node := List (Int × Nat)

/-- The call `uid2node.find(uid)`; `none` stands for `end()`. -/
def uid2node_find (m : Uid2Node) (uid : Int) : Option Nat :=
  (m.find? (fun kv => decide (kv.1 = uid))).map Prod.snd

/-- The call `uid2node.insert(std::make_pair(uid, node))`: nothing is changed when the
key is present; the flag is `.second`. -/
def uid2node_insert (m : Uid2Node) (uid : Int) (node : Nat) : Uid2Node × Bool :=
  match uid2node_find m uid with
  | some _ => (m, false)
  | none => (m ++ [(uid, node)], true)

/-- The assignment `uid2node[uid] = node`. -/
def uid2node_assign (m : Uid2Node) (uid : Int) (node : Nat) : Uid2Node :=
  match uid2node_find m uid with
  | some _ => m.map (fun kv => if kv.1 = uid then (uid, node) else kv)
  | none => m ++ [(uid, node)]

/-- The read `uid2node[uid]`: `std::map::operator[]` inserts the value `0` when the
key is absent. -/
def uid2node_index (m : Uid2Node) (uid : Int) : Nat × Uid2Node :=
  match uid2node_find m uid with
  | some node => (node, m)
  | none => (0, m ++ [(uid, 0)])

/-- The call `std::lower_bound(v.begin(), v.end(), uid)` on a sorted vector: the
position of the first element that is not less than `uid`. -/
def lower_bound (v : List Int) (uid : Int) : Nat :=
  (v.takeWhile (fun x => decide (x < uid))).length

/-- The lambdas `node_already_exists` and `element_already_exists`: binary search in the
sorted snapshot, then insertion into the set of identifiers seen in this merge. -/
def already_exists (snapshot : List Int) (new_uid : List Int) (uid : Int) : Bool × List Int :=
  let it := lower_bound snapshot uid
  let not_found : Bool := match snapshot.get? it with
    | none => true
    | some x => decide (uid < x)
  if not_found then
    let r := set_insert new_uid uid
    (!r.2, r.1)
  else (true, new_uid)

/-! ## Unique identifiers and lookups -/

/-- Coordinates of node `j`: `xy(j, XX)`, `xy(j, YY)`. -/
def Mesh.xy (m : Mesh) (j : Nat) : PointXY :=
  (m.nodes.getD j default).xy

/-- Modelled from the spec: `UniqueLonLat::operator()(int node)`, the identifier of the
coordinates of the node (`Unique.h` is not among the translated files). -/
def compute_uid (X : Externals) (m : Mesh) (jnode : Nat) : Int :=
  X.unique_lonlat (m.xy jnode)

/-- Modelled from the spec: `UniqueLonLat::operator()(const Connectivity::Row&)`, the
identifier computed over the coordinates of the nodes of a cell. -/
def compute_uid_row (X : Externals) (m : Mesh) (row : List Nat) : Int :=
  X.unique_lonlat_n (row.map m.xy)

/-- Cell `e` in the numbering over all types. -/
def Mesh.cell (m : Mesh) (e : Nat) : Cell :=
  m.all_cells.getD e default

/-- Type of cell `e`, scanning the blocks: `mesh.cells().type_idx(e)`. -/
def type_idx_from : List Elements → Nat → Nat → Nat
  | [], _, t => t
  | b :: bs, e, t => if e < b.cells.length then t else type_idx_from bs (e - b.cells.length) (t + 1)

/-- The call `mesh.cells().type_idx(e)`. -/
def Mesh.type_idx (m : Mesh) (e : Nat) : Nat :=
  type_idx_from m.cells e 0

/-- The function `build_lookup_node2elem`: one list per node, cleared, then every cell
that is not patched is appended to the list of each of its nodes. -/
def build_lookup_node2elem (mesh : Mesh) : List (List Nat) :=
  let node2elem : List (List Nat) := List.replicate mesh.nodes.length []
  mesh.all_cells.enum.foldl
    (fun n2e ec =>
      if ec.2.patch = 0 then
        ec.2.nodes.foldl (fun acc node => acc.modify (fun l => l ++ [ec.1]) node) n2e
      else n2e)
    node2elem

/-- Body of the loop of `build_lookup_uid2node` for node `jnode`. -/
def build_lookup_uid2node_step (X : Externals) (mesh : Mesh)
    (st : Uid2Node × List DuplicateNote) (jnode : Nat) : Uid2Node × List DuplicateNote :=
  let uid := compute_uid X mesh jnode
  let r := uid2node_insert st.1 uid jnode
  if r.2 then (r.1, st.2)
  else
    let other := (uid2node_index r.1 uid).1
    (r.1, st.2 ++ [{ uid := uid,
                     glb_idx := (mesh.nodes.getD jnode default).glb_idx,
                     xy := mesh.xy jnode,
                     other_glb_idx := (mesh.nodes.getD other default).glb_idx,
                     other_xy := mesh.xy other }])

/-- The function `build_lookup_uid2node`: the map is cleared and filled; the notes of
all collisions are collected, and `SeriousBug` is thrown at the end if there is one. -/
def build_lookup_uid2node (X : Externals) (mesh : Mesh) : Outcome Uid2Node :=
  let r := (List.range mesh.nodes.length).foldl (build_lookup_uid2node_step X mesh) ([], [])
  if r.2.isEmpty then Outcome.done r.1 else Outcome.fatal r.1 (Error.duplicate_node r.2)

/-- The function `accumulate_elements`: the cells owned by this task around the
requested nodes, and the identifiers of their nodes that were not requested. -/
def accumulate_elements (X : Externals) (mpi_rank : Nat) (mesh : Mesh)
    (request_node_uid : List Int) (uid2node : Uid2Node) (node2elem : List (List Nat)) :
    List Nat × List Int :=
  let found_elements_set : List Nat := request_node_uid.foldl
    (fun s uid =>
      match uid2node_find uid2node uid with
      | some inode =>
        if inode < node2elem.length then
          (node2elem.getD inode []).foldl
            (fun s e => if (mesh.cell e).part = (mpi_rank : Int) then (set_insert s e).1 else s) s
        else s
      | none => s)
    []
  let found_elements := found_elements_set
  -- collect all nodes
  let new_nodes_uid : List Int := found_elements.foldl
    (fun s e => (mesh.cell e).nodes.foldl (fun s n => (set_insert s (compute_uid X mesh n)).1) s)
    []
  -- remove the nodes of the request
  let new_nodes_uid := request_node_uid.foldl (fun s uid => s.erase uid) new_nodes_uid
  (found_elements, new_nodes_uid)

/-! ## The helper object, buffers, packing -/

/-- The struct `BuildHaloHelper::Status`. -/
structure Status where
  new_periodic_ghost_points : List Nat
  new_periodic_ghost_cells : List (List Nat)
deriving DecidableEq, Inhabited

/-- The class `BuildHaloHelper`. The array views of the source are read from `mesh`;
`update()` only refreshes those views and has no counterpart here. -/
structure BuildHaloHelper where
  mesh : Mesh
  status : Status
  bdry_nodes : List Nat
  node_to_elem : List (List Nat)
  uid2node : Uid2Node
  halo : Int
deriving DecidableEq, Inhabited

/-- The constructor `BuildHaloHelper(builder, mesh)`: `halo` is read from the metadata. -/
def BuildHaloHelper.create (mesh : Mesh) : BuildHaloHelper :=
  { mesh := mesh,
    status := { new_periodic_ghost_points := [], new_periodic_ghost_cells := [] },
    bdry_nodes := [],
    node_to_elem := [],
    uid2node := [],
    halo := mesh.halo }

/-- The struct `BuildHaloHelper::Buffers`: for every field one vector per task. -/
structure Buffers where
  node_part : List (List Int)
  node_ridx : List (List Int)
  node_flags : List (List Nat)
  node_glb_idx : List (List Int)
  node_xy : List (List Rat)
  elem_glb_idx : List (List Int)
  elem_nodes_id : List (List Int)
  elem_nodes_displs : List (List Nat)
  elem_part : List (List Int)
  elem_type : List (List Nat)
deriving DecidableEq, Inhabited

/-- The constructor `Buffers(mesh)`: every field is resized to `mpi_size` empty vectors. -/
def Buffers.create (mpi_size : Nat) : Buffers :=
  { node_part := List.replicate mpi_size [],
    node_ridx := List.replicate mpi_size [],
    node_flags := List.replicate mpi_size [],
    node_glb_idx := List.replicate mpi_size [],
    node_xy := List.replicate mpi_size [],
    elem_glb_idx := List.replicate mpi_size [],
    elem_nodes_id := List.replicate mpi_size [],
    elem_nodes_displs := List.replicate mpi_size [],
    elem_part := List.replicate mpi_size [],
    elem_type := List.replicate mpi_size [] }

/-- The local nodes of the identifiers in `nodes_uid`, in order; `ASSERT(false)` at the
first identifier that `uid2node` does not hold. -/
def find_nodes (uid2node : Uid2Node) (p : Nat) : List Int → Except Error (List Nat)
  | [] => Except.ok []
  | uid :: rest =>
    match uid2node_find uid2node uid with
    | none => Except.error (Error.node_not_found uid p)
    | some node =>
      match find_nodes uid2node p rest with
      | Except.error e => Except.error e
      | Except.ok nodes => Except.ok (node :: nodes)

/-- Values of `jelemnode` at the start of each cell: the running sum of the numbers of
nodes, which is stored in `elem_nodes_displs`. -/
def running_displs : Nat → List Nat → List Nat
  | _, [] => []
  | acc, c :: cs => acc :: running_displs (acc + c) cs

/-- The call `v.resize(n, Topology::NONE)` on a vector of flags: the entries that `v` has
below `n` stay as they are, the entries that are new are `NONE`. -/
def resize_flags (v : List Nat) (n : Nat) : List Nat :=
  v.take n ++ List.replicate (n - v.length) Topology_NONE

/-- The function `fill_sendbuffer(buf, nodes_uid, elems, p)` of the interior pass. The
vectors for task `p` are resized and every entry is assigned, except the flags, into which
the bits are set with `Topology::set`. -/
def fill_sendbuffer (X : Externals) (h : BuildHaloHelper) (buf : Buffers)
    (nodes_uid : List Int) (elems : List Nat) (p : Nat) : Except Error Buffers :=
  match find_nodes h.uid2node p nodes_uid with
  | Except.error e => Except.error e
  | Except.ok found =>
    let node (j : Nat) : Node := h.mesh.nodes.getD j default
    Except.ok
      { node_glb_idx := buf.node_glb_idx.set p (found.map (fun j => (node j).glb_idx)),
        node_part := buf.node_part.set p (found.map (fun j => (node j).part)),
        node_ridx := buf.node_ridx.set p (found.map (fun j => (node j).ridx)),
        node_xy := buf.node_xy.set p (found.flatMap (fun j => [(node j).xy.x, (node j).xy.y])),
        node_flags := buf.node_flags.set p
          (List.zipWith (fun old j => Topology_set old ((node j).flags ||| Topology_GHOST))
            (resize_flags (buf.node_flags.getD p []) nodes_uid.length) found),
        elem_glb_idx := buf.elem_glb_idx.set p (elems.map (fun e => (h.mesh.cell e).glb_idx)),
        elem_part := buf.elem_part.set p (elems.map (fun e => (h.mesh.cell e).part)),
        elem_type := buf.elem_type.set p (elems.map (fun e => h.mesh.type_idx e)),
        elem_nodes_id := buf.elem_nodes_id.set p
          (elems.flatMap (fun e => (h.mesh.cell e).nodes.map (compute_uid X h.mesh))),
        elem_nodes_displs := buf.elem_nodes_displs.set p
          (running_displs 0 (elems.map (fun e => (h.mesh.cell e).nodes.length))) }

/-- The function `fill_sendbuffer(buf, nodes_uid, elems, transform, newflags, p)` of the
periodic passes: coordinates are transformed with direction `-1`, identifiers and
global indices are computed from the transformed coordinates, and `newflags` is set in
the flags. -/
def fill_sendbuffer_periodic (X : Externals) (h : BuildHaloHelper) (buf : Buffers)
    (nodes_uid : List Int) (elems : List Nat) (transform : Rat) (newflags : Nat) (p : Nat) :
    Except Error Buffers :=
  match find_nodes h.uid2node p nodes_uid with
  | Except.error e => Except.error e
  | Except.ok found =>
    let node (j : Nat) : Node := h.mesh.nodes.getD j default
    let txy (j : Nat) : PointXY := PeriodicTransform_apply transform (h.mesh.xy j) (-1)
    Except.ok
      { node_part := buf.node_part.set p (found.map (fun j => (node j).part)),
        node_ridx := buf.node_ridx.set p (found.map (fun j => (node j).ridx)),
        node_xy := buf.node_xy.set p (found.flatMap (fun j => [(txy j).x, (txy j).y])),
        node_glb_idx := buf.node_glb_idx.set p (found.map (fun j => X.unique_lonlat (txy j))),
        node_flags := buf.node_flags.set p
          (List.zipWith (fun old _ => Topology_set old newflags)
            (resize_flags (buf.node_flags.getD p []) nodes_uid.length) found),
        elem_part := buf.elem_part.set p (elems.map (fun e => (h.mesh.cell e).part)),
        elem_type := buf.elem_type.set p (elems.map (fun e => h.mesh.type_idx e)),
        elem_nodes_id := buf.elem_nodes_id.set p
          (elems.flatMap (fun e => (h.mesh.cell e).nodes.map (fun j => X.unique_lonlat (txy j)))),
        elem_nodes_displs := buf.elem_nodes_displs.set p
          (running_displs 0 (elems.map (fun e => (h.mesh.cell e).nodes.length))),
        elem_glb_idx := buf.elem_glb_idx.set p
          (elems.map (fun e => - X.unique_lonlat_n ((h.mesh.cell e).nodes.map txy))) }

/-! ## Merging received buffers -/

/-- One task of the selection loop of `add_nodes` and `add_elements`: the positions `n`
whose identifier `uid_at n` does not exist yet, with the set of new identifiers. -/
def select_new (snapshot : List Int) (uid_at : Nat → Int) :
    List Nat → List Int → List Nat × List Int
  | [], new_uid => ([], new_uid)
  | n :: rest, new_uid =>
    let r := already_exists snapshot new_uid (uid_at n)
    let rec_ := select_new snapshot uid_at rest r.2
    (if r.1 then rec_.1 else n :: rec_.1, rec_.2)

/-- The selection loop over all tasks `jpart`, in rank order: `rfn_idx` in `add_nodes`,
`received_new_elems` in `add_elements`. -/
def select_new_parts (snapshot : List Int) (count : Nat → Nat) (uid_at : Nat → Nat → Int) :
    List Nat → List Int → List (List Nat)
  | [], _ => []
  | jpart :: rest, new_uid =>
    let r := select_new snapshot (uid_at jpart) (List.range (count jpart)) new_uid
    r.1 :: select_new_parts snapshot count uid_at rest r.2

/-- Identifier of received node `n` of task `jpart`, from its shipped coordinates:
`util::unique_lonlat(crd)`. -/
def Buffers.node_crd (buf : Buffers) (jpart n : Nat) : PointXY :=
  { x := (buf.node_xy.getD jpart []).getD (n * 2) 0,
    y := (buf.node_xy.getD jpart []).getD (n * 2 + 1) 0 }

/-- The vector `rfn_idx` of `add_nodes`. -/
def add_nodes_rfn_idx (X : Externals) (mpi_size : Nat) (mesh : Mesh) (buf : Buffers) :
    List (List Nat) :=
  let node_uid : List Int :=
    ((List.range mesh.nodes.length).map (compute_uid X mesh)).insertionSort (fun a b => a ≤ b)
  select_new_parts node_uid (fun jpart => (buf.node_glb_idx.getD jpart []).length)
    (fun jpart n => X.unique_lonlat (buf.node_crd jpart n)) (List.range mpi_size) []

/-- Body of the loop "Add new nodes" of `add_nodes` for received node `idx` of task
`jpart`, stored at `loc_idx = nb_nodes + new_node`. -/
def add_nodes_store (X : Externals) (periodic : Bool) (buf : Buffers) (nb_nodes : Nat)
    (h : BuildHaloHelper) (new_node : Nat) (jpart idx : Nat) : Outcome BuildHaloHelper :=
  let loc_idx := nb_nodes + new_node
  let flags := Topology_reset (h.mesh.nodes.getD loc_idx default).flags
    ((buf.node_flags.getD jpart []).getD idx 0)
  let pxy := buf.node_crd jpart idx
  let node : Node :=
    { flags := flags,
      ghost := if Topology_check flags Topology_GHOST then 1 else 0,
      glb_idx := (buf.node_glb_idx.getD jpart []).getD idx 0,
      part := (buf.node_part.getD jpart []).getD idx 0,
      ridx := (buf.node_ridx.getD jpart []).getD idx 0,
      xy := pxy,
      lonlat := X.projection_lonlat pxy }
  let mesh1 : Mesh := { h.mesh with nodes := h.mesh.nodes.set loc_idx node }
  let status1 : Status :=
    if periodic then
      { h.status with new_periodic_ghost_points := h.status.new_periodic_ghost_points ++ [loc_idx] }
    else h.status
  let h1 : BuildHaloHelper := { h with mesh := mesh1, status := status1 }
  -- make sure new node was not already there
  let uid := compute_uid X mesh1 loc_idx
  match uid2node_find h1.uid2node uid with
  | some other =>
    Outcome.fatal h1 (Error.new_node_exists uid node.glb_idx node.xy other
      (mesh1.nodes.getD other default).glb_idx (mesh1.xy other))
  | none => Outcome.done { h1 with uid2node := uid2node_assign h1.uid2node uid loc_idx }

/-- The loop "Add new nodes" of `add_nodes` over the selected nodes, in the order of
the tasks and of `rfn_idx`; it ends at the first exception. -/
def add_nodes_loop (X : Externals) (periodic : Bool) (buf : Buffers) (nb_nodes : Nat) :
    List (Nat × Nat) → Nat → BuildHaloHelper → Outcome BuildHaloHelper
  | [], _, h => Outcome.done h
  | (jpart, idx) :: rest, new_node, h =>
    let o := add_nodes_store X periodic buf nb_nodes h new_node jpart idx
    match o.error with
    | none => add_nodes_loop X periodic buf nb_nodes rest (new_node + 1) o.state
    | some _ => o

/-- The pairs `(jpart, rfn_idx[jpart][n])` in the order in which the nested loops visit
them. -/
def visit_order (idx : List (List Nat)) : List (Nat × Nat) :=
  idx.enum.flatMap (fun jl => jl.2.map (fun n => (jl.1, n)))

/-- The function `add_nodes(buf, periodic)`. `nodes.resize` appends rows; every field
of a new row is written by the loop that follows. -/
def add_nodes (X : Externals) (mpi_size : Nat) (h : BuildHaloHelper) (buf : Buffers)
    (periodic : Bool) : Outcome BuildHaloHelper :=
  let nb_nodes := h.mesh.nodes.length
  let rfn_idx := add_nodes_rfn_idx X mpi_size h.mesh buf
  let nb_new_nodes := (rfn_idx.map List.length).sum
  -- resize nodes
  let h1 : BuildHaloHelper :=
    { h with mesh := { h.mesh with nodes := h.mesh.nodes ++ List.replicate nb_new_nodes default } }
  -- add new nodes
  add_nodes_loop X periodic buf nb_nodes (visit_order rfn_idx) 0 h1

/-- The reads `uid2node[id]` for the node identifiers of one received cell, from left
to right. -/
def uid2node_index_row (m : Uid2Node) : List Int → List Nat × Uid2Node
  | [] => ([], m)
  | uid :: rest =>
    let r := uid2node_index m uid
    let rr := uid2node_index_row r.2 rest
    (r.1 :: rr.1, rr.2)

/-- Body of the loop "Copy information in new elements" of `add_elements` for received
cell `jelem` of task `jpart`; `cols` is `node_connectivity.cols()`. -/
def add_elements_store (buf : Buffers) (halo : Int) (cols : Nat) (uid2node : Uid2Node)
    (jpart jelem : Nat) : Cell × Uid2Node :=
  let displ := (buf.elem_nodes_displs.getD jpart []).getD jelem 0
  let ids := (List.range cols).map (fun n => (buf.elem_nodes_id.getD jpart []).getD (displ + n) 0)
  let r := uid2node_index_row uid2node ids
  ({ glb_idx := (((buf.elem_glb_idx.getD jpart []).getD jelem 0).natAbs : Int),
     part := (buf.elem_part.getD jpart []).getD jelem 0,
     halo := halo + 1,
     patch := 0,
     nodes := r.1 }, r.2)

/-- The loop "Copy information in new elements" for one element type. -/
def add_elements_cells (buf : Buffers) (halo : Int) (cols : Nat) :
    List (Nat × Nat) → Uid2Node → List Cell × Uid2Node
  | [], m => ([], m)
  | (jpart, jelem) :: rest, m =>
    let r := add_elements_store buf halo cols m jpart jelem
    let rr := add_elements_cells buf halo cols rest r.2
    (r.1 :: rr.1, rr.2)

/-- Body of the loop over the element types `t` of `add_elements`. The state is the
container of cells, `uid2node` and `status.new_periodic_ghost_cells`.
`elements.add(n)` appends `n` cells to the block of type `t` and returns the old
size of the block. -/
def add_elements_type (buf : Buffers) (halo : Int) (periodic : Bool)
    (received_new_elems : List (List Nat))
    (st : List Elements × Uid2Node × List (List Nat)) (t : Nat) :
    List Elements × Uid2Node × List (List Nat) :=
  let elems : List (List Nat) := received_new_elems.enum.map
    (fun jl => jl.2.filter (fun ielem => decide ((buf.elem_type.getD jl.1 []).getD ielem 0 = t)))
  let nb_elements_of_type := (elems.map List.length).sum
  if nb_elements_of_type = 0 then st
  else
    let elements := st.1.getD t default
    let old_size := elements.cells.length
    let r := add_elements_cells buf halo elements.nb_nodes (visit_order elems) st.2.1
    (st.1.set t { elements with cells := elements.cells ++ r.1 },
     r.2,
     if periodic then
       st.2.2.modify (fun l => l ++ (List.range nb_elements_of_type).map (fun k => old_size + k)) t
     else st.2.2)

/-- The function `add_elements(buf, periodic)`. -/
def add_elements (X : Externals) (mpi_size : Nat) (h : BuildHaloHelper) (buf : Buffers)
    (periodic : Bool) : BuildHaloHelper :=
  let elem_uid : List Int :=
    (h.mesh.all_cells.flatMap (fun c => [- compute_uid_row X h.mesh c.nodes, c.glb_idx])).insertionSort
      (fun a b => a ≤ b)
  let nb_types := h.mesh.cells.length
  let ghost_cells : List (List Nat) :=
    if h.status.new_periodic_ghost_cells.length = 0 then List.replicate nb_types []
    else h.status.new_periodic_ghost_cells
  let received_new_elems : List (List Nat) :=
    select_new_parts elem_uid (fun jpart => (buf.elem_glb_idx.getD jpart []).length)
      (fun jpart e => (buf.elem_glb_idx.getD jpart []).getD e 0) (List.range mpi_size) []
  let r := (List.range nb_types).foldl (add_elements_type buf h.halo periodic received_new_elems)
    (h.mesh.cells, h.uid2node, ghost_cells)
  { h with mesh := { h.mesh with cells := r.1 },
           uid2node := r.2.1,
           status := { h.status with new_periodic_ghost_cells := r.2.2 } }

/-- The function `add_buffers(buf, periodic)`: `add_nodes`, then `add_elements`. -/
def add_buffers (X : Externals) (mpi_size : Nat) (h : BuildHaloHelper) (buf : Buffers)
    (periodic : Bool) : Outcome BuildHaloHelper :=
  (add_nodes X mpi_size h buf periodic).bind
    (fun h1 => Outcome.done (add_elements X mpi_size h1 buf periodic))

/-! ## Boundary nodes -/

/-- The function `accumulate_partition_bdry_nodes_old`: the nodes of the facets that
have no second cell, as an ordered set. -/
def accumulate_partition_bdry_nodes_old (X : Externals) (mesh : Mesh) : List Nat :=
  let f := X.accumulate_facets mesh
  (List.range f.nb_facets).foldl
    (fun s jface =>
      if f.connectivity_facet_to_elem.getD (jface * 2 + 1) 0 = f.missing_value then
        (List.range 2).foldl
          (fun s jnode => (set_insert s (f.facet_nodes.getD (jface * 2 + jnode) 0)).1) s
      else s)
    []

/-- The function `accumulate_partition_bdry_nodes` (`ATLAS_103` is not defined). -/
def accumulate_partition_bdry_nodes (X : Externals) (mesh : Mesh) (_halo : Int) : List Nat :=
  accumulate_partition_bdry_nodes_old X mesh

/-- The function `filter_nodes`. -/
def filter_nodes (nodes : List Nat) (predicate : Nat → Bool) : List Nat :=
  nodes.filter predicate

/-- The class `PeriodicPoints`: a view of the flags, the flag and the bound `N`. -/
structure PeriodicPoints where
  flags_ : List Nat
  flag_ : Nat
  N_ : Nat

/-- The constructor `PeriodicPoints(mesh, flag, N)`. -/
def PeriodicPoints.create (mesh : Mesh) (flag N : Nat) : PeriodicPoints :=
  { flags_ := mesh.nodes.map Node.flags, flag_ := flag, N_ := N }

/-- The call `PeriodicPoints::operator()(j)`. -/
def PeriodicPoints.test (pp : PeriodicPoints) (j : Nat) : Bool :=
  if j ≥ pp.N_ then false
  else if Topology_check (pp.flags_.getD j 0) pp.flag_ then true
  else false

/-! ## One pass of halo growth, task by task -/

/-- Start of `increase_halo_interior` up to the boundary nodes: the lookups are built
when they are empty (`build_lookup_uid2node` may throw). -/
def increase_halo_interior_locate (X : Externals) (h : BuildHaloHelper) :
    Outcome BuildHaloHelper :=
  let h1 : BuildHaloHelper :=
    if h.node_to_elem.length = 0 then { h with node_to_elem := build_lookup_node2elem h.mesh }
    else h
  let o : Outcome BuildHaloHelper :=
    if h1.uid2node.length = 0 then
      let u := build_lookup_uid2node X h1.mesh
      { state := { h1 with uid2node := u.state }, error := u.error }
    else Outcome.done h1
  o.bind (fun h2 =>
    Outcome.done { h2 with bdry_nodes := accumulate_partition_bdry_nodes X h2.mesh h2.halo })

/-- The vector `send_bdry_nodes_uid` of `increase_halo_interior`. -/
def increase_halo_interior_request (X : Externals) (h : BuildHaloHelper) : List Int :=
  h.bdry_nodes.map (compute_uid X h.mesh)

/-- The loop over `jpart` of `increase_halo_interior` and `increase_halo_periodic`:
`accumulate_elements` on the request of task `jpart`, then `fill_sendbuffer`. -/
def pack_loop (X : Externals) (mpi_rank : Nat) (h : BuildHaloHelper)
    (fill : Buffers → List Int → List Nat → Nat → Except Error Buffers) :
    List (Nat × List Int) → Buffers → Except Error Buffers
  | [], sendmesh => Except.ok sendmesh
  | (jpart, recv_bdry_nodes_uid) :: rest, sendmesh =>
    let found := accumulate_elements X mpi_rank h.mesh recv_bdry_nodes_uid h.uid2node h.node_to_elem
    match fill sendmesh found.2 found.1 jpart with
    | Except.error e => Except.error e
    | Except.ok sendmesh1 => pack_loop X mpi_rank h fill rest sendmesh1

/-- Steps 3 and 4 of `increase_halo_interior` on task `mpi_rank`;
`recv_bdry_nodes_uid_from_parts[jpart]` is the request of task `jpart`. -/
def increase_halo_interior_pack (X : Externals) (mpi_rank : Nat) (h : BuildHaloHelper)
    (recv_bdry_nodes_uid_from_parts : List (List Int)) : Except Error Buffers :=
  pack_loop X mpi_rank h (fill_sendbuffer X h) recv_bdry_nodes_uid_from_parts.enum
    (Buffers.create recv_bdry_nodes_uid_from_parts.length)

/-- Start of `increase_halo_periodic`: both lookups are rebuilt; the boundary nodes are
computed only when the helper holds none. -/
def increase_halo_periodic_locate (X : Externals) (h : BuildHaloHelper) :
    Outcome BuildHaloHelper :=
  let h1 : BuildHaloHelper := { h with node_to_elem := build_lookup_node2elem h.mesh }
  let u := build_lookup_uid2node X h1.mesh
  let o : Outcome BuildHaloHelper :=
    { state := { h1 with uid2node := u.state }, error := u.error }
  o.bind (fun h2 =>
    Outcome.done
      (if h2.bdry_nodes.length = 0 then
        { h2 with bdry_nodes := accumulate_partition_bdry_nodes X h2.mesh h2.halo }
      else h2))

/-- The vector `send_bdry_nodes_uid` of `increase_halo_periodic`: identifiers of the
transformed coordinates (direction `+1`) of the filtered boundary nodes. -/
def increase_halo_periodic_request (X : Externals) (h : BuildHaloHelper)
    (periodic_points : PeriodicPoints) (transform : Rat) : List Int :=
  (filter_nodes h.bdry_nodes periodic_points.test).map
    (fun j => X.unique_lonlat (PeriodicTransform_apply transform (h.mesh.xy j) 1))

/-- Steps 3 and 4 of `increase_halo_periodic` on task `mpi_rank`. -/
def increase_halo_periodic_pack (X : Externals) (mpi_rank : Nat) (h : BuildHaloHelper)
    (transform : Rat) (newflags : Nat) (recv_bdry_nodes_uid_from_parts : List (List Int)) :
    Except Error Buffers :=
  pack_loop X mpi_rank h
    (fun buf nodes_uid elems p => fill_sendbuffer_periodic X h buf nodes_uid elems transform newflags p)
    recv_bdry_nodes_uid_from_parts.enum
    (Buffers.create recv_bdry_nodes_uid_from_parts.length)

/-! ## All tasks together -/

/-- The function `BuildHaloHelper::all_to_all`, for all tasks: `send[p]` is the `sendmesh`
of task `p`, the result holds the `recvmesh` of every task. Each of the ten vectors goes
through `comm.allToAll`, which is modelled from the spec (the communicator is not among
the translated files): task `r` receives from every task `p` the vector that `p` filled
for `r`. -/
def all_to_all (send : List Buffers) : List Buffers :=
  (List.range send.length).map (fun r =>
    { node_glb_idx := send.map (fun s => s.node_glb_idx.getD r []),
      node_part := send.map (fun s => s.node_part.getD r []),
      node_ridx := send.map (fun s => s.node_ridx.getD r []),
      node_flags := send.map (fun s => s.node_flags.getD r []),
      node_xy := send.map (fun s => s.node_xy.getD r []),
      elem_glb_idx := send.map (fun s => s.elem_glb_idx.getD r []),
      elem_nodes_id := send.map (fun s => s.elem_nodes_id.getD r []),
      elem_part := send.map (fun s => s.elem_part.getD r []),
      elem_type := send.map (fun s => s.elem_type.getD r []),
      elem_nodes_displs := send.map (fun s => s.elem_nodes_displs.getD r []) })

/-- The error of a packing step, if any. -/
def pack_error : Except Error Buffers → Option Error
  | Except.ok _ => none
  | Except.error e => some e

/-- The buffers of a packing step. -/
def pack_buffers (mpi_size : Nat) : Except Error Buffers → Buffers
  | Except.ok b => b
  | Except.error _ => Buffers.create mpi_size

/-- One pass on all tasks. Every task runs `locate`; the requests are exchanged with
`allGatherv` (`gather_bdry_nodes`, every task receives the request of every task);
every task packs; the buffers are exchanged with `all_to_all`; every task merges
with `add_buffers`. An exception on a task ends the pass before the next
collective call. -/
def exchange_pass (X : Externals)
    (locate : Nat → BuildHaloHelper → Outcome BuildHaloHelper)
    (request : Nat → BuildHaloHelper → List Int)
    (pack : Nat → BuildHaloHelper → List (List Int) → Except Error Buffers)
    (periodic : Bool) (helpers : List BuildHaloHelper) : Outcome (List BuildHaloHelper) :=
  let mpi_size := helpers.length
  let located := helpers.enum.map (fun rh => locate rh.1 rh.2)
  let hs1 := located.map Outcome.state
  match first_error (located.map Outcome.error) with
  | some e => Outcome.fatal hs1 e
  | none =>
    let recv_bdry_nodes_uid_from_parts : List (List Int) :=
      hs1.enum.map (fun rh => request rh.1 rh.2)
    let packed := hs1.enum.map (fun rh => pack rh.1 rh.2 recv_bdry_nodes_uid_from_parts)
    match first_error (packed.map pack_error) with
    | some e => Outcome.fatal hs1 e
    | none =>
      let recvmesh := all_to_all (packed.map (pack_buffers mpi_size))
      let merged := List.zipWith (fun h buf => add_buffers X mpi_size h buf periodic) hs1 recvmesh
      { state := merged.map Outcome.state,
        error := first_error (merged.map Outcome.error) }

/-- The function `increase_halo_interior` on all tasks. -/
def increase_halo_interior (X : Externals) (helpers : List BuildHaloHelper) :
    Outcome (List BuildHaloHelper) :=
  exchange_pass X
    (fun _ h => increase_halo_interior_locate X h)
    (fun _ h => increase_halo_interior_request X h)
    (fun r h recv => increase_halo_interior_pack X r h recv)
    false helpers

/-- The function `increase_halo_periodic` on all tasks; `periodic_points[r]` is the
predicate of task `r`. -/
def increase_halo_periodic (X : Externals) (periodic_points : List PeriodicPoints)
    (transform : Rat) (newflags : Nat) (helpers : List BuildHaloHelper) :
    Outcome (List BuildHaloHelper) :=
  exchange_pass X
    (fun _ h => increase_halo_periodic_locate X h)
    (fun r h => increase_halo_periodic_request X h
      (periodic_points.getD r { flags_ := [], flag_ := 0, N_ := 0 }) transform)
    (fun r h recv => increase_halo_periodic_pack X r h transform newflags recv)
    true helpers

/-- The object `BuildHalo` of one task: the mesh it works on and the local indices of
the periodic ghost points and cells it has added. -/
structure BuildHalo where
  mesh_ : Mesh
  periodic_points_local_index_ : List Nat
  periodic_cells_local_index_ : List Nat
deriving DecidableEq, Inhabited

/-- Values pushed on `periodic_cells_local_index_`: `c + p` for the entries `p` of
`new_periodic_ghost_cells[t]`, where `c` is the number of cells of the types before
`t` at the end of the iteration. -/
def periodic_cells_indices : List Elements → List (List Nat) → Nat → List Nat
  | [], _, _ => []
  | elements :: rest, ghost_cells, c =>
    (ghost_cells.headD []).map (fun p => c + p)
      ++ periodic_cells_indices rest ghost_cells.tail (c + elements.cells.length)

/-- End of the body of the loop of `BuildHalo::operator()` on one task: the indices of
the new periodic ghost points and cells are recorded and the metadata is written. -/
def BuildHalo_record (jhalo : Int) (b : BuildHalo) (helper : BuildHaloHelper) : BuildHalo :=
  let mesh := helper.mesh
  let metadata1 := Metadata_set mesh.metadata (MetaKey.nb_nodes_including_halo (jhalo + 1))
    (mesh.nodes.length : Int)
  let metadata2 := Metadata_set metadata1 MetaKey.halo (jhalo + 1)
  { mesh_ :=
      { mesh with
        metadata := metadata2,
        nodes_global_index_metadata :=
          { mesh.nodes_global_index_metadata with human_readable := some false },
        cells_global_index_metadata :=
          { mesh.cells_global_index_metadata with human_readable := some false } },
    periodic_points_local_index_ :=
      b.periodic_points_local_index_ ++ helper.status.new_periodic_ghost_points,
    periodic_cells_local_index_ :=
      b.periodic_cells_local_index_
        ++ periodic_cells_indices mesh.cells helper.status.new_periodic_ghost_cells 0 }

/-- Body of the loop of `BuildHalo::operator()` on all tasks: the interior pass, the
WEST pass and the EAST pass on a new helper, then `BuildHalo_record`. When a pass
throws, the mesh of every task is the one its helper has reached. -/
def BuildHalo_iteration (X : Externals) (jhalo : Int) (w : List BuildHalo) :
    Outcome (List BuildHalo) :=
  let nb_nodes_before_halo_increase : List Nat := w.map (fun b => b.mesh_.nodes.length)
  let helpers := w.map (fun b => BuildHaloHelper.create b.mesh_)
  let points (flag : Nat) (hs : List BuildHaloHelper) : List PeriodicPoints :=
    List.zipWith (fun h N => PeriodicPoints.create h.mesh flag N) hs nb_nodes_before_halo_increase
  let o :=
    ((increase_halo_interior X helpers).bind
      (fun hs => increase_halo_periodic X (points (Topology_PERIODIC ||| Topology_WEST) hs)
        WestEast (Topology_PERIODIC ||| Topology_WEST ||| Topology_GHOST) hs)).bind
      (fun hs => increase_halo_periodic X (points (Topology_PERIODIC ||| Topology_EAST) hs)
        EastWest (Topology_PERIODIC ||| Topology_EAST ||| Topology_GHOST) hs)
  match o.error with
  | some e => Outcome.fatal (List.zipWith (fun b h => { b with mesh_ := h.mesh }) w o.state) e
  | none => Outcome.done (List.zipWith (BuildHalo_record jhalo) w o.state)

/-- The loop `for (jhalo = halo; jhalo < nb_elems; ++jhalo)` with `n` iterations left. -/
def BuildHalo_loop (X : Externals) : Nat → Int → List BuildHalo → Outcome (List BuildHalo)
  | 0, _, w => Outcome.done w
  | n + 1, jhalo, w => (BuildHalo_iteration X jhalo w).bind (BuildHalo_loop X n (jhalo + 1))

/-- Global indices of the nodes of a mesh. -/
def Mesh.nodes_glb_idx (m : Mesh) : List Int :=
  m.nodes.map Node.glb_idx

/-- Global indices of the cells of a mesh, all types together. -/
def Mesh.cells_glb_idx (m : Mesh) : List Int :=
  m.all_cells.map Cell.glb_idx

/-- Stores an array of global indices in the nodes. -/
def Mesh.set_nodes_glb_idx (m : Mesh) (g : List Int) : List Node :=
  List.zipWith (fun n v => { n with glb_idx := v }) m.nodes g

/-- Stores an array of global indices, numbered over all types, in the cells. -/
def set_cells_glb_idx : List Elements → List Int → List Elements
  | [], _ => []
  | elements :: rest, g =>
    { elements with
      cells := List.zipWith (fun c v => { c with glb_idx := v }) elements.cells
        (g.take elements.cells.length) }
      :: set_cells_glb_idx rest (g.drop elements.cells.length)

/-- The value `glb_idx_max` on the root task. -/
def root_glb_idx_max (do_all : Bool) (root_max : Option (Option Int)) : Int :=
  if do_all then 0 else (root_max.getD none).getD 0

/-- The arrays of global indices of the nodes of all tasks, each with the
`points_to_edit` of its task. -/
def nodes_fields (do_all : Bool) (w : List BuildHalo) : List (List Int × List Nat) :=
  w.map (fun b =>
    (b.mesh_.nodes_glb_idx,
     points_to_edit do_all b.mesh_.nodes.length b.periodic_points_local_index_))

/-- The arrays of global indices of the cells of all tasks, each with the
`cells_to_edit` of its task. -/
def cells_fields (do_all : Bool) (w : List BuildHalo) : List (List Int × List Nat) :=
  w.map (fun b =>
    (b.mesh_.cells_glb_idx,
     points_to_edit do_all b.mesh_.nb_cells b.periodic_cells_local_index_))

/-- The value `glb_idx_max` of the renumbering of the nodes, on the root task. -/
def nodes_glb_idx_max (do_all : Bool) (w : List BuildHalo) : Int :=
  root_glb_idx_max do_all (w.head?.map (fun b => b.mesh_.nodes_global_index_metadata.max))

/-- The value `glb_idx_max` of the renumbering of the cells, on the root task. -/
def cells_glb_idx_max (do_all : Bool) (w : List BuildHalo) : Int :=
  root_glb_idx_max do_all (w.head?.map (fun b => b.mesh_.cells_global_index_metadata.max))

/-- End of `make_nodes_global_index_human_readable` on one task: the renumbered array is
in the nodes and `"human_readable"` is set. -/
def BuildHalo.with_nodes_glb_idx (b : BuildHalo) (g : List Int) : BuildHalo :=
  { b with mesh_ :=
    { b.mesh_ with
      nodes := b.mesh_.set_nodes_glb_idx g,
      nodes_global_index_metadata :=
        { b.mesh_.nodes_global_index_metadata with human_readable := some true } } }

/-- End of `make_cells_global_index_human_readable` on one task. -/
def BuildHalo.with_cells_glb_idx (b : BuildHalo) (g : List Int) : BuildHalo :=
  { b with mesh_ :=
    { b.mesh_ with
      cells := set_cells_glb_idx b.mesh_.cells g,
      cells_global_index_metadata :=
        { b.mesh_.cells_global_index_metadata with human_readable := some true } } }

/-- The function `make_nodes_global_index_human_readable` on all tasks. -/
def make_nodes_global_index_human_readable (sort : List Entity → List Entity) (do_all : Bool)
    (w : List BuildHalo) : List BuildHalo :=
  List.zipWith BuildHalo.with_nodes_glb_idx w
    (renumber_global_index sort (nodes_glb_idx_max do_all w) (nodes_fields do_all w))

/-- The function `make_cells_global_index_human_readable` on all tasks. -/
def make_cells_global_index_human_readable (sort : List Entity → List Entity) (do_all : Bool)
    (w : List BuildHalo) : List BuildHalo :=
  List.zipWith BuildHalo.with_cells_glb_idx w
    (renumber_global_index sort (cells_glb_idx_max do_all w) (cells_fields do_all w))

/-- What one task does in `BuildHalo::operator()(nb_elems)`: `none` when it returns at
`if (halo == nb_elems) return;`, otherwise the number of iterations of its loop,
after which it renumbers. -/
def BuildHalo_plan (nb_elems : Int) (b : BuildHalo) : Option Nat :=
  if b.mesh_.halo = nb_elems then none else some (nb_elems - b.mesh_.halo).toNat

/-- The tasks that enter the loop run `increase_halo_interior` up to its first
collective call; the others do not touch their mesh before theirs. -/
def BuildHalo_until_collective (X : Externals) (nb_elems : Int) (b : BuildHalo) :
    Outcome BuildHalo :=
  match BuildHalo_plan nb_elems b with
  | some (_ + 1) =>
    let o := increase_halo_interior_locate X (BuildHaloHelper.create b.mesh_)
    { state := { b with mesh_ := o.state.mesh }, error := o.error }
  | _ => Outcome.done b

/-- The function `BuildHalo::operator()(nb_elems)` on all tasks. When all tasks take
the same path, they return at once, or run the loop and renumber the global
indices of nodes and cells. Otherwise they cannot complete a collective call:
the outcome is the first exception thrown before it, or `collective_mismatch`. -/
def BuildHalo_call (X : Externals) (nb_elems : Int) (w : List BuildHalo) :
    Outcome (List BuildHalo) :=
  match w with
  | [] => Outcome.done []
  | root :: _ =>
    if w.all (fun b => decide (BuildHalo_plan nb_elems b = BuildHalo_plan nb_elems root)) then
      match BuildHalo_plan nb_elems root with
      | none => Outcome.done w
      | some n =>
        (BuildHalo_loop X n root.mesh_.halo w).bind (fun w1 =>
          Outcome.done
            (make_cells_global_index_human_readable X.sort_entities false
              (make_nodes_global_index_human_readable X.sort_entities false w1)))
    else
      let started := w.map (BuildHalo_until_collective X nb_elems)
      Outcome.fatal (started.map Outcome.state)
        ((first_error (started.map Outcome.error)).getD Error.collective_mismatch)

/-! ## Notions used in the statements -/

/-- Identifiers of the nodes of a mesh, in the order of the nodes. -/
def Mesh.uids (X : Externals) (m : Mesh) : List Int :=
  m.nodes.map (fun nd => X.unique_lonlat nd.xy)

/-- The nodes of the mesh have pairwise distinct identifiers:
`uid(i) == uid(j)` implies `i == j`. -/
def Mesh.distinct_uids (X : Externals) (m : Mesh) : Prop :=
  ∀ i, i < m.nodes.length → ∀ j, j < m.nodes.length →
    compute_uid X m i = compute_uid X m j → i = j

instance (X : Externals) (m : Mesh) : Decidable (m.distinct_uids X) := by
  unfold Mesh.distinct_uids
  infer_instance

/-- The row that `add_nodes` stores for received node `idx` of task `jpart`. -/
def received_node (X : Externals) (buf : Buffers) (jpart idx : Nat) : Node :=
  { flags := (buf.node_flags.getD jpart []).getD idx 0,
    ghost := if Topology_check ((buf.node_flags.getD jpart []).getD idx 0) Topology_GHOST
      then 1 else 0,
    glb_idx := (buf.node_glb_idx.getD jpart []).getD idx 0,
    part := (buf.node_part.getD jpart []).getD idx 0,
    ridx := (buf.node_ridx.getD jpart []).getD idx 0,
    xy := buf.node_crd jpart idx,
    lonlat := X.projection_lonlat (buf.node_crd jpart idx) }

/-- The received nodes that `add_nodes` keeps, as pairs `(jpart, n)` in the order in
which it stores them. -/
def add_nodes_selected (X : Externals) (mpi_size : Nat) (mesh : Mesh) (buf : Buffers) :
    List (Nat × Nat) :=
  visit_order (add_nodes_rfn_idx X mpi_size mesh buf)

/-- The rows stored for a list of received nodes. -/
def received_nodes (X : Externals) (buf : Buffers) (pairs : List (Nat × Nat)) : List Node :=
  pairs.map (fun p => received_node X buf p.1 p.2)

/-- Block `b` holds the cells of block `a`, at the same positions, followed by further
cells of the same type. -/
def Elements.extended_by (a b : Elements) : Prop :=
  a.nb_nodes = b.nb_nodes ∧ a.cells <+: b.cells

/-- Mesh `b` is mesh `a` with nodes appended and with cells appended to the blocks;
the metadata is the same. -/
def Mesh.extended_by (a b : Mesh) : Prop :=
  a.nodes <+: b.nodes ∧ List.Forall₂ Elements.extended_by a.cells b.cells ∧
    b.metadata = a.metadata ∧
    b.nodes_global_index_metadata = a.nodes_global_index_metadata ∧
    b.cells_global_index_metadata = a.cells_global_index_metadata

/-- Cell `i` of the block of type `t`. -/
def Mesh.cell_of_type (m : Mesh) (t i : Nat) : Option Cell :=
  (m.cells.get? t).bind (fun elements => elements.cells.get? i)

/-- First node below `k` whose identifier is `u`. -/
def first_node_with_uid (X : Externals) (mesh : Mesh) (k : Nat) (u : Int) : Option Nat :=
  (List.range k).find? (fun j => decide (compute_uid X mesh j = u))

/-- Entry of `uid2node` made for node `j`: none when an earlier node has its identifier. -/
def uid2node_entry (X : Externals) (mesh : Mesh) (j : Nat) : Option (Int × Nat) :=
  match first_node_with_uid X mesh j (compute_uid X mesh j) with
  | none => some (compute_uid X mesh j, j)
  | some _ => none

/-- Note written for node `j` by `build_lookup_uid2node`: one when an earlier node
`other` has its identifier. -/
def duplicate_note (X : Externals) (mesh : Mesh) (j : Nat) : Option DuplicateNote :=
  match first_node_with_uid X mesh j (compute_uid X mesh j) with
  | none => none
  | some other =>
    some { uid := compute_uid X mesh j,
           glb_idx := (mesh.nodes.getD j default).glb_idx,
           xy := mesh.xy j,
           other_glb_idx := (mesh.nodes.getD other default).glb_idx,
           other_xy := mesh.xy other }

/-- Global indices named in the message of the duplicate-node error. -/
def Error.named_glb_idx : Error → List Int
  | Error.duplicate_node notes => notes.flatMap (fun n => [n.glb_idx, n.other_glb_idx])
  | _ => []

/-- The error is the duplicate-node error of `build_lookup_uid2node`. -/
def Error.is_duplicate_node : Error → Bool
  | Error.duplicate_node _ => true
  | _ => false

/-- Number of distinct values of `vals` that are smaller than `v`. -/
def nb_smaller (vals : List Int) (v : Int) : Nat :=
  (vals.toFinset.filter (fun u => u < v)).card

/-- The provisional values of the edit sets of all tasks together, as gathered on the
root: `fields[r]` is the global-index array of task `r` with its `points_to_edit`. -/
def gathered_glb_idx (fields : List (List Int × List Nat)) : List Int :=
  (fields.map (fun f => f.2.map (fun p => f.1.getD p 0))).flatten

/-- The index `previousMax + 1 + (number of distinct smaller provisional values)`. -/
def new_glb_idx (glb_idx_max : Int) (vals : List Int) (v : Int) : Int :=
  glb_idx_max + 1 + (nb_smaller vals v : Int)

/-- A sequence of stores `a[i] = v`, in order. -/
def write_all (a : List Int) (stores : List (Nat × Int)) : List Int :=
  stores.foldl (fun a pv => a.set pv.1 pv.2) a

/-- An array in which the entries at the positions of `edit` are replaced by their
image under `F`. -/
def renumbered_array (F : Int → Int) (edit : List Nat) (a : List Int) : List Int :=
  a.enum.map (fun ja => if ja.1 ∈ edit then F ja.2 else ja.2)

/-- Every position of every edit set is a position of the array of its task. -/
def edits_in_range (fields : List (List Int × List Nat)) : Prop :=
  ∀ f ∈ fields, ∀ p ∈ f.2, p < f.1.length

instance (fields : List (List Int × List Nat)) : Decidable (edits_in_range fields) := by
  unfold edits_in_range
  infer_instance

/-! ## Example data

Two tasks share the edge `x = 1` of a strip of two quadrilaterals: task 0 owns the
cell over `[0, 1]`, task 1 the cell over `[1, 2]`. Coordinates are whole degrees. -/

/-- An identifier function for whole coordinates, a boundary that takes every node of
every cell, the identity projection and insertion sort. -/
def example_externals : Externals :=
  { unique_lonlat := fun p => p.x.num * 1000 + p.y.num + 1,
    unique_lonlat_n := fun l => (l.map (fun p => p.x.num * 1000 + p.y.num + 1)).sum,
    accumulate_facets := fun m =>
      { facet_nodes := m.all_cells.flatMap (fun c => c.nodes.flatMap (fun n => [n, n])),
        connectivity_facet_to_elem :=
          m.all_cells.flatMap (fun c => c.nodes.flatMap (fun _ => [0, -1])),
        nb_facets := (m.all_cells.map (fun c => c.nodes.length)).sum,
        nb_inner_facets := 0,
        missing_value := -1 },
    projection_lonlat := fun p => p,
    sort_entities := entity_insertion_sort }

/-- A node that is not a ghost. -/
def example_node (glb_idx part ridx : Int) (x y : Rat) : Node :=
  { glb_idx := glb_idx, part := part, ridx := ridx, flags := 0, ghost := 0,
    xy := { x := x, y := y }, lonlat := { x := x, y := y } }

/-- The mesh of task 0. -/
def example_mesh0 : Mesh :=
  { nodes := [example_node 1 0 0 0 0, example_node 2 0 1 1 0, example_node 4 0 2 0 1,
              example_node 5 0 3 1 1],
    cells := [{ nb_nodes := 4,
                cells := [{ glb_idx := 1, part := 0, halo := 0, patch := 0,
                            nodes := [0, 1, 3, 2] }] }],
    metadata := [],
    nodes_global_index_metadata := { max := some 6, human_readable := none },
    cells_global_index_metadata := { max := some 2, human_readable := none } }

/-- The mesh of task 1. -/
def example_mesh1 : Mesh :=
  { nodes := [example_node 2 0 1 1 0, example_node 3 1 1 2 0, example_node 5 0 3 1 1,
              example_node 6 1 3 2 1],
    cells := [{ nb_nodes := 4,
                cells := [{ glb_idx := 2, part := 1, halo := 0, patch := 0,
                            nodes := [0, 1, 3, 2] }] }],
    metadata := [],
    nodes_global_index_metadata := { max := some 6, human_readable := none },
    cells_global_index_metadata := { max := some 2, human_readable := none } }

/-- Both tasks, each with a new `BuildHalo` object. -/
def example_world : List BuildHalo :=
  [{ mesh_ := example_mesh0, periodic_points_local_index_ := [],
     periodic_cells_local_index_ := [] },
   { mesh_ := example_mesh1, periodic_points_local_index_ := [],
     periodic_cells_local_index_ := [] }]

/-- The helper of task 0 after the start of the interior pass. -/
def example_helper : BuildHaloHelper :=
  (increase_halo_interior_locate example_externals (BuildHaloHelper.create example_mesh0)).state

/-- Buffers received by task 0: nothing from itself; from task 1 the node `(1, 0)` that
task 0 has, the new nodes `(2, 0)` and `(2, 1)`, and `(2, 0)` a second time. -/
def example_received : Buffers :=
  { node_part := [[], [0, 1, 1, 1]],
    node_ridx := [[], [1, 1, 3, 1]],
    node_flags := [[], [2, 2, 2, 2]],
    node_glb_idx := [[], [2, 3, 6, 3]],
    node_xy := [[], [1, 0, 2, 0, 2, 1, 2, 0]],
    elem_glb_idx := [[], [2]],
    elem_nodes_id := [[], [1001, 2001, 2002, 1002]],
    elem_nodes_displs := [[], [0]],
    elem_part := [[], [1]],
    elem_type := [[], [0]] }

/-- A mesh in which the nodes 0 and 1 have the same coordinates. -/
def example_duplicate_mesh : Mesh :=
  { nodes := [example_node 7 0 0 1 0, example_node 9 0 1 1 0, example_node 4 0 2 0 1],
    cells := [],
    metadata := [],
    nodes_global_index_metadata := { max := none, human_readable := none },
    cells_global_index_metadata := { max := none, human_readable := none } }

/-- Two tasks whose objects have recorded periodic ghost points and cells with
provisional global indices. -/
def example_renumber_world : List BuildHalo :=
  [{ mesh_ :=
       { nodes := [example_node 1 0 0 0 0, example_node 2 0 1 1 0, example_node (-7) 0 2 0 1,
                   example_node (-3) 0 3 1 1],
         cells := [{ nb_nodes := 4,
                     cells := [{ glb_idx := 1, part := 0, halo := 0, patch := 0,
                                 nodes := [0, 1, 3, 2] },
                               { glb_idx := 40, part := 0, halo := 1, patch := 0,
                                 nodes := [0, 1, 3, 2] }] }],
         metadata := [],
         nodes_global_index_metadata := { max := some 10, human_readable := none },
         cells_global_index_metadata := { max := some 2, human_readable := none } },
     periodic_points_local_index_ := [2, 3],
     periodic_cells_local_index_ := [1] },
   { mesh_ :=
       { nodes := [example_node 3 1 0 2 0, example_node (-7) 0 2 0 1, example_node (-9) 1 1 2 1],
         cells := [{ nb_nodes := 4,
                     cells := [{ glb_idx := 40, part := 0, halo := 1, patch := 0,
                                 nodes := [0, 1, 2, 2] }] }],
         metadata := [],
         nodes_global_index_metadata := { max := some 10, human_readable := none },
         cells_global_index_metadata := { max := some 2, human_readable := none } },
     periodic_points_local_index_ := [1, 2],
     periodic_cells_local_index_ := [0] }]

/-- All received entries `(jpart, n)` in the order of the scan of `add_nodes` and
`add_elements`: by source task, then by position; `count jpart` is the number of
entries received from task `jpart`. -/
def scan_order (mpi_size : Nat) (count : Nat → Nat) : List (Nat × Nat) :=
  (List.range mpi_size).flatMap (fun jpart => (List.range (count jpart)).map (fun n => (jpart, n)))

/-- The entries of a scan that are kept: an entry is kept when its identifier is neither
in `old` (the identifiers that exist before the merge) nor in `earlier` (the identifiers
of the entries scanned before it). -/
def kept_entries (old : List Int) (uid_at : Nat → Nat → Int) :
    List (Nat × Nat) → List Int → List (Nat × Nat)
  | [], _ => []
  | p :: rest, earlier =>
    if uid_at p.1 p.2 ∈ old ∨ uid_at p.1 p.2 ∈ earlier then
      kept_entries old uid_at rest (uid_at p.1 p.2 :: earlier)
    else p :: kept_entries old uid_at rest (uid_at p.1 p.2 :: earlier)

/-- Identifier of received node `n` of task `jpart`: `util::unique_lonlat(crd)` of the
shipped coordinates. -/
def Buffers.node_uid (X : Externals) (buf : Buffers) (jpart n : Nat) : Int :=
  X.unique_lonlat (buf.node_crd jpart n)

/-- Number of nodes received from task `jpart`: `buf.node_glb_idx[jpart].size()`. -/
def Buffers.nb_nodes (buf : Buffers) (jpart : Nat) : Nat :=
  (buf.node_glb_idx.getD jpart []).length

/-- Identifier of received cell `e` of task `jpart`: `buf.elem_glb_idx[jpart][e]`. -/
def Buffers.elem_id (buf : Buffers) (jpart e : Nat) : Int :=
  (buf.elem_glb_idx.getD jpart []).getD e 0

/-- Number of cells received from task `jpart`: `buf.elem_glb_idx[jpart].size()`. -/
def Buffers.nb_elems (buf : Buffers) (jpart : Nat) : Nat :=
  (buf.elem_glb_idx.getD jpart []).length

/-- Identifiers of the cells of a mesh as `add_elements` collects them in `elem_uid`,
before sorting: for every cell the negated identifier of its nodes and its global
index. -/
def Mesh.elem_ids (X : Externals) (m : Mesh) : List Int :=
  m.all_cells.flatMap (fun c => [- compute_uid_row X m c.nodes, c.glb_idx])

/-- The received cells that `add_elements` accepts (`received_new_elems`), as pairs
`(jpart, e)` in the order of the scan. -/
def add_elements_accepted (X : Externals) (mpi_size : Nat) (mesh : Mesh) (buf : Buffers) :
    List (Nat × Nat) :=
  visit_order
    (select_new_parts ((mesh.elem_ids X).insertionSort (fun a b => a ≤ b))
      (fun jpart => (buf.elem_glb_idx.getD jpart []).length)
      (fun jpart e => (buf.elem_glb_idx.getD jpart []).getD e 0) (List.range mpi_size) [])

/-- Shipped type of received cell `e` of task `jpart`: `buf.elem_type[jpart][e]`. -/
def Buffers.elem_type_of (buf : Buffers) (jpart e : Nat) : Nat :=
  (buf.elem_type.getD jpart []).getD e 0

/-- The read `uid2node[uid]` as a value: the node stored under the key, `0` when
`operator[]` has to insert the key. -/
def uid2node_value (m : Uid2Node) (uid : Int) : Nat :=
  (uid2node_index m uid).1

/-- Map `m1` holds every entry of `m`: a key of `m` is found in `m1` with the same node. -/
def uid2node_keeps (m m1 : Uid2Node) : Prop :=
  ∀ (u : Int) (n : Nat), uid2node_find m u = some n → uid2node_find m1 u = some n

/-- The accepted cells whose shipped type is `t` (`elements_of_type[t]`), in the order
of the scan. -/
def add_elements_accepted_of_type (X : Externals) (mpi_size : Nat) (mesh : Mesh) (buf : Buffers)
    (t : Nat) : List (Nat × Nat) :=
  (add_elements_accepted X mpi_size mesh buf).filter
    (fun pk => decide (buf.elem_type_of pk.1 pk.2 = t))

/-- Shipped owner of received cell `e` of task `jpart`: `buf.elem_part[jpart][e]`. -/
def Buffers.elem_part_of (buf : Buffers) (jpart e : Nat) : Int :=
  (buf.elem_part.getD jpart []).getD e 0

/-- Shipped identifier of node `n` of received cell `e` of task `jpart`:
`buf.elem_nodes_id[jpart][buf.elem_nodes_displs[jpart][e] + n]`. -/
def Buffers.elem_node_id (buf : Buffers) (jpart e n : Nat) : Int :=
  (buf.elem_nodes_id.getD jpart []).getD ((buf.elem_nodes_displs.getD jpart []).getD e 0 + n) 0

/-- Helper `h1` is helper `h` after nodes and cells were appended: the depth `halo` is
the same, and every cell that `h` does not have has halo `h.halo + 1` and patch `0`. -/
def BuildHaloHelper.grown (h h1 : BuildHaloHelper) : Prop :=
  h1.halo = h.halo ∧ h.mesh.extended_by h1.mesh ∧
  ∀ (t i : Nat) (c : Cell), h1.mesh.cell_of_type t i = some c →
    h.mesh.cell_of_type t i = none → c.halo = h.halo + 1 ∧ c.patch = 0

/-- Cell `x` is found by `accumulate_elements` around the requested identifier `uid`:
`uid2node` holds `uid`, and `x` is a cell of this task in the list of its node. -/
def found_around (mpi_rank : Nat) (mesh : Mesh) (uid2node : Uid2Node)
    (node2elem : List (List Nat)) (uid : Int) (x : Nat) : Prop :=
  ∃ inode, uid2node_find uid2node uid = some inode ∧ inode < node2elem.length ∧
    x ∈ node2elem.getD inode [] ∧ (mesh.cell x).part = (mpi_rank : Int)

/-- Every field of the buffers has a vector for task `p` (the constructor makes one for
each of the `mpi_size` tasks). -/
def Buffers.has_slot (buf : Buffers) (p : Nat) : Prop :=
  p < buf.node_part.length ∧ p < buf.node_ridx.length ∧ p < buf.node_flags.length ∧
  p < buf.node_glb_idx.length ∧ p < buf.node_xy.length ∧ p < buf.elem_glb_idx.length ∧
  p < buf.elem_nodes_id.length ∧ p < buf.elem_nodes_displs.length ∧
  p < buf.elem_part.length ∧ p < buf.elem_type.length

instance (buf : Buffers) (p : Nat) : Decidable (buf.has_slot p) := by
  unfold Buffers.has_slot
  infer_instance

/-- Every field of the buffers has `n` vectors, one per task. -/
def Buffers.sized (buf : Buffers) (n : Nat) : Prop :=
  buf.node_part.length = n ∧ buf.node_ridx.length = n ∧ buf.node_flags.length = n ∧
  buf.node_glb_idx.length = n ∧ buf.node_xy.length = n ∧ buf.elem_glb_idx.length = n ∧
  buf.elem_nodes_id.length = n ∧ buf.elem_nodes_displs.length = n ∧
  buf.elem_part.length = n ∧ buf.elem_type.length = n

/-- The vectors of the buffers for task `p`, as buffers with one task. -/
def Buffers.slot (buf : Buffers) (p : Nat) : Buffers :=
  { node_part := [buf.node_part.getD p []],
    node_ridx := [buf.node_ridx.getD p []],
    node_flags := [buf.node_flags.getD p []],
    node_glb_idx := [buf.node_glb_idx.getD p []],
    node_xy := [buf.node_xy.getD p []],
    elem_glb_idx := [buf.elem_glb_idx.getD p []],
    elem_nodes_id := [buf.elem_nodes_id.getD p []],
    elem_nodes_displs := [buf.elem_nodes_displs.getD p []],
    elem_part := [buf.elem_part.getD p []],
    elem_type := [buf.elem_type.getD p []] }

/-- Ghost consistency on the task of rank `mpi_rank`: a node with the GHOST bit and
without the PERIODIC bit has a partition different from the rank. -/
def ghost_consistent (mpi_rank : Nat) (m : Mesh) : Prop :=
  ∀ nd ∈ m.nodes, Topology_check nd.flags Topology_GHOST = true →
    Topology_check nd.flags Topology_PERIODIC = false → nd.part ≠ (mpi_rank : Int)

instance (mpi_rank : Nat) (m : Mesh) : Decidable (ghost_consistent mpi_rank m) := by
  unfold ghost_consistent
  infer_instance

/-- Ghost consistency on every task; the meshes are listed by rank. -/
def ghost_consistent_all (ms : List Mesh) : Prop :=
  ∀ rm ∈ ms.enum, ghost_consistent rm.1 rm.2

instance (ms : List Mesh) : Decidable (ghost_consistent_all ms) := by
  unfold ghost_consistent_all
  infer_instance

/-- The owner of a node has the node: when a node without the PERIODIC bit, on any
task, has the partition `r`, the mesh of task `r` holds a node with its identifier. -/
def owners_hold_nodes (X : Externals) (ms : List Mesh) : Prop :=
  ∀ mp ∈ ms, ∀ nd ∈ mp.nodes, Topology_check nd.flags Topology_PERIODIC = false →
    ∀ rm ∈ ms.enum, nd.part = (rm.1 : Int) → X.unique_lonlat nd.xy ∈ rm.2.uids X

instance (X : Externals) (ms : List Mesh) : Decidable (owners_hold_nodes X ms) := by
  unfold owners_hold_nodes
  infer_instance

/-- What ghost consistency reads of a node: flags, partition and coordinates. -/
def node_view (nd : Node) : Nat × Int × PointXY :=
  (nd.flags, nd.part, nd.xy)

/-- Mesh `m1` is mesh `m` of task `mpi_rank` with nodes appended, each of them either
flagged PERIODIC, or a copy, with the GHOST bit set, of a node of some task in `ms`
whose identifier `m` does not hold. -/
def nodes_added (X : Externals) (ms : List Mesh) (m m1 : Mesh) : Prop :=
  ∃ extra, m1.nodes = m.nodes ++ extra ∧ ∀ e ∈ extra,
    Topology_check e.flags Topology_PERIODIC = true ∨
    (X.unique_lonlat e.xy ∉ m.uids X ∧
      ∃ mp ∈ ms, ∃ nd ∈ mp.nodes,
        e.flags = nd.flags ||| Topology_GHOST ∧ e.part = nd.part ∧ e.xy = nd.xy)

/-! ## Example data for packing and merging -/

/-- The helper of task 1 after the start of the interior pass. -/
def example_helper1 : BuildHaloHelper :=
  (increase_halo_interior_locate example_externals (BuildHaloHelper.create example_mesh1)).state

/-- The request of task 0 in the interior pass: the identifiers of its boundary nodes. -/
def example_request0 : List Int :=
  increase_halo_interior_request example_externals example_helper

/-- What task 1 finds for the request of task 0. -/
def example_found1 : List Nat × List Int :=
  accumulate_elements example_externals 1 example_mesh1 example_request0
    example_helper1.uid2node example_helper1.node_to_elem

/-- The buffers that task 1 fills for task 0. -/
def example_sent1 : Buffers :=
  pack_buffers 2
    (fill_sendbuffer example_externals example_helper1 (Buffers.create 2) example_found1.2
      example_found1.1 0)

/-- The helper of task 0 after `add_nodes` on the buffers it received. -/
def example_helper_merged : BuildHaloHelper :=
  (add_nodes example_externals 2 example_helper example_received false).state

/-- Buffers with one cell whose second and third node identifiers, `999` and `2002`,
are not in `uid2node` of task 0. -/
def example_malformed : Buffers :=
  { node_part := [[], []],
    node_ridx := [[], []],
    node_flags := [[], []],
    node_glb_idx := [[], []],
    node_xy := [[], []],
    elem_glb_idx := [[], [2]],
    elem_nodes_id := [[], [1001, 999, 2002, 1002]],
    elem_nodes_displs := [[], [0]],
    elem_part := [[], [1]],
    elem_type := [[], [0]] }

/-- A node with flags. -/
def example_flagged_node (glb_idx : Int) (flags : Nat) (x y : Rat) : Node :=
  { glb_idx := glb_idx, part := 0, ridx := 0, flags := flags, ghost := 0,
    xy := { x := x, y := y }, lonlat := { x := x, y := y } }

/-- One task with a strip of two cells around the globe: the nodes at `x = 0` are
flagged PERIODIC and WEST, those at `x = 360` PERIODIC and EAST. -/
def example_periodic_world : List BuildHalo :=
  [{ mesh_ :=
       { nodes := [example_flagged_node 1 20 0 0, example_flagged_node 2 0 180 0,
                   example_flagged_node 3 36 360 0, example_flagged_node 4 20 0 1,
                   example_flagged_node 5 0 180 1, example_flagged_node 6 36 360 1],
         cells := [{ nb_nodes := 4,
                     cells := [{ glb_idx := 1, part := 0, halo := 0, patch := 0,
                                 nodes := [0, 1, 4, 3] },
                               { glb_idx := 2, part := 0, halo := 0, patch := 0,
                                 nodes := [1, 2, 5, 4] }] }],
         metadata := [],
         nodes_global_index_metadata := { max := some 6, human_readable := none },
         cells_global_index_metadata := { max := some 2, human_readable := none } },
     periodic_points_local_index_ := [],
     periodic_cells_local_index_ := [] }]

/-- The list of node `n` in the lookup `node2elem`, in the words of the specification:
going through the cells in ascending order, a cell that is not a patch cell is appended
once for every occurrence of `n` in its row of the connectivity. -/
def cells_around_node (mesh : Mesh) (n : Nat) : List Nat :=
  mesh.all_cells.enum.flatMap
    (fun ec => if ec.2.patch = 0 then List.replicate (ec.2.nodes.count n) ec.1 else [])

/-- One task with a strip around the globe made of a quadrilateral over `[0, 180]` (type 0)
and a triangle over `[180, 360]` (type 1): the nodes at `x = 0` are flagged PERIODIC and
WEST, those at `x = 360` PERIODIC and EAST. -/
def example_hybrid_world : List BuildHalo :=
  [{ mesh_ :=
       { nodes := [example_flagged_node 1 20 0 0, example_flagged_node 2 0 180 0,
                   example_flagged_node 3 36 360 0, example_flagged_node 4 20 0 1,
                   example_flagged_node 5 0 180 1, example_flagged_node 6 36 360 1],
         cells := [{ nb_nodes := 4,
                     cells := [{ glb_idx := 1, part := 0, halo := 0, patch := 0,
                                 nodes := [0, 1, 4, 3] }] },
                   { nb_nodes := 3,
                     cells := [{ glb_idx := 2, part := 0, halo := 0, patch := 0,
                                 nodes := [1, 2, 5] }] }],
         metadata := [],
         nodes_global_index_metadata := { max := some 6, human_readable := none },
         cells_global_index_metadata := { max := some 2, human_readable := none } },
     periodic_points_local_index_ := [],
     periodic_cells_local_index_ := [] }]

/-! ## Construction of an array from a shape and a layout

The section follows `ArrayT_impl::construct(const ArrayShape&, const ArrayLayout&)` of
`src/atlas/array/gridtools/GridToolsArray.cc`. `ArrayShape` and `ArrayLayout` are vectors
of sizes; they are lists of natural numbers here. -/

/-- How `ArrayT_impl::construct(shape, layout)` ends. -/
inductive Construction where
  /-- The call `construct(dims...)`: an array of rank `dims.length` with the default layout. -/
  | default_layout (dims : List Nat)
  /-- The call `construct_with_layout<layout_map<layout...>>(dims...)`: an array of rank
  `dims.length`. -/
  | with_layout (layout : List Nat) (dims : List Nat)
  /-- An `ASSERT` failed. -/
  | assertion_failed
  /-- The exception `eckit::BadParameter("shape not recognized")`. -/
  | shape_not_recognized
  /-- The exception `eckit::BadParameter("Layout < ... > not implemented in Atlas.")`, with the
  layout that is streamed into the message. -/
  | layout_not_implemented (layout : List Nat)
  /-- An element of `shape` or of `layout` is read with `operator[]` at the position `index`,
  which is not below the size of the vector: the behaviour is undefined. -/
  | read_beyond_size (index : Nat)
deriving DecidableEq

/-- The condition `layout[i] == v0 && layout[i + 1] == v1 && ...`: the comparisons are made
from left to right and stop at the first one that fails. The result is `Except.error k` when
`layout[k]` is read with `k` not below the size of `layout`. -/
def layout_equals (layout : List Nat) : Nat → List Nat → Except Nat Bool
  | _, [] => Except.ok true
  | i, v :: vs =>
    match layout[i]? with
    | none => Except.error i
    | some x => if x = v then layout_equals layout (i + 1) vs else Except.ok false

/-- The arguments `shape[0], ..., shape[n - 1]` of a call; `Except.error k` when `shape[k]`
is read with `k` not below the size of `shape`. -/
def shape_arguments (shape : List Nat) (n : Nat) : Except Nat (List Nat) :=
  if n ≤ shape.length then Except.ok (shape.take n) else Except.error shape.length

/-- One statement
`if (layout[0] == l0 && ...) return construct_with_layout<layout_map<l0, ...>>(shape[0], ...);`
with the layout `pattern`, followed by the statements `otherwise`. -/
def try_layout (shape layout pattern : List Nat) (otherwise : Construction) : Construction :=
  match layout_equals layout 0 pattern with
  | Except.error k => Construction.read_beyond_size k
  | Except.ok false => otherwise
  | Except.ok true =>
    match shape_arguments shape pattern.length with
    | Except.error k => Construction.read_beyond_size k
    | Except.ok dims => Construction.with_layout pattern dims

/-- The block of `default:`. -/
def construct_default (shape layout : List Nat) : Construction :=
  if shape.length > 5 then Construction.shape_not_recognized
  else Construction.layout_not_implemented layout

/-- The block of `case 5:`; it does not end with `break`, the block of `default:` follows. -/
def construct_case5 (shape layout : List Nat) : Construction :=
  try_layout shape layout [0, 1, 2, 3, 4]
    (try_layout shape layout [4, 3, 2, 1, 0] (construct_default shape layout))

/-- The block of `case 4:`; it does not end with `break`, the block of `case 5:` follows. -/
def construct_case4 (shape layout : List Nat) : Construction :=
  try_layout shape layout [0, 1, 2, 3]
    (try_layout shape layout [3, 2, 1, 0] (construct_case5 shape layout))

/-- The block of `case 3:`; it does not end with `break`, the block of `case 4:` follows. -/
def construct_case3 (shape layout : List Nat) : Construction :=
  try_layout shape layout [0, 1, 2]
    (try_layout shape layout [0, 2, 1]
      (try_layout shape layout [1, 0, 2]
        (try_layout shape layout [1, 2, 0]
          (try_layout shape layout [2, 0, 1]
            (try_layout shape layout [2, 1, 0] (construct_case4 shape layout))))))

/-- The block of `case 2:`; it does not end with `break`, the block of `case 3:` follows. -/
def construct_case2 (shape layout : List Nat) : Construction :=
  try_layout shape layout [0, 1]
    (try_layout shape layout [1, 0] (construct_case3 shape layout))

/-- The function `ArrayT_impl::construct(const ArrayShape& shape, const ArrayLayout& layout)`:
the two assertions, then the `switch` on `shape.size()`. -/
def ArrayT_impl.construct (shape layout : List Nat) : Construction :=
  if ¬ shape.length > 0 then Construction.assertion_failed
  else if ¬ shape.length = layout.length then Construction.assertion_failed
  else
    match shape.length with
    | 1 =>
      match shape_arguments shape 1 with
      | Except.error k => Construction.read_beyond_size k
      | Except.ok dims => Construction.default_layout dims
    | 2 => construct_case2 shape layout
    | 3 => construct_case3 shape layout
    | 4 => construct_case4 shape layout
    | 5 => construct_case5 shape layout
    | _ => construct_default shape layout

/-- The layouts for which `construct` has a statement under the `case` of their rank. -/
def implemented_layouts : List (List Nat) :=
  [[0, 1], [1, 0],
   [0, 1, 2], [0, 2, 1], [1, 0, 2], [1, 2, 0], [2, 0, 1], [2, 1, 0],
   [0, 1, 2, 3], [3, 2, 1, 0],
   [0, 1, 2, 3, 4], [4, 3, 2, 1, 0]]

/-! ## The gradient of the finite-volume method

The section follows `Nabla::gradient`, `Nabla::gradient_of_scalar` and
`Nabla::gradient_of_vector` of `src/atlas/numerics/fvm/Nabla.cc`. Arithmetic on `double`
is exact arithmetic on rationals. -/

/-- Modelled from the spec: a `Field` as the gradient reads and writes it: the numbers
`levels()` and `variables()` (here `nb_variables`) and the values as the sliced views address them, by node, level
and variable; a field without levels has one level in the view (`Range::dummy()`), a scalar
field one variable (`Field.h` is not among the translated files). -/
structure Field where
  levels : Nat
  nb_variables : Nat
  values : List (List (List Rat))
deriving DecidableEq, Inhabited

/-- The element `view(i, j, k)`. -/
def view_at (a : List (List (List Rat))) (i j k : Nat) : Rat :=
  ((a.getD i []).getD j []).getD k 0

/-- The assignment `view(i, j, k) = v`. -/
def view_assign (a : List (List (List Rat))) (i j k : Nat) (v : Rat) : List (List (List Rat)) :=
  a.modify (fun levels => levels.modify (fun vars => vars.set k v) j) i

/-- Modelled from the spec: what the gradient reads of the method and of its mesh: the
radius, the constant `M_PI / 180.`, `std::cos`, the numbers of nodes and edges, and the
fields and connectivities of nodes and edges (`fvm/Method.h`, `Nodes.h` and `Edges.h` are
not among the translated files). -/
structure Method where
  radius : Rat
  deg2rad : Rat
  cos : Rat → Rat
  nnodes : Nat
  nedges : Nat
  lonlat_deg : List (List Rat)
  dual_volumes : List Rat
  dual_normals : List (List Rat)
  edge_is_pole : List Int
  node2edge_sign : List (List Rat)
  node2edge : List (List Nat)
  edge2node : List (List Nat)
  pole_edges_ : List Nat

/-- The exception of the gradient: `eckit::AssertionFailed("gradient field should have same
number of levels")`. -/
inductive NablaError where
  | gradient_levels
deriving DecidableEq

/-- The gradient field after a call, and the exception that ended the call, if any. -/
structure NablaOutcome where
  grad_field : Field
  error : Option NablaError
deriving DecidableEq

/-- An entry of a two-dimensional field or connectivity. -/
def entry2 {α : Type} (a : List (List α)) (i j : Nat) (d : α) : α :=
  (a.getD i []).getD j d

/-- The function `Nabla::gradient_of_scalar`. -/
def Nabla.gradient_of_scalar (fvm_ : Method) (scalar_field grad_field : Field) : NablaOutcome :=
  let deg2rad := fvm_.deg2rad
  let nlev := if scalar_field.levels ≠ 0 then scalar_field.levels else 1
  if (if grad_field.levels ≠ 0 then grad_field.levels else 1) ≠ nlev then
    { grad_field := grad_field, error := some NablaError.gradient_levels }
  else
    let scalar (i jlev : Nat) : Rat := view_at scalar_field.values i jlev 0
    let scale := deg2rad * deg2rad * fvm_.radius
    -- avgS(jedge, jlev, LON) and avgS(jedge, jlev, LAT)
    let avgS : List (List (List Rat)) := (List.range fvm_.nedges).map (fun jedge =>
      let ip1 := entry2 fvm_.edge2node jedge 0 0
      let ip2 := entry2 fvm_.edge2node jedge 1 0
      (List.range nlev).map (fun jlev =>
        let avg := (scalar ip1 jlev + scalar ip2 jlev) * (1 / 2)
        [entry2 fvm_.dual_normals jedge 0 0 * deg2rad * avg,
         entry2 fvm_.dual_normals jedge 1 0 * deg2rad * avg]))
    let grad := (List.range fvm_.nnodes).foldl (fun grad jnode =>
      let grad := (List.range nlev).foldl (fun grad jlev =>
        view_assign (view_assign grad jnode jlev 0 0) jnode jlev 1 0) grad
      let grad := (List.range (fvm_.node2edge.getD jnode []).length).foldl (fun grad jedge =>
        let iedge := entry2 fvm_.node2edge jnode jedge 0
        let add := entry2 fvm_.node2edge_sign jnode jedge 0
        (List.range nlev).foldl (fun grad jlev =>
          let grad := view_assign grad jnode jlev 0
            (view_at grad jnode jlev 0 + add * view_at avgS iedge jlev 0)
          view_assign grad jnode jlev 1
            (view_at grad jnode jlev 1 + add * view_at avgS iedge jlev 1)) grad) grad
      let y := entry2 fvm_.lonlat_deg jnode 1 0 * deg2rad
      let metric_y := 1 / (fvm_.dual_volumes.getD jnode 0 * scale)
      let metric_x := metric_y / fvm_.cos y
      (List.range nlev).foldl (fun grad jlev =>
        let grad := view_assign grad jnode jlev 0 (view_at grad jnode jlev 0 * metric_x)
        view_assign grad jnode jlev 1 (view_at grad jnode jlev 1 * metric_y)) grad)
      grad_field.values
    { grad_field := { grad_field with values := grad }, error := none }

/-- The function `Nabla::gradient_of_vector`. The components of the gradient are numbered
`LONdLON = 0`, `LONdLAT = 1`, `LATdLON = 2`, `LATdLAT = 3`. -/
def Nabla.gradient_of_vector (fvm_ : Method) (vector_field grad_field : Field) : NablaOutcome :=
  let deg2rad := fvm_.deg2rad
  let nlev := vector_field.levels
  if vector_field.levels ≠ nlev then
    { grad_field := grad_field, error := some NablaError.gradient_levels }
  else
    let vector (i jlev k : Nat) : Rat := view_at vector_field.values i jlev k
    let scale := deg2rad * deg2rad * fvm_.radius
    let avgS : List (List (List Rat)) := (List.range fvm_.nedges).map (fun jedge =>
      let ip1 := entry2 fvm_.edge2node jedge 0 0
      let ip2 := entry2 fvm_.edge2node jedge 1 0
      let pbc : Rat := 1 - 2 * ((fvm_.edge_is_pole.getD jedge 0 : Int) : Rat)
      (List.range nlev).map (fun jlev =>
        let avg0 := (vector ip1 jlev 0 + pbc * vector ip2 jlev 0) * (1 / 2)
        let avg1 := (vector ip1 jlev 1 + pbc * vector ip2 jlev 1) * (1 / 2)
        [entry2 fvm_.dual_normals jedge 0 0 * deg2rad * avg0,
         entry2 fvm_.dual_normals jedge 1 0 * deg2rad * avg0,
         entry2 fvm_.dual_normals jedge 0 0 * deg2rad * avg1,
         entry2 fvm_.dual_normals jedge 1 0 * deg2rad * avg1]))
    let grad := (List.range fvm_.nnodes).foldl (fun grad jnode =>
      let grad := (List.range nlev).foldl (fun grad jlev =>
        (List.range 4).foldl (fun grad k => view_assign grad jnode jlev k 0) grad) grad
      let grad := (List.range (fvm_.node2edge.getD jnode []).length).foldl (fun grad jedge =>
        let iedge := entry2 fvm_.node2edge jnode jedge 0
        let add := entry2 fvm_.node2edge_sign jnode jedge 0
        (List.range nlev).foldl (fun grad jlev =>
          (List.range 4).foldl (fun grad k =>
            view_assign grad jnode jlev k
              (view_at grad jnode jlev k + add * view_at avgS iedge jlev k)) grad) grad) grad
      let y := entry2 fvm_.lonlat_deg jnode 1 0 * deg2rad
      let metric_y := 1 / (fvm_.dual_volumes.getD jnode 0 * scale)
      let metric_x := metric_y / fvm_.cos y
      (List.range nlev).foldl (fun grad jlev =>
        let grad := view_assign grad jnode jlev 0 (view_at grad jnode jlev 0 * metric_x)
        let grad := view_assign grad jnode jlev 2 (view_at grad jnode jlev 2 * metric_x)
        let grad := view_assign grad jnode jlev 1 (view_at grad jnode jlev 1 * metric_y)
        view_assign grad jnode jlev 3 (view_at grad jnode jlev 3 * metric_y)) grad)
      grad_field.values
    -- fix wrong node2edge_sign for vector quantities
    let grad := fvm_.pole_edges_.foldl (fun grad iedge =>
      let jnode := entry2 fvm_.edge2node iedge 1 0
      let metric_y := 1 / (fvm_.dual_volumes.getD jnode 0 * scale)
      (List.range nlev).foldl (fun grad jlev =>
        let grad := view_assign grad jnode jlev 1
          (view_at grad jnode jlev 1 - 2 * view_at avgS iedge jlev 1 * metric_y)
        view_assign grad jnode jlev 3
          (view_at grad jnode jlev 3 - 2 * view_at avgS iedge jlev 3 * metric_y)) grad) grad
    { grad_field := { grad_field with values := grad }, error := none }

/-- The function `Nabla::gradient`. -/
def Nabla.gradient (fvm_ : Method) (field grad_field : Field) : NablaOutcome :=
  if field.nb_variables > 1 then Nabla.gradient_of_vector fvm_ field grad_field
  else Nabla.gradient_of_scalar fvm_ field grad_field

/-- A method on a mesh of two nodes joined by one edge. The constant `M_PI / 180.` and the
values of `std::cos` are not rational numbers; the example takes 1 for them, so that it
shows which entries the gradient writes, with values that differ from those of the code by
the powers of `M_PI / 180.` that enter them. -/
def example_method : Method :=
  { radius := 1, deg2rad := 1, cos := fun _ => 1, nnodes := 2, nedges := 1,
    lonlat_deg := [[0, 0], [1, 0]], dual_volumes := [1, 1], dual_normals := [[1, 0]],
    edge_is_pole := [0], node2edge_sign := [[1], [-1]], node2edge := [[0], [0]],
    edge2node := [[0, 1]], pole_edges_ := [] }

/-- A vector field with one level on the two nodes. -/
def example_vector_field : Field :=
  { levels := 1, nb_variables := 2, values := [[[2, 4]], [[6, 8]]] }

/-- A scalar field with one level on the two nodes. -/
def example_scalar_field : Field :=
  { levels := 1, nb_variables := 0, values := [[[2]], [[6]]] }

/-- A gradient field with two levels for a vector input: four components, all `7`. -/
def example_grad_field : Field :=
  { levels := 2, nb_variables := 4,
    values := [[[7, 7, 7, 7], [7, 7, 7, 7]], [[7, 7, 7, 7], [7, 7, 7, 7]]] }

/-- The two tasks of `example_world`, except that on task 1 the node at `(2, 0)`, which
only task 1 holds, carries the partition 0. No node has the GHOST bit. -/
def example_mislabelled_world : List BuildHalo :=
  [{ mesh_ := example_mesh0, periodic_points_local_index_ := [],
     periodic_cells_local_index_ := [] },
   { mesh_ :=
       { example_mesh1 with
         nodes := [example_node 2 0 1 1 0, example_node 3 0 1 2 0, example_node 5 0 3 1 1,
                   example_node 6 1 3 2 1] },
     periodic_points_local_index_ := [],
     periodic_cells_local_index_ := [] }]

/-- One task whose mesh is `example_mesh0`, except that the node at `(0, 0)` has the GHOST
bit although its partition is 0, the rank of the task. -/
def example_own_ghost_world : List BuildHalo :=
  [{ mesh_ :=
       { example_mesh0 with
         nodes := [{ example_node 1 0 0 0 0 with flags := 2 }, example_node 2 0 1 1 0,
                   example_node 4 0 2 0 1, example_node 5 0 3 1 1] },
     periodic_points_local_index_ := [],
     periodic_cells_local_index_ := [] }]

/-- The mesh of task 0 with a triangle in place of the quadrilateral: the block of type 0
has three columns. -/
def example_triangle_mesh0 : Mesh :=
  { example_mesh0 with
    cells := [{ nb_nodes := 3,
                cells := [{ glb_idx := 1, part := 0, halo := 0, patch := 0,
                            nodes := [0, 1, 3] }] }] }

/-- The helper of the task with the triangle after the start of the interior pass and
`add_nodes` on the buffers `example_received`. -/
def example_triangle_helper_merged : BuildHaloHelper :=
  (add_nodes example_externals 2
    (increase_halo_interior_locate example_externals
      (BuildHaloHelper.create example_triangle_mesh0)).state example_received false).state

/-- The requests `recv_bdry_nodes_uid_from_parts` that every task holds after
`gather_bdry_nodes` in a pass: entry `r` is the request of task `r`, computed on its helper
after `locate`. -/
def exchange_pass_requests
    (locate : Nat → BuildHaloHelper → Outcome BuildHaloHelper)
    (request : Nat → BuildHaloHelper → List Int)
    (helpers : List BuildHaloHelper) : List (List Int) :=
  let located := helpers.enum.map (fun rh => locate rh.1 rh.2)
  let hs1 := located.map Outcome.state
  hs1.enum.map (fun rh => request rh.1 rh.2)

/-- The buffers `recvmesh` of all tasks after `all_to_all` in a pass in which no task has
thrown before: entry `r` is what task `r` receives, the vectors that every task has packed
for `r` from the requests. -/
def exchange_pass_received
    (locate : Nat → BuildHaloHelper → Outcome BuildHaloHelper)
    (request : Nat → BuildHaloHelper → List Int)
    (pack : Nat → BuildHaloHelper → List (List Int) → Except Error Buffers)
    (helpers : List BuildHaloHelper) : List Buffers :=
  let mpi_size := helpers.length
  let located := helpers.enum.map (fun rh => locate rh.1 rh.2)
  let hs1 := located.map Outcome.state
  let recv_bdry_nodes_uid_from_parts := exchange_pass_requests locate request helpers
  let packed := hs1.enum.map (fun rh => pack rh.1 rh.2 recv_bdry_nodes_uid_from_parts)
  all_to_all (packed.map (pack_buffers mpi_size))

/-- The requests that the tasks exchange in `increase_halo_interior`. -/
def increase_halo_interior_requests (X : Externals) (helpers : List BuildHaloHelper) :
    List (List Int) :=
  exchange_pass_requests
    (fun _ h => increase_halo_interior_locate X h)
    (fun _ h => increase_halo_interior_request X h) helpers

/-- The buffers `recvmesh` that the tasks receive in `increase_halo_interior`. -/
def increase_halo_interior_received (X : Externals) (helpers : List BuildHaloHelper) :
    List Buffers :=
  exchange_pass_received
    (fun _ h => increase_halo_interior_locate X h)
    (fun _ h => increase_halo_interior_request X h)
    (fun r h recv => increase_halo_interior_pack X r h recv) helpers

/-- Rounding of a rational number to the nearest integer, a tie going to the even one. -/
def round_half_even (s : Rat) : Int :=
  if s - ⌊s⌋ < 1 / 2 then ⌊s⌋
  else if 1 / 2 < s - ⌊s⌋ then ⌊s⌋ + 1
  else if ⌊s⌋ % 2 = 0 then ⌊s⌋ else ⌊s⌋ + 1

/-- The value of type `double` that an operation with the exact result `t` gives (IEEE 754
binary64, rounding to nearest, a tie going to the even significand): the multiple of
`2 ^ (e - 52)` nearest to `t`, where `2 ^ e ≤ |t| < 2 ^ (e + 1)` and `e` is not taken below
`-1022`. Overflow is not described: the results of the operations considered stay below
`2 ^ 1024`. -/
def round_binary64 (t : Rat) : Rat :=
  let e := max (Int.log 2 |t|) (-1022)
  round_half_even (t / 2 ^ (e - 52)) * 2 ^ (e - 52)

/-- Modelled from the spec: `PeriodicTransform::operator()(double crd[2], double direction)`
in the arithmetic of `double`: the product `direction * x_translation_` is rounded, and so
is its sum with the longitude (`PeriodicTransform.h` is not among the translated files). -/
def PeriodicTransform_apply_binary64 (x_translation : Rat) (crd : PointXY) (direction : Rat) :
    PointXY :=
  { x := round_binary64 (crd.x + round_binary64 (direction * x_translation)), y := crd.y }

/-! # Theorems -/

/-! ### Selection of new identifiers -/

theorem getElem?_length_takeWhile {α : Type} (p : α → Bool) (l : List α) :
    l[(l.takeWhile p).length]? = (l.dropWhile p).head? := by
  induction l with
  | nil => simp
  | cons a t ih =>
    by_cases h : p a
    · simp [List.takeWhile_cons, List.dropWhile_cons, h, ih]
    · simp [List.takeWhile_cons, List.dropWhile_cons, h]

theorem already_exists_eq (snapshot new_uid : List Int) (uid : Int)
    (hs : snapshot.Sorted (fun a b => a ≤ b)) :
    already_exists snapshot new_uid uid =
      if uid ∈ snapshot ∨ uid ∈ new_uid then (true, new_uid)
      else (false, new_uid.orderedInsert (fun a b => a ≤ b) uid) := by
  have hsplit := List.takeWhile_append_dropWhile (fun x => decide (x < uid)) snapshot
  have htw : ∀ x ∈ snapshot.takeWhile (fun x => decide (x < uid)), x < uid := by
    intro x hx
    simpa using List.mem_takeWhile_imp hx
  have hget : snapshot.get? (lower_bound snapshot uid)
      = (snapshot.dropWhile (fun x => decide (x < uid))).head? := by
    unfold lower_bound
    rw [List.get?_eq_getElem?, getElem?_length_takeWhile]
  unfold already_exists
  simp only [hget]
  cases hdw : snapshot.dropWhile (fun x => decide (x < uid)) with
  | nil =>
    have hnot : uid ∉ snapshot := by
      intro hmem
      rw [← hsplit, hdw, List.append_nil] at hmem
      exact lt_irrefl _ (htw uid hmem)
    by_cases hn : uid ∈ new_uid <;> simp [set_insert, hnot, hn]
  | cons x rest =>
    have hx : ¬ x < uid := by
      have := List.head_dropWhile_not (fun x => decide (x < uid)) snapshot
        (by rw [hdw]; simp)
      simpa [hdw] using this
    have hsorted : ∀ y ∈ rest, x ≤ y := by
      rw [← hsplit, hdw] at hs
      have h2 := (List.pairwise_append.mp hs).2.1
      exact (List.pairwise_cons.mp h2).1
    by_cases hlt : uid < x
    · have hnot : uid ∉ snapshot := by
        intro hmem
        rw [← hsplit, hdw] at hmem
        rcases List.mem_append.mp hmem with h1 | h1
        · exact lt_irrefl _ (htw uid h1)
        · rcases List.mem_cons.mp h1 with h2 | h2
          · omega
          · have := hsorted uid h2
            omega
      by_cases hn : uid ∈ new_uid <;> simp [set_insert, hnot, hn, hlt]
    · have hmem : uid ∈ snapshot := by
        rw [← hsplit, hdw]
        have : uid = x := by omega
        simp [this]
      simp [hmem, hlt]

theorem select_new_spec (snapshot : List Int) (hs : snapshot.Sorted (fun a b => a ≤ b))
    (uid_at : Nat → Int) : ∀ (ns : List Nat) (new_uid : List Int),
    (∀ n ∈ (select_new snapshot uid_at ns new_uid).1,
        n ∈ ns ∧ uid_at n ∉ snapshot ∧ uid_at n ∉ new_uid) ∧
    ((select_new snapshot uid_at ns new_uid).1.map uid_at).Nodup ∧
    (∀ u, u ∈ (select_new snapshot uid_at ns new_uid).2 ↔
        u ∈ new_uid ∨ u ∈ (select_new snapshot uid_at ns new_uid).1.map uid_at) := by
  intro ns
  induction ns with
  | nil => intro new_uid; simp [select_new]
  | cons n rest ih =>
    intro new_uid
    simp only [select_new]
    rw [already_exists_eq snapshot new_uid (uid_at n) hs]
    by_cases hex : uid_at n ∈ snapshot ∨ uid_at n ∈ new_uid
    · simp only [hex, if_true]
      obtain ⟨h1, h2, h3⟩ := ih new_uid
      refine ⟨?_, h2, h3⟩
      intro m hm
      obtain ⟨a, b, c⟩ := h1 m hm
      exact ⟨List.mem_cons_of_mem _ a, b, c⟩
    · simp only [hex, if_false]
      obtain ⟨h1, h2, h3⟩ := ih (new_uid.orderedInsert (fun a b => a ≤ b) (uid_at n))
      push_neg at hex
      refine ⟨?_, ?_, ?_⟩
      · intro m hm
        simp only [Bool.false_eq_true, if_false] at hm
        rcases List.mem_cons.mp hm with hm | hm
        · subst hm
          exact ⟨List.mem_cons_self _ _, hex.1, hex.2⟩
        · obtain ⟨a, b, c⟩ := h1 m hm
          refine ⟨List.mem_cons_of_mem _ a, b, ?_⟩
          intro hc
          exact c ((List.mem_orderedInsert _).mpr (Or.inr hc))
      · simp only [Bool.false_eq_true, if_false, List.map_cons]
        refine List.nodup_cons.mpr ⟨?_, h2⟩
        intro hc
        obtain ⟨m, hm, hmu⟩ := List.mem_map.mp hc
        obtain ⟨_, _, c⟩ := h1 m hm
        exact c ((List.mem_orderedInsert _).mpr (Or.inl hmu))
      · intro u
        simp only [Bool.false_eq_true, if_false, List.map_cons, List.mem_cons]
        rw [h3 u, List.mem_orderedInsert]
        tauto

/-- The pairs visited for the tasks `k, k+1, ...`. -/
theorem select_new_parts_spec (snapshot : List Int) (hs : snapshot.Sorted (fun a b => a ≤ b))
    (count : Nat → Nat) (uid_at : Nat → Nat → Int) : ∀ (m k : Nat) (new_uid : List Int),
    (∀ p ∈ ((select_new_parts snapshot count uid_at (List.range' k m) new_uid).enumFrom k).flatMap
          (fun jl => jl.2.map (fun n => (jl.1, n))),
        uid_at p.1 p.2 ∉ snapshot ∧ uid_at p.1 p.2 ∉ new_uid) ∧
    ((((select_new_parts snapshot count uid_at (List.range' k m) new_uid).enumFrom k).flatMap
          (fun jl => jl.2.map (fun n => (jl.1, n)))).map (fun p => uid_at p.1 p.2)).Nodup := by
  intro m
  induction m with
  | zero => intro k new_uid; simp [select_new_parts]
  | succ m ih =>
    intro k new_uid
    rw [List.range'_succ]
    simp only [select_new_parts, List.enumFrom_cons, List.flatMap_cons, List.map_append,
      List.map_map]
    obtain ⟨a1, a2, a3⟩ := select_new_spec snapshot hs (uid_at k) (List.range (count k)) new_uid
    obtain ⟨b1, b2⟩ := ih (k + 1)
      (select_new snapshot (uid_at k) (List.range (count k)) new_uid).2
    refine ⟨?_, ?_⟩
    · intro p hp
      rcases List.mem_append.mp hp with hp | hp
      · obtain ⟨n, hn, rfl⟩ := List.mem_map.mp hp
        obtain ⟨_, x, y⟩ := a1 n hn
        exact ⟨x, y⟩
      · obtain ⟨x, y⟩ := b1 p hp
        refine ⟨x, ?_⟩
        intro hc
        exact y ((a3 _).mpr (Or.inl hc))
    · refine List.nodup_append.mpr ⟨?_, b2, ?_⟩
      · simpa [Function.comp_def] using a2
      · intro u hu1 hu2
        obtain ⟨p, hp, hpu⟩ := List.mem_map.mp hu2
        obtain ⟨_, y⟩ := b1 p hp
        apply y
        rw [hpu]
        apply (a3 u).mpr
        right
        simpa [Function.comp_def] using hu1

theorem compute_uid_eq_getElem (X : Externals) (m : Mesh) (i : Nat) (hi : i < m.nodes.length) :
    (m.uids X)[i]? = some (compute_uid X m i) := by
  simp [compute_uid, Mesh.xy, Mesh.uids, List.getD_eq_getElem?_getD, List.getElem?_eq_getElem hi]

theorem range_map_compute_uid (X : Externals) (m : Mesh) :
    (List.range m.nodes.length).map (compute_uid X m) = m.uids X := by
  apply List.ext_getElem
  · simp [Mesh.uids]
  · intro n h1 h2
    have hn : n < m.nodes.length := by simpa using h1
    have := compute_uid_eq_getElem X m n hn
    rw [List.getElem?_eq_getElem h2] at this
    simpa using (Option.some.inj this).symm

theorem distinct_uids_iff_nodup (X : Externals) (m : Mesh) :
    m.distinct_uids X ↔ (m.uids X).Nodup := by
  have hlen : (m.uids X).length = m.nodes.length := by simp [Mesh.uids]
  constructor
  · intro h
    rw [List.nodup_iff_injective_get]
    intro a b hab
    have ha : (a : Nat) < m.nodes.length := hlen ▸ a.2
    have hb : (b : Nat) < m.nodes.length := hlen ▸ b.2
    apply Fin.ext
    apply h a ha b hb
    have e1 := compute_uid_eq_getElem X m a ha
    have e2 := compute_uid_eq_getElem X m b hb
    rw [List.getElem?_eq_getElem a.2] at e1
    rw [List.getElem?_eq_getElem b.2] at e2
    rw [← Option.some.inj e1, ← Option.some.inj e2]
    simpa [List.get_eq_getElem] using hab
  · intro h i hi j hj hij
    have e1 := compute_uid_eq_getElem X m i hi
    have e2 := compute_uid_eq_getElem X m j hj
    have hi2 : i < (m.uids X).length := by rw [hlen]; exact hi
    have hj2 : j < (m.uids X).length := by rw [hlen]; exact hj
    rw [List.getElem?_eq_getElem hi2] at e1
    rw [List.getElem?_eq_getElem hj2] at e2
    rw [← Option.some.inj e1, ← Option.some.inj e2] at hij
    exact (h.getElem_inj_iff).mp hij

theorem add_nodes_store_mesh (X : Externals) (periodic : Bool) (buf : Buffers) (nb : Nat)
    (h : BuildHaloHelper) (c jpart idx : Nat) :
    (add_nodes_store X periodic buf nb h c jpart idx).state.mesh =
      { h.mesh with nodes := h.mesh.nodes.set (nb + c) (received_node X buf jpart idx) } := by
  unfold add_nodes_store
  simp only [Topology_reset]
  split <;> rfl

theorem add_nodes_loop_mesh (X : Externals) (periodic : Bool) (buf : Buffers) (nb : Nat) :
    ∀ (pairs : List (Nat × Nat)) (c : Nat) (h : BuildHaloHelper) (pre post : List Node),
      h.mesh.nodes = pre ++ post → pre.length = nb + c → pairs.length ≤ post.length →
      ∃ m, m ≤ pairs.length ∧
        (add_nodes_loop X periodic buf nb pairs c h).state.mesh =
          { h.mesh with nodes :=
              pre ++ (pairs.take m).map (fun p => received_node X buf p.1 p.2) ++ post.drop m } ∧
        ((add_nodes_loop X periodic buf nb pairs c h).error = none → m = pairs.length) := by
  intro pairs
  induction pairs with
  | nil =>
    intro c h pre post hn _ _
    refine ⟨0, le_refl _, ?_, fun _ => rfl⟩
    simp [add_nodes_loop, Outcome.done, ← hn]
  | cons p rest ih =>
    intro c h pre post hn hpre hlen
    obtain ⟨jpart, idx⟩ := p
    have hstore := add_nodes_store_mesh X periodic buf nb h c jpart idx
    cases post with
    | nil => simp at hlen
    | cons d post1 =>
      have hset : h.mesh.nodes.set (nb + c) (received_node X buf jpart idx)
          = (pre ++ [received_node X buf jpart idx]) ++ post1 := by
        rw [hn, List.set_append]
        simp [hpre]
      simp only [add_nodes_loop]
      cases herr : (add_nodes_store X periodic buf nb h c jpart idx).error with
      | some e =>
        refine ⟨1, by simp, ?_, ?_⟩
        · simp only [hstore, hset]
          simp
        · intro hc
          simp [herr] at hc
      | none =>
        simp only []
        have hlen1 : rest.length ≤ post1.length := by simpa using hlen
        obtain ⟨m, hm, hmesh, hok⟩ := ih (c + 1)
          (add_nodes_store X periodic buf nb h c jpart idx).state
          (pre ++ [received_node X buf jpart idx]) post1
          (by rw [hstore]; exact hset) (by simp [hpre]; omega) hlen1
        refine ⟨m + 1, by simp; omega, ?_, ?_⟩
        · rw [hmesh, hstore]
          simp
        · intro hc
          simp [hok hc]

theorem length_visit_order_from (idx : List (List Nat)) (k : Nat) :
    ((idx.enumFrom k).flatMap (fun jl => jl.2.map (fun n => (jl.1, n)))).length
      = (idx.map List.length).sum := by
  induction idx generalizing k with
  | nil => simp
  | cons a t ih => simp [List.enumFrom_cons, ih (k + 1)]

theorem length_visit_order (idx : List (List Nat)) :
    (visit_order idx).length = (idx.map List.length).sum :=
  length_visit_order_from idx 0

/-- Nodes after `add_nodes`: the old rows, then rows written for a prefix of the
selected nodes, then rows not yet written; all selected nodes on success. -/
theorem add_nodes_mesh (X : Externals) (mpi_size : Nat) (h : BuildHaloHelper) (buf : Buffers)
    (periodic : Bool) :
    ∃ m, m ≤ (add_nodes_selected X mpi_size h.mesh buf).length ∧
      (add_nodes X mpi_size h buf periodic).state.mesh =
        { h.mesh with nodes :=
            h.mesh.nodes
              ++ received_nodes X buf ((add_nodes_selected X mpi_size h.mesh buf).take m)
              ++ List.replicate ((add_nodes_selected X mpi_size h.mesh buf).length - m) default } ∧
      ((add_nodes X mpi_size h buf periodic).error = none →
        m = (add_nodes_selected X mpi_size h.mesh buf).length) := by
  unfold add_nodes
  simp only []
  obtain ⟨m, hm, hmesh, hok⟩ := add_nodes_loop_mesh X periodic buf h.mesh.nodes.length
    (visit_order (add_nodes_rfn_idx X mpi_size h.mesh buf)) 0
    { h with mesh := { h.mesh with
        nodes := h.mesh.nodes ++ (List.replicate
          ((add_nodes_rfn_idx X mpi_size h.mesh buf).map List.length).sum default) } }
    h.mesh.nodes
    (List.replicate ((add_nodes_rfn_idx X mpi_size h.mesh buf).map List.length).sum default)
    rfl rfl (by simp [length_visit_order])
  refine ⟨m, hm, ?_, hok⟩
  rw [hmesh]
  simp [length_visit_order, add_nodes_selected, received_nodes]

theorem add_nodes_mesh_ok (X : Externals) (mpi_size : Nat) (h : BuildHaloHelper) (buf : Buffers)
    (periodic : Bool) (hok : (add_nodes X mpi_size h buf periodic).error = none) :
    (add_nodes X mpi_size h buf periodic).state.mesh =
      { h.mesh with nodes :=
          h.mesh.nodes ++ received_nodes X buf (add_nodes_selected X mpi_size h.mesh buf) } := by
  obtain ⟨m, _, hmesh, hm⟩ := add_nodes_mesh X mpi_size h buf periodic
  rw [hmesh, hm hok]
  simp

theorem add_nodes_rfn_idx_spec (X : Externals) (mpi_size : Nat) (mesh : Mesh) (buf : Buffers) :
    (∀ p ∈ visit_order (add_nodes_rfn_idx X mpi_size mesh buf),
        X.unique_lonlat (buf.node_crd p.1 p.2) ∉ mesh.uids X) ∧
    ((visit_order (add_nodes_rfn_idx X mpi_size mesh buf)).map
        (fun p => X.unique_lonlat (buf.node_crd p.1 p.2))).Nodup := by
  have hsorted : (((List.range mesh.nodes.length).map (compute_uid X mesh)).insertionSort
      (fun a b => a ≤ b)).Sorted (fun a b => a ≤ b) := List.sorted_insertionSort _ _
  have hmem : ∀ u, u ∈ ((List.range mesh.nodes.length).map (compute_uid X mesh)).insertionSort
      (fun a b => a ≤ b) ↔ u ∈ mesh.uids X := by
    intro u
    rw [(List.perm_insertionSort _ _).mem_iff, range_map_compute_uid]
  obtain ⟨h1, h2⟩ := select_new_parts_spec _ hsorted
    (fun jpart => (buf.node_glb_idx.getD jpart []).length)
    (fun jpart n => X.unique_lonlat (buf.node_crd jpart n)) mpi_size 0 []
  rw [← List.range_eq_range'] at h1 h2
  refine ⟨?_, h2⟩
  intro p hp
  have := (h1 p hp).1
  rwa [hmem] at this

/-- C1, no duplicate UIDs. If the nodes of the mesh have pairwise distinct identifiers
before the merge, then for every received buffer `buf` (any number of tasks, interior or
periodic pass, any content of `uid2node`) they are pairwise distinct when `add_nodes`
has completed without exception: for all nodes `i`, `j` of the grown mesh,
`uid(i) = uid(j)` implies `i = j`. -/
theorem add_nodes_no_duplicate_uids (X : Externals) (mpi_size : Nat) (h : BuildHaloHelper)
    (buf : Buffers) (periodic : Bool)
    (hd : h.mesh.distinct_uids X)
    (hok : (add_nodes X mpi_size h buf periodic).error = none) :
    (add_nodes X mpi_size h buf periodic).state.mesh.distinct_uids X := by
  rw [distinct_uids_iff_nodup] at hd ⊢
  rw [add_nodes_mesh_ok X mpi_size h buf periodic hok]
  obtain ⟨h1, h2⟩ := add_nodes_rfn_idx_spec X mpi_size h.mesh buf
  simp only [Mesh.uids, List.map_append, List.map_map, received_nodes, add_nodes_selected]
  refine List.nodup_append.mpr ⟨hd, ?_, ?_⟩
  · simpa [Function.comp_def, received_node] using h2
  · intro u hu1 hu2
    obtain ⟨p, hp, hpu⟩ := List.mem_map.mp hu2
    apply h1 p hp
    simp only [Function.comp_def, received_node] at hpu
    rw [hpu]
    exact hu1

/-! ### Extension of meshes -/

theorem Elements.block_extended_refl (a : Elements) : a.extended_by a :=
  ⟨rfl, List.prefix_refl _⟩

theorem Elements.block_extended_trans {a b c : Elements} (h1 : a.extended_by b)
    (h2 : b.extended_by c) : a.extended_by c :=
  ⟨h1.1.trans h2.1, h1.2.trans h2.2⟩

theorem cells_extended_refl (l : List Elements) : List.Forall₂ Elements.extended_by l l :=
  List.forall₂_same.mpr (fun a _ => Elements.block_extended_refl a)

theorem cells_extended_trans {a b c : List Elements}
    (h1 : List.Forall₂ Elements.extended_by a b) (h2 : List.Forall₂ Elements.extended_by b c) :
    List.Forall₂ Elements.extended_by a c := by
  induction h1 generalizing c with
  | nil => cases h2; exact List.Forall₂.nil
  | cons hab _ ih =>
    cases h2 with
    | cons hbc h2t => exact List.Forall₂.cons (Elements.block_extended_trans hab hbc) (ih h2t)

theorem cells_extended_set (l : List Elements) (t : Nat) (y : Elements)
    (hy : ∀ x, l[t]? = some x → x.extended_by y) :
    List.Forall₂ Elements.extended_by l (l.set t y) := by
  induction l generalizing t with
  | nil => exact List.Forall₂.nil
  | cons a rest ih =>
    cases t with
    | zero => exact List.Forall₂.cons (hy a (by simp)) (cells_extended_refl rest)
    | succ t =>
      exact List.Forall₂.cons (Elements.block_extended_refl a)
        (ih t (fun x hx => hy x (by simpa using hx)))

theorem Mesh.extended_by_refl (a : Mesh) : a.extended_by a :=
  ⟨List.prefix_refl _, cells_extended_refl _, rfl, rfl, rfl⟩

theorem Mesh.extended_by_trans {a b c : Mesh} (h1 : a.extended_by b) (h2 : b.extended_by c) :
    a.extended_by c :=
  ⟨h1.1.trans h2.1, cells_extended_trans h1.2.1 h2.2.1, h2.2.2.1.trans h1.2.2.1,
    h2.2.2.2.1.trans h1.2.2.2.1, h2.2.2.2.2.trans h1.2.2.2.2⟩

theorem cells_extended_length_le {a b : List Elements}
    (h : List.Forall₂ Elements.extended_by a b) :
    ((a.map Elements.cells).flatten).length ≤ ((b.map Elements.cells).flatten).length := by
  induction h with
  | nil => simp
  | cons hab _ ih =>
    simp only [List.map_cons, List.flatten_cons, List.length_append]
    have := hab.2.length_le
    omega

theorem Mesh.extended_by_nb_cells {a b : Mesh} (h : a.extended_by b) : a.nb_cells ≤ b.nb_cells :=
  cells_extended_length_le h.2.1

theorem Mesh.extended_by_nb_nodes {a b : Mesh} (h : a.extended_by b) :
    a.nodes.length ≤ b.nodes.length :=
  h.1.length_le

theorem getElem?_of_isPrefix {α : Type} {l1 l2 : List α} (h : l1 <+: l2) (i : Nat) (x : α)
    (hx : l1[i]? = some x) : l2[i]? = some x := by
  obtain ⟨t, rfl⟩ := h
  have hi : i < l1.length := by
    by_contra hc
    rw [List.getElem?_eq_none (by omega)] at hx
    cases hx
  rw [List.getElem?_append_left hi]
  exact hx

theorem cells_extended_cell {a b : List Elements} (h : List.Forall₂ Elements.extended_by a b)
    (t i : Nat) (c : Cell)
    (hc : (a.get? t).bind (fun elements => elements.cells.get? i) = some c) :
    (b.get? t).bind (fun elements => elements.cells.get? i) = some c := by
  induction h generalizing t with
  | nil => simp at hc
  | cons hab _ ih =>
    cases t with
    | zero =>
      simp only [List.get?_eq_getElem?, List.getElem?_cons_zero, Option.some_bind] at hc ⊢
      exact getElem?_of_isPrefix hab.2 i c hc
    | succ t =>
      simp only [List.get?_eq_getElem?, List.getElem?_cons_succ] at hc ⊢
      simp only [List.get?_eq_getElem?] at ih
      exact ih t hc

theorem Mesh.extended_by_cell {a b : Mesh} (h : a.extended_by b) (t i : Nat) (c : Cell)
    (hc : a.cell_of_type t i = some c) : b.cell_of_type t i = some c :=
  cells_extended_cell h.2.1 t i c hc

/-! ### `add_elements` and `add_buffers` only append -/

theorem add_elements_type_extended (buf : Buffers) (halo : Int) (periodic : Bool)
    (received : List (List Nat)) (st : List Elements × Uid2Node × List (List Nat)) (t : Nat) :
    List.Forall₂ Elements.extended_by st.1
      (add_elements_type buf halo periodic received st t).1 := by
  unfold add_elements_type
  simp only []
  split
  · exact cells_extended_refl _
  · apply cells_extended_set
    intro x hx
    have : st.1.getD t default = x := by
      simp [List.getD_eq_getElem?_getD, hx]
    rw [this]
    exact ⟨rfl, List.prefix_append _ _⟩

theorem add_elements_fold_extended (buf : Buffers) (halo : Int) (periodic : Bool)
    (received : List (List Nat)) (ts : List Nat)
    (st : List Elements × Uid2Node × List (List Nat)) :
    List.Forall₂ Elements.extended_by st.1
      (ts.foldl (add_elements_type buf halo periodic received) st).1 := by
  induction ts generalizing st with
  | nil => exact cells_extended_refl _
  | cons t rest ih =>
    simp only [List.foldl_cons]
    exact cells_extended_trans (add_elements_type_extended buf halo periodic received st t)
      (ih _)

theorem add_elements_extended (X : Externals) (mpi_size : Nat) (h : BuildHaloHelper)
    (buf : Buffers) (periodic : Bool) :
    h.mesh.extended_by (add_elements X mpi_size h buf periodic).mesh := by
  unfold add_elements
  simp only []
  exact ⟨List.prefix_refl _,
    add_elements_fold_extended buf h.halo periodic _ (List.range h.mesh.cells.length)
      (h.mesh.cells, h.uid2node, _), rfl, rfl, rfl⟩

theorem add_elements_nodes (X : Externals) (mpi_size : Nat) (h : BuildHaloHelper)
    (buf : Buffers) (periodic : Bool) :
    (add_elements X mpi_size h buf periodic).mesh.nodes = h.mesh.nodes := by
  unfold add_elements
  rfl

theorem add_nodes_extended (X : Externals) (mpi_size : Nat) (h : BuildHaloHelper)
    (buf : Buffers) (periodic : Bool) :
    h.mesh.extended_by (add_nodes X mpi_size h buf periodic).state.mesh := by
  obtain ⟨m, _, hmesh, _⟩ := add_nodes_mesh X mpi_size h buf periodic
  rw [hmesh]
  refine ⟨?_, cells_extended_refl _, rfl, rfl, rfl⟩
  simp only [List.append_assoc]
  exact List.prefix_append _ _

theorem add_buffers_state (X : Externals) (mpi_size : Nat) (h : BuildHaloHelper)
    (buf : Buffers) (periodic : Bool) :
    (add_buffers X mpi_size h buf periodic).error = (add_nodes X mpi_size h buf periodic).error ∧
    ((add_nodes X mpi_size h buf periodic).error = none →
      (add_buffers X mpi_size h buf periodic).state
        = add_elements X mpi_size (add_nodes X mpi_size h buf periodic).state buf periodic) ∧
    ((add_nodes X mpi_size h buf periodic).error ≠ none →
      (add_buffers X mpi_size h buf periodic).state
        = (add_nodes X mpi_size h buf periodic).state) := by
  unfold add_buffers Outcome.bind
  cases hcase : (add_nodes X mpi_size h buf periodic).error with
  | none => simp [Outcome.done]
  | some e => simp [hcase]

theorem add_buffers_extended (X : Externals) (mpi_size : Nat) (h : BuildHaloHelper)
    (buf : Buffers) (periodic : Bool) :
    h.mesh.extended_by (add_buffers X mpi_size h buf periodic).state.mesh := by
  obtain ⟨_, h2, h3⟩ := add_buffers_state X mpi_size h buf periodic
  by_cases hc : (add_nodes X mpi_size h buf periodic).error = none
  · rw [h2 hc]
    exact Mesh.extended_by_trans (add_nodes_extended X mpi_size h buf periodic)
      (add_elements_extended X mpi_size _ buf periodic)
  · rw [h3 hc]
    exact add_nodes_extended X mpi_size h buf periodic

/-- C5, halo growth only appends. One merge `add_buffers` (`add_nodes`, then
`add_elements`) leaves every row of the node collection that existed before the merge
unchanged (global index, partition, remote index, flags, ghost, xy, lonlat), leaves every
pre-existing cell, found by its type and its position in the block of its type, unchanged
(attributes and connectivity), and when it completes the node collection is the old one
followed by the rows of the selected received nodes: the new nodes are at the indices
`old_count .. new_count - 1`. -/
theorem add_buffers_only_appends (X : Externals) (mpi_size : Nat) (h : BuildHaloHelper)
    (buf : Buffers) (periodic : Bool) :
    (∀ (i : Nat) (nd : Node), h.mesh.nodes[i]? = some nd →
      (add_buffers X mpi_size h buf periodic).state.mesh.nodes[i]? = some nd) ∧
    (∀ (t i : Nat) (c : Cell), h.mesh.cell_of_type t i = some c →
      (add_buffers X mpi_size h buf periodic).state.mesh.cell_of_type t i = some c) ∧
    ((add_buffers X mpi_size h buf periodic).error = none →
      (add_buffers X mpi_size h buf periodic).state.mesh.nodes
        = h.mesh.nodes ++ received_nodes X buf (add_nodes_selected X mpi_size h.mesh buf)) := by
  have hext := add_buffers_extended X mpi_size h buf periodic
  refine ⟨?_, ?_, ?_⟩
  · intro i nd hi
    exact getElem?_of_isPrefix hext.1 i nd hi
  · intro t i c hc
    exact Mesh.extended_by_cell hext t i c hc
  intro hok
  obtain ⟨h1, h2, _⟩ := add_buffers_state X mpi_size h buf periodic
  rw [h1] at hok
  rw [h2 hok, add_elements_nodes, add_nodes_mesh_ok X mpi_size h buf periodic hok]

/-! ### `build_lookup_uid2node` -/

theorem uid2node_find_append (m1 m2 : Uid2Node) (u : Int) :
    uid2node_find (m1 ++ m2) u = (uid2node_find m1 u).or (uid2node_find m2 u) := by
  unfold uid2node_find
  rw [List.find?_append]
  cases List.find? (fun kv => decide (kv.1 = u)) m1 <;> simp

theorem first_node_with_uid_succ (X : Externals) (mesh : Mesh) (k : Nat) (u : Int) :
    first_node_with_uid X mesh (k + 1) u =
      (first_node_with_uid X mesh k u).or (if compute_uid X mesh k = u then some k else none) := by
  unfold first_node_with_uid
  rw [List.range_succ, List.find?_append]
  by_cases h : compute_uid X mesh k = u <;> simp [h]

theorem uid2node_find_entries (X : Externals) (mesh : Mesh) (k : Nat) (u : Int) :
    uid2node_find ((List.range k).filterMap (uid2node_entry X mesh)) u
      = first_node_with_uid X mesh k u := by
  induction k with
  | zero => simp [uid2node_find, first_node_with_uid]
  | succ k ih =>
    rw [List.range_succ, List.filterMap_append, uid2node_find_append, ih,
      first_node_with_uid_succ]
    cases hfirst : first_node_with_uid X mesh k u with
    | some j => simp
    | none =>
      simp only [Option.or_none, Option.none_or, List.filterMap_cons, List.filterMap_nil]
      by_cases h : compute_uid X mesh k = u
      · subst h
        simp [uid2node_entry, hfirst, uid2node_find]
      · simp only [h, if_false]
        unfold uid2node_entry
        cases first_node_with_uid X mesh k (compute_uid X mesh k) <;>
          simp [uid2node_find, h]

theorem build_lookup_uid2node_fold (X : Externals) (mesh : Mesh) (k : Nat) :
    (List.range k).foldl (build_lookup_uid2node_step X mesh) ([], [])
      = ((List.range k).filterMap (uid2node_entry X mesh),
         (List.range k).filterMap (duplicate_note X mesh)) := by
  induction k with
  | zero => rfl
  | succ k ih =>
    rw [List.range_succ, List.foldl_append, ih, List.filterMap_append, List.filterMap_append]
    simp only [List.foldl_cons, List.foldl_nil, build_lookup_uid2node_step, uid2node_insert,
      uid2node_find_entries, uid2node_index, List.filterMap_cons, List.filterMap_nil]
    cases hfirst : first_node_with_uid X mesh k (compute_uid X mesh k) with
    | none => simp [uid2node_entry, duplicate_note, hfirst]
    | some j => simp [uid2node_entry, duplicate_note, hfirst, uid2node_find_entries]

theorem build_lookup_uid2node_eq (X : Externals) (mesh : Mesh) :
    build_lookup_uid2node X mesh =
      { state := (List.range mesh.nodes.length).filterMap (uid2node_entry X mesh),
        error :=
          if ((List.range mesh.nodes.length).filterMap (duplicate_note X mesh)).isEmpty then none
          else some (Error.duplicate_node
            ((List.range mesh.nodes.length).filterMap (duplicate_note X mesh))) } := by
  unfold build_lookup_uid2node
  rw [build_lookup_uid2node_fold]
  simp only []
  split <;> rfl

theorem first_node_with_uid_none_iff (X : Externals) (mesh : Mesh) (k : Nat) (u : Int) :
    first_node_with_uid X mesh k u = none ↔ ∀ j, j < k → compute_uid X mesh j ≠ u := by
  unfold first_node_with_uid
  simp [List.find?_eq_none]

theorem first_node_with_uid_some (X : Externals) (mesh : Mesh) (k : Nat) (u : Int) (j : Nat)
    (h : first_node_with_uid X mesh k u = some j) :
    j < k ∧ compute_uid X mesh j = u ∧ ∀ i, i < j → compute_uid X mesh i ≠ u := by
  unfold first_node_with_uid at h
  rw [List.find?_eq_some] at h
  obtain ⟨hp, as, bs, hsplit, hnot⟩ := h
  have hj : j ∈ List.range k := by rw [hsplit]; simp
  refine ⟨List.mem_range.mp hj, by simpa using hp, ?_⟩
  intro i hi
  have hsorted : (List.range k).Pairwise (· < ·) := List.pairwise_lt_range k
  rw [hsplit] at hsorted
  have hi' : i ∈ as := by
    by_contra hc
    have hik : i ∈ List.range k := List.mem_range.mpr (by have := List.mem_range.mp hj; omega)
    rw [hsplit] at hik
    rcases List.mem_append.mp hik with h1 | h1
    · exact hc h1
    · rcases List.mem_cons.mp h1 with h2 | h2
      · omega
      · have := (List.pairwise_cons.mp (List.pairwise_append.mp hsorted).2.1).1 i h2
        omega
  simpa using hnot i hi'

theorem duplicate_notes_empty_iff (X : Externals) (mesh : Mesh) :
    (List.range mesh.nodes.length).filterMap (duplicate_note X mesh) = [] ↔
      mesh.distinct_uids X := by
  rw [List.filterMap_eq_nil_iff]
  constructor
  · intro h i hi j hj hij
    by_contra hne
    rcases Nat.lt_or_gt_of_ne hne with hlt | hlt
    · have hj' := h j (List.mem_range.mpr hj)
      unfold duplicate_note at hj'
      cases hf : first_node_with_uid X mesh j (compute_uid X mesh j) with
      | none => exact (first_node_with_uid_none_iff X mesh j _).mp hf i hlt hij
      | some o => simp [hf] at hj'
    · have hi' := h i (List.mem_range.mpr hi)
      unfold duplicate_note at hi'
      cases hf : first_node_with_uid X mesh i (compute_uid X mesh i) with
      | none => exact (first_node_with_uid_none_iff X mesh i _).mp hf j hlt hij.symm
      | some o => simp [hf] at hi'
  · intro h j hj
    have hj := List.mem_range.mp hj
    unfold duplicate_note
    cases hf : first_node_with_uid X mesh j (compute_uid X mesh j) with
    | none => rfl
    | some o =>
      exfalso
      obtain ⟨h1, h2, _⟩ := first_node_with_uid_some X mesh j _ o hf
      have := h o (by omega) j hj h2
      omega

theorem uid2node_entries_distinct (X : Externals) (mesh : Mesh) (hd : mesh.distinct_uids X) :
    (List.range mesh.nodes.length).filterMap (uid2node_entry X mesh)
      = (List.range mesh.nodes.length).map (fun j => (compute_uid X mesh j, j)) := by
  rw [← List.filterMap_eq_map]
  apply List.filterMap_congr
  intro j hj
  have hj := List.mem_range.mp hj
  unfold uid2node_entry
  cases hf : first_node_with_uid X mesh j (compute_uid X mesh j) with
  | none => rfl
  | some o =>
    exfalso
    obtain ⟨h1, h2, _⟩ := first_node_with_uid_some X mesh j _ o hf
    have := hd o (by omega) j hj h2
    omega

/-- C7, `build_lookup_uid2node`. It throws the duplicate-node error if and only if two
distinct local nodes have the same identifier, and it throws nothing else. When it does not
throw, the map has exactly one entry per local node, namely `(uid(j), j)` for the nodes `j`
in order, and looking up `uid(j)` gives `j`. -/
theorem build_lookup_uid2node_raises_iff (X : Externals) (mesh : Mesh) :
    ((∃ notes, (build_lookup_uid2node X mesh).error = some (Error.duplicate_node notes)) ↔
      ∃ i j, i < mesh.nodes.length ∧ j < mesh.nodes.length ∧ i ≠ j ∧
        compute_uid X mesh i = compute_uid X mesh j) ∧
    ((build_lookup_uid2node X mesh).error = none ∨
      ∃ notes, (build_lookup_uid2node X mesh).error = some (Error.duplicate_node notes)) ∧
    ((build_lookup_uid2node X mesh).error = none →
      (build_lookup_uid2node X mesh).state.length = mesh.nodes.length ∧
      (build_lookup_uid2node X mesh).state
        = (List.range mesh.nodes.length).map (fun j => (compute_uid X mesh j, j)) ∧
      ∀ j, j < mesh.nodes.length →
        uid2node_find (build_lookup_uid2node X mesh).state (compute_uid X mesh j) = some j) := by
  have hiff : (∃ i j, i < mesh.nodes.length ∧ j < mesh.nodes.length ∧ i ≠ j ∧
      compute_uid X mesh i = compute_uid X mesh j) ↔ ¬ mesh.distinct_uids X := by
    unfold Mesh.distinct_uids
    push_neg
    constructor
    · rintro ⟨i, j, hi, hj, hne, he⟩
      exact ⟨i, hi, j, hj, he, hne⟩
    · rintro ⟨i, hi, j, hj, he, hne⟩
      exact ⟨i, j, hi, hj, hne, he⟩
  rw [hiff, build_lookup_uid2node_eq]
  by_cases hd : mesh.distinct_uids X
  · have hempty := (duplicate_notes_empty_iff X mesh).mpr hd
    simp only [hempty, List.isEmpty_nil, if_true]
    refine ⟨by simp [hd], by simp, fun _ => ?_⟩
    rw [uid2node_entries_distinct X mesh hd]
    refine ⟨by simp, rfl, ?_⟩
    intro j hj
    rw [← uid2node_entries_distinct X mesh hd, uid2node_find_entries]
    cases hf : first_node_with_uid X mesh mesh.nodes.length (compute_uid X mesh j) with
    | none => exact absurd rfl ((first_node_with_uid_none_iff X mesh _ _).mp hf j hj)
    | some o =>
      obtain ⟨h1, h2, _⟩ := first_node_with_uid_some X mesh _ _ o hf
      rw [hd o h1 j hj h2]
  · have hne : (List.range mesh.nodes.length).filterMap (duplicate_note X mesh) ≠ [] :=
      fun hc => hd ((duplicate_notes_empty_iff X mesh).mp hc)
    have hne2 : ((List.range mesh.nodes.length).filterMap (duplicate_note X mesh)).isEmpty
        = false := by
      simpa [List.isEmpty_iff] using hne
    simp only [hne2, Bool.false_eq_true, if_false]
    refine ⟨by simp [hd], by simp, fun hc => by simp at hc⟩

/-! ### Lists of tasks -/

theorem forall2_trans {α β γ : Type} {R : α → β → Prop} {S : β → γ → Prop} {T : α → γ → Prop}
    (hRST : ∀ a b c, R a b → S b c → T a c) {l1 : List α} {l2 : List β} {l3 : List γ}
    (h1 : List.Forall₂ R l1 l2) (h2 : List.Forall₂ S l2 l3) : List.Forall₂ T l1 l3 := by
  induction h1 generalizing l3 with
  | nil => cases h2; exact List.Forall₂.nil
  | cons hab _ ih =>
    cases h2 with
    | cons hbc h2t => exact List.Forall₂.cons (hRST _ _ _ hab hbc) (ih h2t)

theorem forall2_map_enumFrom {α β : Type} {R : α → β → Prop} (f : Nat × α → β)
    (hf : ∀ r a, R a (f (r, a))) (l : List α) (k : Nat) :
    List.Forall₂ R l ((l.enumFrom k).map f) := by
  induction l generalizing k with
  | nil => exact List.Forall₂.nil
  | cons a t ih => exact List.Forall₂.cons (hf k a) (ih (k + 1))

theorem forall2_map_enum {α β : Type} {R : α → β → Prop} (f : Nat × α → β)
    (hf : ∀ r a, R a (f (r, a))) (l : List α) :
    List.Forall₂ R l (l.enum.map f) :=
  forall2_map_enumFrom f hf l 0

theorem forall2_zipWith {α β γ : Type} {R : α → γ → Prop} (f : α → β → γ)
    (hf : ∀ a b, R a (f a b)) : ∀ (l : List α) (l2 : List β), l2.length = l.length →
    List.Forall₂ R l (List.zipWith f l l2)
  | [], [], _ => List.Forall₂.nil
  | a :: t, b :: t2, h =>
    List.Forall₂.cons (hf a b) (forall2_zipWith f hf t t2 (by simpa using h))
  | [], _ :: _, h => by simp at h
  | _ :: _, [], h => by simp at h

theorem forall2_map_right {α β γ : Type} {R : α → γ → Prop} (g : β → γ) {l : List α}
    {l2 : List β} (h : List.Forall₂ (fun a b => R a (g b)) l l2) :
    List.Forall₂ R l (l2.map g) := by
  induction h with
  | nil => exact List.Forall₂.nil
  | cons hab _ ih => exact List.Forall₂.cons hab ih

theorem forall2_getElem? {α β : Type} {R : α → β → Prop} {l : List α} {l2 : List β}
    (h : List.Forall₂ R l l2) (r : Nat) (a : α) (ha : l[r]? = some a) :
    ∃ b, l2[r]? = some b ∧ R a b := by
  induction h generalizing r with
  | nil => simp at ha
  | cons hab _ ih =>
    cases r with
    | zero =>
      simp only [List.getElem?_cons_zero, Option.some.injEq] at ha
      subst ha
      exact ⟨_, by simp, hab⟩
    | succ r =>
      simp only [List.getElem?_cons_succ] at ha ⊢
      exact ih r ha

theorem forall2_getElem?_right {α β : Type} {R : α → β → Prop} {l : List α} {l2 : List β}
    (h : List.Forall₂ R l l2) (r : Nat) (b : β) (hb : l2[r]? = some b) :
    ∃ a, l[r]? = some a ∧ R a b := by
  induction h generalizing r with
  | nil => simp at hb
  | cons hab _ ih =>
    cases r with
    | zero =>
      simp only [List.getElem?_cons_zero, Option.some.injEq] at hb
      subst hb
      exact ⟨_, by simp, hab⟩
    | succ r =>
      simp only [List.getElem?_cons_succ] at hb ⊢
      exact ih r hb

theorem forall2_eq_of_eq {α : Type} {l l2 : List α} (h : List.Forall₂ (fun a b => b = a) l l2) :
    l2 = l := by
  induction h with
  | nil => rfl
  | cons hab _ ih => rw [hab, ih]

/-! ### The start of a pass leaves the mesh alone -/

theorem Outcome.bind_done_state {σ : Type} (o : Outcome σ) (f : σ → σ) :
    (o.bind (fun s => Outcome.done (f s))).error = o.error ∧
    (o.error = none → (o.bind (fun s => Outcome.done (f s))).state = f o.state) ∧
    (o.error ≠ none → (o.bind (fun s => Outcome.done (f s))).state = o.state) := by
  unfold Outcome.bind
  cases h : o.error with
  | none => simp [Outcome.done]
  | some e => simp [h]

theorem increase_halo_interior_locate_mesh (X : Externals) (h : BuildHaloHelper) :
    (increase_halo_interior_locate X h).state.mesh = h.mesh := by
  unfold increase_halo_interior_locate Outcome.bind Outcome.done
  simp only []
  repeat' split
  all_goals rfl

theorem increase_halo_periodic_locate_mesh (X : Externals) (h : BuildHaloHelper) :
    (increase_halo_periodic_locate X h).state.mesh = h.mesh := by
  unfold increase_halo_periodic_locate Outcome.bind Outcome.done
  simp only []
  repeat' split
  all_goals rfl

theorem increase_halo_interior_locate_create_error (X : Externals) (mesh : Mesh) :
    (increase_halo_interior_locate X (BuildHaloHelper.create mesh)).error
      = (build_lookup_uid2node X mesh).error := by
  unfold increase_halo_interior_locate Outcome.bind Outcome.done BuildHaloHelper.create
  simp only [List.length_nil, if_true]
  split
  · rename_i h; exact h.symm
  · rfl

/-! ### One pass -/

theorem length_all_to_all (send : List Buffers) : (all_to_all send).length = send.length := by
  simp [all_to_all]

theorem exchange_pass_extended (X : Externals)
    (locate : Nat → BuildHaloHelper → Outcome BuildHaloHelper)
    (request : Nat → BuildHaloHelper → List Int)
    (pack : Nat → BuildHaloHelper → List (List Int) → Except Error Buffers)
    (periodic : Bool) (helpers : List BuildHaloHelper)
    (hloc : ∀ r h, (locate r h).state.mesh = h.mesh) :
    List.Forall₂ (fun h h1 => h.mesh.extended_by h1.mesh) helpers
      (exchange_pass X locate request pack periodic helpers).state := by
  have h1 : List.Forall₂ (fun (h h1 : BuildHaloHelper) => h.mesh.extended_by h1.mesh) helpers
      ((helpers.enum.map (fun rh => locate rh.1 rh.2)).map Outcome.state) := by
    rw [List.map_map]
    apply forall2_map_enum
    intro r a
    simp only [Function.comp]
    rw [hloc]
    exact Mesh.extended_by_refl _
  unfold exchange_pass
  simp only []
  split
  · exact h1
  · split
    · exact h1
    · refine forall2_trans
        (R := fun (h h1 : BuildHaloHelper) => h.mesh.extended_by h1.mesh)
        (S := fun (h h1 : BuildHaloHelper) => h.mesh.extended_by h1.mesh)
        (fun a b c hab hbc => Mesh.extended_by_trans hab hbc) h1 ?_
      apply forall2_map_right
      apply forall2_zipWith
      · intro a b
        exact add_buffers_extended X _ a b periodic
      · simp [length_all_to_all]

theorem increase_halo_interior_extended (X : Externals) (helpers : List BuildHaloHelper) :
    List.Forall₂ (fun h h1 => h.mesh.extended_by h1.mesh) helpers
      (increase_halo_interior X helpers).state :=
  exchange_pass_extended X _ _ _ _ helpers (fun _ h => increase_halo_interior_locate_mesh X h)

theorem increase_halo_periodic_extended (X : Externals) (pp : List PeriodicPoints)
    (transform : Rat) (newflags : Nat) (helpers : List BuildHaloHelper) :
    List.Forall₂ (fun h h1 => h.mesh.extended_by h1.mesh) helpers
      (increase_halo_periodic X pp transform newflags helpers).state :=
  exchange_pass_extended X _ _ _ _ helpers (fun _ h => increase_halo_periodic_locate_mesh X h)

/-! ### Metadata -/

theorem find?_filter_of_imp {α : Type} (p q : α → Bool) (hpq : ∀ x, p x = true → q x = true)
    (l : List α) : (l.filter q).find? p = l.find? p := by
  induction l with
  | nil => rfl
  | cons a t ih =>
    by_cases hq : q a = true
    · rw [List.filter_cons_of_pos hq]
      by_cases hp : p a = true
      · simp [List.find?_cons, hp]
      · simp [List.find?_cons, hp, ih]
    · rw [List.filter_cons_of_neg hq]
      have hp : ¬ p a = true := fun hp => hq (hpq a hp)
      simp [List.find?_cons, hp, ih]

theorem Metadata_get_set (m : List (MetaKey × Int)) (k k1 : MetaKey) (v : Int) :
    Metadata_get (Metadata_set m k v) k1 = if k1 = k then some v else Metadata_get m k1 := by
  unfold Metadata_get Metadata_set
  by_cases h : k1 = k
  · subst h
    simp [List.find?_cons]
  · have h2 : ¬ k = k1 := fun hc => h hc.symm
    simp only [List.find?_cons, h2, decide_False, h, if_false]
    rw [find?_filter_of_imp]
    intro x hx
    simp only [decide_eq_true_eq] at hx
    simp [hx, h]

/-! ### One iteration of the loop of `BuildHalo::operator()` -/

theorem Outcome.bind_rel {σ : Type} (R : σ → σ → Prop)
    (htrans : ∀ a b c, R a b → R b c → R a c) (s0 : σ) (o : Outcome σ) (f : σ → Outcome σ)
    (h1 : R s0 o.state) (h2 : ∀ s, R s (f s).state) : R s0 (o.bind f).state := by
  unfold Outcome.bind
  cases h : o.error with
  | none => exact htrans _ _ _ h1 (h2 _)
  | some e => exact h1

theorem helpers_extended_trans (a b c : List BuildHaloHelper)
    (h1 : List.Forall₂ (fun (h h1 : BuildHaloHelper) => h.mesh.extended_by h1.mesh) a b)
    (h2 : List.Forall₂ (fun (h h1 : BuildHaloHelper) => h.mesh.extended_by h1.mesh) b c) :
    List.Forall₂ (fun (h h1 : BuildHaloHelper) => h.mesh.extended_by h1.mesh) a c :=
  forall2_trans (R := fun (h h1 : BuildHaloHelper) => h.mesh.extended_by h1.mesh)
    (S := fun (h h1 : BuildHaloHelper) => h.mesh.extended_by h1.mesh)
    (fun _ _ _ hab hbc => Mesh.extended_by_trans hab hbc) h1 h2

theorem forall2_zipWith_of_forall2 {α β γ : Type} {S : α → β → Prop} {Q : α → γ → Prop}
    (g : α → β → γ) (hg : ∀ a b, S a b → Q a (g a b)) {l : List α} {l2 : List β}
    (h : List.Forall₂ S l l2) : List.Forall₂ Q l (List.zipWith g l l2) := by
  induction h with
  | nil => exact List.Forall₂.nil
  | cons hab _ ih => exact List.Forall₂.cons (hg _ _ hab) ih

/-- The three passes of one iteration, started on new helpers. -/
theorem iteration_passes_extended (X : Externals) (w : List BuildHalo)
    (points : Nat → List BuildHaloHelper → List PeriodicPoints) :
    List.Forall₂ (fun (b : BuildHalo) (h1 : BuildHaloHelper) => b.mesh_.extended_by h1.mesh) w
      (((increase_halo_interior X (w.map (fun b => BuildHaloHelper.create b.mesh_))).bind
        (fun hs => increase_halo_periodic X (points (Topology_PERIODIC ||| Topology_WEST) hs)
          WestEast (Topology_PERIODIC ||| Topology_WEST ||| Topology_GHOST) hs)).bind
        (fun hs => increase_halo_periodic X (points (Topology_PERIODIC ||| Topology_EAST) hs)
          EastWest (Topology_PERIODIC ||| Topology_EAST ||| Topology_GHOST) hs)).state := by
  have h := Outcome.bind_rel
    (fun a b => List.Forall₂ (fun (h h1 : BuildHaloHelper) => h.mesh.extended_by h1.mesh) a b)
    helpers_extended_trans (w.map (fun b => BuildHaloHelper.create b.mesh_))
    ((increase_halo_interior X (w.map (fun b => BuildHaloHelper.create b.mesh_))).bind
        (fun hs => increase_halo_periodic X (points (Topology_PERIODIC ||| Topology_WEST) hs)
          WestEast (Topology_PERIODIC ||| Topology_WEST ||| Topology_GHOST) hs))
    (fun hs => increase_halo_periodic X (points (Topology_PERIODIC ||| Topology_EAST) hs)
          EastWest (Topology_PERIODIC ||| Topology_EAST ||| Topology_GHOST) hs)
    (Outcome.bind_rel _ helpers_extended_trans _ _ _
      (increase_halo_interior_extended X _)
      (fun s => increase_halo_periodic_extended X _ _ _ s))
    (fun s => increase_halo_periodic_extended X _ _ _ s)
  simp only [List.forall₂_map_left_iff] at h
  exact h

/-- State of a task after one iteration, whatever its outcome: nodes and cells are
appended; on success the metadata records the new depth and node count. -/
theorem BuildHalo_iteration_spec (X : Externals) (jhalo : Int) (w : List BuildHalo) :
    List.Forall₂
      (fun b b1 =>
        b.mesh_.nodes <+: b1.mesh_.nodes ∧
        List.Forall₂ Elements.extended_by b.mesh_.cells b1.mesh_.cells ∧
        ((BuildHalo_iteration X jhalo w).error = none →
          b1.mesh_.metadata =
            Metadata_set
              (Metadata_set b.mesh_.metadata (MetaKey.nb_nodes_including_halo (jhalo + 1))
                (b1.mesh_.nodes.length : Int))
              MetaKey.halo (jhalo + 1)) ∧
        ((BuildHalo_iteration X jhalo w).error ≠ none → b.mesh_.extended_by b1.mesh_))
      w (BuildHalo_iteration X jhalo w).state := by
  have hp := iteration_passes_extended X w
    (fun flag hs => List.zipWith (fun h N => PeriodicPoints.create h.mesh flag N) hs
      (w.map (fun b => b.mesh_.nodes.length)))
  unfold BuildHalo_iteration
  simp only []
  split
  · rename_i e he
    refine forall2_zipWith_of_forall2 _ ?_ hp
    intro a b hab
    exact ⟨hab.1, hab.2.1, fun hc => by simp [Outcome.fatal] at hc, fun _ => hab⟩
  · rename_i he
    refine forall2_zipWith_of_forall2 _ ?_ hp
    intro a b hab
    refine ⟨hab.1, hab.2.1, fun _ => ?_, fun hc => by simp [Outcome.done] at hc⟩
    simp [BuildHalo_record, hab.2.2.1]

/-! ### Sequencing of outcomes -/

theorem Outcome.done_bind {σ : Type} (s : σ) (f : σ → Outcome σ) :
    (Outcome.done s).bind f = f s := rfl

theorem Outcome.bind_done {σ : Type} (o : Outcome σ) : o.bind Outcome.done = o := by
  unfold Outcome.bind Outcome.done
  cases o with
  | mk s e => cases e <;> rfl

theorem Outcome.bind_assoc {σ : Type} (o : Outcome σ) (f g : σ → Outcome σ) :
    (o.bind f).bind g = o.bind (fun s => (f s).bind g) := by
  cases o with
  | mk s e => cases e <;> rfl

theorem Outcome.bind_error_none {σ : Type} (o : Outcome σ) (f : σ → Outcome σ)
    (h : (o.bind f).error = none) :
    o.error = none ∧ (f o.state).error = none ∧ (o.bind f).state = (f o.state).state := by
  cases o with
  | mk s e =>
    cases e with
    | none => exact ⟨rfl, h, rfl⟩
    | some e => simp [Outcome.bind] at h

theorem Outcome.eq_done {σ : Type} (o : Outcome σ) (s : σ) :
    o = Outcome.done s ↔ o.error = none ∧ o.state = s := by
  cases o with
  | mk s1 e =>
    simp only [Outcome.done, Outcome.mk.injEq]
    tauto

/-! ### The loop of `BuildHalo::operator()` -/

theorem BuildHalo_loop_succ (X : Externals) (n : Nat) (jhalo : Int) (w : List BuildHalo) :
    BuildHalo_loop X (n + 1) jhalo w
      = (BuildHalo_loop X n jhalo w).bind (BuildHalo_iteration X (jhalo + n)) := by
  induction n generalizing jhalo w with
  | zero =>
    simp only [BuildHalo_loop, Outcome.done_bind]
    have h0 : (fun x => Outcome.done x) = (Outcome.done : List BuildHalo → _) := rfl
    rw [h0, Outcome.bind_done]
    simp
  | succ n ih =>
    rw [BuildHalo_loop]
    have : BuildHalo_loop X (n + 1) (jhalo + 1)
        = fun s => (BuildHalo_loop X n (jhalo + 1) s).bind
            (BuildHalo_iteration X (jhalo + 1 + n)) := by
      funext s; exact ih (jhalo + 1) s
    rw [this, ← Outcome.bind_assoc]
    have h2 : (BuildHalo_iteration X jhalo w).bind (BuildHalo_loop X n (jhalo + 1))
        = BuildHalo_loop X (n + 1) jhalo w := rfl
    rw [h2]
    have e : jhalo + 1 + (n : Int) = jhalo + ((n + 1 : Nat) : Int) := by push_cast; omega
    rw [e]

theorem BuildHalo_loop_add (X : Externals) (n m : Nat) (jhalo : Int) (w : List BuildHalo) :
    BuildHalo_loop X (n + m) jhalo w
      = (BuildHalo_loop X n jhalo w).bind (BuildHalo_loop X m (jhalo + n)) := by
  induction m with
  | zero =>
    have : BuildHalo_loop X 0 (jhalo + n) = Outcome.done := by
      funext s; rfl
    rw [this, Outcome.bind_done]
    rfl
  | succ m ih =>
    rw [← Nat.add_assoc, BuildHalo_loop_succ, ih, Outcome.bind_assoc]
    congr 1
    funext s
    rw [BuildHalo_loop_succ]
    have e : jhalo + ((n + m : Nat) : Int) = jhalo + (n : Int) + (m : Int) := by
      push_cast; omega
    rw [e]

theorem grows_trans (a b c : List BuildHalo)
    (h1 : List.Forall₂ (fun (b b1 : BuildHalo) => b.mesh_.nodes <+: b1.mesh_.nodes ∧
      List.Forall₂ Elements.extended_by b.mesh_.cells b1.mesh_.cells) a b)
    (h2 : List.Forall₂ (fun (b b1 : BuildHalo) => b.mesh_.nodes <+: b1.mesh_.nodes ∧
      List.Forall₂ Elements.extended_by b.mesh_.cells b1.mesh_.cells) b c) :
    List.Forall₂ (fun (b b1 : BuildHalo) => b.mesh_.nodes <+: b1.mesh_.nodes ∧
      List.Forall₂ Elements.extended_by b.mesh_.cells b1.mesh_.cells) a c :=
  forall2_trans
    (R := fun (b b1 : BuildHalo) => b.mesh_.nodes <+: b1.mesh_.nodes ∧
      List.Forall₂ Elements.extended_by b.mesh_.cells b1.mesh_.cells)
    (S := fun (b b1 : BuildHalo) => b.mesh_.nodes <+: b1.mesh_.nodes ∧
      List.Forall₂ Elements.extended_by b.mesh_.cells b1.mesh_.cells)
    (fun _ _ _ hab hbc => ⟨hab.1.trans hbc.1, cells_extended_trans hab.2 hbc.2⟩) h1 h2

theorem BuildHalo_iteration_grows (X : Externals) (jhalo : Int) (w : List BuildHalo) :
    List.Forall₂ (fun (b b1 : BuildHalo) => b.mesh_.nodes <+: b1.mesh_.nodes ∧
      List.Forall₂ Elements.extended_by b.mesh_.cells b1.mesh_.cells)
      w (BuildHalo_iteration X jhalo w).state :=
  (BuildHalo_iteration_spec X jhalo w).imp (fun _ _ h => ⟨h.1, h.2.1⟩)

/-- Whatever its outcome, the loop only appends nodes and cells on every task. -/
theorem BuildHalo_loop_grows (X : Externals) (n : Nat) (jhalo : Int) (w : List BuildHalo) :
    List.Forall₂ (fun (b b1 : BuildHalo) => b.mesh_.nodes <+: b1.mesh_.nodes ∧
      List.Forall₂ Elements.extended_by b.mesh_.cells b1.mesh_.cells)
      w (BuildHalo_loop X n jhalo w).state := by
  induction n generalizing jhalo w with
  | zero =>
    exact List.forall₂_same.mpr (fun b _ => ⟨List.prefix_refl _, cells_extended_refl _⟩)
  | succ n ih =>
    rw [BuildHalo_loop]
    exact Outcome.bind_rel _ grows_trans w _ _ (BuildHalo_iteration_grows X jhalo w)
      (fun s => ih (jhalo + 1) s)

/-- After `n + 1` successful iterations started at `jhalo`, every task records the depth
`jhalo + n + 1` and its node count under that depth. -/
theorem BuildHalo_loop_records (X : Externals) (n : Nat) (jhalo : Int) (w : List BuildHalo)
    (hok : (BuildHalo_loop X (n + 1) jhalo w).error = none) :
    ∀ b1 ∈ (BuildHalo_loop X (n + 1) jhalo w).state,
      b1.mesh_.halo = jhalo + (n + 1) ∧
      Metadata_get b1.mesh_.metadata (MetaKey.nb_nodes_including_halo (jhalo + (n + 1)))
        = some (b1.mesh_.nodes.length : Int) := by
  rw [BuildHalo_loop_succ] at hok ⊢
  obtain ⟨_, h2, h3⟩ := Outcome.bind_error_none _ _ hok
  rw [h3]
  intro b1 hb1
  obtain ⟨r, hr, hget⟩ := List.mem_iff_getElem.mp hb1
  have hget2 : (BuildHalo_iteration X (jhalo + n) (BuildHalo_loop X n jhalo w).state).state[r]?
      = some b1 := by rw [List.getElem?_eq_getElem hr, hget]
  obtain ⟨b, _, hb⟩ := forall2_getElem?_right (BuildHalo_iteration_spec X (jhalo + n) _) r b1 hget2
  have hmeta := hb.2.2.1 h2
  have e : jhalo + (↑n + 1) = jhalo + ↑n + 1 := by ring
  rw [e]
  constructor
  · unfold Mesh.halo
    rw [hmeta, Metadata_get_set]
    simp
  · rw [hmeta, Metadata_get_set, Metadata_get_set]
    simp

/-- Successful iterations started at `jhalo` leave the counts recorded for depths up to
`jhalo` alone. -/
theorem BuildHalo_loop_keeps_counts (X : Externals) (n : Nat) (jhalo : Int)
    (w : List BuildHalo) (hok : (BuildHalo_loop X n jhalo w).error = none) :
    List.Forall₂ (fun (b b1 : BuildHalo) => ∀ q : Int, q ≤ jhalo →
        Metadata_get b1.mesh_.metadata (MetaKey.nb_nodes_including_halo q)
          = Metadata_get b.mesh_.metadata (MetaKey.nb_nodes_including_halo q))
      w (BuildHalo_loop X n jhalo w).state := by
  induction n generalizing jhalo w with
  | zero => exact List.forall₂_same.mpr (fun b _ q _ => rfl)
  | succ n ih =>
    rw [BuildHalo_loop] at hok ⊢
    obtain ⟨h1, h2, h3⟩ := Outcome.bind_error_none _ _ hok
    rw [h3]
    refine forall2_trans ?_ (BuildHalo_iteration_spec X jhalo w) (ih (jhalo + 1) _ h2)
    intro a b c hab hbc q hq
    rw [hbc q (by omega), hab.2.2.1 h1, Metadata_get_set, Metadata_get_set]
    have hne : q ≠ jhalo + 1 := by omega
    simp [hne]

/-! ### Renumbering: the walk over the sorted entities -/

theorem nb_smaller_eq_zero (vals : List Int) (v : Int) (h : ∀ u ∈ vals, v ≤ u) :
    nb_smaller vals v = 0 := by
  unfold nb_smaller
  rw [Finset.card_eq_zero, Finset.filter_eq_empty_iff]
  intro u hu
  have := h u (List.mem_toFinset.mp hu)
  omega

theorem nb_smaller_cons_of_mem (vals : List Int) (p v : Int) (hp : p ∈ vals) :
    nb_smaller (p :: vals) v = nb_smaller vals v := by
  unfold nb_smaller
  rw [List.toFinset_cons, Finset.insert_eq_of_mem (List.mem_toFinset.mpr hp)]

theorem nb_smaller_cons_of_lt (vals : List Int) (p v : Int) (hp : p ∉ vals) (hpv : p < v) :
    nb_smaller (p :: vals) v = nb_smaller vals v + 1 := by
  unfold nb_smaller
  rw [List.toFinset_cons, Finset.filter_insert, if_pos hpv, Finset.card_insert_of_not_mem]
  intro hc
  exact hp (List.mem_toFinset.mp (Finset.mem_filter.mp hc).1)

theorem nb_smaller_perm {l1 l2 : List Int} (h : l1.Perm l2) (v : Int) :
    nb_smaller l1 v = nb_smaller l2 v := by
  unfold nb_smaller
  rw [List.toFinset_eq_of_perm _ _ h]

theorem renumber_walk_some (gid p : Int) (s : List Entity) (arr : List Int)
    (hs : (p :: s.map Entity.g).Pairwise (fun a b => a ≤ b)) :
    renumber_walk gid (some p) s arr
      = write_all arr (s.map (fun e => (e.i, gid + (nb_smaller (p :: s.map Entity.g) e.g : Int)))) := by
  induction s generalizing gid p arr with
  | nil => rfl
  | cons e es ih =>
    have hpe : p ≤ e.g := (List.pairwise_cons.mp hs).1 e.g (by simp)
    have hs2 : (e.g :: es.map Entity.g).Pairwise (fun a b => a ≤ b) :=
      (List.pairwise_cons.mp hs).2
    have hes : ∀ u ∈ es.map Entity.g, e.g ≤ u := (List.pairwise_cons.mp hs2).1
    have hzero : nb_smaller (e.g :: es.map Entity.g) e.g = 0 := by
      apply nb_smaller_eq_zero
      intro u hu
      rcases List.mem_cons.mp hu with h | h
      · omega
      · exact hes u h
    simp only [renumber_walk, List.map_cons, write_all, List.foldl_cons]
    rw [ih _ _ _ hs2]
    by_cases hne : e.g = p
    · have hmem : p ∈ e.g :: es.map Entity.g := by simp [hne]
      simp only [hne, ne_eq, not_true_eq_false, if_false]
      have e1 : nb_smaller (p :: p :: es.map Entity.g) p = 0 := by
        rw [nb_smaller_cons_of_mem _ _ _ (by simp), ← hne]
        exact hzero
      rw [e1]
      simp only [Nat.cast_zero, add_zero, write_all]
      congr 1
      apply List.map_congr_left
      intro e1 _
      rw [nb_smaller_cons_of_mem (p :: es.map Entity.g) p _ (by simp)]
    · have hlt : p < e.g := by omega
      have hnot : p ∉ e.g :: es.map Entity.g := by
        intro hc
        rcases List.mem_cons.mp hc with h | h
        · omega
        · have := hes p h
          omega
      simp only [ne_eq, hne, not_false_eq_true, if_true]
      rw [nb_smaller_cons_of_lt _ _ _ hnot hlt, hzero]
      simp only [Nat.cast_zero, zero_add, Nat.cast_one, write_all]
      congr 1
      apply List.map_congr_left
      intro e1 he1
      have hle : e.g ≤ e1.g := hes e1.g (List.mem_map_of_mem _ he1)
      rw [nb_smaller_cons_of_lt _ _ _ hnot (by omega)]
      push_cast
      ring_nf

theorem renumber_walk_none (gid : Int) (s : List Entity) (arr : List Int)
    (hs : (s.map Entity.g).Pairwise (fun a b => a ≤ b)) :
    renumber_walk gid none s arr
      = write_all arr (s.map (fun e => (e.i, gid + (nb_smaller (s.map Entity.g) e.g : Int)))) := by
  cases s with
  | nil => rfl
  | cons e es =>
    have hes : ∀ u ∈ es.map Entity.g, e.g ≤ u := (List.pairwise_cons.mp hs).1
    have hzero : nb_smaller (e.g :: es.map Entity.g) e.g = 0 := by
      apply nb_smaller_eq_zero
      intro u hu
      rcases List.mem_cons.mp hu with h | h
      · omega
      · exact hes u h
    simp only [renumber_walk, List.map_cons, write_all, List.foldl_cons]
    rw [renumber_walk_some _ _ _ _ hs, hzero]
    simp [write_all]

/-! ### Stores that agree on every index -/

theorem length_write_all (arr : List Int) (ws : List (Nat × Int)) :
    (write_all arr ws).length = arr.length := by
  induction ws generalizing arr with
  | nil => rfl
  | cons w rest ih => simp [write_all] at ih ⊢; rw [ih]; simp

theorem getElem?_write_all (G : Nat → Int) (ws : List (Nat × Int))
    (hG : ∀ w ∈ ws, w.2 = G w.1) (arr : List Int) (j : Nat) :
    (write_all arr ws)[j]? =
      if j ∈ ws.map Prod.fst then (arr[j]?).map (fun _ => G j) else arr[j]? := by
  induction ws generalizing arr with
  | nil => simp [write_all]
  | cons w rest ih =>
    have hGr : ∀ w ∈ rest, w.2 = G w.1 := fun x hx => hG x (List.mem_cons_of_mem _ hx)
    have hw : w.2 = G w.1 := hG w (List.mem_cons_self _ _)
    have hstep : write_all arr (w :: rest) = write_all (arr.set w.1 w.2) rest := rfl
    rw [hstep, ih hGr]
    simp only [List.map_cons, List.mem_cons, List.getElem?_set]
    by_cases hj : w.1 = j
    · subst hj
      by_cases hlen : w.1 < arr.length
      · simp [hlen, hw]
      · have : arr[w.1]? = none := List.getElem?_eq_none (by omega)
        simp [hlen, this]
    · have hj2 : ¬ j = w.1 := fun hc => hj hc.symm
      simp only [hj, hj2, if_false, false_or]

/-! ### Renumbering: closed form -/

theorem enum_entities_mem (vals : List Int) (e : Entity)
    (he : e ∈ vals.enum.map (fun jg => Entity.mk jg.2 jg.1)) : vals[e.i]? = some e.g := by
  obtain ⟨jg, hjg, rfl⟩ := List.mem_map.mp he
  exact List.mk_mem_enum_iff_getElem?.mp hjg

theorem enum_entities_keys (vals : List Int) :
    (vals.enum.map (fun jg => Entity.mk jg.2 jg.1)).map Entity.g = vals := by
  rw [List.map_map]
  have : (Entity.g ∘ fun (jg : Nat × Int) => Entity.mk jg.2 jg.1) = Prod.snd := by
    funext x; rfl
  rw [this, List.enum_map_snd]

theorem enum_entities_positions (vals : List Int) :
    (vals.enum.map (fun jg => Entity.mk jg.2 jg.1)).map Entity.i = List.range vals.length := by
  rw [List.map_map]
  have : (Entity.i ∘ fun (jg : Nat × Int) => Entity.mk jg.2 jg.1) = Prod.fst := by
    funext x; rfl
  rw [this, List.enum_map_fst]

/-- The array on the root after the renumbering loop: every gathered value is replaced
by `gid + (number of distinct smaller gathered values)`. -/
theorem renumber_walk_sorted (sort : List Entity → List Entity) (hsort : IsStdSort sort)
    (gid : Int) (vals : List Int) :
    renumber_walk gid none (sort (vals.enum.map (fun jg => Entity.mk jg.2 jg.1))) vals
      = vals.map (fun v => gid + (nb_smaller vals v : Int)) := by
  obtain ⟨hperm, hsorted⟩ := hsort (vals.enum.map (fun jg => Entity.mk jg.2 jg.1))
  have hkeys : ((sort (vals.enum.map (fun jg => Entity.mk jg.2 jg.1))).map Entity.g).Perm vals := by
    have := hperm.map Entity.g
    rwa [enum_entities_keys] at this
  have hpos : ((sort (vals.enum.map (fun jg => Entity.mk jg.2 jg.1))).map Entity.i).Perm
      (List.range vals.length) := by
    have := hperm.map Entity.i
    rwa [enum_entities_positions] at this
  have hs : ((sort (vals.enum.map (fun jg => Entity.mk jg.2 jg.1))).map Entity.g).Pairwise
      (fun a b => a ≤ b) := by
    rw [List.pairwise_map]
    exact hsorted.imp (fun h => by omega)
  rw [renumber_walk_none gid _ vals hs]
  apply List.ext_getElem?
  intro j
  rw [getElem?_write_all (fun j => gid + (nb_smaller vals (vals.getD j 0) : Int))]
  · have hmem : j ∈ ((sort (vals.enum.map (fun jg => Entity.mk jg.2 jg.1))).map
        (fun e => (e.i, gid + (nb_smaller
          ((sort (vals.enum.map (fun jg => Entity.mk jg.2 jg.1))).map Entity.g) e.g : Int)))).map
        Prod.fst ↔ j < vals.length := by
      rw [List.map_map]
      have : (Prod.fst ∘ fun (e : Entity) => (e.i, gid + (nb_smaller
          ((sort (vals.enum.map (fun jg => Entity.mk jg.2 jg.1))).map Entity.g) e.g : Int)))
          = Entity.i := by
        funext x; rfl
      rw [this, hpos.mem_iff, List.mem_range]
    by_cases hj : j < vals.length
    · rw [if_pos (hmem.mpr hj)]
      simp [List.getElem?_eq_getElem hj, List.getD_eq_getElem?_getD]
    · rw [if_neg (fun hc => hj (hmem.mp hc))]
      simp [List.getElem?_eq_none (Nat.le_of_not_lt hj)]
  · intro w hw
    obtain ⟨e, he, rfl⟩ := List.mem_map.mp hw
    have hval := enum_entities_mem vals e (hperm.mem_iff.mp he)
    simp only [List.getD_eq_getElem?_getD, hval, Option.getD_some]
    rw [nb_smaller_perm hkeys]

theorem scatterv_flatten (L : List (List Int)) :
    scatterv L.flatten (L.map List.length) = L := by
  induction L with
  | nil => rfl
  | cons a t ih => simp [scatterv, ih]

theorem write_back_map (arr : List Int) (edit : List Nat) (F : Int → Int) :
    write_back arr edit (edit.map (fun p => F (arr.getD p 0)))
      = arr.enum.map (fun ja => if ja.1 ∈ edit then F ja.2 else ja.2) := by
  have hzip : edit.zip (edit.map (fun p => F (arr.getD p 0)))
      = edit.map (fun p => (p, F (arr.getD p 0))) := by
    induction edit with
    | nil => rfl
    | cons a t ih => rw [List.map_cons, List.zip_cons_cons, ih, List.map_cons]
  have hw : write_back arr edit (edit.map (fun p => F (arr.getD p 0)))
      = write_all arr (edit.map (fun p => (p, F (arr.getD p 0)))) := by
    unfold write_back write_all
    rw [hzip]
  rw [hw]
  apply List.ext_getElem?
  intro j
  rw [getElem?_write_all (fun j => F (arr.getD j 0)) _ (by
    intro w hw
    obtain ⟨p, _, rfl⟩ := List.mem_map.mp hw
    rfl)]
  have hfst : (edit.map (fun p => (p, F (arr.getD p 0)))).map Prod.fst = edit := by
    rw [List.map_map]
    have : (Prod.fst ∘ fun p => (p, F (arr.getD p 0))) = id := by funext x; rfl
    rw [this, List.map_id]
  rw [hfst, List.getElem?_map, List.getElem?_enum]
  by_cases hj : j < arr.length
  · by_cases hje : j ∈ edit <;>
      simp [List.getElem?_eq_getElem hj, List.getD_eq_getElem?_getD, hje]
  · simp [List.getElem?_eq_none (Nat.le_of_not_lt hj)]

theorem zipWith_same {α β : Type} (f : α → α → β) (l : List α) :
    List.zipWith f l l = l.map (fun a => f a a) := by
  induction l with
  | nil => rfl
  | cons a t ih => simp [ih]

/-- Closed form of the renumbering on all tasks: the entries of the edit sets get
`glb_idx_max + 1 + (number of distinct smaller provisional values)`, all other
entries are kept. -/
theorem renumber_global_index_eq (sort : List Entity → List Entity) (hsort : IsStdSort sort)
    (glb_idx_max : Int) (fields : List (List Int × List Nat)) :
    renumber_global_index sort glb_idx_max fields =
      fields.map (fun f => f.1.enum.map (fun ja =>
        if ja.1 ∈ f.2 then new_glb_idx glb_idx_max (gathered_glb_idx fields) ja.2 else ja.2)) := by
  unfold renumber_global_index
  simp only []
  rw [renumber_walk_sorted sort hsort]
  have hflat : ((fields.map (fun f => f.2.map (fun p => f.1.getD p 0))).flatten).map
      (fun v => glb_idx_max + 1 + (nb_smaller
        (fields.map (fun f => f.2.map (fun p => f.1.getD p 0))).flatten v : Int))
      = ((fields.map (fun f => f.2.map (fun p => f.1.getD p 0))).map
          (List.map (new_glb_idx glb_idx_max (gathered_glb_idx fields)))).flatten := by
    rw [List.map_flatten]
    rfl
  have hlen : (fields.map (fun f => f.2.map (fun p => f.1.getD p 0))).map List.length
      = ((fields.map (fun f => f.2.map (fun p => f.1.getD p 0))).map
          (List.map (new_glb_idx glb_idx_max (gathered_glb_idx fields)))).map List.length := by
    simp [List.map_map, Function.comp_def]
  rw [hflat, hlen, scatterv_flatten, List.map_map, List.zipWith_map_right, zipWith_same]
  apply List.map_congr_left
  intro f _
  simp only [Function.comp]
  rw [List.map_map]
  exact write_back_map f.1 f.2 (new_glb_idx glb_idx_max (gathered_glb_idx fields))

/-! ### The new numbering -/

theorem new_glb_idx_gt (glb_idx_max : Int) (vals : List Int) (v : Int) :
    glb_idx_max < new_glb_idx glb_idx_max vals v := by
  unfold new_glb_idx
  omega

theorem nb_smaller_lt_of_lt (vals : List Int) (u v : Int) (hu : u ∈ vals) (huv : u < v) :
    nb_smaller vals u < nb_smaller vals v := by
  unfold nb_smaller
  apply Finset.card_lt_card
  rw [Finset.ssubset_iff_of_subset]
  · refine ⟨u, ?_, ?_⟩
    · exact Finset.mem_filter.mpr ⟨List.mem_toFinset.mpr hu, huv⟩
    · intro hc
      exact lt_irrefl _ (Finset.mem_filter.mp hc).2
  · intro x hx
    have := Finset.mem_filter.mp hx
    exact Finset.mem_filter.mpr ⟨this.1, by omega⟩

theorem nb_smaller_lt_card (vals : List Int) (v : Int) (hv : v ∈ vals) :
    nb_smaller vals v < vals.toFinset.card := by
  unfold nb_smaller
  apply Finset.card_lt_card
  rw [Finset.ssubset_iff_of_subset (Finset.filter_subset _ _)]
  exact ⟨v, List.mem_toFinset.mpr hv, fun hc => lt_irrefl _ (Finset.mem_filter.mp hc).2⟩

theorem nb_smaller_injOn (vals : List Int) :
    Set.InjOn (nb_smaller vals) (vals.toFinset : Set Int) := by
  intro u hu v hv huv
  have hu := List.mem_toFinset.mp (Finset.mem_coe.mp hu)
  have hv := List.mem_toFinset.mp (Finset.mem_coe.mp hv)
  by_contra hne
  rcases lt_or_gt_of_ne hne with h | h
  · have := nb_smaller_lt_of_lt vals u v hu h
    omega
  · have := nb_smaller_lt_of_lt vals v u hv h
    omega

theorem nb_smaller_image (vals : List Int) :
    vals.toFinset.image (nb_smaller vals) = Finset.range vals.toFinset.card := by
  apply Finset.eq_of_subset_of_card_le
  · intro k hk
    obtain ⟨v, hv, rfl⟩ := Finset.mem_image.mp hk
    exact Finset.mem_range.mpr (nb_smaller_lt_card vals v (List.mem_toFinset.mp hv))
  · rw [Finset.card_range, Finset.card_image_of_injOn (nb_smaller_injOn vals)]

/-- The new indices are exactly `glb_idx_max + 1 .. glb_idx_max + D`, where `D` is the
number of distinct provisional values. -/
theorem new_glb_idx_range (glb_idx_max : Int) (vals : List Int) (x : Int) :
    (∃ v ∈ vals, new_glb_idx glb_idx_max vals v = x) ↔
      glb_idx_max + 1 ≤ x ∧ x ≤ glb_idx_max + (vals.toFinset.card : Int) := by
  constructor
  · rintro ⟨v, hv, rfl⟩
    have := nb_smaller_lt_card vals v hv
    unfold new_glb_idx
    omega
  · rintro ⟨h1, h2⟩
    have hk : (x - glb_idx_max - 1).toNat ∈ Finset.range vals.toFinset.card := by
      apply Finset.mem_range.mpr
      omega
    rw [← nb_smaller_image] at hk
    obtain ⟨v, hv, hvk⟩ := Finset.mem_image.mp hk
    refine ⟨v, List.mem_toFinset.mp hv, ?_⟩
    unfold new_glb_idx
    rw [hvk]
    omega

theorem new_glb_idx_lt_of_lt (glb_idx_max : Int) (vals : List Int) (u v : Int) (hu : u ∈ vals)
    (huv : u < v) : new_glb_idx glb_idx_max vals u < new_glb_idx glb_idx_max vals v := by
  have := nb_smaller_lt_of_lt vals u v hu huv
  unfold new_glb_idx
  omega

theorem nb_smaller_map (vals : List Int) (F : Int → Int)
    (hF : ∀ u ∈ vals, ∀ v ∈ vals, u < v → F u < F v) (v : Int) (hv : v ∈ vals) :
    nb_smaller (vals.map F) (F v) = nb_smaller vals v := by
  unfold nb_smaller
  have hinj : Set.InjOn F (vals.toFinset : Set Int) := by
    intro a ha b hb hab
    have ha := List.mem_toFinset.mp (Finset.mem_coe.mp ha)
    have hb := List.mem_toFinset.mp (Finset.mem_coe.mp hb)
    by_contra hne
    rcases lt_or_gt_of_ne hne with h | h
    · have := hF a ha b hb h
      omega
    · have := hF b hb a ha h
      omega
  have himg : (vals.map F).toFinset.filter (fun u => u < F v)
      = (vals.toFinset.filter (fun u => u < v)).image F := by
    ext x
    simp only [Finset.mem_filter, List.mem_toFinset, List.mem_map, Finset.mem_image]
    constructor
    · rintro ⟨⟨a, ha, rfl⟩, hlt⟩
      refine ⟨a, ⟨ha, ?_⟩, rfl⟩
      by_contra hc
      rcases eq_or_lt_of_le (not_lt.mp hc) with h | h
      · rw [h] at hlt
        exact lt_irrefl _ hlt
      · have := hF v hv a ha h
        omega
    · rintro ⟨a, ⟨ha, hlt⟩, rfl⟩
      exact ⟨⟨a, ha, rfl⟩, hF a ha v hv hlt⟩
  rw [himg, Finset.card_image_of_injOn]
  exact hinj.mono (by
    intro x hx
    exact Finset.mem_coe.mpr (Finset.mem_filter.mp (Finset.mem_coe.mp hx)).1)

theorem new_glb_idx_fixed (glb_idx_max : Int) (vals : List Int) (v : Int) (hv : v ∈ vals) :
    new_glb_idx glb_idx_max (vals.map (new_glb_idx glb_idx_max vals))
      (new_glb_idx glb_idx_max vals v) = new_glb_idx glb_idx_max vals v := by
  have := nb_smaller_map vals (new_glb_idx glb_idx_max vals)
    (fun a ha b _ hab => new_glb_idx_lt_of_lt glb_idx_max vals a b ha hab) v hv
  show glb_idx_max + 1
      + (nb_smaller (vals.map (new_glb_idx glb_idx_max vals)) (new_glb_idx glb_idx_max vals v) : Int)
    = new_glb_idx glb_idx_max vals v
  rw [this]
  rfl

/-! ### Renumbering twice -/

theorem renumber_global_index_closed (sort : List Entity → List Entity) (hsort : IsStdSort sort)
    (glb_idx_max : Int) (fields : List (List Int × List Nat)) :
    renumber_global_index sort glb_idx_max fields =
      fields.map (fun f =>
        renumbered_array (new_glb_idx glb_idx_max (gathered_glb_idx fields)) f.2 f.1) :=
  renumber_global_index_eq sort hsort glb_idx_max fields

theorem getD_renumbered_array (F : Int → Int) (edit : List Nat) (a : List Int) (p : Nat)
    (hp : p < a.length) :
    (renumbered_array F edit a).getD p 0 = if p ∈ edit then F (a.getD p 0) else a.getD p 0 := by
  unfold renumbered_array
  simp only [List.getD_eq_getElem?_getD, List.getElem?_map, List.getElem?_enum,
    List.getElem?_eq_getElem hp, Option.map_some', Option.getD_some]

theorem length_renumbered_array (F : Int → Int) (edit : List Nat) (a : List Int) :
    (renumbered_array F edit a).length = a.length := by
  simp [renumbered_array]

theorem mem_gathered (fields : List (List Int × List Nat)) (f : List Int × List Nat)
    (hf : f ∈ fields) (p : Nat) (hp : p ∈ f.2) : f.1.getD p 0 ∈ gathered_glb_idx fields := by
  unfold gathered_glb_idx
  rw [List.mem_flatten]
  exact ⟨_, List.mem_map_of_mem _ hf, List.mem_map_of_mem _ hp⟩

theorem gathered_renumbered (F : Int → Int) (fields : List (List Int × List Nat))
    (hr : edits_in_range fields) :
    gathered_glb_idx (fields.map (fun f => (renumbered_array F f.2 f.1, f.2)))
      = (gathered_glb_idx fields).map F := by
  unfold gathered_glb_idx
  rw [List.map_flatten, List.map_map, List.map_map]
  congr 1
  apply List.map_congr_left
  intro f hf
  simp only [Function.comp, List.map_map]
  apply List.map_congr_left
  intro p hp
  rw [getD_renumbered_array F f.2 f.1 p (hr f hf p hp), if_pos hp]
  rfl

theorem renumbered_array_twice (F G : Int → Int) (edit : List Nat) (a : List Int)
    (h : ∀ p, p ∈ edit → p < a.length → G (F (a.getD p 0)) = F (a.getD p 0)) :
    renumbered_array G edit (renumbered_array F edit a) = renumbered_array F edit a := by
  apply List.ext_getElem?
  intro j
  by_cases hj : j < a.length
  · have h1 : (renumbered_array F edit a)[j]?
        = some (if j ∈ edit then F (a.getD j 0) else a.getD j 0) := by
      have := getD_renumbered_array F edit a j hj
      rw [List.getD_eq_getElem?_getD,
        List.getElem?_eq_getElem (by rw [length_renumbered_array]; exact hj)] at this
      rw [List.getElem?_eq_getElem (by rw [length_renumbered_array]; exact hj)]
      simpa using this
    have hj2 : j < (renumbered_array F edit a).length := by
      rw [length_renumbered_array]; exact hj
    have h2 := getD_renumbered_array G edit (renumbered_array F edit a) j hj2
    have hj3 : j < (renumbered_array G edit (renumbered_array F edit a)).length := by
      rw [length_renumbered_array]; exact hj2
    rw [List.getD_eq_getElem?_getD, List.getElem?_eq_getElem hj3, Option.getD_some] at h2
    rw [List.getElem?_eq_getElem hj3, h2, h1, List.getD_eq_getElem?_getD, h1, Option.getD_some]
    by_cases hje : j ∈ edit
    · simp only [hje, if_true]
      rw [h j hje hj]
    · simp only [hje, if_false]
  · rw [List.getElem?_eq_none, List.getElem?_eq_none]
    · rw [length_renumbered_array]; omega
    · rw [length_renumbered_array, length_renumbered_array]; omega

/-- Renumbering the renumbered arrays (same edit sets, same `glb_idx_max`) changes
nothing, whatever the two sorts do with equal keys. -/
theorem renumber_global_index_twice (sort1 sort2 : List Entity → List Entity)
    (h1 : IsStdSort sort1) (h2 : IsStdSort sort2) (glb_idx_max : Int)
    (fields : List (List Int × List Nat)) (hr : edits_in_range fields) :
    renumber_global_index sort2 glb_idx_max
        (List.zipWith (fun f g => (g, f.2)) fields
          (renumber_global_index sort1 glb_idx_max fields))
      = renumber_global_index sort1 glb_idx_max fields := by
  rw [renumber_global_index_closed sort1 h1, List.zipWith_map_right, zipWith_same,
    renumber_global_index_closed sort2 h2, List.map_map,
    gathered_renumbered _ fields hr]
  apply List.map_congr_left
  intro f hf
  simp only [Function.comp]
  apply renumbered_array_twice
  intro p hp _
  exact new_glb_idx_fixed glb_idx_max _ _ (mem_gathered fields f hf p hp)

/-! ### Storing arrays of global indices -/

theorem zipWith_map_right_same {α β γ : Type} (f : α → β → γ) (g : α → β) (l : List α) :
    List.zipWith f l (l.map g) = l.map (fun a => f a (g a)) := by
  rw [List.zipWith_map_right, zipWith_same]

theorem nodes_glb_idx_set (m : Mesh) (g : List Int) (hg : g.length = m.nodes.length) :
    (m.set_nodes_glb_idx g).map Node.glb_idx = g := by
  unfold Mesh.set_nodes_glb_idx
  generalize m.nodes = nodes at hg
  induction nodes generalizing g with
  | nil =>
    cases g with
    | nil => rfl
    | cons a t => simp at hg
  | cons n rest ih =>
    cases g with
    | nil => simp at hg
    | cons a t =>
      simp only [List.zipWith_cons_cons, List.map_cons]
      rw [ih t (by simpa using hg)]

theorem length_set_nodes_glb_idx (m : Mesh) (g : List Int) (hg : g.length = m.nodes.length) :
    (m.set_nodes_glb_idx g).length = m.nodes.length := by
  simp [Mesh.set_nodes_glb_idx, hg]

theorem set_nodes_glb_idx_twice (nodes : List Node) (g : List Int) :
    List.zipWith (fun (n : Node) v => { n with glb_idx := v })
        (List.zipWith (fun (n : Node) v => { n with glb_idx := v }) nodes g) g
      = List.zipWith (fun (n : Node) v => { n with glb_idx := v }) nodes g := by
  induction nodes generalizing g with
  | nil => simp
  | cons n rest ih =>
    cases g with
    | nil => simp
    | cons a t => simp [ih t]

theorem cells_glb_idx_set (cells : List Elements) (g : List Int)
    (hg : g.length = ((cells.map Elements.cells).flatten).length) :
    (((set_cells_glb_idx cells g).map Elements.cells).flatten).map Cell.glb_idx = g := by
  induction cells generalizing g with
  | nil =>
    simp only [List.map_nil, List.flatten_nil, List.length_nil] at hg
    simp [set_cells_glb_idx, List.length_eq_zero.mp hg]
  | cons e rest ih =>
    simp only [List.map_cons, List.flatten_cons, List.length_append] at hg
    simp only [set_cells_glb_idx, List.map_cons, List.flatten_cons, List.map_append]
    rw [ih (g.drop e.cells.length) (by rw [List.length_drop]; omega)]
    have h1 : (List.zipWith (fun (c : Cell) v => { c with glb_idx := v }) e.cells
        (g.take e.cells.length)).map Cell.glb_idx = g.take e.cells.length := by
      have hlen : (g.take e.cells.length).length = e.cells.length := by simp; omega
      generalize g.take e.cells.length = g1 at hlen
      generalize e.cells = cs at hlen
      induction cs generalizing g1 with
      | nil =>
        cases g1 with
        | nil => rfl
        | cons a t => simp at hlen
      | cons c t ih2 =>
        cases g1 with
        | nil => simp at hlen
        | cons a t1 =>
          simp only [List.zipWith_cons_cons, List.map_cons]
          rw [ih2 t1 (by simpa using hlen)]
    rw [h1, List.take_append_drop]

theorem set_cells_glb_idx_shape (cells : List Elements) (g : List Int)
    (hg : g.length = ((cells.map Elements.cells).flatten).length) :
    List.Forall₂ (fun (e e1 : Elements) => e1.nb_nodes = e.nb_nodes ∧
        e1.cells.length = e.cells.length) cells (set_cells_glb_idx cells g) := by
  induction cells generalizing g with
  | nil => exact List.Forall₂.nil
  | cons e rest ih =>
    simp only [List.map_cons, List.flatten_cons, List.length_append] at hg
    simp only [set_cells_glb_idx]
    refine List.Forall₂.cons ⟨rfl, ?_⟩ (ih _ (by rw [List.length_drop]; omega))
    simp
    omega

theorem length_flatten_of_shape {a b : List Elements}
    (h : List.Forall₂ (fun (e e1 : Elements) => e1.nb_nodes = e.nb_nodes ∧
        e1.cells.length = e.cells.length) a b) :
    ((b.map Elements.cells).flatten).length = ((a.map Elements.cells).flatten).length := by
  induction h with
  | nil => rfl
  | cons hab _ ih => simp [hab.2, ih]

theorem set_cells_glb_idx_twice (cells : List Elements) (g g1 : List Int) :
    set_cells_glb_idx (set_cells_glb_idx cells g) g1 = set_cells_glb_idx cells g1 ∨
      g.length < ((cells.map Elements.cells).flatten).length := by
  by_cases hg : g.length < ((cells.map Elements.cells).flatten).length
  · exact Or.inr hg
  · left
    induction cells generalizing g g1 with
    | nil => rfl
    | cons e rest ih =>
      simp only [List.map_cons, List.flatten_cons, List.length_append] at hg
      simp only [set_cells_glb_idx]
      have hlen : (List.zipWith (fun (c : Cell) v => { c with glb_idx := v }) e.cells
          (g.take e.cells.length)).length = e.cells.length := by
        simp; omega
      rw [hlen, ih (g.drop e.cells.length) (g1.drop e.cells.length)
        (by rw [List.length_drop]; omega)]
      congr 2
      have hlen2 : e.cells.length ≤ (g.take e.cells.length).length := by simp; omega
      generalize g.take e.cells.length = ga at hlen2
      generalize g1.take e.cells.length = gb
      generalize e.cells = cs at hlen2
      induction cs generalizing ga gb with
      | nil => simp
      | cons c t ih2 =>
        cases ga with
        | nil => simp at hlen2
        | cons a ta =>
          cases gb with
          | nil => simp
          | cons b tb =>
            simp only [List.zipWith_cons_cons, List.cons.injEq, true_and]
            exact ih2 ta tb (by simpa using hlen2)

/-! ### The two renumbering functions -/

theorem getElem?_renumbered_array (F : Int → Int) (edit : List Nat) (a : List Int) (p : Nat) :
    (renumbered_array F edit a)[p]? = (a[p]?).map (fun v => if p ∈ edit then F v else v) := by
  unfold renumbered_array
  rw [List.getElem?_map, List.getElem?_enum]
  cases a[p]? <;> rfl

theorem make_nodes_eq (sort : List Entity → List Entity) (hsort : IsStdSort sort)
    (do_all : Bool) (w : List BuildHalo) :
    make_nodes_global_index_human_readable sort do_all w =
      w.map (fun b => b.with_nodes_glb_idx
        (renumbered_array
          (new_glb_idx (nodes_glb_idx_max do_all w) (gathered_glb_idx (nodes_fields do_all w)))
          (points_to_edit do_all b.mesh_.nodes.length b.periodic_points_local_index_)
          b.mesh_.nodes_glb_idx)) := by
  unfold make_nodes_global_index_human_readable
  rw [renumber_global_index_closed sort hsort]
  conv_lhs => rw [nodes_fields, List.map_map, zipWith_map_right_same]
  rfl

theorem make_cells_eq (sort : List Entity → List Entity) (hsort : IsStdSort sort)
    (do_all : Bool) (w : List BuildHalo) :
    make_cells_global_index_human_readable sort do_all w =
      w.map (fun b => b.with_cells_glb_idx
        (renumbered_array
          (new_glb_idx (cells_glb_idx_max do_all w) (gathered_glb_idx (cells_fields do_all w)))
          (points_to_edit do_all b.mesh_.nb_cells b.periodic_cells_local_index_)
          b.mesh_.cells_glb_idx)) := by
  unfold make_cells_global_index_human_readable
  rw [renumber_global_index_closed sort hsort]
  conv_lhs => rw [cells_fields, List.map_map, zipWith_map_right_same]
  rfl

theorem with_nodes_glb_idx_glb_idx (b : BuildHalo) (g : List Int)
    (hg : g.length = b.mesh_.nodes.length) :
    (b.with_nodes_glb_idx g).mesh_.nodes_glb_idx = g :=
  nodes_glb_idx_set b.mesh_ g hg

theorem with_cells_glb_idx_glb_idx (b : BuildHalo) (g : List Int)
    (hg : g.length = b.mesh_.nb_cells) :
    (b.with_cells_glb_idx g).mesh_.cells_glb_idx = g :=
  cells_glb_idx_set b.mesh_.cells g hg

theorem length_nodes_glb_idx (m : Mesh) : m.nodes_glb_idx.length = m.nodes.length := by
  simp [Mesh.nodes_glb_idx]

theorem length_cells_glb_idx (m : Mesh) : m.cells_glb_idx.length = m.nb_cells := by
  simp [Mesh.cells_glb_idx, Mesh.nb_cells]

theorem with_cells_glb_idx_nb_cells (b : BuildHalo) (g : List Int)
    (hg : g.length = b.mesh_.nb_cells) :
    (b.with_cells_glb_idx g).mesh_.nb_cells = b.mesh_.nb_cells :=
  length_flatten_of_shape (set_cells_glb_idx_shape b.mesh_.cells g hg)

/-- C8, renumbering. For nodes and for cells, with any sort that meets the contract of
`std::sort`: every entry of the edit set of every task gets the new global index
`new_glb_idx glb_idx_max vals v`, where `v` is its provisional value, `vals` the provisional
values of the edit sets of all tasks together and `glb_idx_max` the value on the root. That
index is `glb_idx_max + 1 + (number of distinct values of vals smaller than v)`; hence equal
provisional values get equal indices on all tasks, a smaller provisional value gets a
smaller index, and the indices given are exactly the range
`glb_idx_max + 1 .. glb_idx_max + (number of distinct provisional values)`. -/
theorem renumbering_assigns_dense_ranks (sort : List Entity → List Entity)
    (hsort : IsStdSort sort) (do_all : Bool) (w : List BuildHalo) :
    (∀ (r : Nat) (b : BuildHalo) (p : Nat), w[r]? = some b →
      p ∈ points_to_edit do_all b.mesh_.nodes.length b.periodic_points_local_index_ →
      p < b.mesh_.nodes.length →
      ∃ b1, (make_nodes_global_index_human_readable sort do_all w)[r]? = some b1 ∧
        b1.mesh_.nodes_glb_idx[p]? = some
          (new_glb_idx (nodes_glb_idx_max do_all w) (gathered_glb_idx (nodes_fields do_all w))
            (b.mesh_.nodes_glb_idx.getD p 0))) ∧
    (∀ (r : Nat) (b : BuildHalo) (p : Nat), w[r]? = some b →
      p ∈ points_to_edit do_all b.mesh_.nb_cells b.periodic_cells_local_index_ →
      p < b.mesh_.nb_cells →
      ∃ b1, (make_cells_global_index_human_readable sort do_all w)[r]? = some b1 ∧
        b1.mesh_.cells_glb_idx[p]? = some
          (new_glb_idx (cells_glb_idx_max do_all w) (gathered_glb_idx (cells_fields do_all w))
            (b.mesh_.cells_glb_idx.getD p 0))) ∧
    (∀ (glb_idx_max : Int) (vals : List Int),
      (∀ v, new_glb_idx glb_idx_max vals v
        = glb_idx_max + 1 + ((vals.toFinset.filter (fun u => u < v)).card : Int)) ∧
      (∀ u ∈ vals, ∀ v, u < v →
        new_glb_idx glb_idx_max vals u < new_glb_idx glb_idx_max vals v) ∧
      (∀ x, (∃ v ∈ vals, new_glb_idx glb_idx_max vals v = x) ↔
        glb_idx_max + 1 ≤ x ∧ x ≤ glb_idx_max + (vals.toFinset.card : Int))) := by
  refine ⟨?_, ?_, ?_⟩
  · intro r b p hb hp hlt
    rw [make_nodes_eq sort hsort]
    refine ⟨_, by rw [List.getElem?_map, hb]; rfl, ?_⟩
    rw [with_nodes_glb_idx_glb_idx _ _
      (by rw [length_renumbered_array, length_nodes_glb_idx]),
      getElem?_renumbered_array]
    have hlt2 : p < b.mesh_.nodes_glb_idx.length := by rw [length_nodes_glb_idx]; exact hlt
    simp [List.getElem?_eq_getElem hlt2, hp, List.getD_eq_getElem?_getD]
  · intro r b p hb hp hlt
    rw [make_cells_eq sort hsort]
    refine ⟨_, by rw [List.getElem?_map, hb]; rfl, ?_⟩
    rw [with_cells_glb_idx_glb_idx _ _
      (by rw [length_renumbered_array, length_cells_glb_idx]),
      getElem?_renumbered_array]
    have hlt2 : p < b.mesh_.cells_glb_idx.length := by rw [length_cells_glb_idx]; exact hlt
    simp [List.getElem?_eq_getElem hlt2, hp, List.getD_eq_getElem?_getD]
  · intro glb_idx_max vals
    exact ⟨fun v => rfl, fun u hu v huv => new_glb_idx_lt_of_lt glb_idx_max vals u v hu huv,
      new_glb_idx_range glb_idx_max vals⟩

/-- C9, frame of the renumbering. For nodes and for cells, on every task: the number of
entries is kept, an entry outside the edit set keeps its global index, and an entry of the
edit set gets an index strictly greater than `glb_idx_max`, which for `do_all = false` is
the `"max"` recorded on the global-index field of the root task (0 when absent). -/
theorem renumbering_frame (sort : List Entity → List Entity) (hsort : IsStdSort sort)
    (do_all : Bool) (w : List BuildHalo) :
    (∀ (r : Nat) (b : BuildHalo), w[r]? = some b →
      ∃ b1, (make_nodes_global_index_human_readable sort do_all w)[r]? = some b1 ∧
        b1.mesh_.nodes.length = b.mesh_.nodes.length ∧
        ∀ (p : Nat) (v : Int), b.mesh_.nodes_glb_idx[p]? = some v →
          (p ∉ points_to_edit do_all b.mesh_.nodes.length b.periodic_points_local_index_ →
            b1.mesh_.nodes_glb_idx[p]? = some v) ∧
          (p ∈ points_to_edit do_all b.mesh_.nodes.length b.periodic_points_local_index_ →
            ∃ v1, b1.mesh_.nodes_glb_idx[p]? = some v1 ∧ nodes_glb_idx_max do_all w < v1)) ∧
    (∀ (r : Nat) (b : BuildHalo), w[r]? = some b →
      ∃ b1, (make_cells_global_index_human_readable sort do_all w)[r]? = some b1 ∧
        b1.mesh_.nb_cells = b.mesh_.nb_cells ∧
        ∀ (p : Nat) (v : Int), b.mesh_.cells_glb_idx[p]? = some v →
          (p ∉ points_to_edit do_all b.mesh_.nb_cells b.periodic_cells_local_index_ →
            b1.mesh_.cells_glb_idx[p]? = some v) ∧
          (p ∈ points_to_edit do_all b.mesh_.nb_cells b.periodic_cells_local_index_ →
            ∃ v1, b1.mesh_.cells_glb_idx[p]? = some v1 ∧ cells_glb_idx_max do_all w < v1)) ∧
    nodes_glb_idx_max false w
      = ((w.head?.map (fun b => b.mesh_.nodes_global_index_metadata.max)).getD none).getD 0 ∧
    cells_glb_idx_max false w
      = ((w.head?.map (fun b => b.mesh_.cells_global_index_metadata.max)).getD none).getD 0 := by
  refine ⟨?_, ?_, rfl, rfl⟩
  · intro r b hb
    rw [make_nodes_eq sort hsort]
    refine ⟨_, by rw [List.getElem?_map, hb]; rfl, ?_, ?_⟩
    · have := congrArg List.length (with_nodes_glb_idx_glb_idx b
        (renumbered_array
          (new_glb_idx (nodes_glb_idx_max do_all w) (gathered_glb_idx (nodes_fields do_all w)))
          (points_to_edit do_all b.mesh_.nodes.length b.periodic_points_local_index_)
          b.mesh_.nodes_glb_idx)
        (by rw [length_renumbered_array, length_nodes_glb_idx]))
      rw [length_nodes_glb_idx, length_renumbered_array, length_nodes_glb_idx] at this
      exact this
    · intro p v hv
      rw [with_nodes_glb_idx_glb_idx _ _
        (by rw [length_renumbered_array, length_nodes_glb_idx]),
        getElem?_renumbered_array, hv]
      refine ⟨fun hp => by simp [hp], fun hp => ?_⟩
      simp only [hp, if_true, Option.map_some']
      exact ⟨_, rfl, new_glb_idx_gt _ _ v⟩
  · intro r b hb
    rw [make_cells_eq sort hsort]
    refine ⟨_, by rw [List.getElem?_map, hb]; rfl, ?_, ?_⟩
    · exact with_cells_glb_idx_nb_cells b _
        (by rw [length_renumbered_array, length_cells_glb_idx])
    · intro p v hv
      rw [with_cells_glb_idx_glb_idx _ _
        (by rw [length_renumbered_array, length_cells_glb_idx]),
        getElem?_renumbered_array, hv]
      refine ⟨fun hp => by simp [hp], fun hp => ?_⟩
      simp only [hp, if_true, Option.map_some']
      exact ⟨_, rfl, new_glb_idx_gt _ _ v⟩

/-! ### Renumbering is idempotent -/

theorem with_nodes_glb_idx_twice (b : BuildHalo) (g : List Int) :
    (b.with_nodes_glb_idx g).with_nodes_glb_idx g = b.with_nodes_glb_idx g := by
  unfold BuildHalo.with_nodes_glb_idx Mesh.set_nodes_glb_idx
  simp only [set_nodes_glb_idx_twice]

theorem with_cells_glb_idx_twice (b : BuildHalo) (g : List Int)
    (hg : g.length = b.mesh_.nb_cells) :
    (b.with_cells_glb_idx g).with_cells_glb_idx g = b.with_cells_glb_idx g := by
  unfold BuildHalo.with_cells_glb_idx
  rcases set_cells_glb_idx_twice b.mesh_.cells g g with h | h
  · simp only [h]
  · unfold Mesh.nb_cells Mesh.all_cells at hg
    omega

theorem with_nodes_glb_idx_length (b : BuildHalo) (g : List Int)
    (hg : g.length = b.mesh_.nodes.length) :
    (b.with_nodes_glb_idx g).mesh_.nodes.length = b.mesh_.nodes.length :=
  length_set_nodes_glb_idx b.mesh_ g hg

theorem head?_map_comp {α β γ : Type} (f : α → β) (g : β → γ) (k : α → γ) (l : List α)
    (h : ∀ a, g (f a) = k a) : (l.map f).head?.map g = l.head?.map k := by
  cases l with
  | nil => rfl
  | cons a t => simp [h]

theorem make_nodes_twice (sort1 sort2 : List Entity → List Entity) (h1 : IsStdSort sort1)
    (h2 : IsStdSort sort2) (do_all : Bool) (w : List BuildHalo)
    (hr : edits_in_range (nodes_fields do_all w)) :
    make_nodes_global_index_human_readable sort2 do_all
        (make_nodes_global_index_human_readable sort1 do_all w)
      = make_nodes_global_index_human_readable sort1 do_all w := by
  rw [make_nodes_eq sort1 h1, make_nodes_eq sort2 h2, List.map_map]
  have hmax : nodes_glb_idx_max do_all (w.map (fun b => b.with_nodes_glb_idx
      (renumbered_array
        (new_glb_idx (nodes_glb_idx_max do_all w) (gathered_glb_idx (nodes_fields do_all w)))
        (points_to_edit do_all b.mesh_.nodes.length b.periodic_points_local_index_)
        b.mesh_.nodes_glb_idx))) = nodes_glb_idx_max do_all w := by
    unfold nodes_glb_idx_max
    rw [head?_map_comp _ _ (fun b => b.mesh_.nodes_global_index_metadata.max)]
    intro a
    rfl
  have hfields : nodes_fields do_all (w.map (fun b => b.with_nodes_glb_idx
      (renumbered_array
        (new_glb_idx (nodes_glb_idx_max do_all w) (gathered_glb_idx (nodes_fields do_all w)))
        (points_to_edit do_all b.mesh_.nodes.length b.periodic_points_local_index_)
        b.mesh_.nodes_glb_idx)))
      = (nodes_fields do_all w).map (fun f => (renumbered_array
          (new_glb_idx (nodes_glb_idx_max do_all w) (gathered_glb_idx (nodes_fields do_all w)))
          f.2 f.1, f.2)) := by
    unfold nodes_fields
    rw [List.map_map, List.map_map]
    apply List.map_congr_left
    intro b _
    simp only [Function.comp]
    rw [with_nodes_glb_idx_glb_idx _ _ (by rw [length_renumbered_array, length_nodes_glb_idx]),
      with_nodes_glb_idx_length _ _ (by rw [length_renumbered_array, length_nodes_glb_idx])]
    rfl
  rw [hmax, hfields, gathered_renumbered _ _ hr]
  apply List.map_congr_left
  intro b hb
  simp only [Function.comp]
  rw [with_nodes_glb_idx_glb_idx _ _ (by rw [length_renumbered_array, length_nodes_glb_idx]),
    with_nodes_glb_idx_length _ _ (by rw [length_renumbered_array, length_nodes_glb_idx])]
  have hb2 : (b.mesh_.nodes_glb_idx,
      points_to_edit do_all b.mesh_.nodes.length b.periodic_points_local_index_)
      ∈ nodes_fields do_all w := by
    unfold nodes_fields
    exact List.mem_map_of_mem _ hb
  rw [show (BuildHalo.with_nodes_glb_idx b (renumbered_array
        (new_glb_idx (nodes_glb_idx_max do_all w) (gathered_glb_idx (nodes_fields do_all w)))
        (points_to_edit do_all b.mesh_.nodes.length b.periodic_points_local_index_)
        b.mesh_.nodes_glb_idx)).periodic_points_local_index_
      = b.periodic_points_local_index_ from rfl,
    renumbered_array_twice, with_nodes_glb_idx_twice]
  intro p hp _
  exact new_glb_idx_fixed _ _ _ (mem_gathered _ _ hb2 p hp)

theorem make_cells_twice (sort1 sort2 : List Entity → List Entity) (h1 : IsStdSort sort1)
    (h2 : IsStdSort sort2) (do_all : Bool) (w : List BuildHalo)
    (hr : edits_in_range (cells_fields do_all w)) :
    make_cells_global_index_human_readable sort2 do_all
        (make_cells_global_index_human_readable sort1 do_all w)
      = make_cells_global_index_human_readable sort1 do_all w := by
  rw [make_cells_eq sort1 h1, make_cells_eq sort2 h2, List.map_map]
  have hmax : cells_glb_idx_max do_all (w.map (fun b => b.with_cells_glb_idx
      (renumbered_array
        (new_glb_idx (cells_glb_idx_max do_all w) (gathered_glb_idx (cells_fields do_all w)))
        (points_to_edit do_all b.mesh_.nb_cells b.periodic_cells_local_index_)
        b.mesh_.cells_glb_idx))) = cells_glb_idx_max do_all w := by
    unfold cells_glb_idx_max
    rw [head?_map_comp _ _ (fun b => b.mesh_.cells_global_index_metadata.max)]
    intro a
    rfl
  have hfields : cells_fields do_all (w.map (fun b => b.with_cells_glb_idx
      (renumbered_array
        (new_glb_idx (cells_glb_idx_max do_all w) (gathered_glb_idx (cells_fields do_all w)))
        (points_to_edit do_all b.mesh_.nb_cells b.periodic_cells_local_index_)
        b.mesh_.cells_glb_idx)))
      = (cells_fields do_all w).map (fun f => (renumbered_array
          (new_glb_idx (cells_glb_idx_max do_all w) (gathered_glb_idx (cells_fields do_all w)))
          f.2 f.1, f.2)) := by
    unfold cells_fields
    rw [List.map_map, List.map_map]
    apply List.map_congr_left
    intro b _
    simp only [Function.comp]
    rw [with_cells_glb_idx_glb_idx _ _ (by rw [length_renumbered_array, length_cells_glb_idx]),
      with_cells_glb_idx_nb_cells _ _ (by rw [length_renumbered_array, length_cells_glb_idx])]
    rfl
  rw [hmax, hfields, gathered_renumbered _ _ hr]
  apply List.map_congr_left
  intro b hb
  simp only [Function.comp]
  rw [with_cells_glb_idx_glb_idx _ _ (by rw [length_renumbered_array, length_cells_glb_idx]),
    with_cells_glb_idx_nb_cells _ _ (by rw [length_renumbered_array, length_cells_glb_idx])]
  have hb2 : (b.mesh_.cells_glb_idx,
      points_to_edit do_all b.mesh_.nb_cells b.periodic_cells_local_index_)
      ∈ cells_fields do_all w := by
    unfold cells_fields
    exact List.mem_map_of_mem _ hb
  rw [show (BuildHalo.with_cells_glb_idx b (renumbered_array
        (new_glb_idx (cells_glb_idx_max do_all w) (gathered_glb_idx (cells_fields do_all w)))
        (points_to_edit do_all b.mesh_.nb_cells b.periodic_cells_local_index_)
        b.mesh_.cells_glb_idx)).periodic_cells_local_index_
      = b.periodic_cells_local_index_ from rfl,
    renumbered_array_twice,
    with_cells_glb_idx_twice _ _ (by rw [length_renumbered_array, length_cells_glb_idx])]
  intro p hp _
  exact new_glb_idx_fixed _ _ _ (mem_gathered _ _ hb2 p hp)

/-- C10, renumbering determinism. When the positions of the edit sets are positions of
the arrays, running the renumbering of the nodes, or of the cells, a second time on the
renumbered state (same edit sets, same `glb_idx_max`) changes nothing, whatever the two
sorts do with equal keys. -/
theorem renumbering_idempotent (sort1 sort2 : List Entity → List Entity)
    (h1 : IsStdSort sort1) (h2 : IsStdSort sort2) (do_all : Bool) (w : List BuildHalo)
    (hn : edits_in_range (nodes_fields do_all w))
    (hc : edits_in_range (cells_fields do_all w)) :
    make_nodes_global_index_human_readable sort2 do_all
        (make_nodes_global_index_human_readable sort1 do_all w)
      = make_nodes_global_index_human_readable sort1 do_all w ∧
    make_cells_global_index_human_readable sort2 do_all
        (make_cells_global_index_human_readable sort1 do_all w)
      = make_cells_global_index_human_readable sort1 do_all w :=
  ⟨make_nodes_twice sort1 sort2 h1 h2 do_all w hn,
    make_cells_twice sort1 sort2 h1 h2 do_all w hc⟩

/-! ### Renumbering keeps counts and metadata, whatever the sort -/

theorem length_scatterv (buf : List Int) (cs : List Nat) :
    (scatterv buf cs).length = cs.length := by
  induction cs generalizing buf with
  | nil => rfl
  | cons c t ih => simp [scatterv, ih]

theorem length_write_back (view : List Int) (edit : List Nat) (g : List Int) :
    (write_back view edit g).length = view.length :=
  length_write_all view (edit.zip g)

theorem renumber_global_index_lengths (sort : List Entity → List Entity) (glb_idx_max : Int)
    (fields : List (List Int × List Nat)) :
    List.Forall₂ (fun (f : List Int × List Nat) (g : List Int) => g.length = f.1.length) fields
      (renumber_global_index sort glb_idx_max fields) := by
  unfold renumber_global_index
  simp only []
  apply forall2_zipWith
  · intro a b
    exact length_write_back _ _ _
  · rw [length_scatterv]
    simp

/-- What the renumbering of nodes keeps on every task. -/
theorem make_nodes_keeps (sort : List Entity → List Entity) (do_all : Bool)
    (w : List BuildHalo) :
    List.Forall₂ (fun (b b1 : BuildHalo) =>
        b1.mesh_.nodes.length = b.mesh_.nodes.length ∧ b1.mesh_.cells = b.mesh_.cells ∧
        b1.mesh_.metadata = b.mesh_.metadata)
      w (make_nodes_global_index_human_readable sort do_all w) := by
  unfold make_nodes_global_index_human_readable
  have h := renumber_global_index_lengths sort (nodes_glb_idx_max do_all w)
    (nodes_fields do_all w)
  unfold nodes_fields at h ⊢
  rw [List.forall₂_map_left_iff] at h
  refine forall2_zipWith_of_forall2 _ ?_ h
  intro b g hg
  simp only [length_nodes_glb_idx] at hg
  exact ⟨with_nodes_glb_idx_length b g hg, rfl, rfl⟩

/-- What the renumbering of cells keeps on every task. -/
theorem make_cells_keeps (sort : List Entity → List Entity) (do_all : Bool)
    (w : List BuildHalo) :
    List.Forall₂ (fun (b b1 : BuildHalo) =>
        b1.mesh_.nodes = b.mesh_.nodes ∧ b1.mesh_.nb_cells = b.mesh_.nb_cells ∧
        b1.mesh_.metadata = b.mesh_.metadata)
      w (make_cells_global_index_human_readable sort do_all w) := by
  unfold make_cells_global_index_human_readable
  have h := renumber_global_index_lengths sort (cells_glb_idx_max do_all w)
    (cells_fields do_all w)
  unfold cells_fields at h ⊢
  rw [List.forall₂_map_left_iff] at h
  refine forall2_zipWith_of_forall2 _ ?_ h
  intro b g hg
  simp only [length_cells_glb_idx] at hg
  exact ⟨rfl, with_cells_glb_idx_nb_cells b g hg, rfl⟩

/-- What the two renumberings at the end of `BuildHalo::operator()` keep. -/
theorem renumber_keeps (sort : List Entity → List Entity) (w : List BuildHalo) :
    List.Forall₂ (fun (b b1 : BuildHalo) =>
        b1.mesh_.nodes.length = b.mesh_.nodes.length ∧ b1.mesh_.nb_cells = b.mesh_.nb_cells ∧
        b1.mesh_.metadata = b.mesh_.metadata)
      w (make_cells_global_index_human_readable sort false
          (make_nodes_global_index_human_readable sort false w)) := by
  refine forall2_trans ?_ (make_nodes_keeps sort false w) (make_cells_keeps sort false _)
  intro a b c hab hbc
  refine ⟨by rw [hbc.1, hab.1], ?_, by rw [hbc.2.2, hab.2.2]⟩
  rw [hbc.2.1]
  unfold Mesh.nb_cells Mesh.all_cells
  rw [hab.2.1]

/-! ### The paths through `BuildHalo::operator()` -/

theorem BuildHalo_plan_none_iff (nb_elems : Int) (b : BuildHalo) :
    BuildHalo_plan nb_elems b = none ↔ b.mesh_.halo = nb_elems := by
  unfold BuildHalo_plan
  split <;> simp [*]

theorem BuildHalo_plan_some_iff (nb_elems : Int) (b : BuildHalo) (n : Nat) :
    BuildHalo_plan nb_elems b = some n ↔
      b.mesh_.halo ≠ nb_elems ∧ (nb_elems - b.mesh_.halo).toNat = n := by
  unfold BuildHalo_plan
  split <;> simp [*]

theorem BuildHalo_until_collective_mesh (X : Externals) (nb_elems : Int) (b : BuildHalo) :
    (BuildHalo_until_collective X nb_elems b).state = b := by
  unfold BuildHalo_until_collective
  split
  · simp only [increase_halo_interior_locate_mesh]
    rfl
  · rfl

theorem map_state_until_collective (X : Externals) (nb_elems : Int) (w : List BuildHalo) :
    (w.map (BuildHalo_until_collective X nb_elems)).map Outcome.state = w := by
  rw [List.map_map]
  conv_rhs => rw [← List.map_id w]
  apply List.map_congr_left
  intro b _
  exact BuildHalo_until_collective_mesh X nb_elems b

/-- The three forms of the outcome of `BuildHalo::operator()`. -/
theorem BuildHalo_call_cases (X : Externals) (nb_elems : Int) (root : BuildHalo)
    (rest : List BuildHalo) :
    ((∀ b ∈ root :: rest, b.mesh_.halo = nb_elems) ∧
      BuildHalo_call X nb_elems (root :: rest) = Outcome.done (root :: rest)) ∨
    (∃ n, (∀ b ∈ root :: rest, b.mesh_.halo ≠ nb_elems ∧
          (nb_elems - b.mesh_.halo).toNat = n) ∧
      BuildHalo_call X nb_elems (root :: rest) =
        (BuildHalo_loop X n root.mesh_.halo (root :: rest)).bind (fun w1 =>
          Outcome.done
            (make_cells_global_index_human_readable X.sort_entities false
              (make_nodes_global_index_human_readable X.sort_entities false w1)))) ∨
    ((∃ b ∈ root :: rest, BuildHalo_plan nb_elems b ≠ BuildHalo_plan nb_elems root) ∧
      BuildHalo_call X nb_elems (root :: rest) =
        Outcome.fatal (root :: rest)
          ((first_error ((root :: rest).map
            (fun b => (BuildHalo_until_collective X nb_elems b).error))).getD
            Error.collective_mismatch)) := by
  by_cases hall : (root :: rest).all
      (fun b => decide (BuildHalo_plan nb_elems b = BuildHalo_plan nb_elems root)) = true
  · have hall2 : ∀ b ∈ root :: rest, BuildHalo_plan nb_elems b = BuildHalo_plan nb_elems root := by
      intro b hb
      have := List.all_eq_true.mp hall b hb
      simpa using this
    cases hplan : BuildHalo_plan nb_elems root with
    | none =>
      left
      refine ⟨fun b hb => (BuildHalo_plan_none_iff nb_elems b).mp ((hall2 b hb).trans hplan), ?_⟩
      unfold BuildHalo_call
      simp only []
      rw [if_pos hall]
      simp only [hplan]
    | some n =>
      right; left
      refine ⟨n, fun b hb =>
        (BuildHalo_plan_some_iff nb_elems b n).mp ((hall2 b hb).trans hplan), ?_⟩
      unfold BuildHalo_call
      simp only []
      rw [if_pos hall]
      simp only [hplan]
  · right; right
    constructor
    · by_contra hc
      push_neg at hc
      apply hall
      apply List.all_eq_true.mpr
      intro b hb
      simpa using hc b hb
    · unfold BuildHalo_call
      simp only []
      rw [if_neg hall, map_state_until_collective, List.map_map]
      rfl

/-! ### Growth of the counts -/

theorem BuildHalo_loop_counts (X : Externals) (n : Nat) (jhalo : Int) (w : List BuildHalo) :
    List.Forall₂ (fun (b b1 : BuildHalo) =>
        b.mesh_.nodes.length ≤ b1.mesh_.nodes.length ∧ b.mesh_.nb_cells ≤ b1.mesh_.nb_cells)
      w (BuildHalo_loop X n jhalo w).state :=
  (BuildHalo_loop_grows X n jhalo w).imp
    (fun _ _ h => ⟨h.1.length_le, cells_extended_length_le h.2⟩)

theorem BuildHalo_call_nil (X : Externals) (nb_elems : Int) :
    BuildHalo_call X nb_elems [] = Outcome.done [] := rfl

/-- Whatever its outcome, `BuildHalo::operator()` lowers no count on any task. -/
theorem BuildHalo_call_counts (X : Externals) (nb_elems : Int) (w : List BuildHalo) :
    List.Forall₂ (fun (b b1 : BuildHalo) =>
        b.mesh_.nodes.length ≤ b1.mesh_.nodes.length ∧ b.mesh_.nb_cells ≤ b1.mesh_.nb_cells)
      w (BuildHalo_call X nb_elems w).state := by
  have hrefl : ∀ l : List BuildHalo, List.Forall₂ (fun (b b1 : BuildHalo) =>
      b.mesh_.nodes.length ≤ b1.mesh_.nodes.length ∧ b.mesh_.nb_cells ≤ b1.mesh_.nb_cells) l l :=
    fun l => List.forall₂_same.mpr (fun b _ => ⟨le_refl _, le_refl _⟩)
  cases w with
  | nil => exact List.Forall₂.nil
  | cons root rest =>
    rcases BuildHalo_call_cases X nb_elems root rest with ⟨_, h⟩ | ⟨n, _, h⟩ | ⟨_, h⟩
    · rw [h]; exact hrefl _
    · rw [h]
      obtain ⟨_, h2, h3⟩ := Outcome.bind_done_state
        (BuildHalo_loop X n root.mesh_.halo (root :: rest))
        (fun w1 => make_cells_global_index_human_readable X.sort_entities false
          (make_nodes_global_index_human_readable X.sort_entities false w1))
      by_cases hc : (BuildHalo_loop X n root.mesh_.halo (root :: rest)).error = none
      · rw [h2 hc]
        refine forall2_trans ?_ (BuildHalo_loop_counts X n root.mesh_.halo (root :: rest))
          (renumber_keeps X.sort_entities _)
        intro a b c hab hbc
        exact ⟨by rw [hbc.1]; exact hab.1, by rw [hbc.2.1]; exact hab.2⟩
      · rw [h3 hc]
        exact BuildHalo_loop_counts X n root.mesh_.halo (root :: rest)
    · rw [h]; exact hrefl _

/-! ### C2 -/

theorem first_mem_getElem? {α : Type} (l : List α) (r : Nat) (a : α) (h : l[r]? = some a) :
    a ∈ l := by
  rw [List.getElem?_eq_some] at h
  obtain ⟨hr, rfl⟩ := h
  exact List.getElem_mem hr

theorem forall2_imp_mem {α β : Type} {R S : α → β → Prop} {l : List α} {l2 : List β}
    (h : List.Forall₂ R l l2) (hRS : ∀ a b, a ∈ l → b ∈ l2 → R a b → S a b) :
    List.Forall₂ S l l2 := by
  induction h with
  | nil => exact List.Forall₂.nil
  | cons hab _ ih =>
    refine List.Forall₂.cons (hRS _ _ (List.mem_cons_self _ _) (List.mem_cons_self _ _) hab)
      (ih ?_)
    intro a b ha hb hr
    exact hRS a b (List.mem_cons_of_mem _ ha) (List.mem_cons_of_mem _ hb) hr

theorem Mesh.halo_eq_of_metadata {a b : Mesh} (h : b.metadata = a.metadata) :
    b.halo = a.halo := by
  unfold Mesh.halo
  rw [h]

/-- Depth recorded on every task after a completed call. -/
theorem BuildHalo_call_done_halo (X : Externals) (nb_elems : Int) (w w1 : List BuildHalo)
    (hcall : BuildHalo_call X nb_elems w = Outcome.done w1) :
    List.Forall₂ (fun (b b1 : BuildHalo) =>
        b1.mesh_.halo = max b.mesh_.halo nb_elems) w w1 := by
  cases w with
  | nil =>
    rw [BuildHalo_call_nil] at hcall
    have := ((Outcome.eq_done _ _).mp hcall).2
    simp only [Outcome.done] at this
    rw [← this]
    exact List.Forall₂.nil
  | cons root rest =>
    rcases BuildHalo_call_cases X nb_elems root rest with ⟨hh, h⟩ | ⟨n, hh, h⟩ | ⟨_, h⟩
    · rw [h] at hcall
      have := ((Outcome.eq_done _ _).mp hcall).2
      simp only [Outcome.done] at this
      rw [← this]
      exact List.forall₂_same.mpr (fun b hb => by rw [hh b hb]; simp)
    · rw [h] at hcall
      obtain ⟨hcerr, hcstate⟩ := (Outcome.eq_done _ _).mp hcall
      obtain ⟨h1, _, h3⟩ := Outcome.bind_error_none _ _ hcerr
      rw [h3] at hcstate
      simp only [Outcome.done] at hcstate
      rw [← hcstate]
      have hkeep := renumber_keeps X.sort_entities
        (BuildHalo_loop X n root.mesh_.halo (root :: rest)).state
      have hgrow := BuildHalo_loop_counts X n root.mesh_.halo (root :: rest)
      cases n with
      | zero =>
        have hst : (BuildHalo_loop X 0 root.mesh_.halo (root :: rest)).state = root :: rest := rfl
        rw [hst] at hkeep ⊢
        refine forall2_imp_mem hkeep ?_
        intro a b ha _ hab
        rw [Mesh.halo_eq_of_metadata hab.2.2]
        have := hh a ha
        omega
      | succ n =>
        have hrec := BuildHalo_loop_records X n root.mesh_.halo (root :: rest) h1
        have hroot := hh root (List.mem_cons_self _ _)
        have hkeep2 := forall2_imp_mem hkeep
          (S := fun (_ b1 : BuildHalo) => b1.mesh_.halo = nb_elems) (by
            intro a b ha _ hab
            rw [Mesh.halo_eq_of_metadata hab.2.2, (hrec a ha).1]
            omega)
        have h4 := forall2_trans
          (T := fun (_ b1 : BuildHalo) => b1.mesh_.halo = nb_elems)
          (fun _ _ _ _ hbc => hbc) hgrow hkeep2
        refine forall2_imp_mem h4 ?_
        intro a b ha _ hab
        rw [hab]
        have := hh a ha
        omega
    · rw [h] at hcall
      simp [Outcome.fatal, Outcome.done] at hcall

/-- C2, idempotence. On every task whose recorded halo depth is at least the requested
depth `nb_elems`, `BuildHalo::operator()` leaves the node count, the cell count and the
recorded depth unchanged, whatever the call does on the other tasks (when the depth is
larger than `nb_elems` the loop is skipped and only the renumbering runs). When every
task records exactly `nb_elems`, the call returns at once and changes nothing at all.
After a completed call, a second call with the same depth leaves the node count, the cell
count and the recorded depth of every task unchanged, and it changes nothing at all when
no task recorded more than `nb_elems` before the first call. -/
theorem BuildHalo_call_idempotent (X : Externals) (nb_elems : Int) (w : List BuildHalo) :
    (∀ (r : Nat) (b : BuildHalo), w[r]? = some b → nb_elems ≤ b.mesh_.halo →
      ∃ b1, (BuildHalo_call X nb_elems w).state[r]? = some b1 ∧
        b1.mesh_.nodes.length = b.mesh_.nodes.length ∧
        b1.mesh_.nb_cells = b.mesh_.nb_cells ∧
        b1.mesh_.halo = b.mesh_.halo) ∧
    ((∀ b ∈ w, b.mesh_.halo = nb_elems) → BuildHalo_call X nb_elems w = Outcome.done w) ∧
    (∀ w1, BuildHalo_call X nb_elems w = Outcome.done w1 →
      (∀ (r : Nat) (b1 : BuildHalo), w1[r]? = some b1 →
        ∃ b2, (BuildHalo_call X nb_elems w1).state[r]? = some b2 ∧
          b2.mesh_.nodes.length = b1.mesh_.nodes.length ∧
          b2.mesh_.nb_cells = b1.mesh_.nb_cells ∧
          b2.mesh_.halo = b1.mesh_.halo) ∧
      ((∀ b ∈ w, b.mesh_.halo ≤ nb_elems) →
        BuildHalo_call X nb_elems w1 = Outcome.done w1)) := by
  have hall : ∀ (w : List BuildHalo), (∀ b ∈ w, b.mesh_.halo = nb_elems) →
      BuildHalo_call X nb_elems w = Outcome.done w := by
    intro w hw
    cases w with
    | nil => rfl
    | cons root rest =>
      rcases BuildHalo_call_cases X nb_elems root rest with ⟨_, h⟩ | ⟨n, hh, _⟩ | ⟨⟨b, hb, hne⟩, _⟩
      · exact h
      · exact absurd (hw root (List.mem_cons_self _ _)) (hh root (List.mem_cons_self _ _)).1
      · exfalso
        apply hne
        rw [(BuildHalo_plan_none_iff nb_elems b).mpr (hw b hb),
          (BuildHalo_plan_none_iff nb_elems root).mpr (hw root (List.mem_cons_self _ _))]
  have hfirst : ∀ (w : List BuildHalo) (r : Nat) (b : BuildHalo), w[r]? = some b →
      nb_elems ≤ b.mesh_.halo →
      ∃ b1, (BuildHalo_call X nb_elems w).state[r]? = some b1 ∧
        b1.mesh_.nodes.length = b.mesh_.nodes.length ∧
        b1.mesh_.nb_cells = b.mesh_.nb_cells ∧
        b1.mesh_.halo = b.mesh_.halo := by
    intro w r b hb hle
    cases w with
    | nil => simp at hb
    | cons root rest =>
      have hmem := first_mem_getElem? _ r b hb
      rcases BuildHalo_call_cases X nb_elems root rest with ⟨_, h⟩ | ⟨n, hh, h⟩ | ⟨_, h⟩
      · rw [h]
        exact ⟨b, hb, rfl, rfl, rfl⟩
      · have hn : n = 0 := by
          have := hh b hmem
          omega
        subst hn
        rw [h]
        have hloop : BuildHalo_loop X 0 root.mesh_.halo (root :: rest)
            = Outcome.done (root :: rest) := rfl
        rw [hloop, Outcome.done_bind]
        obtain ⟨b1, hb1, hk⟩ := forall2_getElem?
          (renumber_keeps X.sort_entities (root :: rest)) r b hb
        exact ⟨b1, hb1, hk.1, hk.2.1, Mesh.halo_eq_of_metadata hk.2.2⟩
      · rw [h]
        exact ⟨b, hb, rfl, rfl, rfl⟩
  refine ⟨hfirst w, hall w, ?_⟩
  intro w1 hcall
  have hhalo := BuildHalo_call_done_halo X nb_elems w w1 hcall
  constructor
  · intro r b1 hb1
    apply hfirst w1 r b1 hb1
    obtain ⟨b, _, hb⟩ := forall2_getElem?_right hhalo r b1 hb1
    rw [hb]
    exact le_max_right _ _
  · intro hle
    apply hall w1
    intro b1 hb1
    obtain ⟨r, hr, hget⟩ := List.mem_iff_getElem.mp hb1
    obtain ⟨b, hb, hb2⟩ := forall2_getElem?_right hhalo r b1
      (by rw [List.getElem?_eq_getElem hr, hget])
    rw [hb2]
    exact max_eq_right (hle b (first_mem_getElem? _ r b hb))

/-! ### C3 -/

theorem exchange_pass_nil (X : Externals)
    (locate : Nat → BuildHaloHelper → Outcome BuildHaloHelper)
    (request : Nat → BuildHaloHelper → List Int)
    (pack : Nat → BuildHaloHelper → List (List Int) → Except Error Buffers)
    (periodic : Bool) : exchange_pass X locate request pack periodic [] = Outcome.done [] := by
  simp [exchange_pass, first_error, all_to_all, Outcome.done]

theorem BuildHalo_iteration_nil (X : Externals) (jhalo : Int) :
    BuildHalo_iteration X jhalo [] = Outcome.done [] := by
  unfold BuildHalo_iteration increase_halo_interior increase_halo_periodic
  simp only [List.map_nil, exchange_pass_nil, Outcome.done_bind]
  rfl

theorem BuildHalo_call_all_same (X : Externals) (nb_elems h : Int) (w : List BuildHalo)
    (hh : ∀ b ∈ w, b.mesh_.halo = h) (hd : h < nb_elems) :
    BuildHalo_call X nb_elems w =
      (BuildHalo_loop X (nb_elems - h).toNat h w).bind (fun w1 =>
        Outcome.done
          (make_cells_global_index_human_readable X.sort_entities false
            (make_nodes_global_index_human_readable X.sort_entities false w1))) := by
  cases w with
  | nil =>
    have hloop : ∀ n j, BuildHalo_loop X n j [] = Outcome.done [] := by
      intro n
      induction n with
      | zero => intro j; rfl
      | succ n ih =>
        intro j
        rw [BuildHalo_loop]
        rw [BuildHalo_iteration_nil, Outcome.done_bind, ih]
    rw [hloop]
    rfl
  | cons root rest =>
    have hroot := hh root (List.mem_cons_self _ _)
    rcases BuildHalo_call_cases X nb_elems root rest with ⟨h1, _⟩ | ⟨n, h1, h2⟩ | ⟨⟨b, hb, hne⟩, _⟩
    · have := h1 root (List.mem_cons_self _ _)
      omega
    · have := (h1 root (List.mem_cons_self _ _)).2
      rw [hroot] at this h2
      rw [this]
      exact h2
    · exfalso
      apply hne
      unfold BuildHalo_plan
      rw [hh b hb, hroot]

/-- C3, growth iterations and metadata. When every task records the halo depth `h` (0
when the key is absent) and `h < nb_elems`, the call is exactly `nb_elems - h` iterations
of the loop, ended only by an exception, followed by the two renumberings. Whenever the
first `k >= 1` iterations complete, every task has `halo = h + k` and
`nb_nodes_including_halo[h + k]` equal to its node count at that moment. When the call
completes, each of the `nb_elems - h` iterations has completed, the node count recorded
by the `k`-th one is still stored under its key, and every task has
`halo = nb_elems`. -/
theorem BuildHalo_call_iterations (X : Externals) (nb_elems h : Int) (w : List BuildHalo)
    (hh : ∀ b ∈ w, b.mesh_.halo = h) (hd : h < nb_elems) :
    BuildHalo_call X nb_elems w =
      (BuildHalo_loop X (nb_elems - h).toNat h w).bind (fun wn =>
        Outcome.done
          (make_cells_global_index_human_readable X.sort_entities false
            (make_nodes_global_index_human_readable X.sort_entities false wn))) ∧
    (∀ (k : Nat) (wk : List BuildHalo), 1 ≤ k → BuildHalo_loop X k h w = Outcome.done wk →
      ∀ bk ∈ wk, bk.mesh_.halo = h + k ∧
        Metadata_get bk.mesh_.metadata (MetaKey.nb_nodes_including_halo (h + k))
          = some (bk.mesh_.nodes.length : Int)) ∧
    (∀ w1, BuildHalo_call X nb_elems w = Outcome.done w1 →
      (∀ k : Nat, 1 ≤ k → k ≤ (nb_elems - h).toNat →
        ∃ wk, BuildHalo_loop X k h w = Outcome.done wk ∧
          ∀ (r : Nat) (bk : BuildHalo), wk[r]? = some bk →
            ∃ b1, w1[r]? = some b1 ∧
              Metadata_get b1.mesh_.metadata (MetaKey.nb_nodes_including_halo (h + k))
                = some (bk.mesh_.nodes.length : Int)) ∧
      (∀ b1 ∈ w1, b1.mesh_.halo = nb_elems)) := by
  have hrecords : ∀ (k : Nat) (wk : List BuildHalo), 1 ≤ k →
      BuildHalo_loop X k h w = Outcome.done wk →
      ∀ bk ∈ wk, bk.mesh_.halo = h + k ∧
        Metadata_get bk.mesh_.metadata (MetaKey.nb_nodes_including_halo (h + k))
          = some (bk.mesh_.nodes.length : Int) := by
    intro k wk hk1 hloop bk hbk
    obtain ⟨k1, rfl⟩ : ∃ k1, k = k1 + 1 := ⟨k - 1, by omega⟩
    obtain ⟨herr, hst⟩ := (Outcome.eq_done _ _).mp hloop
    have hrec := BuildHalo_loop_records X k1 h w herr bk (by rw [hst]; exact hbk)
    have hcast : h + ((k1 + 1 : Nat) : Int) = h + ((k1 : Int) + 1) := by push_cast; rfl
    rw [hcast]
    exact hrec
  refine ⟨BuildHalo_call_all_same X nb_elems h w hh hd, hrecords, ?_⟩
  intro w1 hcall
  have hcall0 := hcall
  rw [BuildHalo_call_all_same X nb_elems h w hh hd] at hcall
  obtain ⟨hcerr, hcstate⟩ := (Outcome.eq_done _ _).mp hcall
  obtain ⟨hloop, _, h3⟩ := Outcome.bind_error_none _ _ hcerr
  rw [h3] at hcstate
  simp only [Outcome.done] at hcstate
  have hkeep := renumber_keeps X.sort_entities (BuildHalo_loop X (nb_elems - h).toNat h w).state
  rw [hcstate] at hkeep
  refine ⟨?_, ?_⟩
  · intro k hk1 hk2
    obtain ⟨m, hm⟩ : ∃ m, (nb_elems - h).toNat = k + m := ⟨(nb_elems - h).toNat - k, by omega⟩
    rw [hm, BuildHalo_loop_add] at hloop hkeep
    obtain ⟨hk_ok, hm_ok, hst⟩ := Outcome.bind_error_none _ _ hloop
    rw [hst] at hkeep
    have hdone : BuildHalo_loop X k h w = Outcome.done (BuildHalo_loop X k h w).state :=
      (Outcome.eq_done _ _).mpr ⟨hk_ok, rfl⟩
    refine ⟨_, hdone, ?_⟩
    intro r bk hbk
    have hrec := hrecords k _ hk1 hdone bk (first_mem_getElem? _ r bk hbk)
    have hcounts := BuildHalo_loop_keeps_counts X m (h + (k : Int)) _ hm_ok
    obtain ⟨bn, hbn, hbn2⟩ := forall2_getElem? hcounts r bk hbk
    obtain ⟨b1, hb1, hb12⟩ := forall2_getElem? hkeep r bn hbn
    refine ⟨b1, hb1, ?_⟩
    rw [hb12.2.2, hbn2 _ (le_refl _)]
    exact hrec.2
  · intro b1 hb1
    have hhalo := BuildHalo_call_done_halo X nb_elems w w1 hcall0
    obtain ⟨r, hr, hget⟩ := List.mem_iff_getElem.mp hb1
    obtain ⟨b, hb, hb2⟩ := forall2_getElem?_right hhalo r b1
      (by rw [List.getElem?_eq_getElem hr, hget])
    rw [hb2, hh b (first_mem_getElem? _ r b hb)]
    exact max_eq_right (le_of_lt hd)

/-! ### C4 -/

/-- C4, monotonic growth. For every state of the tasks and depths `depth1 < depth2`, when
both calls complete, every task has at least as many nodes after
`BuildHalo::operator()(depth2)` as after `BuildHalo::operator()(depth1)`. No pass, interior
or periodic (WEST and EAST are `increase_halo_periodic` with their transform and flags),
lowers the node count or the cell count of a task, whatever its outcome. -/
theorem BuildHalo_monotonic_growth (X : Externals) :
    (∀ (w w1 w2 : List BuildHalo) (depth1 depth2 : Int), depth1 < depth2 →
      BuildHalo_call X depth1 w = Outcome.done w1 →
      BuildHalo_call X depth2 w = Outcome.done w2 →
      ∀ (r : Nat) (b1 b2 : BuildHalo), w1[r]? = some b1 → w2[r]? = some b2 →
        b1.mesh_.nodes.length ≤ b2.mesh_.nodes.length) ∧
    (∀ (helpers : List BuildHaloHelper) (r : Nat) (h : BuildHaloHelper),
      helpers[r]? = some h →
      ∃ h1, (increase_halo_interior X helpers).state[r]? = some h1 ∧
        h.mesh.nodes.length ≤ h1.mesh.nodes.length ∧ h.mesh.nb_cells ≤ h1.mesh.nb_cells) ∧
    (∀ (periodic_points : List PeriodicPoints) (transform : Rat) (newflags : Nat)
      (helpers : List BuildHaloHelper) (r : Nat) (h : BuildHaloHelper),
      helpers[r]? = some h →
      ∃ h1, (increase_halo_periodic X periodic_points transform newflags helpers).state[r]?
          = some h1 ∧
        h.mesh.nodes.length ≤ h1.mesh.nodes.length ∧ h.mesh.nb_cells ≤ h1.mesh.nb_cells) := by
  refine ⟨?_, ?_, ?_⟩
  · intro w w1 w2 depth1 depth2 hlt hcall1 hcall2 r b1 b2 hb1 hb2
    have hgrow2 := BuildHalo_call_counts X depth2 w
    rw [hcall2] at hgrow2
    simp only [Outcome.done] at hgrow2
    -- the state of the first call on which the second one builds
    cases w with
    | nil =>
      rw [BuildHalo_call_nil] at hcall1
      have := ((Outcome.eq_done _ _).mp hcall1).2
      simp only [Outcome.done] at this
      rw [← this] at hb1
      simp at hb1
    | cons root rest =>
      rcases BuildHalo_call_cases X depth1 root rest with ⟨_, h⟩ | ⟨n, hh, h⟩ | ⟨_, h⟩
      · rw [h] at hcall1
        have := ((Outcome.eq_done _ _).mp hcall1).2
        simp only [Outcome.done] at this
        rw [← this] at hb1
        obtain ⟨b2', hb2', hle⟩ := forall2_getElem? hgrow2 r b1 hb1
        rw [hb2] at hb2'
        cases hb2'
        exact hle.1
      · cases n with
        | zero =>
          rw [h] at hcall1
          have hloop : BuildHalo_loop X 0 root.mesh_.halo (root :: rest)
              = Outcome.done (root :: rest) := rfl
          rw [hloop, Outcome.done_bind] at hcall1
          have hw1 := ((Outcome.eq_done _ _).mp hcall1).2
          simp only [Outcome.done] at hw1
          have hkeep := renumber_keeps X.sort_entities (root :: rest)
          rw [hw1] at hkeep
          obtain ⟨b, hb, hk⟩ := forall2_getElem?_right hkeep r b1 hb1
          obtain ⟨b2', hb2', hle⟩ := forall2_getElem? hgrow2 r b hb
          rw [hb2] at hb2'
          cases hb2'
          rw [hk.1]
          exact hle.1
        | succ n =>
          have hroot := hh root (List.mem_cons_self _ _)
          have hsame : ∀ b ∈ root :: rest, b.mesh_.halo = root.mesh_.halo := by
            intro b hb
            have := hh b hb
            omega
          have hd1 : root.mesh_.halo < depth1 := by omega
          rw [BuildHalo_call_all_same X depth1 root.mesh_.halo _ hsame hd1] at hcall1
          rw [BuildHalo_call_all_same X depth2 root.mesh_.halo _ hsame (by omega)] at hcall2
          obtain ⟨m, hm⟩ : ∃ m, (depth2 - root.mesh_.halo).toNat
              = (depth1 - root.mesh_.halo).toNat + m :=
            ⟨(depth2 - root.mesh_.halo).toNat - (depth1 - root.mesh_.halo).toNat, by omega⟩
          rw [hm, BuildHalo_loop_add] at hcall2
          obtain ⟨he1, hs1⟩ := (Outcome.eq_done _ _).mp hcall1
          obtain ⟨he2, hs2⟩ := (Outcome.eq_done _ _).mp hcall2
          obtain ⟨hl1, _, hst1⟩ := Outcome.bind_error_none _ _ he1
          obtain ⟨hl2, _, hst2⟩ := Outcome.bind_error_none _ _ he2
          obtain ⟨_, _, hst3⟩ := Outcome.bind_error_none _ _ hl2
          rw [hst1] at hs1
          rw [hst2, hst3] at hs2
          simp only [Outcome.done] at hs1 hs2
          have hk1 := renumber_keeps X.sort_entities
            (BuildHalo_loop X (depth1 - root.mesh_.halo).toNat root.mesh_.halo
              (root :: rest)).state
          rw [hs1] at hk1
          have hk2 := renumber_keeps X.sort_entities
            (BuildHalo_loop X m (root.mesh_.halo + ((depth1 - root.mesh_.halo).toNat : Int))
              (BuildHalo_loop X (depth1 - root.mesh_.halo).toNat root.mesh_.halo
                (root :: rest)).state).state
          rw [hs2] at hk2
          have hg := BuildHalo_loop_counts X m
            (root.mesh_.halo + ((depth1 - root.mesh_.halo).toNat : Int))
            (BuildHalo_loop X (depth1 - root.mesh_.halo).toNat root.mesh_.halo
              (root :: rest)).state
          obtain ⟨bq, hbq, hq⟩ := forall2_getElem?_right hk1 r b1 hb1
          obtain ⟨bp, hbp, hp⟩ := forall2_getElem? hg r bq hbq
          obtain ⟨b2', hb2', hq2⟩ := forall2_getElem? hk2 r bp hbp
          rw [hb2] at hb2'
          cases hb2'
          rw [hq.1, hq2.1]
          exact hp.1
      · rw [h] at hcall1
        simp [Outcome.fatal, Outcome.done] at hcall1
  · intro helpers r h hh
    obtain ⟨h1, hh1, hext⟩ := forall2_getElem? (increase_halo_interior_extended X helpers) r h hh
    exact ⟨h1, hh1, Mesh.extended_by_nb_nodes hext, Mesh.extended_by_nb_cells hext⟩
  · intro pp transform newflags helpers r h hh
    obtain ⟨h1, hh1, hext⟩ := forall2_getElem?
      (increase_halo_periodic_extended X pp transform newflags helpers) r h hh
    exact ⟨h1, hh1, Mesh.extended_by_nb_nodes hext, Mesh.extended_by_nb_cells hext⟩

/-! ### The first exception among the tasks -/

theorem first_error_of_getElem? (l : List (Option Error)) (r : Nat) (e : Error)
    (hr : l[r]? = some (some e)) :
    ∃ r1 e1, r1 ≤ r ∧ l[r1]? = some (some e1) ∧ first_error l = some e1 ∧
      ∀ r2, r2 < r1 → l[r2]? = some none := by
  induction l generalizing r with
  | nil => simp at hr
  | cons a t ih =>
    cases a with
    | some e0 => exact ⟨0, e0, Nat.zero_le _, by simp, rfl, fun r2 h2 => by omega⟩
    | none =>
      cases r with
      | zero => simp at hr
      | succ r =>
        simp only [List.getElem?_cons_succ] at hr
        obtain ⟨r1, e1, h1, h2, h3, h4⟩ := ih r hr
        refine ⟨r1 + 1, e1, by omega, by simpa using h2, by simpa [first_error] using h3, ?_⟩
        intro r2 hr2
        cases r2 with
        | zero => simp
        | succ r2 =>
          simp only [List.getElem?_cons_succ]
          exact h4 r2 (by omega)

/-! ### The message of the duplicate-node error -/

theorem duplicate_note_named (X : Externals) (mesh : Mesh) (k k1 : Nat)
    (hk : k < mesh.nodes.length) (hk1 : k1 < mesh.nodes.length) (hne : k1 ≠ k)
    (huid : compute_uid X mesh k1 = compute_uid X mesh k) :
    (mesh.nodes.getD k default).glb_idx ∈
      (Error.duplicate_node
        ((List.range mesh.nodes.length).filterMap (duplicate_note X mesh))).named_glb_idx := by
  unfold Error.named_glb_idx
  rw [List.mem_flatMap]
  cases hfirst : first_node_with_uid X mesh k (compute_uid X mesh k) with
  | some o =>
    refine ⟨{ uid := compute_uid X mesh k,
              glb_idx := (mesh.nodes.getD k default).glb_idx,
              xy := mesh.xy k,
              other_glb_idx := (mesh.nodes.getD o default).glb_idx,
              other_xy := mesh.xy o },
      List.mem_filterMap.mpr ⟨k, List.mem_range.mpr hk, ?_⟩, ?_⟩
    · simp [duplicate_note, hfirst]
    · simp
  | none =>
    have hnone := (first_node_with_uid_none_iff X mesh k _).mp hfirst
    have hlt : k < k1 := by
      rcases Nat.lt_or_gt_of_ne hne with h | h
      · exact absurd huid (hnone k1 h)
      · exact h
    cases hfirst1 : first_node_with_uid X mesh k1 (compute_uid X mesh k1) with
    | none =>
      exact absurd huid.symm ((first_node_with_uid_none_iff X mesh k1 _).mp hfirst1 k hlt)
    | some o =>
      obtain ⟨h1, h2, h3⟩ := first_node_with_uid_some X mesh k1 _ o hfirst1
      have ho : o = k := by
        by_contra hc
        rcases Nat.lt_or_gt_of_ne hc with h | h
        · exact hnone o h (h2.trans huid)
        · exact h3 k h huid.symm
      subst ho
      refine ⟨{ uid := compute_uid X mesh k1,
                glb_idx := (mesh.nodes.getD k1 default).glb_idx,
                xy := mesh.xy k1,
                other_glb_idx := (mesh.nodes.getD o default).glb_idx,
                other_xy := mesh.xy o },
        List.mem_filterMap.mpr ⟨k1, List.mem_range.mpr hk1, ?_⟩, ?_⟩
      · simp [duplicate_note, hfirst1]
      · simp

theorem build_lookup_uid2node_error_cases (X : Externals) (mesh : Mesh) :
    (mesh.distinct_uids X ∧ (build_lookup_uid2node X mesh).error = none) ∨
    (¬ mesh.distinct_uids X ∧ (build_lookup_uid2node X mesh).error
      = some (Error.duplicate_node
          ((List.range mesh.nodes.length).filterMap (duplicate_note X mesh)))) := by
  rw [build_lookup_uid2node_eq]
  by_cases hd : mesh.distinct_uids X
  · left
    refine ⟨hd, ?_⟩
    simp [(duplicate_notes_empty_iff X mesh).mpr hd]
  · right
    refine ⟨hd, ?_⟩
    have hne : (List.range mesh.nodes.length).filterMap (duplicate_note X mesh) ≠ [] :=
      fun hc => hd ((duplicate_notes_empty_iff X mesh).mp hc)
    have hne2 : ((List.range mesh.nodes.length).filterMap (duplicate_note X mesh)).isEmpty
        = false := by
      simpa [List.isEmpty_iff] using hne
    simp [hne2]

/-! ### An exception before the first collective call of the first pass -/

theorem exchange_pass_locate_error (X : Externals)
    (locate : Nat → BuildHaloHelper → Outcome BuildHaloHelper)
    (request : Nat → BuildHaloHelper → List Int)
    (pack : Nat → BuildHaloHelper → List (List Int) → Except Error Buffers)
    (periodic : Bool) (helpers : List BuildHaloHelper) (e : Error)
    (he : first_error ((helpers.enum.map (fun rh => locate rh.1 rh.2)).map Outcome.error)
      = some e) :
    exchange_pass X locate request pack periodic helpers
      = Outcome.fatal ((helpers.enum.map (fun rh => locate rh.1 rh.2)).map Outcome.state) e := by
  unfold exchange_pass
  simp only [he]

theorem map_enum_map {α β : Type} (f : α → β) (l : List α) :
    l.enum.map (fun rh => f rh.2) = l.map f := by
  have : (fun (rh : Nat × α) => f rh.2) = f ∘ Prod.snd := rfl
  rw [this, ← List.map_map, List.enum_map_snd]

theorem BuildHalo_iteration_locate_error (X : Externals) (jhalo : Int) (w : List BuildHalo)
    (e : Error)
    (he : first_error (w.map (fun b => (build_lookup_uid2node X b.mesh_).error)) = some e) :
    BuildHalo_iteration X jhalo w = Outcome.fatal w e := by
  have herr : first_error
      ((((w.map (fun b => BuildHaloHelper.create b.mesh_)).enum.map
        (fun rh => (fun (_ : Nat) h => increase_halo_interior_locate X h) rh.1 rh.2))).map
          Outcome.error) = some e := by
    rw [map_enum_map (increase_halo_interior_locate X), List.map_map, List.map_map]
    rw [← he]
    congr 1
    apply List.map_congr_left
    intro b _
    exact increase_halo_interior_locate_create_error X b.mesh_
  have hint : increase_halo_interior X (w.map (fun b => BuildHaloHelper.create b.mesh_))
      = Outcome.fatal (((w.map (fun b => BuildHaloHelper.create b.mesh_)).enum.map
        (fun rh => increase_halo_interior_locate X rh.2)).map Outcome.state) e :=
    exchange_pass_locate_error X _ _ _ _ _ e herr
  unfold BuildHalo_iteration
  simp only [hint, Outcome.fatal, Outcome.bind]
  congr 1
  rw [map_enum_map (increase_halo_interior_locate X), List.map_map, List.map_map,
    zipWith_map_right_same]
  conv_rhs => rw [← List.map_id w]
  apply List.map_congr_left
  intro b _
  simp only [Function.comp, increase_halo_interior_locate_mesh]
  rfl

theorem BuildHalo_until_collective_error (X : Externals) (nb_elems : Int) (b : BuildHalo) :
    (∀ n, BuildHalo_plan nb_elems b = some (n + 1) →
      (BuildHalo_until_collective X nb_elems b).error = (build_lookup_uid2node X b.mesh_).error) ∧
    ((BuildHalo_until_collective X nb_elems b).error = none ∨
      (BuildHalo_until_collective X nb_elems b).error
        = (build_lookup_uid2node X b.mesh_).error) := by
  unfold BuildHalo_until_collective
  split
  · refine ⟨fun _ _ => ?_, Or.inr ?_⟩
    · exact increase_halo_interior_locate_create_error X b.mesh_
    · exact increase_halo_interior_locate_create_error X b.mesh_
  · rename_i hne
    refine ⟨fun n hn => ?_, Or.inl rfl⟩
    exact absurd hn (hne n)

/-- C6, duplicate nodes are fatal. Let the mesh of task `r` have two distinct nodes `i`,
`j` with the same identifier, and let `nb_elems` be greater than its recorded depth. Then
`build_lookup_uid2node` throws on that mesh the duplicate-node error, whose message names
the global indices of both nodes; the call of `BuildHalo::operator()` ends with a
duplicate-node error, which is the one of task `r` when no task of lower rank has colliding
nodes; and the state of all tasks at that point is the initial one: no node or cell was
added and no metadata written. -/
theorem BuildHalo_call_duplicate_node (X : Externals) (nb_elems : Int) (w : List BuildHalo)
    (r : Nat) (b : BuildHalo) (i j : Nat) (hb : w[r]? = some b)
    (hi : i < b.mesh_.nodes.length) (hj : j < b.mesh_.nodes.length) (hij : i ≠ j)
    (huid : compute_uid X b.mesh_ i = compute_uid X b.mesh_ j)
    (hd : b.mesh_.halo < nb_elems) :
    (∃ notes, (build_lookup_uid2node X b.mesh_).error = some (Error.duplicate_node notes) ∧
      (b.mesh_.nodes.getD i default).glb_idx ∈ (Error.duplicate_node notes).named_glb_idx ∧
      (b.mesh_.nodes.getD j default).glb_idx ∈ (Error.duplicate_node notes).named_glb_idx) ∧
    (∃ e, (BuildHalo_call X nb_elems w).error = some e ∧ e.is_duplicate_node = true) ∧
    ((∀ (r1 : Nat) (b1 : BuildHalo), r1 < r → w[r1]? = some b1 → b1.mesh_.distinct_uids X) →
      (BuildHalo_call X nb_elems w).error = (build_lookup_uid2node X b.mesh_).error) ∧
    (BuildHalo_call X nb_elems w).state = w := by
  have hnd : ¬ b.mesh_.distinct_uids X := fun hc => hij (hc i hi j hj huid)
  have herr_b : (build_lookup_uid2node X b.mesh_).error
      = some (Error.duplicate_node
          ((List.range b.mesh_.nodes.length).filterMap (duplicate_note X b.mesh_))) := by
    rcases build_lookup_uid2node_error_cases X b.mesh_ with ⟨h1, _⟩ | ⟨_, h2⟩
    · exact absurd h1 hnd
    · exact h2
  -- the errors of the tasks, in rank order, for a list of per-task results `errs`
  have hkey : ∀ (errs : List (Option Error)),
      errs[r]? = some (build_lookup_uid2node X b.mesh_).error →
      (∀ (r1 : Nat) (x : Option Error), errs[r1]? = some x →
        ∃ b1, w[r1]? = some b1 ∧
          (x = none ∨ x = (build_lookup_uid2node X b1.mesh_).error)) →
      ∃ e, first_error errs = some e ∧ e.is_duplicate_node = true ∧
        ((∀ (r1 : Nat) (b1 : BuildHalo), r1 < r → w[r1]? = some b1 →
            b1.mesh_.distinct_uids X) →
          some e = (build_lookup_uid2node X b.mesh_).error) := by
    intro errs hr hall
    rw [herr_b] at hr
    obtain ⟨r1, e1, h1, h2, h3, h4⟩ := first_error_of_getElem? errs r _ hr
    obtain ⟨b1, hb1, hx⟩ := hall r1 (some e1) h2
    have hx2 : some e1 = (build_lookup_uid2node X b1.mesh_).error := by
      rcases hx with h | h
      · cases h
      · exact h
    refine ⟨e1, h3, ?_, ?_⟩
    · rcases build_lookup_uid2node_error_cases X b1.mesh_ with ⟨_, h5⟩ | ⟨_, h5⟩
      · rw [h5] at hx2; cases hx2
      · rw [h5] at hx2
        cases hx2
        rfl
    · intro hbefore
      rcases Nat.lt_or_ge r1 r with hlt | hge
      · exfalso
        have hdist := hbefore r1 b1 hlt hb1
        rcases build_lookup_uid2node_error_cases X b1.mesh_ with ⟨_, h5⟩ | ⟨h5, _⟩
        · rw [h5] at hx2; cases hx2
        · exact h5 hdist
      · have : r1 = r := by omega
        subst this
        rw [hb] at hb1
        cases hb1
        exact hx2
  refine ⟨⟨_, herr_b, ?_, ?_⟩, ?_⟩
  · exact duplicate_note_named X b.mesh_ i j hi hj (fun h => hij h.symm) huid.symm
  · exact duplicate_note_named X b.mesh_ j i hj hi hij huid
  cases w with
  | nil => simp at hb
  | cons root rest =>
    have hmem := first_mem_getElem? _ r b hb
    rcases BuildHalo_call_cases X nb_elems root rest with ⟨h1, _⟩ | ⟨n, hh, h⟩ | ⟨_, h⟩
    · have := h1 b hmem
      omega
    · obtain ⟨n1, rfl⟩ : ∃ n1, n = n1 + 1 := ⟨n - 1, by have := hh b hmem; omega⟩
      obtain ⟨e, he1, he2, he3⟩ := hkey
        ((root :: rest).map (fun b => (build_lookup_uid2node X b.mesh_).error))
        (by rw [List.getElem?_map, hb]; rfl)
        (by
          intro r1 x hx
          rw [List.getElem?_map] at hx
          cases hw : (root :: rest)[r1]? with
          | none => rw [hw] at hx; cases hx
          | some b1 =>
            rw [hw] at hx
            exact ⟨b1, rfl, Or.inr (Option.some.inj hx).symm⟩)
      have hcall : BuildHalo_call X nb_elems (root :: rest) = Outcome.fatal (root :: rest) e := by
        rw [h, BuildHalo_loop, BuildHalo_iteration_locate_error X _ _ e he1]
        rfl
      rw [hcall]
      exact ⟨⟨e, rfl, he2⟩, he3, rfl⟩
    · obtain ⟨e, he1, he2, he3⟩ := hkey
        ((root :: rest).map (fun b => (BuildHalo_until_collective X nb_elems b).error))
        (by
          rw [List.getElem?_map, hb]
          simp only [Option.map_some', Option.some.injEq]
          have hp : BuildHalo_plan nb_elems b
              = some ((nb_elems - b.mesh_.halo).toNat - 1 + 1) := by
            rw [BuildHalo_plan_some_iff]
            omega
          exact (BuildHalo_until_collective_error X nb_elems b).1 _ hp)
        (by
          intro r1 x hx
          rw [List.getElem?_map] at hx
          cases hw : (root :: rest)[r1]? with
          | none => rw [hw] at hx; cases hx
          | some b1 =>
            rw [hw] at hx
            refine ⟨b1, rfl, ?_⟩
            have hx := (Option.some.inj hx).symm
            rw [hx]
            exact (BuildHalo_until_collective_error X nb_elems b1).2)
      rw [h, he1]
      exact ⟨⟨e, rfl, he2⟩, he3, rfl⟩

/-! ### Insertion sort is a `std::sort` -/

theorem entity_insertion_sort_isStdSort : IsStdSort entity_insertion_sort := by
  intro l
  refine ⟨List.perm_insertionSort _ l, ?_⟩
  have hs : List.Sorted (fun (a b : Entity) => a.g ≤ b.g)
      (l.insertionSort (fun a b => a.g ≤ b.g)) := by
    haveI : IsTotal Entity (fun a b => a.g ≤ b.g) := ⟨fun a b => le_total a.g b.g⟩
    haveI : IsTrans Entity (fun a b => a.g ≤ b.g) := ⟨fun a b c h1 h2 => le_trans h1 h2⟩
    exact List.sorted_insertionSort _ l
  exact hs.imp (fun h => not_lt.mpr h)


theorem add_nodes_no_duplicate_uids_witness :
    example_helper.mesh.distinct_uids example_externals ∧
    (add_nodes example_externals 2 example_helper example_received false).error = none ∧
    (add_nodes example_externals 2 example_helper example_received
      false).state.mesh.distinct_uids example_externals ∧
    (add_nodes example_externals 2 example_helper example_received
      false).state.mesh.nodes.length = 6 :=
  ⟨by decide, by decide,
    add_nodes_no_duplicate_uids example_externals 2 example_helper example_received false
      (by decide) (by decide),
    by decide⟩

theorem BuildHalo_call_iterations_witness :
    (∀ b ∈ example_world, b.mesh_.halo = 0) ∧
    (BuildHalo_call example_externals 2 example_world).error = none ∧
    ((BuildHalo_call example_externals 2 example_world).state.map
      (fun b => b.mesh_.halo)) = [2, 2] ∧
    BuildHalo_call example_externals 2 example_world =
      (BuildHalo_loop example_externals (2 - 0 : Int).toNat 0 example_world).bind (fun wn =>
        Outcome.done
          (make_cells_global_index_human_readable example_externals.sort_entities false
            (make_nodes_global_index_human_readable example_externals.sort_entities false
              wn))) :=
  ⟨by decide, by decide, by decide,
    (BuildHalo_call_iterations example_externals 2 0 example_world
      (by decide) (by decide)).1⟩

theorem BuildHalo_call_duplicate_node_witness :
    (BuildHalo_call example_externals 1
      [{ mesh_ := example_duplicate_mesh, periodic_points_local_index_ := [],
         periodic_cells_local_index_ := [] }]).state
      = [{ mesh_ := example_duplicate_mesh, periodic_points_local_index_ := [],
           periodic_cells_local_index_ := [] }] ∧
    (BuildHalo_call example_externals 1
      [{ mesh_ := example_duplicate_mesh, periodic_points_local_index_ := [],
         periodic_cells_local_index_ := [] }]).error
      = some (Error.duplicate_node
          [{ uid := 1001, glb_idx := 9, xy := { x := 1, y := 0 },
             other_glb_idx := 7, other_xy := { x := 1, y := 0 } }]) :=
  ⟨(BuildHalo_call_duplicate_node example_externals 1
      [{ mesh_ := example_duplicate_mesh, periodic_points_local_index_ := [],
         periodic_cells_local_index_ := [] }] 0
      { mesh_ := example_duplicate_mesh, periodic_points_local_index_ := [],
        periodic_cells_local_index_ := [] } 0 1
      (by decide) (by decide) (by decide) (by decide) (by decide) (by decide)).2.2.2,
    by decide⟩

theorem renumbering_assigns_dense_ranks_witness :
    (make_nodes_global_index_human_readable entity_insertion_sort false
      example_renumber_world).map (fun b => b.mesh_.nodes_glb_idx)
      = [[1, 2, 12, 13], [3, 12, 11]] ∧
    ∃ b1, (make_nodes_global_index_human_readable entity_insertion_sort false
        example_renumber_world)[1]? = some b1 ∧
      b1.mesh_.nodes_glb_idx[2]? = some
        (new_glb_idx (nodes_glb_idx_max false example_renumber_world)
          (gathered_glb_idx (nodes_fields false example_renumber_world)) (-9)) :=
  ⟨by decide,
    (renumbering_assigns_dense_ranks entity_insertion_sort entity_insertion_sort_isStdSort
      false example_renumber_world).1 1
      { mesh_ :=
         { nodes := [example_node 3 1 0 2 0, example_node (-7) 0 2 0 1,
                     example_node (-9) 1 1 2 1],
           cells := [{ nb_nodes := 4,
                       cells := [{ glb_idx := 40, part := 0, halo := 1, patch := 0,
                                   nodes := [0, 1, 2, 2] }] }],
           metadata := [],
           nodes_global_index_metadata := { max := some 10, human_readable := none },
           cells_global_index_metadata := { max := some 2, human_readable := none } },
        periodic_points_local_index_ := [1, 2],
        periodic_cells_local_index_ := [0] } 2 (by decide) (by decide) (by decide)⟩

theorem renumbering_frame_witness :
    (make_cells_global_index_human_readable entity_insertion_sort false
      example_renumber_world).map (fun b => b.mesh_.cells_glb_idx) = [[1, 3], [3]] ∧
    nodes_glb_idx_max false example_renumber_world = 10 ∧
    cells_glb_idx_max false example_renumber_world
      = ((example_renumber_world.head?.map
          (fun b => b.mesh_.cells_global_index_metadata.max)).getD none).getD 0 :=
  ⟨by decide, by decide,
    (renumbering_frame entity_insertion_sort entity_insertion_sort_isStdSort false
      example_renumber_world).2.2.2⟩

theorem renumbering_idempotent_witness :
    edits_in_range (nodes_fields false example_renumber_world) ∧
    edits_in_range (cells_fields false example_renumber_world) ∧
    make_nodes_global_index_human_readable entity_insertion_sort false
        (make_nodes_global_index_human_readable entity_insertion_sort false
          example_renumber_world)
      = make_nodes_global_index_human_readable entity_insertion_sort false
          example_renumber_world ∧
    make_cells_global_index_human_readable entity_insertion_sort false
        (make_cells_global_index_human_readable entity_insertion_sort false
          example_renumber_world)
      = make_cells_global_index_human_readable entity_insertion_sort false
          example_renumber_world :=
  ⟨by decide, by decide,
    renumbering_idempotent entity_insertion_sort entity_insertion_sort
      entity_insertion_sort_isStdSort entity_insertion_sort_isStdSort false
      example_renumber_world (by decide) (by decide)⟩

/-! ### The periodic transforms -/

/-! ### Ordered sets -/

/-- A list is the content of a `std::set`: ascending, without repetition. -/
theorem set_insert_spec {α : Type} [LinearOrder α] (s : List α) (v : α)
    (hs : s.Sorted (fun a b => a < b)) :
    (set_insert s v).1.Sorted (fun a b => a < b) ∧ ∀ u, u ∈ (set_insert s v).1 ↔ u = v ∨ u ∈ s := by
  unfold set_insert
  by_cases hv : v ∈ s
  · simp only [hv, if_true]
    refine ⟨hs, fun u => ?_⟩
    constructor
    · exact fun h => Or.inr h
    · rintro (h | h)
      · rw [h]; exact hv
      · exact h
  · simp only [hv, if_false]
    refine ⟨?_, fun u => List.mem_orderedInsert _⟩
    have hle : (s.orderedInsert (fun a b => a ≤ b) v).Sorted (fun a b => a ≤ b) :=
      List.Sorted.orderedInsert v s hs.le_of_lt
    have hnd : (s.orderedInsert (fun a b => a ≤ b) v).Nodup := by
      have hp := List.perm_orderedInsert (fun a b : α => a ≤ b) v s
      exact hp.nodup_iff.mpr (List.nodup_cons.mpr ⟨hv, hs.nodup⟩)
    exact hle.lt_of_le hnd

theorem foldl_set_insert_spec {α β : Type} [LinearOrder α] (f : β → α) (l : List β) :
    ∀ (s : List α), s.Sorted (fun a b => a < b) →
      (l.foldl (fun s x => (set_insert s (f x)).1) s).Sorted (fun a b => a < b) ∧
      ∀ u, u ∈ l.foldl (fun s x => (set_insert s (f x)).1) s ↔ (∃ x ∈ l, f x = u) ∨ u ∈ s := by
  induction l with
  | nil => intro s hs; simp [hs]
  | cons x t ih =>
    intro s hs
    obtain ⟨h1, h2⟩ := set_insert_spec s (f x) hs
    obtain ⟨h3, h4⟩ := ih _ h1
    refine ⟨h3, fun u => ?_⟩
    rw [List.foldl_cons, h4 u, h2 u]
    simp only [List.mem_cons, exists_eq_or_imp]
    constructor
    · rintro (h | h | h)
      · exact Or.inl (Or.inr h)
      · exact Or.inl (Or.inl h.symm)
      · exact Or.inr h
    · rintro ((h | h) | h)
      · exact Or.inr (Or.inl h.symm)
      · exact Or.inl h
      · exact Or.inr (Or.inr h)

theorem foldl_erase_spec {α : Type} [DecidableEq α] [LinearOrder α] (l : List α) :
    ∀ (s : List α), s.Sorted (fun a b => a < b) →
      (l.foldl (fun s x => s.erase x) s).Sorted (fun a b => a < b) ∧
      ∀ u, u ∈ l.foldl (fun s x => s.erase x) s ↔ u ∈ s ∧ u ∉ l := by
  induction l with
  | nil => intro s hs; simp [hs]
  | cons x t ih =>
    intro s hs
    have h1 : (s.erase x).Sorted (fun a b => a < b) := hs.sublist (List.erase_sublist x s)
    obtain ⟨h3, h4⟩ := ih _ h1
    refine ⟨h3, fun u => ?_⟩
    rw [List.foldl_cons, h4 u, hs.nodup.mem_erase_iff]
    simp only [List.mem_cons, not_or]
    tauto

theorem sorted_lt_ext {α : Type} [LinearOrder α] (l1 l2 : List α)
    (h1 : l1.Sorted (fun a b => a < b)) (h2 : l2.Sorted (fun a b => a < b))
    (h : ∀ u, u ∈ l1 ↔ u ∈ l2) : l1 = l2 :=
  List.eq_of_perm_of_sorted ((List.perm_ext_iff_of_nodup h1.nodup h2.nodup).mpr h) h1 h2

/-! ### `build_lookup_node2elem` -/

theorem node2elem_push_spec (e : Nat) (nodes : List Nat) :
    ∀ (n2e : List (List Nat)),
      (nodes.foldl (fun acc node => acc.modify (fun l => l ++ [e]) node) n2e).length = n2e.length ∧
      ∀ (i x : Nat), i < n2e.length →
        (x ∈ (nodes.foldl (fun acc node => acc.modify (fun l => l ++ [e]) node) n2e).getD i [] ↔
          x ∈ n2e.getD i [] ∨ (x = e ∧ i ∈ nodes)) := by
  induction nodes with
  | nil => intro n2e; simp
  | cons node rest ih =>
    intro n2e
    obtain ⟨h1, h2⟩ := ih (n2e.modify (fun l => l ++ [e]) node)
    rw [List.length_modify] at h1 h2
    refine ⟨h1, ?_⟩
    intro i x hi
    rw [List.foldl_cons, h2 i x hi]
    have hget : (n2e.modify (fun l => l ++ [e]) node).getD i []
        = if node = i then n2e.getD i [] ++ [e] else n2e.getD i [] := by
      rw [List.getD_eq_getElem?_getD, List.getElem?_modify, List.getD_eq_getElem?_getD,
        List.getElem?_eq_getElem hi]
      by_cases hn : node = i <;> simp [hn]
    rw [hget]
    by_cases hn : node = i
    · simp only [hn, if_true, List.mem_append, List.mem_singleton, List.mem_cons, true_or,
        and_true]
      tauto
    · simp only [hn, if_false, List.mem_cons]
      have : i ≠ node := fun h => hn h.symm
      tauto

theorem node2elem_fold_spec : ∀ (cells : List Cell) (k : Nat) (n2e : List (List Nat)),
    ((cells.enumFrom k).foldl
        (fun n2e ec =>
          if ec.2.patch = 0 then
            ec.2.nodes.foldl (fun acc node => acc.modify (fun l => l ++ [ec.1]) node) n2e
          else n2e) n2e).length = n2e.length ∧
    ∀ (i x : Nat), i < n2e.length →
      (x ∈ ((cells.enumFrom k).foldl
          (fun n2e ec =>
            if ec.2.patch = 0 then
              ec.2.nodes.foldl (fun acc node => acc.modify (fun l => l ++ [ec.1]) node) n2e
            else n2e) n2e).getD i [] ↔
        x ∈ n2e.getD i [] ∨
          ∃ c, k ≤ x ∧ cells[x - k]? = some c ∧ c.patch = 0 ∧ i ∈ c.nodes) := by
  intro cells
  induction cells with
  | nil => intro k n2e; simp
  | cons c rest ih =>
    intro k n2e
    rw [List.enumFrom_cons, List.foldl_cons]
    by_cases hp : c.patch = 0
    · simp only [hp, if_true]
      obtain ⟨a1, a2⟩ := node2elem_push_spec k c.nodes n2e
      obtain ⟨b1, b2⟩ := ih (k + 1)
        (c.nodes.foldl (fun acc node => acc.modify (fun l => l ++ [k]) node) n2e)
      rw [a1] at b1 b2
      refine ⟨b1, ?_⟩
      intro i x hi
      rw [b2 i x hi, a2 i x hi]
      constructor
      · rintro ((h | ⟨h1, h2⟩) | ⟨c1, h1, h2, h3, h4⟩)
        · exact Or.inl h
        · exact Or.inr ⟨c, by omega, by simp [h1], hp, h2⟩
        · refine Or.inr ⟨c1, by omega, ?_, h3, h4⟩
          have e : x - k = (x - (k + 1)) + 1 := by omega
          rw [e, List.getElem?_cons_succ]
          exact h2
      · rintro (h | ⟨c1, h1, h2, h3, h4⟩)
        · exact Or.inl (Or.inl h)
        · by_cases hx : x = k
          · subst hx
            simp only [Nat.sub_self, List.getElem?_cons_zero, Option.some.injEq] at h2
            subst h2
            exact Or.inl (Or.inr ⟨rfl, h4⟩)
          · refine Or.inr ⟨c1, by omega, ?_, h3, h4⟩
            have e : x - k = (x - (k + 1)) + 1 := by omega
            rw [e, List.getElem?_cons_succ] at h2
            exact h2
    · simp only [hp, if_false]
      obtain ⟨b1, b2⟩ := ih (k + 1) n2e
      refine ⟨b1, ?_⟩
      intro i x hi
      rw [b2 i x hi]
      constructor
      · rintro (h | ⟨c1, h1, h2, h3, h4⟩)
        · exact Or.inl h
        · refine Or.inr ⟨c1, by omega, ?_, h3, h4⟩
          have e : x - k = (x - (k + 1)) + 1 := by omega
          rw [e, List.getElem?_cons_succ]
          exact h2
      · rintro (h | ⟨c1, h1, h2, h3, h4⟩)
        · exact Or.inl h
        · by_cases hx : x = k
          · subst hx
            simp only [Nat.sub_self, List.getElem?_cons_zero, Option.some.injEq] at h2
            subst h2
            exact absurd h3 hp
          · refine Or.inr ⟨c1, by omega, ?_, h3, h4⟩
            have e : x - k = (x - (k + 1)) + 1 := by omega
            rw [e, List.getElem?_cons_succ] at h2
            exact h2

/-- The lookup `node2elem` of a mesh: one list per node, holding the cells that are not
patched and have the node. -/
theorem build_lookup_node2elem_spec (mesh : Mesh) :
    (build_lookup_node2elem mesh).length = mesh.nodes.length ∧
    ∀ (i e : Nat), i < mesh.nodes.length →
      (e ∈ (build_lookup_node2elem mesh).getD i [] ↔
        e < mesh.nb_cells ∧ (mesh.cell e).patch = 0 ∧ i ∈ (mesh.cell e).nodes) := by
  obtain ⟨h1, h2⟩ := node2elem_fold_spec mesh.all_cells 0 (List.replicate mesh.nodes.length [])
  rw [List.length_replicate] at h1 h2
  refine ⟨h1, ?_⟩
  intro i e hi
  unfold build_lookup_node2elem
  simp only [List.enum]
  rw [h2 i e hi]
  have hrep : (List.replicate mesh.nodes.length ([] : List Nat)).getD i [] = [] := by
    rw [List.getD_eq_getElem?_getD, List.getElem?_replicate]
    split <;> rfl
  rw [hrep]
  simp only [List.not_mem_nil, false_or, Nat.sub_zero, Nat.zero_le, true_and]
  unfold Mesh.nb_cells Mesh.cell
  constructor
  · rintro ⟨c, h3, h4, h5⟩
    have hlt : e < mesh.all_cells.length := by
      by_contra hc
      rw [List.getElem?_eq_none (by omega)] at h3
      cases h3
    have : mesh.all_cells.getD e default = c := by
      rw [List.getD_eq_getElem?_getD, h3]; rfl
    rw [this]
    exact ⟨hlt, h4, h5⟩
  · rintro ⟨h3, h4, h5⟩
    refine ⟨mesh.all_cells.getD e default, ?_, h4, h5⟩
    rw [List.getD_eq_getElem?_getD, List.getElem?_eq_getElem h3]
    rfl

/-! ### `accumulate_elements` -/

theorem accumulate_owned_spec (mesh : Mesh) (mpi_rank : Nat) (l : List Nat) :
    ∀ (s : List Nat), s.Sorted (fun a b => a < b) →
      (l.foldl (fun s e => if (mesh.cell e).part = (mpi_rank : Int) then (set_insert s e).1 else s)
        s).Sorted (fun a b => a < b) ∧
      ∀ x, x ∈ l.foldl
          (fun s e => if (mesh.cell e).part = (mpi_rank : Int) then (set_insert s e).1 else s) s ↔
        (x ∈ l ∧ (mesh.cell x).part = (mpi_rank : Int)) ∨ x ∈ s := by
  induction l with
  | nil => intro s hs; simp [hs]
  | cons e t ih =>
    intro s hs
    rw [List.foldl_cons]
    by_cases hp : (mesh.cell e).part = (mpi_rank : Int)
    · simp only [hp, if_true]
      obtain ⟨h1, h2⟩ := set_insert_spec s e hs
      obtain ⟨h3, h4⟩ := ih _ h1
      refine ⟨h3, fun x => ?_⟩
      rw [h4 x, h2 x]
      simp only [List.mem_cons]
      constructor
      · rintro (⟨h, h5⟩ | h | h)
        · exact Or.inl ⟨Or.inr h, h5⟩
        · exact Or.inl ⟨Or.inl h, by rw [h]; exact hp⟩
        · exact Or.inr h
      · rintro (⟨h | h, h5⟩ | h)
        · exact Or.inr (Or.inl h)
        · exact Or.inl ⟨h, h5⟩
        · exact Or.inr (Or.inr h)
    · simp only [hp, if_false]
      obtain ⟨h3, h4⟩ := ih _ hs
      refine ⟨h3, fun x => ?_⟩
      rw [h4 x]
      simp only [List.mem_cons]
      constructor
      · rintro (⟨h, h5⟩ | h)
        · exact Or.inl ⟨Or.inr h, h5⟩
        · exact Or.inr h
      · rintro (⟨h | h, h5⟩ | h)
        · rw [h] at h5; exact absurd h5 hp
        · exact Or.inl ⟨h, h5⟩
        · exact Or.inr h

theorem accumulate_found_spec (mpi_rank : Nat) (mesh : Mesh) (uid2node : Uid2Node)
    (node2elem : List (List Nat)) (request : List Int) :
    ∀ (s : List Nat), s.Sorted (fun a b => a < b) →
      (request.foldl
        (fun s uid =>
          match uid2node_find uid2node uid with
          | some inode =>
            if inode < node2elem.length then
              (node2elem.getD inode []).foldl
                (fun s e => if (mesh.cell e).part = (mpi_rank : Int) then (set_insert s e).1 else s) s
            else s
          | none => s) s).Sorted (fun a b => a < b) ∧
      ∀ x, x ∈ request.foldl
        (fun s uid =>
          match uid2node_find uid2node uid with
          | some inode =>
            if inode < node2elem.length then
              (node2elem.getD inode []).foldl
                (fun s e => if (mesh.cell e).part = (mpi_rank : Int) then (set_insert s e).1 else s) s
            else s
          | none => s) s ↔
        (∃ uid ∈ request, found_around mpi_rank mesh uid2node node2elem uid x) ∨ x ∈ s := by
  induction request with
  | nil => intro s hs; simp [hs]
  | cons uid t ih =>
    intro s hs
    rw [List.foldl_cons]
    cases hf : uid2node_find uid2node uid with
    | none =>
      simp only []
      obtain ⟨h3, h4⟩ := ih s hs
      refine ⟨h3, fun x => ?_⟩
      rw [h4 x]
      simp only [List.mem_cons, exists_eq_or_imp]
      have : ¬ found_around mpi_rank mesh uid2node node2elem uid x := by
        rintro ⟨inode, h, _⟩
        rw [hf] at h
        cases h
      simp only [this, false_or]
    | some inode =>
      simp only []
      by_cases hlt : inode < node2elem.length
      · simp only [hlt, if_true]
        obtain ⟨h1, h2⟩ := accumulate_owned_spec mesh mpi_rank (node2elem.getD inode []) s hs
        obtain ⟨h3, h4⟩ := ih _ h1
        refine ⟨h3, fun x => ?_⟩
        rw [h4 x, h2 x]
        simp only [List.mem_cons, exists_eq_or_imp]
        have : found_around mpi_rank mesh uid2node node2elem uid x ↔
            (x ∈ node2elem.getD inode [] ∧ (mesh.cell x).part = (mpi_rank : Int)) := by
          constructor
          · rintro ⟨i2, h, _, h5, h6⟩
            rw [hf] at h
            cases h
            exact ⟨h5, h6⟩
          · rintro ⟨h5, h6⟩
            exact ⟨inode, hf, hlt, h5, h6⟩
        rw [this]
        constructor
        · rintro (h | h | h)
          · exact Or.inl (Or.inr h)
          · exact Or.inl (Or.inl h)
          · exact Or.inr h
        · rintro ((h | h) | h)
          · exact Or.inr (Or.inl h)
          · exact Or.inl h
          · exact Or.inr (Or.inr h)
      · simp only [hlt, if_false]
        obtain ⟨h3, h4⟩ := ih s hs
        refine ⟨h3, fun x => ?_⟩
        rw [h4 x]
        simp only [List.mem_cons, exists_eq_or_imp]
        have : ¬ found_around mpi_rank mesh uid2node node2elem uid x := by
          rintro ⟨i2, h, h5, _⟩
          rw [hf] at h
          cases h
          exact hlt h5
        simp only [this, false_or]

theorem accumulate_elements_found (X : Externals) (mpi_rank : Nat) (mesh : Mesh)
    (request : List Int) (uid2node : Uid2Node) (node2elem : List (List Nat)) :
    (accumulate_elements X mpi_rank mesh request uid2node node2elem).1.Sorted
        (fun a b => a < b) ∧
    ∀ x, x ∈ (accumulate_elements X mpi_rank mesh request uid2node node2elem).1 ↔
      ∃ uid ∈ request, found_around mpi_rank mesh uid2node node2elem uid x := by
  obtain ⟨h1, h2⟩ := accumulate_found_spec mpi_rank mesh uid2node node2elem request []
    List.sorted_nil
  refine ⟨h1, fun x => ?_⟩
  have := h2 x
  simp only [List.not_mem_nil, or_false] at this
  exact this

theorem collect_nodes_spec (X : Externals) (mesh : Mesh) (found : List Nat) :
    ∀ (s : List Int), s.Sorted (fun a b => a < b) →
      (found.foldl
        (fun s e => (mesh.cell e).nodes.foldl (fun s n => (set_insert s (compute_uid X mesh n)).1) s)
        s).Sorted (fun a b => a < b) ∧
      ∀ u, u ∈ found.foldl
        (fun s e => (mesh.cell e).nodes.foldl (fun s n => (set_insert s (compute_uid X mesh n)).1) s)
        s ↔
        (∃ e ∈ found, ∃ n ∈ (mesh.cell e).nodes, compute_uid X mesh n = u) ∨ u ∈ s := by
  induction found with
  | nil => intro s hs; simp [hs]
  | cons e t ih =>
    intro s hs
    rw [List.foldl_cons]
    obtain ⟨h1, h2⟩ := foldl_set_insert_spec (compute_uid X mesh) (mesh.cell e).nodes s hs
    obtain ⟨h3, h4⟩ := ih _ h1
    refine ⟨h3, fun u => ?_⟩
    rw [h4 u, h2 u]
    simp only [List.mem_cons, exists_eq_or_imp]
    constructor
    · rintro (h | h | h)
      · exact Or.inl (Or.inr h)
      · exact Or.inl (Or.inl h)
      · exact Or.inr h
    · rintro ((h | h) | h)
      · exact Or.inr (Or.inl h)
      · exact Or.inl h
      · exact Or.inr (Or.inr h)

theorem accumulate_elements_payload (X : Externals) (mpi_rank : Nat) (mesh : Mesh)
    (request : List Int) (uid2node : Uid2Node) (node2elem : List (List Nat)) :
    (accumulate_elements X mpi_rank mesh request uid2node node2elem).2.Sorted
        (fun a b => a < b) ∧
    ∀ u, u ∈ (accumulate_elements X mpi_rank mesh request uid2node node2elem).2 ↔
      (∃ e ∈ (accumulate_elements X mpi_rank mesh request uid2node node2elem).1,
        ∃ n ∈ (mesh.cell e).nodes, compute_uid X mesh n = u) ∧ u ∉ request := by
  obtain ⟨h1, h2⟩ := collect_nodes_spec X mesh
    (accumulate_elements X mpi_rank mesh request uid2node node2elem).1 [] List.sorted_nil
  obtain ⟨h3, h4⟩ := foldl_erase_spec request _ h1
  refine ⟨h3, fun u => ?_⟩
  have := h4 u
  rw [h2 u] at this
  simp only [List.not_mem_nil, or_false] at this
  exact this

/-- C13, `accumulate_elements` resolves the cells. For every request list the cells
returned are in ascending order without repetition, and cell `e` is returned exactly when
for some requested identifier `uid2node` holds a node within `node2elem` whose list has
`e`, and the partition of `e` is the own rank. A requested identifier that `uid2node` does
not hold contributes nothing: dropping the unknown identifiers gives the same cells.
With the lookups built from a mesh with distinct identifiers, `e` is returned exactly when
it is a cell of the mesh, is not a patch cell, has the partition of the own rank and has a
node whose identifier is requested. -/
theorem accumulate_elements_resolves_elements (X : Externals) (mpi_rank : Nat) (mesh : Mesh)
    (request : List Int) (uid2node : Uid2Node) (node2elem : List (List Nat)) :
    (accumulate_elements X mpi_rank mesh request uid2node node2elem).1.Sorted
        (fun a b => a < b) ∧
    (∀ e, e ∈ (accumulate_elements X mpi_rank mesh request uid2node node2elem).1 ↔
      ∃ uid ∈ request, ∃ inode, uid2node_find uid2node uid = some inode ∧
        inode < node2elem.length ∧ e ∈ node2elem.getD inode [] ∧
        (mesh.cell e).part = (mpi_rank : Int)) ∧
    (accumulate_elements X mpi_rank mesh request uid2node node2elem).1
      = (accumulate_elements X mpi_rank mesh
          (request.filter (fun uid => (uid2node_find uid2node uid).isSome))
          uid2node node2elem).1 ∧
    (mesh.distinct_uids X →
      ∀ e, e ∈ (accumulate_elements X mpi_rank mesh request (build_lookup_uid2node X mesh).state
          (build_lookup_node2elem mesh)).1 ↔
        e < mesh.nb_cells ∧ (mesh.cell e).patch = 0 ∧ (mesh.cell e).part = (mpi_rank : Int) ∧
          ∃ n ∈ (mesh.cell e).nodes, n < mesh.nodes.length ∧ compute_uid X mesh n ∈ request) := by
  obtain ⟨h1, h2⟩ := accumulate_elements_found X mpi_rank mesh request uid2node node2elem
  refine ⟨h1, h2, ?_, ?_⟩
  · obtain ⟨h3, h4⟩ := accumulate_elements_found X mpi_rank mesh
      (request.filter (fun uid => (uid2node_find uid2node uid).isSome)) uid2node node2elem
    apply sorted_lt_ext _ _ h1 h3
    intro e
    rw [h2 e, h4 e]
    constructor
    · rintro ⟨uid, hu, inode, hf, hr⟩
      refine ⟨uid, ?_, inode, hf, hr⟩
      rw [List.mem_filter]
      exact ⟨hu, by rw [hf]; rfl⟩
    · rintro ⟨uid, hu, hr⟩
      exact ⟨uid, (List.mem_filter.mp hu).1, hr⟩
  · intro hd e
    obtain ⟨h3, h4⟩ := accumulate_elements_found X mpi_rank mesh request
      (build_lookup_uid2node X mesh).state (build_lookup_node2elem mesh)
    obtain ⟨hlen, hmem⟩ := build_lookup_node2elem_spec mesh
    have hstate : (build_lookup_uid2node X mesh).state
        = (List.range mesh.nodes.length).filterMap (uid2node_entry X mesh) := by
      rw [build_lookup_uid2node_eq]
    rw [h4 e]
    constructor
    · rintro ⟨uid, hu, inode, hf, hlt, hin, hpart⟩
      rw [hstate, uid2node_find_entries] at hf
      obtain ⟨hj, hju, _⟩ := first_node_with_uid_some X mesh _ uid inode hf
      obtain ⟨a, b, c⟩ := (hmem inode e hj).mp hin
      exact ⟨a, b, hpart, inode, c, hj, by rw [hju]; exact hu⟩
    · rintro ⟨a, b, hpart, n, hn, hlt, hu⟩
      refine ⟨compute_uid X mesh n, hu, n, ?_, by rw [hlen]; exact hlt,
        (hmem n e hlt).mpr ⟨a, b, hn⟩, hpart⟩
      rw [hstate, uid2node_find_entries]
      cases hf : first_node_with_uid X mesh mesh.nodes.length (compute_uid X mesh n) with
      | none =>
        exact absurd rfl ((first_node_with_uid_none_iff X mesh _ _).mp hf n hlt)
      | some j =>
        obtain ⟨hj, hju, _⟩ := first_node_with_uid_some X mesh _ _ j hf
        rw [hd j hj n hlt hju]

/-- C14, `accumulate_elements` resolves the nodes. The set `new_nodes_uid` is ascending
without repetition and holds exactly the identifiers of the nodes of the collected cells
that are not requested. So it holds no requested identifier, it is empty when no cell is
collected, and the identifier of every node of a collected cell is requested or in the
set. -/
theorem accumulate_elements_new_nodes (X : Externals) (mpi_rank : Nat) (mesh : Mesh)
    (request : List Int) (uid2node : Uid2Node) (node2elem : List (List Nat)) :
    (accumulate_elements X mpi_rank mesh request uid2node node2elem).2.Sorted
        (fun a b => a < b) ∧
    (∀ u, u ∈ (accumulate_elements X mpi_rank mesh request uid2node node2elem).2 ↔
      (∃ e ∈ (accumulate_elements X mpi_rank mesh request uid2node node2elem).1,
        ∃ n ∈ (mesh.cell e).nodes, compute_uid X mesh n = u) ∧ u ∉ request) ∧
    (∀ u ∈ request, u ∉ (accumulate_elements X mpi_rank mesh request uid2node node2elem).2) ∧
    ((accumulate_elements X mpi_rank mesh request uid2node node2elem).1 = [] →
      (accumulate_elements X mpi_rank mesh request uid2node node2elem).2 = []) ∧
    (∀ e ∈ (accumulate_elements X mpi_rank mesh request uid2node node2elem).1,
      ∀ n ∈ (mesh.cell e).nodes,
        compute_uid X mesh n ∈ request ∨
        compute_uid X mesh n ∈ (accumulate_elements X mpi_rank mesh request uid2node node2elem).2) := by
  obtain ⟨h1, h2⟩ := accumulate_elements_payload X mpi_rank mesh request uid2node node2elem
  refine ⟨h1, h2, ?_, ?_, ?_⟩
  · intro u hu hc
    exact ((h2 u).mp hc).2 hu
  · intro hnil
    rw [List.eq_nil_iff_forall_not_mem]
    intro u hu
    obtain ⟨⟨e, he, _⟩, _⟩ := (h2 u).mp hu
    rw [hnil] at he
    cases he
  · intro e he n hn
    by_cases hr : compute_uid X mesh n ∈ request
    · exact Or.inl hr
    · exact Or.inr ((h2 _).mpr ⟨⟨e, he, n, hn, rfl⟩, hr⟩)

/-! ### `fill_sendbuffer` -/

theorem getD_set_self {α : Type} (l : List α) (p : Nat) (v d : α) (hp : p < l.length) :
    (l.set p v).getD p d = v := by
  rw [List.getD_eq_getElem?_getD, List.getElem?_set_self hp]
  rfl

theorem getD_set_other {α : Type} (l : List α) (p q : Nat) (v d : α) (hpq : p ≠ q) :
    (l.set p v).getD q d = l.getD q d := by
  rw [List.getD_eq_getElem?_getD, List.getD_eq_getElem?_getD, List.getElem?_set_ne hpq]

theorem find_nodes_ok (m : Uid2Node) (p : Nat) : ∀ (uids : List Int) (found : List Nat),
    find_nodes m p uids = Except.ok found →
      List.Forall₂ (fun uid node => uid2node_find m uid = some node) uids found := by
  intro uids
  induction uids with
  | nil =>
    intro found h
    simp only [find_nodes, Except.ok.injEq] at h
    rw [← h]
    exact List.Forall₂.nil
  | cons uid rest ih =>
    intro found h
    simp only [find_nodes] at h
    cases hf : uid2node_find m uid with
    | none => rw [hf] at h; cases h
    | some node =>
      rw [hf] at h
      simp only [] at h
      cases hr : find_nodes m p rest with
      | error e => rw [hr] at h; cases h
      | ok nodes =>
        rw [hr] at h
        simp only [Except.ok.injEq] at h
        rw [← h]
        exact List.Forall₂.cons hf (ih nodes hr)

theorem find_nodes_isOk_iff (m : Uid2Node) (p : Nat) : ∀ (uids : List Int),
    (∃ found, find_nodes m p uids = Except.ok found) ↔
      ∀ uid ∈ uids, (uid2node_find m uid).isSome = true := by
  intro uids
  induction uids with
  | nil => simp [find_nodes]
  | cons uid rest ih =>
    simp only [find_nodes, List.mem_cons, forall_eq_or_imp]
    cases hf : uid2node_find m uid with
    | none => simp
    | some node =>
      simp only [Option.isSome_some, true_and]
      rw [← ih]
      cases hr : find_nodes m p rest with
      | error e => simp
      | ok nodes => simp

theorem find_nodes_error (m : Uid2Node) (p : Nat) : ∀ (uids : List Int) (e : Error),
    find_nodes m p uids = Except.error e →
      ∃ uid ∈ uids, uid2node_find m uid = none ∧ e = Error.node_not_found uid p := by
  intro uids
  induction uids with
  | nil => intro e h; simp [find_nodes] at h
  | cons uid rest ih =>
    intro e h
    simp only [find_nodes] at h
    cases hf : uid2node_find m uid with
    | none =>
      rw [hf] at h
      simp only [Except.error.injEq] at h
      exact ⟨uid, List.mem_cons_self _ _, hf, h.symm⟩
    | some node =>
      rw [hf] at h
      simp only [] at h
      cases hr : find_nodes m p rest with
      | error e1 =>
        rw [hr] at h
        simp only [Except.error.injEq] at h
        obtain ⟨u, hu, h1, h2⟩ := ih e1 hr
        exact ⟨u, List.mem_cons_of_mem _ hu, h1, by rw [← h]; exact h2⟩
      | ok nodes => rw [hr] at h; cases h

theorem getElem?_flatMap_pair {α β : Type} (f g : α → β) : ∀ (l : List α) (k : Nat),
    (l.flatMap (fun j => [f j, g j]))[k * 2]? = l[k]?.map f ∧
    (l.flatMap (fun j => [f j, g j]))[k * 2 + 1]? = l[k]?.map g := by
  intro l
  induction l with
  | nil => intro k; simp
  | cons a t ih =>
    intro k
    cases k with
    | zero => simp
    | succ k =>
      obtain ⟨h1, h2⟩ := ih k
      have e1 : (k + 1) * 2 = (k * 2 + 1) + 1 := by omega
      have e2 : (k + 1) * 2 + 1 = (k * 2 + 1 + 1) + 1 := by omega
      constructor
      · rw [e1]
        simp only [List.flatMap_cons, List.cons_append, List.nil_append,
          List.getElem?_cons_succ]
        exact h1
      · rw [e2]
        simp only [List.flatMap_cons, List.cons_append, List.nil_append,
          List.getElem?_cons_succ]
        exact h2

theorem length_flatMap_pair {α β : Type} (f g : α → β) (l : List α) :
    (l.flatMap (fun j => [f j, g j])).length = 2 * l.length := by
  induction l with
  | nil => rfl
  | cons a t ih =>
    simp only [List.flatMap_cons, List.cons_append, List.nil_append, List.length_cons, ih]
    omega

theorem topology_ghost_forced (f : Nat) :
    Topology_set Topology_NONE (f ||| Topology_GHOST) = f ||| Topology_GHOST ∧
    Topology_check (f ||| Topology_GHOST) Topology_GHOST = true ∧
    (∀ i, i ≠ 1 → (f ||| Topology_GHOST).testBit i = f.testBit i) ∧
    Topology_check (f ||| Topology_GHOST) Topology_PERIODIC
      = Topology_check f Topology_PERIODIC := by
  refine ⟨by simp [Topology_set, Topology_NONE], ?_, ?_, ?_⟩
  · simp only [Topology_check, Topology_GHOST, beq_iff_eq]
    apply Nat.eq_of_testBit_eq
    intro i
    simp only [Nat.testBit_and, Nat.testBit_or]
    cases Nat.testBit 2 i <;> simp
  · intro i hi
    simp only [Topology_GHOST, Nat.testBit_or]
    have : Nat.testBit 2 i = false := by
      have := Nat.testBit_two_pow_of_ne (n := 1) (m := i) (fun h => hi h.symm)
      simpa using this
    simp [this]
  · simp only [Topology_check, Topology_GHOST, Topology_PERIODIC]
    congr 1
    apply Nat.eq_of_testBit_eq
    intro i
    simp only [Nat.testBit_and, Nat.testBit_or]
    by_cases hi : i = 2
    · subst hi
      have h2 : Nat.testBit 2 2 = false := by decide
      rw [h2, Bool.or_false]
    · have : Nat.testBit 4 i = false := by
        have := Nat.testBit_two_pow_of_ne (n := 2) (m := i) (fun h => hi h.symm)
        simpa using this
      simp [this]

/-- The result of the interior `fill_sendbuffer`, field by field. -/
theorem length_resize_flags (v : List Nat) (n : Nat) : (resize_flags v n).length = n := by
  unfold resize_flags
  rw [List.length_append, List.length_take, List.length_replicate]
  omega

theorem getD_resize_flags (v : List Nat) (n k : Nat) (hk : k < n) :
    (resize_flags v n).getD k Topology_NONE = v.getD k Topology_NONE := by
  unfold resize_flags
  rw [List.getD_eq_getElem?_getD, List.getD_eq_getElem?_getD]
  by_cases hv : k < v.length
  · rw [List.getElem?_append_left (by rw [List.length_take]; omega), List.getElem?_take_of_lt hk]
  · rw [List.getElem?_append_right (by rw [List.length_take]; omega),
      List.getElem?_eq_none (Nat.le_of_not_lt hv), List.getElem?_replicate]
    split <;> rfl

/-- The flags that a packing step leaves at position `k`: the bits are set in the entry
that was there, or in `NONE` when the entry is new. -/
theorem getElem?_packed_flags {α : Type} (v : List Nat) (l : List α) (g : α → Nat) (k : Nat)
    (a : α) (hk : l[k]? = some a) :
    (List.zipWith (fun old j => Topology_set old (g j)) (resize_flags v l.length) l)[k]?
      = some (Topology_set (v.getD k Topology_NONE) (g a)) := by
  have hlt : k < l.length := by
    by_contra hc
    rw [List.getElem?_eq_none (by omega)] at hk
    cases hk
  rw [List.getElem?_zipWith, hk]
  have h1 : (resize_flags v l.length)[k]? = some ((resize_flags v l.length).getD k Topology_NONE) := by
    rw [List.getD_eq_getElem?_getD, List.getElem?_eq_getElem (by rw [length_resize_flags]; exact hlt)]
    rfl
  rw [h1, getD_resize_flags v l.length k hlt]

/-- In a vector that was empty the packing step sets the bits in `NONE`. -/
theorem packed_flags_of_empty {α : Type} (v : List Nat) (l : List α) (g : α → Nat) (n : Nat)
    (hv : v = []) (hn : l.length = n) :
    List.zipWith (fun old j => Topology_set old (g j)) (resize_flags v n) l
      = l.map (fun j => Topology_set Topology_NONE (g j)) := by
  subst hv hn
  apply List.ext_getElem?
  intro k
  cases hk : l[k]? with
  | none =>
    rw [List.getElem?_zipWith, hk, List.getElem?_map, hk]
    cases (resize_flags [] l.length)[k]? <;> rfl
  | some a =>
    rw [getElem?_packed_flags [] l g k a hk, List.getElem?_map, hk]
    rfl

theorem fill_sendbuffer_ok (X : Externals) (h : BuildHaloHelper) (buf : Buffers)
    (nodes_uid : List Int) (elems : List Nat) (p : Nat) (sb : Buffers)
    (hfill : fill_sendbuffer X h buf nodes_uid elems p = Except.ok sb) :
    ∃ found, find_nodes h.uid2node p nodes_uid = Except.ok found ∧
      sb =
      { node_glb_idx := buf.node_glb_idx.set p
          (found.map (fun j => (h.mesh.nodes.getD j default).glb_idx)),
        node_part := buf.node_part.set p (found.map (fun j => (h.mesh.nodes.getD j default).part)),
        node_ridx := buf.node_ridx.set p (found.map (fun j => (h.mesh.nodes.getD j default).ridx)),
        node_xy := buf.node_xy.set p
          (found.flatMap (fun j => [(h.mesh.nodes.getD j default).xy.x,
            (h.mesh.nodes.getD j default).xy.y])),
        node_flags := buf.node_flags.set p
          (List.zipWith
            (fun old j =>
              Topology_set old ((h.mesh.nodes.getD j default).flags ||| Topology_GHOST))
            (resize_flags (buf.node_flags.getD p []) nodes_uid.length) found),
        elem_glb_idx := buf.elem_glb_idx.set p (elems.map (fun e => (h.mesh.cell e).glb_idx)),
        elem_part := buf.elem_part.set p (elems.map (fun e => (h.mesh.cell e).part)),
        elem_type := buf.elem_type.set p (elems.map (fun e => h.mesh.type_idx e)),
        elem_nodes_id := buf.elem_nodes_id.set p
          (elems.flatMap (fun e => (h.mesh.cell e).nodes.map (compute_uid X h.mesh))),
        elem_nodes_displs := buf.elem_nodes_displs.set p
          (running_displs 0 (elems.map (fun e => (h.mesh.cell e).nodes.length))) } := by
  unfold fill_sendbuffer at hfill
  cases hf : find_nodes h.uid2node p nodes_uid with
  | error e => rw [hf] at hfill; cases hfill
  | ok found =>
    rw [hf] at hfill
    simp only [Except.ok.injEq] at hfill
    exact ⟨found, rfl, hfill.symm⟩

/-- C20, the interior `fill_sendbuffer` packs the nodes. Let the buffers have a vector
for task `p`. The call completes exactly when `uid2node` holds every identifier of
`nodes_uid`; otherwise it ends with the not-found failure for an identifier that is not
held. When it completes, the five node vectors for `p` have one entry per identifier
(two for the coordinates), and the entry for the `k`-th identifier holds the global index,
partition, remote index and coordinates of the node that `uid2node` holds for it. Its
flags with the GHOST bit are set in the entry that the resized vector of flags holds; when
that vector was empty, as in the new buffers of a pass, the entry is the flags of the node
with the GHOST bit: the GHOST bit is on and every other bit is that of the node. With
`uid2node` built from the mesh that node is a node of the mesh with the identifier. The
set of identifiers that the passes hand over is ascending. -/
theorem fill_sendbuffer_packs_nodes (X : Externals) (h : BuildHaloHelper) (buf : Buffers)
    (nodes_uid : List Int) (elems : List Nat) (p : Nat) (hslot : buf.has_slot p) :
    ((∃ sb, fill_sendbuffer X h buf nodes_uid elems p = Except.ok sb) ↔
      ∀ uid ∈ nodes_uid, (uid2node_find h.uid2node uid).isSome = true) ∧
    (∀ e, fill_sendbuffer X h buf nodes_uid elems p = Except.error e →
      ∃ uid ∈ nodes_uid, uid2node_find h.uid2node uid = none ∧
        e = Error.node_not_found uid p) ∧
    (∀ sb, fill_sendbuffer X h buf nodes_uid elems p = Except.ok sb →
      (sb.node_glb_idx.getD p []).length = nodes_uid.length ∧
      (sb.node_part.getD p []).length = nodes_uid.length ∧
      (sb.node_ridx.getD p []).length = nodes_uid.length ∧
      (sb.node_flags.getD p []).length = nodes_uid.length ∧
      (sb.node_xy.getD p []).length = 2 * nodes_uid.length ∧
      ∀ (k : Nat) (uid : Int), nodes_uid[k]? = some uid →
        ∃ node, uid2node_find h.uid2node uid = some node ∧
          (sb.node_glb_idx.getD p [])[k]? = some (h.mesh.nodes.getD node default).glb_idx ∧
          (sb.node_part.getD p [])[k]? = some (h.mesh.nodes.getD node default).part ∧
          (sb.node_ridx.getD p [])[k]? = some (h.mesh.nodes.getD node default).ridx ∧
          (sb.node_xy.getD p [])[k * 2]? = some (h.mesh.nodes.getD node default).xy.x ∧
          (sb.node_xy.getD p [])[k * 2 + 1]? = some (h.mesh.nodes.getD node default).xy.y ∧
          (sb.node_flags.getD p [])[k]?
            = some (Topology_set ((buf.node_flags.getD p []).getD k Topology_NONE)
                ((h.mesh.nodes.getD node default).flags ||| Topology_GHOST)) ∧
          (buf.node_flags.getD p [] = [] →
            (sb.node_flags.getD p [])[k]?
              = some ((h.mesh.nodes.getD node default).flags ||| Topology_GHOST)) ∧
          Topology_check ((h.mesh.nodes.getD node default).flags ||| Topology_GHOST)
            Topology_GHOST = true ∧
          ∀ i, i ≠ 1 →
            ((h.mesh.nodes.getD node default).flags ||| Topology_GHOST).testBit i
              = (h.mesh.nodes.getD node default).flags.testBit i) ∧
    (h.uid2node = (build_lookup_uid2node X h.mesh).state →
      ∀ (uid : Int) (node : Nat), uid2node_find h.uid2node uid = some node →
        node < h.mesh.nodes.length ∧ compute_uid X h.mesh node = uid) ∧
    (∀ (mpi_rank : Nat) (request : List Int),
      (accumulate_elements X mpi_rank h.mesh request h.uid2node h.node_to_elem).2.Sorted
        (fun a b => a < b)) := by
  obtain ⟨s1, s2, s3, s4, s5, _⟩ := hslot
  refine ⟨?_, ?_, ?_, ?_, ?_⟩
  · rw [← find_nodes_isOk_iff h.uid2node p nodes_uid]
    constructor
    · rintro ⟨sb, hsb⟩
      obtain ⟨found, hf, _⟩ := fill_sendbuffer_ok X h buf nodes_uid elems p sb hsb
      exact ⟨found, hf⟩
    · rintro ⟨found, hf⟩
      unfold fill_sendbuffer
      rw [hf]
      exact ⟨_, rfl⟩
  · intro e he
    apply find_nodes_error h.uid2node p nodes_uid e
    unfold fill_sendbuffer at he
    cases hf : find_nodes h.uid2node p nodes_uid with
    | error e1 =>
      rw [hf] at he
      simp only [Except.error.injEq] at he
      rw [he]
    | ok found => rw [hf] at he; cases he
  · intro sb hsb
    obtain ⟨found, hf, rfl⟩ := fill_sendbuffer_ok X h buf nodes_uid elems p sb hsb
    have hall := find_nodes_ok h.uid2node p nodes_uid found hf
    have hlen : found.length = nodes_uid.length := hall.length_eq.symm
    simp only [getD_set_self _ p _ _ s1, getD_set_self _ p _ _ s2, getD_set_self _ p _ _ s3,
      getD_set_self _ p _ _ s4, getD_set_self _ p _ _ s5, List.length_map, length_flatMap_pair,
      List.length_zipWith, length_resize_flags, hlen, Nat.min_self, true_and]
    intro k uid hk
    obtain ⟨node, hnode, hfind⟩ := forall2_getElem? hall k uid hk
    obtain ⟨hx, hy⟩ := getElem?_flatMap_pair
      (fun j => (h.mesh.nodes.getD j default).xy.x) (fun j => (h.mesh.nodes.getD j default).xy.y)
      found k
    obtain ⟨t1, t2, t3, _⟩ := topology_ghost_forced (h.mesh.nodes.getD node default).flags
    have hflags := getElem?_packed_flags (buf.node_flags.getD p []) found
      (fun j => (h.mesh.nodes.getD j default).flags ||| Topology_GHOST) k node hnode
    rw [hlen] at hflags
    refine ⟨node, hfind, ?_, ?_, ?_, ?_, ?_, hflags, ?_, t2, t3⟩
    · rw [List.getElem?_map, hnode]; rfl
    · rw [List.getElem?_map, hnode]; rfl
    · rw [List.getElem?_map, hnode]; rfl
    · rw [hx, hnode]; rfl
    · rw [hy, hnode]; rfl
    · intro hnew
      rw [hflags, hnew]
      simp only [List.getD_nil, t1]
  · intro hu uid node hfind
    rw [hu, build_lookup_uid2node_eq] at hfind
    simp only [] at hfind
    rw [uid2node_find_entries] at hfind
    obtain ⟨a, b, _⟩ := first_node_with_uid_some X h.mesh _ uid node hfind
    exact ⟨a, b⟩
  · intro mpi_rank request
    exact (accumulate_elements_payload X mpi_rank h.mesh request h.uid2node h.node_to_elem).1

/-! ### The selection loop keeps the first occurrence of every new identifier -/

theorem kept_entries_congr (old : List Int) (uid_at : Nat → Nat → Int) :
    ∀ (l : List (Nat × Nat)) (e1 e2 : List Int),
      (∀ u, (u ∈ old ∨ u ∈ e1) ↔ (u ∈ old ∨ u ∈ e2)) →
      kept_entries old uid_at l e1 = kept_entries old uid_at l e2 := by
  intro l
  induction l with
  | nil => intro e1 e2 _; rfl
  | cons p rest ih =>
    intro e1 e2 h
    have hrest : kept_entries old uid_at rest (uid_at p.1 p.2 :: e1)
        = kept_entries old uid_at rest (uid_at p.1 p.2 :: e2) := by
      apply ih
      intro u
      have := h u
      simp only [List.mem_cons]
      constructor
      · rintro (h1 | h1 | h1)
        · exact Or.inl h1
        · exact Or.inr (Or.inl h1)
        · rcases this.mp (Or.inr h1) with h2 | h2
          · exact Or.inl h2
          · exact Or.inr (Or.inr h2)
      · rintro (h1 | h1 | h1)
        · exact Or.inl h1
        · exact Or.inr (Or.inl h1)
        · rcases this.mpr (Or.inr h1) with h2 | h2
          · exact Or.inl h2
          · exact Or.inr (Or.inr h2)
    simp only [kept_entries, hrest, h (uid_at p.1 p.2)]

theorem kept_entries_append (old : List Int) (uid_at : Nat → Nat → Int) :
    ∀ (l1 l2 : List (Nat × Nat)) (e : List Int),
      kept_entries old uid_at (l1 ++ l2) e
        = kept_entries old uid_at l1 e
          ++ kept_entries old uid_at l2 ((l1.map (fun p => uid_at p.1 p.2)).reverse ++ e) := by
  intro l1
  induction l1 with
  | nil => intro l2 e; simp [kept_entries]
  | cons p rest ih =>
    intro l2 e
    have e1 : ((p :: rest).map (fun p => uid_at p.1 p.2)).reverse ++ e
        = (rest.map (fun p => uid_at p.1 p.2)).reverse ++ (uid_at p.1 p.2 :: e) := by
      simp
    rw [e1, List.cons_append]
    simp only [kept_entries, ih l2 (uid_at p.1 p.2 :: e)]
    split <;> simp

theorem select_new_kept (snapshot old : List Int) (hs : snapshot.Sorted (fun a b => a ≤ b))
    (hmem : ∀ u, u ∈ snapshot ↔ u ∈ old) (uid_at : Nat → Nat → Int) (j : Nat) :
    ∀ (ns : List Nat) (new_uid earlier : List Int),
      (∀ u, (u ∈ old ∨ u ∈ new_uid) ↔ (u ∈ old ∨ u ∈ earlier)) →
      (select_new snapshot (uid_at j) ns new_uid).1.map (fun n => (j, n))
        = kept_entries old uid_at (ns.map (fun n => (j, n))) earlier ∧
      ∀ u, (u ∈ old ∨ u ∈ (select_new snapshot (uid_at j) ns new_uid).2) ↔
        (u ∈ old ∨ u ∈ (ns.map (uid_at j)).reverse ++ earlier) := by
  intro ns
  induction ns with
  | nil => intro new_uid earlier h; simpa [select_new, kept_entries] using h
  | cons n rest ih =>
    intro new_uid earlier h
    simp only [select_new, List.map_cons, kept_entries]
    rw [already_exists_eq snapshot new_uid (uid_at j n) hs]
    have hcond : (uid_at j n ∈ snapshot ∨ uid_at j n ∈ new_uid) ↔
        (uid_at j n ∈ old ∨ uid_at j n ∈ earlier) := by
      rw [hmem]; exact h _
    have hrev : ∀ u, u ∈ ((uid_at j n :: rest.map (uid_at j)).reverse ++ earlier) ↔
        u ∈ (rest.map (uid_at j)).reverse ++ (uid_at j n :: earlier) := by
      intro u; simp
    by_cases hex : uid_at j n ∈ snapshot ∨ uid_at j n ∈ new_uid
    · have hex2 := hcond.mp hex
      simp only [hex, hex2, if_true]
      have hstep : ∀ u, (u ∈ old ∨ u ∈ new_uid) ↔ (u ∈ old ∨ u ∈ uid_at j n :: earlier) := by
        intro u
        rw [h u]
        simp only [List.mem_cons]
        constructor
        · rintro (h1 | h1)
          · exact Or.inl h1
          · exact Or.inr (Or.inr h1)
        · rintro (h1 | h1 | h1)
          · exact Or.inl h1
          · rw [h1]; exact hex2
          · exact Or.inr h1
      obtain ⟨a, b⟩ := ih new_uid (uid_at j n :: earlier) hstep
      refine ⟨a, fun u => ?_⟩
      rw [b u, hrev u]
    · have hex2 : ¬ (uid_at j n ∈ old ∨ uid_at j n ∈ earlier) := fun hc => hex (hcond.mpr hc)
      simp only [hex, hex2, if_false, Bool.false_eq_true, List.map_cons]
      have hstep : ∀ u, (u ∈ old ∨ u ∈ new_uid.orderedInsert (fun a b => a ≤ b) (uid_at j n)) ↔
          (u ∈ old ∨ u ∈ uid_at j n :: earlier) := by
        intro u
        rw [List.mem_orderedInsert]
        simp only [List.mem_cons]
        have := h u
        constructor
        · rintro (h1 | h1 | h1)
          · exact Or.inl h1
          · exact Or.inr (Or.inl h1)
          · rcases this.mp (Or.inr h1) with h2 | h2
            · exact Or.inl h2
            · exact Or.inr (Or.inr h2)
        · rintro (h1 | h1 | h1)
          · exact Or.inl h1
          · exact Or.inr (Or.inl h1)
          · rcases this.mpr (Or.inr h1) with h2 | h2
            · exact Or.inl h2
            · exact Or.inr (Or.inr h2)
      obtain ⟨a, b⟩ := ih _ (uid_at j n :: earlier) hstep
      refine ⟨by rw [a], fun u => ?_⟩
      rw [b u, hrev u]

theorem select_new_parts_kept (snapshot old : List Int)
    (hs : snapshot.Sorted (fun a b => a ≤ b)) (hmem : ∀ u, u ∈ snapshot ↔ u ∈ old)
    (count : Nat → Nat) (uid_at : Nat → Nat → Int) :
    ∀ (m k : Nat) (new_uid earlier : List Int),
      (∀ u, (u ∈ old ∨ u ∈ new_uid) ↔ (u ∈ old ∨ u ∈ earlier)) →
      ((select_new_parts snapshot count uid_at (List.range' k m) new_uid).enumFrom k).flatMap
          (fun jl => jl.2.map (fun n => (jl.1, n)))
        = kept_entries old uid_at
            ((List.range' k m).flatMap
              (fun jpart => (List.range (count jpart)).map (fun n => (jpart, n))))
            earlier := by
  intro m
  induction m with
  | zero => intro k new_uid earlier _; simp [select_new_parts, kept_entries]
  | succ m ih =>
    intro k new_uid earlier h
    rw [List.range'_succ]
    simp only [select_new_parts, List.enumFrom_cons, List.flatMap_cons]
    obtain ⟨a, b⟩ := select_new_kept snapshot old hs hmem uid_at k (List.range (count k))
      new_uid earlier h
    rw [kept_entries_append, a]
    congr 1
    rw [ih (k + 1) _ (((List.range (count k)).map (uid_at k)).reverse ++ earlier) b]
    congr 1
    simp [List.map_map, Function.comp_def]

theorem visit_order_select_new_parts (snapshot old : List Int)
    (hs : snapshot.Sorted (fun a b => a ≤ b)) (hmem : ∀ u, u ∈ snapshot ↔ u ∈ old)
    (count : Nat → Nat) (uid_at : Nat → Nat → Int) (mpi_size : Nat) :
    visit_order (select_new_parts snapshot count uid_at (List.range mpi_size) [])
      = kept_entries old uid_at (scan_order mpi_size count) [] := by
  have := select_new_parts_kept snapshot old hs hmem count uid_at mpi_size 0 [] []
    (fun _ => Iff.rfl)
  rw [← List.range_eq_range'] at this
  exact this

theorem insertionSort_facts (l : List Int) :
    (l.insertionSort (fun a b => a ≤ b)).Sorted (fun a b => a ≤ b) ∧
    ∀ u, u ∈ l.insertionSort (fun a b => a ≤ b) ↔ u ∈ l :=
  ⟨List.sorted_insertionSort _ l, fun _ => (List.perm_insertionSort _ l).mem_iff⟩

/-! ### What `kept_entries` keeps -/

theorem kept_entries_sublist (old : List Int) (uid_at : Nat → Nat → Int) :
    ∀ (l : List (Nat × Nat)) (e : List Int), (kept_entries old uid_at l e).Sublist l := by
  intro l
  induction l with
  | nil => intro e; exact List.Sublist.slnil
  | cons p rest ih =>
    intro e
    simp only [kept_entries]
    split
    · exact (ih _).cons _
    · exact (ih _).cons₂ _

theorem kept_entries_mem (old : List Int) (uid_at : Nat → Nat → Int) :
    ∀ (l : List (Nat × Nat)) (e : List Int), l.Nodup → ∀ (i : Nat) (p : Nat × Nat),
      l[i]? = some p →
      (p ∈ kept_entries old uid_at l e ↔
        uid_at p.1 p.2 ∉ old ∧ uid_at p.1 p.2 ∉ e ∧
        ∀ (j : Nat) (q : Nat × Nat), j < i → l[j]? = some q →
          uid_at q.1 q.2 ≠ uid_at p.1 p.2) := by
  intro l
  induction l with
  | nil => intro e _ i p h; simp at h
  | cons a rest ih =>
    intro e hnd i p hi
    obtain ⟨ha, hrest⟩ := List.nodup_cons.mp hnd
    cases i with
    | zero =>
      simp only [List.getElem?_cons_zero, Option.some.injEq] at hi
      subst hi
      have hnot : a ∉ kept_entries old uid_at rest (uid_at a.1 a.2 :: e) :=
        fun hc => ha ((kept_entries_sublist old uid_at rest _).subset hc)
      simp only [kept_entries]
      by_cases hc : uid_at a.1 a.2 ∈ old ∨ uid_at a.1 a.2 ∈ e
      · simp only [hc, if_true, hnot, false_iff]
        rintro ⟨h1, h2, _⟩
        exact hc.elim h1 h2
      · simp only [hc, if_false, List.mem_cons, true_or, true_iff]
        push_neg at hc
        exact ⟨hc.1, hc.2, fun j q hj => absurd hj (Nat.not_lt_zero j)⟩
    | succ i =>
      simp only [List.getElem?_cons_succ] at hi
      have hpa : p ≠ a := by
        intro hc
        rw [hc] at hi
        exact ha (first_mem_getElem? _ _ _ hi)
      have key := ih (uid_at a.1 a.2 :: e) hrest i p hi
      have hmem : p ∈ kept_entries old uid_at (a :: rest) e ↔
          p ∈ kept_entries old uid_at rest (uid_at a.1 a.2 :: e) := by
        simp only [kept_entries]
        split
        · rfl
        · simp [hpa]
      rw [hmem, key]
      simp only [List.mem_cons, not_or]
      constructor
      · rintro ⟨h1, ⟨h2, h3⟩, h4⟩
        refine ⟨h1, h3, ?_⟩
        intro j q hj hq
        cases j with
        | zero =>
          simp only [List.getElem?_cons_zero, Option.some.injEq] at hq
          subst hq
          exact fun hc => h2 hc.symm
        | succ j =>
          simp only [List.getElem?_cons_succ] at hq
          exact h4 j q (by omega) hq
      · rintro ⟨h1, h3, h4⟩
        refine ⟨h1, ⟨?_, h3⟩, ?_⟩
        · exact fun hc => h4 0 a (by omega) (by simp) hc.symm
        · intro j q hj hq
          exact h4 (j + 1) q (by omega) (by simpa using hq)

theorem kept_entries_uids (old : List Int) (uid_at : Nat → Nat → Int) :
    ∀ (l : List (Nat × Nat)) (e : List Int),
      ((kept_entries old uid_at l e).map (fun p => uid_at p.1 p.2)).Nodup ∧
      ∀ u, u ∈ (kept_entries old uid_at l e).map (fun p => uid_at p.1 p.2) ↔
        (∃ p ∈ l, uid_at p.1 p.2 = u) ∧ u ∉ old ∧ u ∉ e := by
  intro l
  induction l with
  | nil => intro e; simp [kept_entries]
  | cons a rest ih =>
    intro e
    obtain ⟨h1, h2⟩ := ih (uid_at a.1 a.2 :: e)
    simp only [kept_entries]
    by_cases hc : uid_at a.1 a.2 ∈ old ∨ uid_at a.1 a.2 ∈ e
    · simp only [hc, if_true]
      refine ⟨h1, fun u => ?_⟩
      rw [h2 u]
      simp only [List.mem_cons, not_or, exists_eq_or_imp]
      constructor
      · rintro ⟨h3, h4, _, h6⟩
        exact ⟨Or.inr h3, h4, h6⟩
      · rintro ⟨h3 | h3, h4, h6⟩
        · rw [← h3] at h4 h6
          exact absurd hc (by push_neg; exact ⟨h4, h6⟩)
        · refine ⟨h3, h4, ?_, h6⟩
          intro hu
          rw [hu] at h4 h6
          exact absurd hc (by push_neg; exact ⟨h4, h6⟩)
    · simp only [hc, if_false, List.map_cons]
      push_neg at hc
      refine ⟨List.nodup_cons.mpr ⟨?_, h1⟩, fun u => ?_⟩
      · intro hmem
        have := ((h2 _).mp hmem).2.2
        exact this (List.mem_cons_self _ _)
      · rw [List.mem_cons, h2 u]
        simp only [List.mem_cons, not_or, exists_eq_or_imp]
        constructor
        · rintro (h3 | ⟨h3, h4, _, h6⟩)
          · rw [h3]
            exact ⟨Or.inl rfl, hc.1, hc.2⟩
          · exact ⟨Or.inr h3, h4, h6⟩
        · rintro ⟨h3 | h3, h4, h6⟩
          · exact Or.inl h3.symm
          · by_cases hu : u = uid_at a.1 a.2
            · exact Or.inl hu
            · exact Or.inr ⟨h3, h4, hu, h6⟩

theorem scan_order_nodup (mpi_size : Nat) (count : Nat → Nat) :
    (scan_order mpi_size count).Nodup := by
  unfold scan_order
  rw [List.nodup_flatMap]
  refine ⟨?_, ?_⟩
  · intro j _
    exact (List.nodup_range _).map (fun a b h => by simpa using h)
  · refine (List.nodup_range mpi_size).pairwise_of_forall_ne ?_
    intro a _ b _ hab
    simp only [Function.onFun, List.disjoint_left, List.mem_map, not_exists, not_and]
    rintro p ⟨n, _, rfl⟩ m _ hc
    exact hab (by simpa using (congrArg Prod.fst hc).symm)

theorem mem_scan_order (mpi_size : Nat) (count : Nat → Nat) (p : Nat × Nat) :
    p ∈ scan_order mpi_size count ↔ p.1 < mpi_size ∧ p.2 < count p.1 := by
  unfold scan_order
  simp only [List.mem_flatMap, List.mem_range, List.mem_map]
  constructor
  · rintro ⟨j, hj, n, hn, rfl⟩
    exact ⟨hj, hn⟩
  · rintro ⟨h1, h2⟩
    exact ⟨p.1, h1, p.2, h2, rfl⟩

/-! ### When `add_nodes` completes -/

theorem compute_uid_set (X : Externals) (m : Mesh) (i : Nat) (nd : Node)
    (hi : i < m.nodes.length) :
    compute_uid X ({ m with nodes := m.nodes.set i nd }) i = X.unique_lonlat nd.xy := by
  simp only [compute_uid, Mesh.xy]
  rw [getD_set_self _ _ _ _ hi]

theorem add_nodes_store_spec (X : Externals) (periodic : Bool) (buf : Buffers) (nb : Nat)
    (h : BuildHaloHelper) (c jpart idx : Nat) (hlt : nb + c < h.mesh.nodes.length) :
    ((add_nodes_store X periodic buf nb h c jpart idx).error = none ↔
      uid2node_find h.uid2node (buf.node_uid X jpart idx) = none) ∧
    (add_nodes_store X periodic buf nb h c jpart idx).state.mesh.nodes.length
      = h.mesh.nodes.length ∧
    ((add_nodes_store X periodic buf nb h c jpart idx).error = none →
      (add_nodes_store X periodic buf nb h c jpart idx).state.uid2node
        = h.uid2node ++ [(buf.node_uid X jpart idx, nb + c)]) := by
  unfold add_nodes_store
  simp only []
  rw [compute_uid_set X h.mesh (nb + c) _ hlt]
  simp only [Buffers.node_uid]
  cases hf : uid2node_find h.uid2node (X.unique_lonlat (buf.node_crd jpart idx)) with
  | some other =>
    simp [Outcome.fatal, List.length_set]
  | none =>
    simp [Outcome.done, List.length_set, uid2node_assign, hf]

theorem add_nodes_loop_completes (X : Externals) (periodic : Bool) (buf : Buffers) (nb : Nat) :
    ∀ (pairs : List (Nat × Nat)) (c : Nat) (h : BuildHaloHelper),
      nb + c + pairs.length ≤ h.mesh.nodes.length →
      (pairs.map (fun p => buf.node_uid X p.1 p.2)).Nodup →
      ((add_nodes_loop X periodic buf nb pairs c h).error = none ↔
        ∀ p ∈ pairs, uid2node_find h.uid2node (buf.node_uid X p.1 p.2) = none) := by
  intro pairs
  induction pairs with
  | nil => intro c h _ _; simp [add_nodes_loop, Outcome.done]
  | cons p rest ih =>
    intro c h hlen hnd
    obtain ⟨jpart, idx⟩ := p
    simp only [List.length_cons] at hlen
    simp only [List.map_cons, List.nodup_cons] at hnd
    obtain ⟨s1, s2, s3⟩ := add_nodes_store_spec X periodic buf nb h c jpart idx (by omega)
    simp only [add_nodes_loop, List.mem_cons, forall_eq_or_imp]
    cases herr : (add_nodes_store X periodic buf nb h c jpart idx).error with
    | some e =>
      simp only []
      rw [herr]
      constructor
      · intro hc; cases hc
      · rintro ⟨hc, _⟩
        have := s1.mpr hc
        rw [herr] at this
        cases this
    | none =>
      simp only []
      rw [ih (c + 1) _ (by rw [s2]; omega) hnd.2, s3 herr]
      have hfirst := s1.mp herr
      constructor
      · intro hall
        refine ⟨hfirst, fun q hq => ?_⟩
        have := hall q hq
        rw [uid2node_find_append] at this
        cases hq2 : uid2node_find h.uid2node (buf.node_uid X q.1 q.2) with
        | none => rfl
        | some v => rw [hq2] at this; cases this
      · rintro ⟨_, hall⟩ q hq
        rw [uid2node_find_append, hall q hq]
        have hne : buf.node_uid X jpart idx ≠ buf.node_uid X q.1 q.2 := by
          intro hc
          apply hnd.1
          rw [hc]
          exact List.mem_map.mpr ⟨q, hq, rfl⟩
        simp [uid2node_find, hne]

theorem add_nodes_completes_iff (X : Externals) (mpi_size : Nat) (h : BuildHaloHelper)
    (buf : Buffers) (periodic : Bool) :
    (add_nodes X mpi_size h buf periodic).error = none ↔
      ∀ p ∈ add_nodes_selected X mpi_size h.mesh buf,
        uid2node_find h.uid2node (buf.node_uid X p.1 p.2) = none := by
  unfold add_nodes
  simp only []
  apply add_nodes_loop_completes
  · simp only [List.length_append, List.length_replicate, length_visit_order]
    omega
  · exact (add_nodes_rfn_idx_spec X mpi_size h.mesh buf).2

theorem add_nodes_selected_eq (X : Externals) (mpi_size : Nat) (mesh : Mesh) (buf : Buffers) :
    add_nodes_selected X mpi_size mesh buf
      = kept_entries (mesh.uids X) (buf.node_uid X) (scan_order mpi_size buf.nb_nodes) [] := by
  unfold add_nodes_selected add_nodes_rfn_idx
  obtain ⟨hs, hm⟩ := insertionSort_facts ((List.range mesh.nodes.length).map (compute_uid X mesh))
  have hm2 : ∀ u, u ∈ ((List.range mesh.nodes.length).map (compute_uid X mesh)).insertionSort
      (fun a b => a ≤ b) ↔ u ∈ mesh.uids X := by
    intro u
    rw [hm u, range_map_compute_uid]
  exact visit_order_select_new_parts _ _ hs hm2 _ _ mpi_size

/-- C15, `add_nodes` merges the nodes. The received nodes are scanned by source task and
then by position; the kept ones are `kept_entries`: a node is kept exactly when its
identifier, computed from the shipped coordinates, is neither the identifier of a node of
the mesh nor the identifier of a node scanned earlier, and the kept nodes are in scan
order. Their identifiers are pairwise distinct and are exactly the identifiers that occur
among the received nodes and not in the mesh. `add_nodes` completes exactly when
`uid2node` holds the identifier of no kept node, which is so when every key of `uid2node`
is the identifier of a node of the mesh; when it completes, the nodes are the old ones
followed by the rows of the kept nodes, which depend on the mesh and the buffers only. -/
theorem add_nodes_merges_nodes (X : Externals) (mpi_size : Nat) (h : BuildHaloHelper)
    (buf : Buffers) (periodic : Bool) :
    add_nodes_selected X mpi_size h.mesh buf
      = kept_entries (h.mesh.uids X) (buf.node_uid X) (scan_order mpi_size buf.nb_nodes) [] ∧
    (add_nodes_selected X mpi_size h.mesh buf).Sublist (scan_order mpi_size buf.nb_nodes) ∧
    (∀ (i : Nat) (p : Nat × Nat), (scan_order mpi_size buf.nb_nodes)[i]? = some p →
      (p ∈ add_nodes_selected X mpi_size h.mesh buf ↔
        buf.node_uid X p.1 p.2 ∉ h.mesh.uids X ∧
        ∀ (j : Nat) (q : Nat × Nat), j < i → (scan_order mpi_size buf.nb_nodes)[j]? = some q →
          buf.node_uid X q.1 q.2 ≠ buf.node_uid X p.1 p.2)) ∧
    ((add_nodes_selected X mpi_size h.mesh buf).map (fun p => buf.node_uid X p.1 p.2)).Nodup ∧
    (∀ u, u ∈ (add_nodes_selected X mpi_size h.mesh buf).map (fun p => buf.node_uid X p.1 p.2) ↔
      (∃ jpart n, jpart < mpi_size ∧ n < buf.nb_nodes jpart ∧ buf.node_uid X jpart n = u) ∧
        u ∉ h.mesh.uids X) ∧
    ((add_nodes X mpi_size h buf periodic).error = none ↔
      ∀ p ∈ add_nodes_selected X mpi_size h.mesh buf,
        uid2node_find h.uid2node (buf.node_uid X p.1 p.2) = none) ∧
    ((∀ (u : Int) (n : Nat), uid2node_find h.uid2node u = some n → u ∈ h.mesh.uids X) →
      (add_nodes X mpi_size h buf periodic).error = none) ∧
    ((add_nodes X mpi_size h buf periodic).error = none →
      (add_nodes X mpi_size h buf periodic).state.mesh.nodes
        = h.mesh.nodes ++ received_nodes X buf (add_nodes_selected X mpi_size h.mesh buf)) := by
  have heq := add_nodes_selected_eq X mpi_size h.mesh buf
  obtain ⟨hu1, hu2⟩ := kept_entries_uids (h.mesh.uids X) (buf.node_uid X)
    (scan_order mpi_size buf.nb_nodes) []
  refine ⟨heq, ?_, ?_, ?_, ?_, add_nodes_completes_iff X mpi_size h buf periodic, ?_, ?_⟩
  · rw [heq]
    exact kept_entries_sublist _ _ _ _
  · intro i p hp
    rw [heq, kept_entries_mem _ _ _ [] (scan_order_nodup _ _) i p hp]
    simp only [List.not_mem_nil, not_false_eq_true, true_and]
  · rw [heq]
    exact hu1
  · intro u
    rw [heq, hu2 u]
    simp only [List.not_mem_nil, not_false_eq_true, and_true]
    constructor
    · rintro ⟨⟨p, hp, hpu⟩, hold⟩
      obtain ⟨a, b⟩ := (mem_scan_order _ _ p).mp hp
      exact ⟨⟨p.1, p.2, a, b, hpu⟩, hold⟩
    · rintro ⟨⟨jpart, n, a, b, hpu⟩, hold⟩
      exact ⟨⟨(jpart, n), (mem_scan_order _ _ _).mpr ⟨a, b⟩, hpu⟩, hold⟩
  · intro hkeys
    rw [add_nodes_completes_iff]
    intro p hp
    cases hf : uid2node_find h.uid2node (buf.node_uid X p.1 p.2) with
    | none => rfl
    | some n =>
      exact absurd (hkeys _ n hf) ((add_nodes_rfn_idx_spec X mpi_size h.mesh buf).1 p hp)
  · intro hok
    rw [add_nodes_mesh_ok X mpi_size h buf periodic hok]

/-! ### Reads of `uid2node` in `add_elements` -/

theorem uid2node_keeps_refl (m : Uid2Node) : uid2node_keeps m m := fun _ _ h => h

theorem uid2node_keeps_trans {a b c : Uid2Node} (h1 : uid2node_keeps a b)
    (h2 : uid2node_keeps b c) : uid2node_keeps a c := fun u n h => h2 u n (h1 u n h)

theorem uid2node_index_spec (m : Uid2Node) (uid : Int) :
    uid2node_keeps m (uid2node_index m uid).2 ∧
    (uid2node_index m uid).1 = (uid2node_find m uid).getD 0 := by
  unfold uid2node_index
  cases hf : uid2node_find m uid with
  | some node => exact ⟨uid2node_keeps_refl m, rfl⟩
  | none =>
    refine ⟨?_, rfl⟩
    intro u n hu
    simp only []
    rw [uid2node_find_append, hu]
    rfl

theorem uid2node_index_row_spec : ∀ (ids : List Int) (m : Uid2Node),
    uid2node_keeps m (uid2node_index_row m ids).2 ∧
    (uid2node_index_row m ids).1.length = ids.length ∧
    ∀ (i : Nat) (uid : Int), ids[i]? = some uid →
      ∃ m1, uid2node_keeps m m1 ∧
        (uid2node_index_row m ids).1[i]? = some ((uid2node_find m1 uid).getD 0) := by
  intro ids
  induction ids with
  | nil => intro m; simp [uid2node_index_row, uid2node_keeps_refl]
  | cons uid rest ih =>
    intro m
    obtain ⟨a1, a2⟩ := uid2node_index_spec m uid
    obtain ⟨b1, b2, b3⟩ := ih (uid2node_index m uid).2
    simp only [uid2node_index_row]
    refine ⟨uid2node_keeps_trans a1 b1, by simp [b2], ?_⟩
    intro i u hi
    cases i with
    | zero =>
      simp only [List.getElem?_cons_zero, Option.some.injEq] at hi
      subst hi
      exact ⟨m, uid2node_keeps_refl m, by simp [a2]⟩
    | succ i =>
      simp only [List.getElem?_cons_succ] at hi ⊢
      obtain ⟨m1, h1, h2⟩ := b3 i u hi
      exact ⟨m1, uid2node_keeps_trans a1 h1, h2⟩

theorem add_elements_store_spec (buf : Buffers) (halo : Int) (cols : Nat) (m : Uid2Node)
    (jpart jelem : Nat) :
    uid2node_keeps m (add_elements_store buf halo cols m jpart jelem).2 ∧
    (add_elements_store buf halo cols m jpart jelem).1.glb_idx
      = ((buf.elem_id jpart jelem).natAbs : Int) ∧
    (add_elements_store buf halo cols m jpart jelem).1.part = buf.elem_part_of jpart jelem ∧
    (add_elements_store buf halo cols m jpart jelem).1.halo = halo + 1 ∧
    (add_elements_store buf halo cols m jpart jelem).1.patch = 0 ∧
    (add_elements_store buf halo cols m jpart jelem).1.nodes.length = cols ∧
    ∀ n, n < cols → ∃ m1, uid2node_keeps m m1 ∧
      (add_elements_store buf halo cols m jpart jelem).1.nodes[n]?
        = some ((uid2node_find m1 (buf.elem_node_id jpart jelem n)).getD 0) := by
  obtain ⟨h1, h2, h3⟩ := uid2node_index_row_spec
    ((List.range cols).map (fun n =>
      (buf.elem_nodes_id.getD jpart []).getD
        ((buf.elem_nodes_displs.getD jpart []).getD jelem 0 + n) 0)) m
  refine ⟨h1, rfl, rfl, rfl, rfl, ?_, ?_⟩
  · simp only [add_elements_store]
    rw [h2, List.length_map, List.length_range]
  · intro n hn
    exact h3 n _ (by rw [List.getElem?_map, List.getElem?_range hn]; rfl)

theorem add_elements_cells_spec (buf : Buffers) (halo : Int) (cols : Nat) :
    ∀ (l : List (Nat × Nat)) (m : Uid2Node),
      uid2node_keeps m (add_elements_cells buf halo cols l m).2 ∧
      (add_elements_cells buf halo cols l m).1.length = l.length ∧
      ∀ (i : Nat) (pk : Nat × Nat), l[i]? = some pk →
        ∃ m1, uid2node_keeps m m1 ∧
          (add_elements_cells buf halo cols l m).1[i]?
            = some (add_elements_store buf halo cols m1 pk.1 pk.2).1 := by
  intro l
  induction l with
  | nil => intro m; simp [add_elements_cells, uid2node_keeps_refl]
  | cons pk rest ih =>
    intro m
    obtain ⟨jpart, jelem⟩ := pk
    have a1 := (add_elements_store_spec buf halo cols m jpart jelem).1
    obtain ⟨b1, b2, b3⟩ := ih (add_elements_store buf halo cols m jpart jelem).2
    simp only [add_elements_cells]
    refine ⟨uid2node_keeps_trans a1 b1, by simp [b2], ?_⟩
    intro i q hi
    cases i with
    | zero =>
      simp only [List.getElem?_cons_zero, Option.some.injEq] at hi
      subst hi
      exact ⟨m, uid2node_keeps_refl m, by simp⟩
    | succ i =>
      simp only [List.getElem?_cons_succ] at hi ⊢
      obtain ⟨m1, h1, h2⟩ := b3 i q hi
      exact ⟨m1, uid2node_keeps_trans a1 h1, h2⟩

/-! ### The blocks after `add_elements` -/

theorem visit_order_from_filter (q : Nat → Nat → Bool) : ∀ (l : List (List Nat)) (k : Nat),
    List.flatMap
        (((l.enumFrom k).map (fun jl => jl.2.filter (fun e => q jl.1 e))).enumFrom k)
        (fun jl => jl.2.map (fun n => (jl.1, n)))
      = (List.flatMap (l.enumFrom k) (fun jl => jl.2.map (fun n => (jl.1, n)))).filter
          (fun pk => q pk.1 pk.2) := by
  intro l
  induction l with
  | nil => intro k; rfl
  | cons a rest ih =>
    intro k
    simp only [List.enumFrom_cons, List.map_cons, List.flatMap_cons, List.filter_append]
    rw [ih (k + 1)]
    congr 1
    rw [List.filter_map]
    rfl

theorem visit_order_filter (q : Nat → Nat → Bool) (l : List (List Nat)) :
    visit_order (l.enum.map (fun jl => jl.2.filter (fun e => q jl.1 e)))
      = (visit_order l).filter (fun pk => q pk.1 pk.2) :=
  visit_order_from_filter q l 0

theorem add_elements_type_spec (buf : Buffers) (halo : Int) (periodic : Bool)
    (received_new_elems : List (List Nat)) (st : List Elements × Uid2Node × List (List Nat))
    (t : Nat) :
    (add_elements_type buf halo periodic received_new_elems st t).1.length = st.1.length ∧
    (∀ t1, t1 ≠ t →
      (add_elements_type buf halo periodic received_new_elems st t).1.getD t1 default
        = st.1.getD t1 default) ∧
    uid2node_keeps st.2.1 (add_elements_type buf halo periodic received_new_elems st t).2.1 ∧
    (t < st.1.length →
      (add_elements_type buf halo periodic received_new_elems st t).1.getD t default
        = { nb_nodes := (st.1.getD t default).nb_nodes,
            cells := (st.1.getD t default).cells ++
              (add_elements_cells buf halo (st.1.getD t default).nb_nodes
                ((visit_order received_new_elems).filter
                  (fun pk => decide (buf.elem_type_of pk.1 pk.2 = t))) st.2.1).1 }) := by
  have hvo := visit_order_filter
    (fun j e => decide ((buf.elem_type.getD j []).getD e 0 = t)) received_new_elems
  have hlen := length_visit_order (received_new_elems.enum.map
    (fun jl => jl.2.filter (fun ielem => decide ((buf.elem_type.getD jl.1 []).getD ielem 0 = t))))
  unfold add_elements_type
  simp only []
  by_cases hz : ((received_new_elems.enum.map
      (fun jl => jl.2.filter
        (fun ielem => decide ((buf.elem_type.getD jl.1 []).getD ielem 0 = t)))).map
      List.length).sum = 0
  · simp only [hz, if_true]
    refine ⟨trivial, fun _ _ => trivial, uid2node_keeps_refl _, fun _ => ?_⟩
    rw [hz] at hlen
    have hnil := List.length_eq_zero.mp hlen
    rw [hvo] at hnil
    simp only [Buffers.elem_type_of]
    rw [hnil]
    simp [add_elements_cells]
  · simp only [hz, if_false]
    refine ⟨by simp, fun t1 ht1 => ?_, ?_, fun ht => ?_⟩
    · exact getD_set_other _ _ _ _ _ (fun h => ht1 h.symm)
    · exact (add_elements_cells_spec buf halo _ _ _).1
    · rw [getD_set_self _ _ _ _ ht, hvo]
      rfl

theorem add_elements_fold_spec (buf : Buffers) (halo : Int) (periodic : Bool)
    (received_new_elems : List (List Nat)) :
    ∀ (ts : List Nat) (st : List Elements × Uid2Node × List (List Nat)), ts.Nodup →
      (ts.foldl (add_elements_type buf halo periodic received_new_elems) st).1.length
        = st.1.length ∧
      uid2node_keeps st.2.1
        (ts.foldl (add_elements_type buf halo periodic received_new_elems) st).2.1 ∧
      (∀ t, t ∉ ts →
        (ts.foldl (add_elements_type buf halo periodic received_new_elems) st).1.getD t default
          = st.1.getD t default) ∧
      (∀ t, t ∈ ts → t < st.1.length → ∃ m1, uid2node_keeps st.2.1 m1 ∧
        (ts.foldl (add_elements_type buf halo periodic received_new_elems) st).1.getD t default
          = { nb_nodes := (st.1.getD t default).nb_nodes,
              cells := (st.1.getD t default).cells ++
                (add_elements_cells buf halo (st.1.getD t default).nb_nodes
                  ((visit_order received_new_elems).filter
                    (fun pk => decide (buf.elem_type_of pk.1 pk.2 = t))) m1).1 }) := by
  intro ts
  induction ts with
  | nil =>
    intro st _
    exact ⟨rfl, uid2node_keeps_refl _, fun _ _ => rfl, fun t ht => absurd ht (List.not_mem_nil t)⟩
  | cons t0 rest ih =>
    intro st hnd
    obtain ⟨hn0, hnd2⟩ := List.nodup_cons.mp hnd
    obtain ⟨a1, a2, a3, a4⟩ := add_elements_type_spec buf halo periodic received_new_elems st t0
    obtain ⟨b1, b2, b3, b4⟩ := ih (add_elements_type buf halo periodic received_new_elems st t0) hnd2
    rw [List.foldl_cons]
    refine ⟨by rw [b1, a1], uid2node_keeps_trans a3 b2, ?_, ?_⟩
    · intro t ht
      simp only [List.mem_cons, not_or] at ht
      rw [b3 t ht.2, a2 t ht.1]
    · intro t ht hlt
      rcases List.mem_cons.mp ht with h0 | h0
      · subst h0
        refine ⟨st.2.1, uid2node_keeps_refl _, ?_⟩
        rw [b3 t hn0, a4 hlt]
      · have hne : t ≠ t0 := fun hc => hn0 (hc ▸ h0)
        obtain ⟨m1, c1, c2⟩ := b4 t h0 (by rw [a1]; exact hlt)
        refine ⟨m1, uid2node_keeps_trans a3 c1, ?_⟩
        rw [c2, a2 t hne]

/-- The block of type `t` after `add_elements`: the cells it had, followed by one cell
for every accepted cell of shipped type `t`, in the order of the scan. -/
theorem add_elements_block (X : Externals) (mpi_size : Nat) (h : BuildHaloHelper)
    (buf : Buffers) (periodic : Bool) :
    (add_elements X mpi_size h buf periodic).mesh.cells.length = h.mesh.cells.length ∧
    ∀ t, t < h.mesh.cells.length → ∃ m1, uid2node_keeps h.uid2node m1 ∧
      (add_elements X mpi_size h buf periodic).mesh.cells.getD t default
        = { nb_nodes := (h.mesh.cells.getD t default).nb_nodes,
            cells := (h.mesh.cells.getD t default).cells ++
              (add_elements_cells buf h.halo (h.mesh.cells.getD t default).nb_nodes
                (add_elements_accepted_of_type X mpi_size h.mesh buf t) m1).1 } := by
  obtain ⟨a1, _, _, a4⟩ := add_elements_fold_spec buf h.halo periodic
    (select_new_parts
      ((h.mesh.all_cells.flatMap (fun c => [- compute_uid_row X h.mesh c.nodes, c.glb_idx])).insertionSort
        (fun a b => a ≤ b))
      (fun jpart => (buf.elem_glb_idx.getD jpart []).length)
      (fun jpart e => (buf.elem_glb_idx.getD jpart []).getD e 0) (List.range mpi_size) [])
    (List.range h.mesh.cells.length)
    (h.mesh.cells, h.uid2node,
      if h.status.new_periodic_ghost_cells.length = 0 then List.replicate h.mesh.cells.length []
      else h.status.new_periodic_ghost_cells)
    (List.nodup_range _)
  refine ⟨a1, ?_⟩
  intro t ht
  exact a4 t (List.mem_range.mpr ht) ht

theorem add_elements_accepted_eq (X : Externals) (mpi_size : Nat) (mesh : Mesh) (buf : Buffers) :
    add_elements_accepted X mpi_size mesh buf
      = kept_entries (mesh.elem_ids X) buf.elem_id (scan_order mpi_size buf.nb_elems) [] := by
  unfold add_elements_accepted
  obtain ⟨hs, hm⟩ := insertionSort_facts (mesh.elem_ids X)
  exact visit_order_select_new_parts _ _ hs hm _ _ mpi_size

theorem add_elements_halo (X : Externals) (mpi_size : Nat) (h : BuildHaloHelper)
    (buf : Buffers) (periodic : Bool) :
    (add_elements X mpi_size h buf periodic).halo = h.halo := rfl

/-! ### Cells of a type before and after `add_elements` -/

theorem cell_of_type_eq (m : Mesh) (t i : Nat) (ht : t < m.cells.length) :
    m.cell_of_type t i = (m.cells.getD t default).cells[i]? := by
  unfold Mesh.cell_of_type
  rw [List.get?_eq_getElem?, List.getD_eq_getElem?_getD, List.getElem?_eq_getElem ht]
  simp [List.get?_eq_getElem?]

theorem cell_of_type_none (m : Mesh) (t i : Nat) (ht : m.cells.length ≤ t) :
    m.cell_of_type t i = none := by
  unfold Mesh.cell_of_type
  rw [List.get?_eq_getElem?, List.getElem?_eq_none ht]
  rfl

/-- The cells of type `t` after `add_elements`: the old ones at their positions, then one
cell per accepted cell of shipped type `t`. -/
theorem add_elements_cells_of_type (X : Externals) (mpi_size : Nat) (h : BuildHaloHelper)
    (buf : Buffers) (periodic : Bool) (t : Nat) (ht : t < h.mesh.cells.length) :
    ((add_elements X mpi_size h buf periodic).mesh.cells.getD t default).nb_nodes
      = (h.mesh.cells.getD t default).nb_nodes ∧
    ((add_elements X mpi_size h buf periodic).mesh.cells.getD t default).cells.length
      = (h.mesh.cells.getD t default).cells.length
        + (add_elements_accepted_of_type X mpi_size h.mesh buf t).length ∧
    (∀ i, i < (h.mesh.cells.getD t default).cells.length →
      (add_elements X mpi_size h buf periodic).mesh.cell_of_type t i
        = h.mesh.cell_of_type t i) ∧
    (∀ (i : Nat) (pk : Nat × Nat),
      (add_elements_accepted_of_type X mpi_size h.mesh buf t)[i]? = some pk →
      ∃ m1, uid2node_keeps h.uid2node m1 ∧
        (add_elements X mpi_size h buf periodic).mesh.cell_of_type t
            ((h.mesh.cells.getD t default).cells.length + i)
          = some (add_elements_store buf h.halo (h.mesh.cells.getD t default).nb_nodes m1
              pk.1 pk.2).1) ∧
    (∀ (i : Nat) (c : Cell),
      (add_elements X mpi_size h buf periodic).mesh.cell_of_type t i = some c →
      (h.mesh.cells.getD t default).cells.length ≤ i →
      ∃ pk m1, (add_elements_accepted_of_type X mpi_size h.mesh buf t)[
            i - (h.mesh.cells.getD t default).cells.length]? = some pk ∧
        uid2node_keeps h.uid2node m1 ∧
        c = (add_elements_store buf h.halo (h.mesh.cells.getD t default).nb_nodes m1
              pk.1 pk.2).1) := by
  obtain ⟨hlen, hblock⟩ := add_elements_block X mpi_size h buf periodic
  obtain ⟨m1, hk, hb⟩ := hblock t ht
  obtain ⟨c1, c2, c3⟩ := add_elements_cells_spec buf h.halo (h.mesh.cells.getD t default).nb_nodes
    (add_elements_accepted_of_type X mpi_size h.mesh buf t) m1
  have ht2 : t < (add_elements X mpi_size h buf periodic).mesh.cells.length := by
    rw [hlen]; exact ht
  refine ⟨by rw [hb], by rw [hb]; simp only [List.length_append, c2], ?_, ?_, ?_⟩
  · intro i hi
    rw [cell_of_type_eq _ t i ht2, cell_of_type_eq _ t i ht, hb]
    simp only []
    rw [List.getElem?_append_left hi]
  · intro i pk hpk
    obtain ⟨m2, hk2, hc⟩ := c3 i pk hpk
    refine ⟨m2, uid2node_keeps_trans hk hk2, ?_⟩
    rw [cell_of_type_eq _ t _ ht2, hb]
    simp only []
    rw [List.getElem?_append_right (by omega)]
    simpa using hc
  · intro i c hc hi
    rw [cell_of_type_eq _ t _ ht2, hb] at hc
    simp only [] at hc
    rw [List.getElem?_append_right hi] at hc
    have hlt : i - (h.mesh.cells.getD t default).cells.length
        < (add_elements_accepted_of_type X mpi_size h.mesh buf t).length := by
      rw [← c2]
      by_contra hcon
      rw [List.getElem?_eq_none (by omega)] at hc
      cases hc
    obtain ⟨m2, hk2, hc2⟩ := c3 _ _ (List.getElem?_eq_getElem hlt)
    rw [hc2] at hc
    exact ⟨_, m2, List.getElem?_eq_getElem hlt, uid2node_keeps_trans hk hk2,
      (Option.some.inj hc).symm⟩

/-! ### The depth of the helper and the halo of new cells -/

theorem add_nodes_store_halo (X : Externals) (periodic : Bool) (buf : Buffers) (nb : Nat)
    (h : BuildHaloHelper) (c jpart idx : Nat) :
    (add_nodes_store X periodic buf nb h c jpart idx).state.halo = h.halo ∧
    (add_nodes_store X periodic buf nb h c jpart idx).state.mesh.cells = h.mesh.cells := by
  unfold add_nodes_store
  simp only []
  split <;> exact ⟨rfl, rfl⟩

theorem add_nodes_loop_halo (X : Externals) (periodic : Bool) (buf : Buffers) (nb : Nat) :
    ∀ (pairs : List (Nat × Nat)) (c : Nat) (h : BuildHaloHelper),
      (add_nodes_loop X periodic buf nb pairs c h).state.halo = h.halo ∧
      (add_nodes_loop X periodic buf nb pairs c h).state.mesh.cells = h.mesh.cells := by
  intro pairs
  induction pairs with
  | nil => intro c h; exact ⟨rfl, rfl⟩
  | cons p rest ih =>
    intro c h
    obtain ⟨jpart, idx⟩ := p
    obtain ⟨a1, a2⟩ := add_nodes_store_halo X periodic buf nb h c jpart idx
    simp only [add_nodes_loop]
    cases herr : (add_nodes_store X periodic buf nb h c jpart idx).error with
    | some e => exact ⟨a1, a2⟩
    | none =>
      simp only []
      obtain ⟨b1, b2⟩ := ih (c + 1) (add_nodes_store X periodic buf nb h c jpart idx).state
      exact ⟨by rw [b1, a1], by rw [b2, a2]⟩

theorem add_nodes_halo (X : Externals) (mpi_size : Nat) (h : BuildHaloHelper) (buf : Buffers)
    (periodic : Bool) :
    (add_nodes X mpi_size h buf periodic).state.halo = h.halo ∧
    (add_nodes X mpi_size h buf periodic).state.mesh.cells = h.mesh.cells := by
  unfold add_nodes
  simp only []
  exact add_nodes_loop_halo X periodic buf _ _ 0 _

theorem grown_refl (h : BuildHaloHelper) : h.grown h :=
  ⟨rfl, Mesh.extended_by_refl _, fun t i c h1 h2 => by rw [h1] at h2; cases h2⟩

theorem grown_trans {a b c : BuildHaloHelper} (h1 : a.grown b) (h2 : b.grown c) : a.grown c := by
  obtain ⟨a1, a2, a3⟩ := h1
  obtain ⟨b1, b2, b3⟩ := h2
  refine ⟨by rw [b1, a1], Mesh.extended_by_trans a2 b2, ?_⟩
  intro t i cell hc hnone
  cases hb : b.mesh.cell_of_type t i with
  | none =>
    rw [← a1]
    exact b3 t i cell hc hb
  | some cell1 =>
    have h2c := Mesh.extended_by_cell b2 t i cell1 hb
    rw [h2c] at hc
    have e : cell1 = cell := Option.some.inj hc
    rw [← e]
    exact a3 t i cell1 hb hnone

theorem add_elements_grown (X : Externals) (mpi_size : Nat) (h : BuildHaloHelper)
    (buf : Buffers) (periodic : Bool) :
    h.grown (add_elements X mpi_size h buf periodic) := by
  refine ⟨rfl, add_elements_extended X mpi_size h buf periodic, ?_⟩
  intro t i c hc hnone
  by_cases ht : t < h.mesh.cells.length
  · obtain ⟨_, _, _, _, h5⟩ := add_elements_cells_of_type X mpi_size h buf periodic t ht
    have hi : (h.mesh.cells.getD t default).cells.length ≤ i := by
      by_contra hcon
      rw [cell_of_type_eq _ t i ht, List.getElem?_eq_getElem (by omega)] at hnone
      cases hnone
    obtain ⟨pk, m1, _, _, rfl⟩ := h5 i c hc hi
    exact ⟨rfl, rfl⟩
  · rw [cell_of_type_none _ t i (by
      rw [(add_elements_block X mpi_size h buf periodic).1]; omega)] at hc
    cases hc

theorem add_nodes_grown (X : Externals) (mpi_size : Nat) (h : BuildHaloHelper)
    (buf : Buffers) (periodic : Bool) :
    h.grown (add_nodes X mpi_size h buf periodic).state := by
  obtain ⟨a1, a2⟩ := add_nodes_halo X mpi_size h buf periodic
  refine ⟨a1, add_nodes_extended X mpi_size h buf periodic, ?_⟩
  intro t i c hc hnone
  unfold Mesh.cell_of_type at hc hnone
  rw [a2, hnone] at hc
  cases hc

theorem add_buffers_grown (X : Externals) (mpi_size : Nat) (h : BuildHaloHelper)
    (buf : Buffers) (periodic : Bool) :
    h.grown (add_buffers X mpi_size h buf periodic).state := by
  obtain ⟨_, h2, h3⟩ := add_buffers_state X mpi_size h buf periodic
  cases herr : (add_nodes X mpi_size h buf periodic).error with
  | none =>
    rw [h2 herr]
    exact grown_trans (add_nodes_grown X mpi_size h buf periodic) (add_elements_grown X _ _ _ _)
  | some e =>
    rw [h3 (by rw [herr]; simp)]
    exact add_nodes_grown X mpi_size h buf periodic

/-! ### A relation between the helpers before and after a pass -/

theorem exchange_pass_rel (X : Externals) (R : BuildHaloHelper → BuildHaloHelper → Prop)
    (htrans : ∀ a b c, R a b → R b c → R a c)
    (locate : Nat → BuildHaloHelper → Outcome BuildHaloHelper)
    (request : Nat → BuildHaloHelper → List Int)
    (pack : Nat → BuildHaloHelper → List (List Int) → Except Error Buffers)
    (periodic : Bool) (helpers : List BuildHaloHelper)
    (hloc : ∀ r h, R h (locate r h).state)
    (hadd : ∀ n h buf, R h (add_buffers X n h buf periodic).state) :
    List.Forall₂ R helpers (exchange_pass X locate request pack periodic helpers).state := by
  have h1 : List.Forall₂ R helpers
      ((helpers.enum.map (fun rh => locate rh.1 rh.2)).map Outcome.state) := by
    rw [List.map_map]
    apply forall2_map_enum
    intro r a
    exact hloc r a
  unfold exchange_pass
  simp only []
  split
  · exact h1
  · split
    · exact h1
    · refine forall2_trans (R := R) (S := R) htrans h1 ?_
      apply forall2_map_right
      apply forall2_zipWith
      · intro a b
        exact hadd _ a b
      · simp [length_all_to_all]

theorem increase_halo_interior_locate_grown (X : Externals) (h : BuildHaloHelper) :
    h.grown (increase_halo_interior_locate X h).state := by
  have hm := increase_halo_interior_locate_mesh X h
  have hh : (increase_halo_interior_locate X h).state.halo = h.halo := by
    unfold increase_halo_interior_locate Outcome.bind Outcome.done
    simp only []
    repeat' split
    all_goals rfl
  refine ⟨hh, by rw [hm]; exact Mesh.extended_by_refl _, ?_⟩
  intro t i c hc hnone
  rw [hm, hnone] at hc
  cases hc

theorem increase_halo_periodic_locate_grown (X : Externals) (h : BuildHaloHelper) :
    h.grown (increase_halo_periodic_locate X h).state := by
  have hm := increase_halo_periodic_locate_mesh X h
  have hh : (increase_halo_periodic_locate X h).state.halo = h.halo := by
    unfold increase_halo_periodic_locate Outcome.bind Outcome.done
    simp only []
    repeat' split
    all_goals rfl
  refine ⟨hh, by rw [hm]; exact Mesh.extended_by_refl _, ?_⟩
  intro t i c hc hnone
  rw [hm, hnone] at hc
  cases hc

theorem helpers_grown_trans (a b c : List BuildHaloHelper)
    (h1 : List.Forall₂ BuildHaloHelper.grown a b) (h2 : List.Forall₂ BuildHaloHelper.grown b c) :
    List.Forall₂ BuildHaloHelper.grown a c :=
  forall2_trans (R := BuildHaloHelper.grown) (S := BuildHaloHelper.grown)
    (fun _ _ _ hab hbc => grown_trans hab hbc) h1 h2

/-- The three passes of one iteration, started on new helpers: the cells they append
have the halo of the helper plus one, and patch `0`. -/
theorem iteration_passes_grown (X : Externals) (w : List BuildHalo)
    (points : Nat → List BuildHaloHelper → List PeriodicPoints) :
    List.Forall₂ BuildHaloHelper.grown (w.map (fun b => BuildHaloHelper.create b.mesh_))
      (((increase_halo_interior X (w.map (fun b => BuildHaloHelper.create b.mesh_))).bind
        (fun hs => increase_halo_periodic X (points (Topology_PERIODIC ||| Topology_WEST) hs)
          WestEast (Topology_PERIODIC ||| Topology_WEST ||| Topology_GHOST) hs)).bind
        (fun hs => increase_halo_periodic X (points (Topology_PERIODIC ||| Topology_EAST) hs)
          EastWest (Topology_PERIODIC ||| Topology_EAST ||| Topology_GHOST) hs)).state := by
  have hint : ∀ hs, List.Forall₂ BuildHaloHelper.grown hs (increase_halo_interior X hs).state :=
    fun hs => exchange_pass_rel X BuildHaloHelper.grown (fun _ _ _ => grown_trans) _ _ _ _ hs
      (fun _ h => increase_halo_interior_locate_grown X h)
      (fun n h buf => add_buffers_grown X n h buf false)
  have hper : ∀ pp tr fl hs, List.Forall₂ BuildHaloHelper.grown hs
      (increase_halo_periodic X pp tr fl hs).state :=
    fun pp tr fl hs => exchange_pass_rel X BuildHaloHelper.grown (fun _ _ _ => grown_trans) _ _ _ _ hs
      (fun _ h => increase_halo_periodic_locate_grown X h)
      (fun n h buf => add_buffers_grown X n h buf true)
  exact Outcome.bind_rel _ helpers_grown_trans _ _ _
    (Outcome.bind_rel _ helpers_grown_trans _ _ _ (hint _) (fun s => hper _ _ _ s))
    (fun s => hper _ _ _ s)

/-! ### Flattened ragged arrays -/

theorem running_displs_spec {α : Type} : ∀ (ls : List (List α)) (acc k : Nat) (l : List α),
    ls[k]? = some l →
    (running_displs acc (ls.map List.length))[k]?
      = some (acc + ((ls.take k).map List.length).sum) ∧
    ∀ n, n < l.length → ls.flatten[((ls.take k).map List.length).sum + n]? = l[n]? := by
  intro ls
  induction ls with
  | nil => intro acc k l h; simp at h
  | cons a rest ih =>
    intro acc k l h
    cases k with
    | zero =>
      simp only [List.getElem?_cons_zero, Option.some.injEq] at h
      subst h
      refine ⟨by simp [running_displs], ?_⟩
      intro n hn
      simp only [List.take_zero, List.map_nil, List.sum_nil, Nat.zero_add, List.flatten_cons]
      rw [List.getElem?_append_left hn]
    | succ k =>
      simp only [List.getElem?_cons_succ] at h
      obtain ⟨h1, h2⟩ := ih (acc + a.length) k l h
      refine ⟨?_, ?_⟩
      · simp only [List.map_cons, running_displs, List.getElem?_cons_succ, List.take_succ_cons,
          List.sum_cons]
        rw [h1]
        congr 1
        omega
      · intro n hn
        simp only [List.take_succ_cons, List.map_cons, List.sum_cons, List.flatten_cons]
        rw [List.getElem?_append_right (by omega)]
        have e : a.length + ((rest.take k).map List.length).sum + n - a.length
            = ((rest.take k).map List.length).sum + n := by omega
        rw [e]
        exact h2 n hn

/-- The shipped identifiers of the nodes of the `k`-th packed cell, read at
`elem_nodes_displs[k] + n`. -/
theorem fill_sendbuffer_elem_nodes (X : Externals) (h : BuildHaloHelper) (buf : Buffers)
    (nodes_uid : List Int) (elems : List Nat) (p : Nat) (sb : Buffers)
    (hslot : buf.has_slot p)
    (hfill : fill_sendbuffer X h buf nodes_uid elems p = Except.ok sb)
    (k e : Nat) (hk : elems[k]? = some e) (n node : Nat)
    (hn : (h.mesh.cell e).nodes[n]? = some node) :
    (sb.elem_nodes_id.getD p []).getD ((sb.elem_nodes_displs.getD p []).getD k 0 + n) 0
      = compute_uid X h.mesh node := by
  obtain ⟨found, _, rfl⟩ := fill_sendbuffer_ok X h buf nodes_uid elems p sb hfill
  obtain ⟨_, _, _, _, _, _, s7, s8, _, _⟩ := hslot
  simp only [getD_set_self _ p _ _ s7, getD_set_self _ p _ _ s8]
  have hk2 : (elems.map (fun e => (h.mesh.cell e).nodes.map (compute_uid X h.mesh)))[k]?
      = some ((h.mesh.cell e).nodes.map (compute_uid X h.mesh)) := by
    rw [List.getElem?_map, hk]; rfl
  obtain ⟨h1, h2⟩ := running_displs_spec _ 0 k _ hk2
  have hlens : (elems.map (fun e => (h.mesh.cell e).nodes.map (compute_uid X h.mesh))).map
      List.length = elems.map (fun e => (h.mesh.cell e).nodes.length) := by
    rw [List.map_map]
    apply List.map_congr_left
    intro a _
    simp
  rw [hlens] at h1
  have hnlt : n < (h.mesh.cell e).nodes.length := by
    by_contra hc
    rw [List.getElem?_eq_none (by omega)] at hn
    cases hn
  rw [List.getD_eq_getElem?_getD (l := running_displs 0 _), h1]
  simp only [Option.getD_some, Nat.zero_add]
  rw [List.flatMap_def, List.getD_eq_getElem?_getD, h2 n (by simpa using hnlt),
    List.getElem?_map, hn]
  rfl

/-! ### The claims on `add_elements` -/

theorem mem_elem_ids (X : Externals) (m : Mesh) (u : Int) :
    u ∈ m.elem_ids X ↔
      ∃ c ∈ m.all_cells, u = - compute_uid_row X m c.nodes ∨ u = c.glb_idx := by
  unfold Mesh.elem_ids
  simp only [List.mem_flatMap, List.mem_cons, List.mem_singleton, List.not_mem_nil, or_false]

theorem accepted_of_type_getElem? (X : Externals) (mpi_size : Nat) (mesh : Mesh) (buf : Buffers)
    (t i : Nat) (pk : Nat × Nat)
    (h : (add_elements_accepted_of_type X mpi_size mesh buf t)[i]? = some pk) :
    pk ∈ add_elements_accepted X mpi_size mesh buf ∧ buf.elem_type_of pk.1 pk.2 = t := by
  have hm := first_mem_getElem? _ _ _ h
  unfold add_elements_accepted_of_type at hm
  rw [List.mem_filter] at hm
  exact ⟨hm.1, by simpa using hm.2⟩

/-- C18, `add_elements` removes duplicates. The received cells are scanned by source
task and then by position; the accepted ones are `kept_entries`: a cell is accepted
exactly when its shipped global index is neither among the identifiers of the cells of
the mesh (the global index and the negated identifier of the nodes of every cell) nor the
shipped global index of a cell scanned earlier. The shipped global indices of the accepted
cells are pairwise distinct. For every type `t` of the mesh, the block of type `t`
afterwards is the old block followed by one cell for every accepted cell of shipped type
`t`, in scan order, with the absolute value of its shipped global index; the number of
types is unchanged. -/
theorem add_elements_deduplicates (X : Externals) (mpi_size : Nat) (h : BuildHaloHelper)
    (buf : Buffers) (periodic : Bool) :
    add_elements_accepted X mpi_size h.mesh buf
      = kept_entries (h.mesh.elem_ids X) buf.elem_id (scan_order mpi_size buf.nb_elems) [] ∧
    (∀ u, u ∈ h.mesh.elem_ids X ↔
      ∃ c ∈ h.mesh.all_cells, u = - compute_uid_row X h.mesh c.nodes ∨ u = c.glb_idx) ∧
    (∀ (i : Nat) (p : Nat × Nat), (scan_order mpi_size buf.nb_elems)[i]? = some p →
      (p ∈ add_elements_accepted X mpi_size h.mesh buf ↔
        buf.elem_id p.1 p.2 ∉ h.mesh.elem_ids X ∧
        ∀ (j : Nat) (q : Nat × Nat), j < i → (scan_order mpi_size buf.nb_elems)[j]? = some q →
          buf.elem_id q.1 q.2 ≠ buf.elem_id p.1 p.2)) ∧
    ((add_elements_accepted X mpi_size h.mesh buf).map (fun p => buf.elem_id p.1 p.2)).Nodup ∧
    (∀ t, t < h.mesh.cells.length →
      ∃ cs, (add_elements X mpi_size h buf periodic).mesh.cells.getD t default
          = { nb_nodes := (h.mesh.cells.getD t default).nb_nodes,
              cells := (h.mesh.cells.getD t default).cells ++ cs } ∧
        cs.map Cell.glb_idx
          = (add_elements_accepted_of_type X mpi_size h.mesh buf t).map
              (fun pk => ((buf.elem_id pk.1 pk.2).natAbs : Int))) ∧
    (add_elements X mpi_size h buf periodic).mesh.cells.length = h.mesh.cells.length := by
  have heq := add_elements_accepted_eq X mpi_size h.mesh buf
  refine ⟨heq, mem_elem_ids X h.mesh, ?_, ?_, ?_, (add_elements_block X mpi_size h buf periodic).1⟩
  · intro i p hp
    rw [heq, kept_entries_mem _ _ _ [] (scan_order_nodup _ _) i p hp]
    simp only [List.not_mem_nil, not_false_eq_true, true_and]
  · rw [heq]
    exact (kept_entries_uids _ _ _ _).1
  · intro t ht
    obtain ⟨m1, _, hb⟩ := (add_elements_block X mpi_size h buf periodic).2 t ht
    refine ⟨_, hb, ?_⟩
    obtain ⟨_, c2, c3⟩ := add_elements_cells_spec buf h.halo
      (h.mesh.cells.getD t default).nb_nodes
      (add_elements_accepted_of_type X mpi_size h.mesh buf t) m1
    apply List.ext_getElem?
    intro i
    rw [List.getElem?_map, List.getElem?_map]
    cases hi : (add_elements_accepted_of_type X mpi_size h.mesh buf t)[i]? with
    | none =>
      rw [List.getElem?_eq_none_iff] at hi
      rw [List.getElem?_eq_none (by rw [c2]; exact hi)]
      rfl
    | some pk =>
      obtain ⟨m2, _, hc⟩ := c3 i pk hi
      rw [hc]
      rfl

/-- C19, attributes of the merged cells. Every cell that `add_elements` appends to the
block of a type `t` of the mesh belongs to an accepted cell of shipped type `t`, and has
halo `h.halo + 1`, patch `0`, the shipped partition and the absolute value of the shipped
global index; every accepted cell of shipped type `t` is appended to that block with
these values. The depth `halo` of a new helper is the depth recorded in the metadata of
its mesh, and after one iteration of the loop of `BuildHalo::operator()`, whatever its
outcome, every cell that a task did not have before has halo equal to the depth recorded
before the iteration plus one, and patch `0`. -/
theorem add_elements_sets_attributes (X : Externals) (mpi_size : Nat) (h : BuildHaloHelper)
    (buf : Buffers) (periodic : Bool) :
    (∀ (t i : Nat) (c : Cell), t < h.mesh.cells.length →
      (add_elements X mpi_size h buf periodic).mesh.cell_of_type t i = some c →
      (h.mesh.cells.getD t default).cells.length ≤ i →
      ∃ pk, (add_elements_accepted_of_type X mpi_size h.mesh buf t)[
            i - (h.mesh.cells.getD t default).cells.length]? = some pk ∧
        buf.elem_type_of pk.1 pk.2 = t ∧
        c.halo = h.halo + 1 ∧ c.patch = 0 ∧ c.part = buf.elem_part_of pk.1 pk.2 ∧
        c.glb_idx = ((buf.elem_id pk.1 pk.2).natAbs : Int)) ∧
    (∀ (t i : Nat) (pk : Nat × Nat), t < h.mesh.cells.length →
      (add_elements_accepted_of_type X mpi_size h.mesh buf t)[i]? = some pk →
      ∃ c, (add_elements X mpi_size h buf periodic).mesh.cell_of_type t
            ((h.mesh.cells.getD t default).cells.length + i) = some c ∧
        c.halo = h.halo + 1 ∧ c.patch = 0 ∧ c.part = buf.elem_part_of pk.1 pk.2 ∧
        c.glb_idx = ((buf.elem_id pk.1 pk.2).natAbs : Int)) ∧
    (∀ mesh : Mesh, (BuildHaloHelper.create mesh).halo = mesh.halo) ∧
    (∀ (jhalo : Int) (w : List BuildHalo) (r : Nat) (b b1 : BuildHalo),
      w[r]? = some b → (BuildHalo_iteration X jhalo w).state[r]? = some b1 →
      ∀ (t i : Nat) (c : Cell), b1.mesh_.cell_of_type t i = some c →
        b.mesh_.cell_of_type t i = none → c.halo = b.mesh_.halo + 1 ∧ c.patch = 0) := by
  refine ⟨?_, ?_, fun _ => rfl, ?_⟩
  · intro t i c ht hc hi
    obtain ⟨_, _, _, _, h5⟩ := add_elements_cells_of_type X mpi_size h buf periodic t ht
    obtain ⟨pk, m1, hpk, _, rfl⟩ := h5 i c hc hi
    exact ⟨pk, hpk, (accepted_of_type_getElem? X mpi_size h.mesh buf t _ pk hpk).2,
      rfl, rfl, rfl, rfl⟩
  · intro t i pk ht hpk
    obtain ⟨_, _, _, h4, _⟩ := add_elements_cells_of_type X mpi_size h buf periodic t ht
    obtain ⟨m1, _, hc⟩ := h4 i pk hpk
    exact ⟨_, hc, rfl, rfl, rfl, rfl⟩
  · intro jhalo w r b b1 hb hb1 t i c hc hnone
    have hg := iteration_passes_grown X w
      (fun flag hs => List.zipWith (fun h N => PeriodicPoints.create h.mesh flag N) hs
        (w.map (fun b => b.mesh_.nodes.length)))
    rw [List.forall₂_map_left_iff] at hg
    have hstate : List.Forall₂ (fun (b b1 : BuildHalo) =>
        ∀ (t i : Nat) (c : Cell), b1.mesh_.cell_of_type t i = some c →
          b.mesh_.cell_of_type t i = none → c.halo = b.mesh_.halo + 1 ∧ c.patch = 0)
        w (BuildHalo_iteration X jhalo w).state := by
      unfold BuildHalo_iteration
      simp only []
      split
      · simp only [Outcome.fatal]
        refine forall2_zipWith_of_forall2 _ ?_ hg
        intro a hh hgrown t i c hc hnone
        exact hgrown.2.2 t i c hc hnone
      · simp only [Outcome.done]
        refine forall2_zipWith_of_forall2 _ ?_ hg
        intro a hh hgrown t i c hc hnone
        exact hgrown.2.2 t i c hc hnone
    obtain ⟨b2, hb2, hrel⟩ := forall2_getElem? hstate r b hb
    rw [hb1] at hb2
    cases hb2
    exact hrel t i c hc hnone

/-- C17, a cell that references an unknown node identifier. The read `uid2node[uid]` of
an identifier that the map does not hold inserts the identifier with node `0` and gives
`0`; `add_elements` has no other treatment of a missing mapping. On the helper of task 0
of the example and buffers holding one cell with the node identifiers
`1001, 999, 2002, 1002`, of which `999` and `2002` are not in `uid2node`: the cell is
accepted and added with the nodes `1, 0, 0, 3`, the map gains the entries `(999, 0)` and
`(2002, 0)`, and `add_buffers` ends without an exception. -/
theorem add_elements_missing_uid :
    (∀ (m : Uid2Node) (uid : Int), uid2node_find m uid = none →
      uid2node_index m uid = (0, m ++ [(uid, 0)])) ∧
    uid2node_find example_helper.uid2node 999 = none ∧
    uid2node_find example_helper.uid2node 2002 = none ∧
    add_elements_accepted example_externals 2 example_helper.mesh example_malformed = [(1, 0)] ∧
    (add_elements example_externals 2 example_helper example_malformed false).mesh.cell_of_type 0 1
      = some { glb_idx := 2, part := 1, halo := 1, patch := 0, nodes := [1, 0, 0, 3] } ∧
    (add_elements example_externals 2 example_helper example_malformed false).mesh.nb_cells
      = example_helper.mesh.nb_cells + 1 ∧
    (add_elements example_externals 2 example_helper example_malformed false).uid2node
      = example_helper.uid2node ++ [(999, 0), (2002, 0)] ∧
    (add_buffers example_externals 2 example_helper example_malformed false).error = none := by
  refine ⟨?_, by decide, by decide, by decide, by decide, by decide, by decide, by decide⟩
  intro m uid h
  simp [uid2node_index, h]

theorem fill_sendbuffer_packs_nodes_witness :
    (Buffers.create 2).has_slot 0 ∧
    ((∃ sb, fill_sendbuffer example_externals example_helper1 (Buffers.create 2)
        example_found1.2 example_found1.1 0 = Except.ok sb) ↔
      ∀ uid ∈ example_found1.2, (uid2node_find example_helper1.uid2node uid).isSome = true) :=
  ⟨by decide,
    (fill_sendbuffer_packs_nodes example_externals example_helper1 (Buffers.create 2)
      example_found1.2 example_found1.1 0 (by decide)).1⟩

/-! ### Ghost consistency is kept when nodes are added -/

theorem ghost_invariant_step (X : Externals) (ms ms1 : List Mesh)
    (hrel : List.Forall₂ (nodes_added X ms) ms ms1)
    (hg : ghost_consistent_all ms) (ho : owners_hold_nodes X ms) :
    ghost_consistent_all ms1 ∧ owners_hold_nodes X ms1 := by
  have huids : ∀ (r : Nat) (m m1 : Mesh), ms[r]? = some m → ms1[r]? = some m1 →
      ∀ u, u ∈ m.uids X → u ∈ m1.uids X := by
    intro r m m1 hm hm1 u hu
    obtain ⟨m2, hm2, extra, hex, _⟩ := forall2_getElem? hrel r m hm
    rw [hm1] at hm2
    cases hm2
    unfold Mesh.uids at hu ⊢
    rw [hex, List.map_append]
    exact List.mem_append_left _ hu
  -- a node of the new meshes without the PERIODIC bit is the copy of an old one
  have hsrc : ∀ (r : Nat) (m1 : Mesh), ms1[r]? = some m1 → ∀ nd ∈ m1.nodes,
      Topology_check nd.flags Topology_PERIODIC = false →
      ∃ m, ms[r]? = some m ∧
        (nd ∈ m.nodes ∨
          (X.unique_lonlat nd.xy ∉ m.uids X ∧
            ∃ mp ∈ ms, ∃ nd0 ∈ mp.nodes,
              Topology_check nd0.flags Topology_PERIODIC = false ∧
              nd.part = nd0.part ∧ nd.xy = nd0.xy)) := by
    intro r m1 hm1 nd hnd hper
    obtain ⟨m, hm, extra, hex, hgood⟩ := forall2_getElem?_right hrel r m1 hm1
    refine ⟨m, hm, ?_⟩
    rw [hex, List.mem_append] at hnd
    rcases hnd with h | h
    · exact Or.inl h
    · rcases hgood nd h with hp | ⟨hnot, mp, hmp, nd0, hnd0, hf, hpart, hxy⟩
      · rw [hp] at hper
        cases hper
      · refine Or.inr ⟨hnot, mp, hmp, nd0, hnd0, ?_, hpart, hxy⟩
        rw [← (topology_ghost_forced nd0.flags).2.2.2, ← hf]
        exact hper
  constructor
  · intro rm hrm nd hnd hghost hper
    rw [List.mem_enum_iff_getElem?] at hrm
    obtain ⟨m, hm, hcase⟩ := hsrc rm.1 rm.2 hrm nd hnd hper
    rcases hcase with h | ⟨hnot, mp, hmp, nd0, hnd0, hper0, hpart, hxy⟩
    · exact hg (rm.1, m) (List.mk_mem_enum_iff_getElem?.mpr hm) nd h hghost hper
    · intro hc
      apply hnot
      rw [hxy]
      exact ho mp hmp nd0 hnd0 hper0 (rm.1, m) (List.mk_mem_enum_iff_getElem?.mpr hm)
        (by rw [← hpart]; exact hc)
  · intro mp1 hmp1 nd hnd hper rm hrm hpart
    rw [List.mem_enum_iff_getElem?] at hrm
    obtain ⟨p, hp, hget⟩ := List.mem_iff_getElem.mp hmp1
    have hp1 : ms1[p]? = some mp1 := by rw [List.getElem?_eq_getElem hp, hget]
    obtain ⟨m, hm, _⟩ := forall2_getElem?_right hrel rm.1 rm.2 hrm
    obtain ⟨mp, hmp, hcase⟩ := hsrc p mp1 hp1 nd hnd hper
    apply huids rm.1 m rm.2 hm hrm
    rcases hcase with h | ⟨_, mq, hmq, nd0, hnd0, hper0, hpart0, hxy⟩
    · exact ho mp (first_mem_getElem? _ _ _ hmp) nd h hper (rm.1, m)
        (List.mk_mem_enum_iff_getElem?.mpr hm) hpart
    · rw [hxy]
      exact ho mq hmq nd0 hnd0 hper0 (rm.1, m) (List.mk_mem_enum_iff_getElem?.mpr hm)
        (by rw [← hpart0]; exact hpart)

/-- Ghost consistency reads only the flags, the partition and the coordinates. -/
theorem ghost_invariant_of_views (X : Externals) (ms ms1 : List Mesh)
    (hrel : List.Forall₂ (fun (m m1 : Mesh) => m1.nodes.map node_view = m.nodes.map node_view)
      ms ms1)
    (hg : ghost_consistent_all ms) (ho : owners_hold_nodes X ms) :
    ghost_consistent_all ms1 ∧ owners_hold_nodes X ms1 := by
  have hview : ∀ (m m1 : Mesh), m1.nodes.map node_view = m.nodes.map node_view →
      ∀ nd1 ∈ m1.nodes, ∃ nd ∈ m.nodes, nd.flags = nd1.flags ∧ nd.part = nd1.part ∧
        nd.xy = nd1.xy := by
    intro m m1 h nd1 hnd1
    have : node_view nd1 ∈ m.nodes.map node_view := by
      rw [← h]
      exact List.mem_map_of_mem _ hnd1
    obtain ⟨nd, hnd, hv⟩ := List.mem_map.mp this
    simp only [node_view, Prod.mk.injEq] at hv
    exact ⟨nd, hnd, hv.1, hv.2.1, hv.2.2⟩
  have huids : ∀ (m m1 : Mesh), m1.nodes.map node_view = m.nodes.map node_view →
      m1.uids X = m.uids X := by
    intro m m1 h
    have e : ∀ (l : List Node), l.map (fun nd => X.unique_lonlat nd.xy)
        = (l.map node_view).map (fun v => X.unique_lonlat v.2.2) := by
      intro l
      rw [List.map_map]
      rfl
    unfold Mesh.uids
    rw [e, e, h]
  constructor
  · intro rm hrm nd hnd hghost hper
    rw [List.mem_enum_iff_getElem?] at hrm
    obtain ⟨m, hm, hv⟩ := forall2_getElem?_right hrel rm.1 rm.2 hrm
    obtain ⟨nd0, hnd0, h1, h2, _⟩ := hview m rm.2 hv nd hnd
    rw [← h2]
    exact hg (rm.1, m) (List.mk_mem_enum_iff_getElem?.mpr hm) nd0 hnd0 (by rw [h1]; exact hghost)
      (by rw [h1]; exact hper)
  · intro mp1 hmp1 nd hnd hper rm hrm hpart
    rw [List.mem_enum_iff_getElem?] at hrm
    obtain ⟨p, hp, hget⟩ := List.mem_iff_getElem.mp hmp1
    have hp1 : ms1[p]? = some mp1 := by rw [List.getElem?_eq_getElem hp, hget]
    obtain ⟨m, hm, hv⟩ := forall2_getElem?_right hrel rm.1 rm.2 hrm
    obtain ⟨mp, hmp, hvp⟩ := forall2_getElem?_right hrel p mp1 hp1
    obtain ⟨nd0, hnd0, h1, h2, h3⟩ := hview mp mp1 hvp nd hnd
    rw [huids m rm.2 hv, ← h3]
    exact ho mp (first_mem_getElem? _ _ _ hmp) nd0 hnd0 (by rw [h1]; exact hper) (rm.1, m)
      (List.mk_mem_enum_iff_getElem?.mpr hm) (by rw [h2]; exact hpart)

/-! ### The vectors of one task in the buffers -/

theorem sized_create (n : Nat) : (Buffers.create n).sized n := by
  simp [Buffers.sized, Buffers.create]

theorem received_node_slot (X : Externals) (buf : Buffers) (p idx : Nat) :
    received_node X buf p idx = received_node X (buf.slot p) 0 idx := by
  simp [received_node, Buffers.slot, Buffers.node_crd]

theorem nb_nodes_slot (buf : Buffers) (p : Nat) :
    buf.nb_nodes p = (buf.slot p).nb_nodes 0 := by
  simp [Buffers.nb_nodes, Buffers.slot]

theorem received_node_of_slot_eq (X : Externals) (buf1 buf2 : Buffers) (p r idx : Nat)
    (h : buf1.slot p = buf2.slot r) :
    received_node X buf1 p idx = received_node X buf2 r idx ∧ buf1.nb_nodes p = buf2.nb_nodes r := by
  rw [received_node_slot X buf1, received_node_slot X buf2, nb_nodes_slot buf1,
    nb_nodes_slot buf2, h]
  exact ⟨rfl, rfl⟩

theorem fill_sendbuffer_frame (X : Externals) (h : BuildHaloHelper) (buf : Buffers)
    (nodes_uid : List Int) (elems : List Nat) (p : Nat) (sb : Buffers)
    (hfill : fill_sendbuffer X h buf nodes_uid elems p = Except.ok sb) :
    (∀ n, buf.sized n → sb.sized n) ∧ ∀ q, q ≠ p → sb.slot q = buf.slot q := by
  obtain ⟨found, _, rfl⟩ := fill_sendbuffer_ok X h buf nodes_uid elems p sb hfill
  constructor
  · intro n hn
    simpa [Buffers.sized, List.length_set] using hn
  · intro q hq
    have hpq : p ≠ q := fun hc => hq hc.symm
    simp only [Buffers.slot, getD_set_other _ p q _ _ hpq]

theorem fill_sendbuffer_periodic_ok (X : Externals) (h : BuildHaloHelper) (buf : Buffers)
    (nodes_uid : List Int) (elems : List Nat) (transform : Rat) (newflags : Nat) (p : Nat)
    (sb : Buffers)
    (hfill : fill_sendbuffer_periodic X h buf nodes_uid elems transform newflags p
      = Except.ok sb) :
    ∃ found, find_nodes h.uid2node p nodes_uid = Except.ok found ∧
      sb.node_glb_idx = buf.node_glb_idx.set p
        (found.map (fun j =>
          X.unique_lonlat (PeriodicTransform_apply transform (h.mesh.xy j) (-1)))) ∧
      sb.node_flags = buf.node_flags.set p
        (List.zipWith (fun old _ => Topology_set old newflags)
          (resize_flags (buf.node_flags.getD p []) nodes_uid.length) found) ∧
      (∀ n, buf.sized n → sb.sized n) ∧ ∀ q, q ≠ p → sb.slot q = buf.slot q := by
  unfold fill_sendbuffer_periodic at hfill
  cases hf : find_nodes h.uid2node p nodes_uid with
  | error e => rw [hf] at hfill; cases hfill
  | ok found =>
    rw [hf] at hfill
    simp only [Except.ok.injEq] at hfill
    subst hfill
    refine ⟨found, rfl, rfl, rfl, ?_, ?_⟩
    · intro n hn
      simpa [Buffers.sized, List.length_set] using hn
    · intro q hq
      have hpq : p ≠ q := fun hc => hq hc.symm
      simp only [Buffers.slot, getD_set_other _ p q _ _ hpq]

/-- What `pack_loop` leaves in the buffers: the vectors for task `k + j` are those that
`fill` wrote for the `j`-th request, into buffers whose vectors for that task were as at
the start of the loop. -/
theorem pack_loop_slots (X : Externals) (mpi_rank : Nat) (h : BuildHaloHelper)
    (fill : Buffers → List Int → List Nat → Nat → Except Error Buffers) (n : Nat)
    (hframe : ∀ buf uids elems p sb, fill buf uids elems p = Except.ok sb →
      (buf.sized n → sb.sized n) ∧ ∀ q, q ≠ p → sb.slot q = buf.slot q) :
    ∀ (reqs : List (List Int)) (k : Nat) (buf sb : Buffers), buf.sized n →
      pack_loop X mpi_rank h fill (reqs.enumFrom k) buf = Except.ok sb →
      sb.sized n ∧ (∀ q, q < k → sb.slot q = buf.slot q) ∧
      ∀ (j : Nat) (req : List Int), reqs[j]? = some req →
        ∃ b0 sbj, b0.sized n ∧ b0.slot (k + j) = buf.slot (k + j) ∧
          fill b0
            (accumulate_elements X mpi_rank h.mesh req h.uid2node h.node_to_elem).2
            (accumulate_elements X mpi_rank h.mesh req h.uid2node h.node_to_elem).1 (k + j)
            = Except.ok sbj ∧
          sb.slot (k + j) = sbj.slot (k + j) := by
  intro reqs
  induction reqs with
  | nil =>
    intro k buf sb hs hp
    simp only [List.enumFrom_nil, pack_loop, Except.ok.injEq] at hp
    subst hp
    exact ⟨hs, fun _ _ => rfl, fun j req hj => by simp at hj⟩
  | cons req rest ih =>
    intro k buf sb hs hp
    simp only [List.enumFrom_cons, pack_loop] at hp
    cases hf : fill buf
        (accumulate_elements X mpi_rank h.mesh req h.uid2node h.node_to_elem).2
        (accumulate_elements X mpi_rank h.mesh req h.uid2node h.node_to_elem).1 k with
    | error e => rw [hf] at hp; cases hp
    | ok sb1 =>
      rw [hf] at hp
      simp only [] at hp
      obtain ⟨f1, f2⟩ := hframe _ _ _ _ _ hf
      obtain ⟨a1, a2, a3⟩ := ih (k + 1) sb1 sb (f1 hs) hp
      refine ⟨a1, ?_, ?_⟩
      · intro q hq
        rw [a2 q (by omega), f2 q (by omega)]
      · intro j r hj
        cases j with
        | zero =>
          simp only [List.getElem?_cons_zero, Option.some.injEq] at hj
          subst hj
          exact ⟨buf, sb1, hs, rfl, hf, a2 k (by omega)⟩
        | succ j =>
          simp only [List.getElem?_cons_succ] at hj
          obtain ⟨b0, sbj, c1, c0, c2, c3⟩ := a3 j r hj
          have e : k + (j + 1) = k + 1 + j := by omega
          rw [e]
          exact ⟨b0, sbj, c1, c0.trans (f2 (k + 1 + j) (by omega)), c2, c3⟩

theorem all_to_all_slot (send : List Buffers) (r p : Nat) (recv sb : Buffers)
    (hr : (all_to_all send)[r]? = some recv) (hp : send[p]? = some sb) :
    recv.slot p = sb.slot r := by
  unfold all_to_all at hr
  rw [List.getElem?_map] at hr
  cases hrange : (List.range send.length)[r]? with
  | none => rw [hrange] at hr; cases hr
  | some r1 =>
    rw [hrange] at hr
    have hr1 : r1 = r := by
      have hlt : r < (List.range send.length).length := by
        by_contra hc
        rw [List.getElem?_eq_none (by omega)] at hrange
        cases hrange
      rw [List.getElem?_eq_getElem hlt, List.getElem_range] at hrange
      exact (Option.some.inj hrange).symm
    subst hr1
    simp only [Option.map_some', Option.some.injEq] at hr
    subst hr
    simp only [Buffers.slot, List.getD_eq_getElem?_getD, List.getElem?_map, hp, Option.map_some',
      Option.getD_some]

theorem first_error_none (l : List (Option Error)) (h : first_error l = none) :
    ∀ x ∈ l, x = none := by
  induction l with
  | nil => intro x hx; cases hx
  | cons a t ih =>
    cases a with
    | some e => simp [first_error] at h
    | none =>
      simp only [first_error] at h
      intro x hx
      rcases List.mem_cons.mp hx with h1 | h1
      · exact h1
      · exact ih h x h1

/-- A pass that completes: every task has located, packed and merged without exception,
and what task `r` merges from task `p` is what `p` packed for `r`. -/
theorem exchange_pass_ok (X : Externals)
    (locate : Nat → BuildHaloHelper → Outcome BuildHaloHelper)
    (request : Nat → BuildHaloHelper → List Int)
    (pack : Nat → BuildHaloHelper → List (List Int) → Except Error Buffers)
    (periodic : Bool) (helpers : List BuildHaloHelper)
    (hok : (exchange_pass X locate request pack periodic helpers).error = none) :
    ∃ reqs : List (List Int), reqs.length = helpers.length ∧
      ∀ (r : Nat) (h2 : BuildHaloHelper),
        (exchange_pass X locate request pack periodic helpers).state[r]? = some h2 →
        ∃ h recv, helpers[r]? = some h ∧
          (add_buffers X helpers.length (locate r h).state recv periodic).error = none ∧
          h2 = (add_buffers X helpers.length (locate r h).state recv periodic).state ∧
          ∀ (p : Nat) (hp : BuildHaloHelper), helpers[p]? = some hp →
            ∃ sb, pack p (locate p hp).state reqs = Except.ok sb ∧ recv.slot p = sb.slot r := by
  unfold exchange_pass at hok ⊢
  simp only [] at hok ⊢
  cases h1 : first_error ((helpers.enum.map (fun rh => locate rh.1 rh.2)).map Outcome.error) with
  | some e => rw [h1] at hok; simp [Outcome.fatal] at hok
  | none =>
    rw [h1] at hok
    simp only [] at hok ⊢
    cases h2 : first_error
        ((((helpers.enum.map (fun rh => locate rh.1 rh.2)).map Outcome.state).enum.map
          (fun rh => pack rh.1 rh.2
            (((helpers.enum.map (fun rh => locate rh.1 rh.2)).map Outcome.state).enum.map
              (fun rh => request rh.1 rh.2)))).map pack_error) with
    | some e => rw [h2] at hok; simp [Outcome.fatal] at hok
    | none =>
      rw [h2] at hok
      simp only [] at hok ⊢
      refine ⟨((helpers.enum.map (fun rh => locate rh.1 rh.2)).map Outcome.state).enum.map
              (fun rh => request rh.1 rh.2), by simp, ?_⟩
      intro r hr2 hget
      rw [List.getElem?_map, List.getElem?_zipWith] at hget
      simp only [List.getElem?_map, List.getElem?_enum] at hget
      cases hh : helpers[r]? with
      | none => rw [hh] at hget; simp at hget
      | some h =>
        rw [hh] at hget
        simp only [Option.map_some'] at hget
        cases hrecv : (all_to_all
            ((((helpers.enum.map (fun rh => locate rh.1 rh.2)).map Outcome.state).enum.map
              (fun rh => pack rh.1 rh.2
                (((helpers.enum.map (fun rh => locate rh.1 rh.2)).map Outcome.state).enum.map
                  (fun rh => request rh.1 rh.2)))).map (pack_buffers helpers.length)))[r]? with
        | none => rw [hrecv] at hget; simp at hget
        | some recv =>
          rw [hrecv] at hget
          simp only [Option.map_some', Option.some.injEq] at hget
          refine ⟨h, recv, rfl, ?_, hget.symm, ?_⟩
          · apply first_error_none _ hok
            rw [List.mem_map]
            refine ⟨add_buffers X helpers.length (locate r h).state recv periodic, ?_, rfl⟩
            rw [List.mem_iff_getElem?]
            refine ⟨r, ?_⟩
            rw [List.getElem?_zipWith]
            simp only [List.getElem?_map, List.getElem?_enum, hh, Option.map_some', hrecv]
          · intro p hp hhp
            have hpk : (((helpers.enum.map (fun rh => locate rh.1 rh.2)).map Outcome.state).enum.map
                (fun rh => pack rh.1 rh.2
                  (((helpers.enum.map (fun rh => locate rh.1 rh.2)).map Outcome.state).enum.map
                    (fun rh => request rh.1 rh.2))))[p]?
                = some (pack p (locate p hp).state
                  (((helpers.enum.map (fun rh => locate rh.1 rh.2)).map Outcome.state).enum.map
                    (fun rh => request rh.1 rh.2))) := by
              simp only [List.getElem?_map, List.getElem?_enum, hhp, Option.map_some']
            cases hres : pack p (locate p hp).state
                (((helpers.enum.map (fun rh => locate rh.1 rh.2)).map Outcome.state).enum.map
                  (fun rh => request rh.1 rh.2)) with
            | error e =>
              exfalso
              have := first_error_none _ h2 (some e) (by
                rw [List.mem_map]
                exact ⟨_, first_mem_getElem? _ _ _ hpk, by rw [hres]; rfl⟩)
              cases this
            | ok sb =>
              refine ⟨sb, rfl, ?_⟩
              apply all_to_all_slot _ r p recv sb hrecv
              rw [List.getElem?_map, hpk, hres]
              rfl

/-! ### The nodes that a pass adds -/

theorem forall2_of_getElem? {α β : Type} {R : α → β → Prop} : ∀ (l1 : List α) (l2 : List β),
    l1.length = l2.length →
    (∀ (r : Nat) (a : α) (b : β), l1[r]? = some a → l2[r]? = some b → R a b) →
    List.Forall₂ R l1 l2
  | [], [], _, _ => List.Forall₂.nil
  | a :: t, b :: t2, hlen, h =>
    List.Forall₂.cons (h 0 a b (by simp) (by simp))
      (forall2_of_getElem? t t2 (by simpa using hlen)
        (fun r a1 b1 h1 h2 => h (r + 1) a1 b1 (by simpa using h1) (by simpa using h2)))
  | [], _ :: _, hlen, _ => by simp at hlen
  | _ :: _, [], hlen, _ => by simp at hlen

theorem mem_add_nodes_selected (X : Externals) (mpi_size : Nat) (mesh : Mesh) (buf : Buffers)
    (pk : Nat × Nat) (h : pk ∈ add_nodes_selected X mpi_size mesh buf) :
    pk.1 < mpi_size ∧ pk.2 < buf.nb_nodes pk.1 ∧ buf.node_uid X pk.1 pk.2 ∉ mesh.uids X := by
  have hsub : pk ∈ scan_order mpi_size buf.nb_nodes := by
    rw [add_nodes_selected_eq] at h
    exact (kept_entries_sublist _ _ _ _).subset h
  obtain ⟨a, b⟩ := (mem_scan_order _ _ pk).mp hsub
  exact ⟨a, b, (add_nodes_rfn_idx_spec X mpi_size mesh buf).1 pk h⟩

theorem add_buffers_nodes_ok (X : Externals) (mpi_size : Nat) (h : BuildHaloHelper)
    (buf : Buffers) (periodic : Bool)
    (hok : (add_buffers X mpi_size h buf periodic).error = none) :
    (add_buffers X mpi_size h buf periodic).state.mesh.nodes
      = h.mesh.nodes ++ received_nodes X buf (add_nodes_selected X mpi_size h.mesh buf) := by
  obtain ⟨h1, h2, _⟩ := add_buffers_state X mpi_size h buf periodic
  rw [h1] at hok
  rw [h2 hok, add_elements_nodes, add_nodes_mesh_ok X mpi_size h buf periodic hok]

/-- The nodes that a completed pass adds on task `r`: each is a received node that some
task `p` packed for `r`, and its identifier is new on `r`. -/
theorem exchange_pass_new_nodes (X : Externals)
    (locate : Nat → BuildHaloHelper → Outcome BuildHaloHelper)
    (request : Nat → BuildHaloHelper → List Int)
    (pack : Nat → BuildHaloHelper → List (List Int) → Except Error Buffers)
    (periodic : Bool) (helpers : List BuildHaloHelper)
    (hloc : ∀ r h, (locate r h).state.mesh = h.mesh)
    (hok : (exchange_pass X locate request pack periodic helpers).error = none) :
    ∃ reqs : List (List Int), reqs.length = helpers.length ∧
      ∀ (r : Nat) (h2 : BuildHaloHelper),
        (exchange_pass X locate request pack periodic helpers).state[r]? = some h2 →
        ∃ h extra, helpers[r]? = some h ∧ h2.mesh.nodes = h.mesh.nodes ++ extra ∧
          ∀ e ∈ extra, ∃ (p : Nat) (hp : BuildHaloHelper) (sb : Buffers) (idx : Nat),
            helpers[p]? = some hp ∧ pack p (locate p hp).state reqs = Except.ok sb ∧
            idx < sb.nb_nodes r ∧ e = received_node X sb r idx ∧
            X.unique_lonlat e.xy ∉ h.mesh.uids X := by
  obtain ⟨reqs, hlen, hall⟩ := exchange_pass_ok X locate request pack periodic helpers hok
  refine ⟨reqs, hlen, ?_⟩
  intro r h2 hget
  obtain ⟨h, recv, hh, herr, hst, hpk⟩ := hall r h2 hget
  have hnodes := add_buffers_nodes_ok X helpers.length (locate r h).state recv periodic herr
  rw [← hst, hloc] at hnodes
  refine ⟨h, _, hh, hnodes, ?_⟩
  intro e he
  unfold received_nodes at he
  obtain ⟨pk, hpk1, hpk2⟩ := List.mem_map.mp he
  obtain ⟨a, b, c⟩ := mem_add_nodes_selected X helpers.length h.mesh recv pk hpk1
  have hlt : pk.1 < helpers.length := a
  obtain ⟨sb, hsb, hslot⟩ := hpk pk.1 helpers[pk.1] (List.getElem?_eq_getElem hlt)
  obtain ⟨s1, s2⟩ := received_node_of_slot_eq X recv sb pk.1 r pk.2 hslot
  refine ⟨pk.1, helpers[pk.1], sb, pk.2, List.getElem?_eq_getElem hlt, hsb, ?_, ?_, ?_⟩
  · rw [← s2]; exact b
  · rw [← s1]; exact hpk2.symm
  · rw [← hpk2]
    exact c

theorem increase_halo_interior_locate_uid2node (X : Externals) (h : BuildHaloHelper)
    (hfresh : h.uid2node = []) :
    (increase_halo_interior_locate X h).state.uid2node = (build_lookup_uid2node X h.mesh).state := by
  unfold increase_halo_interior_locate Outcome.bind Outcome.done
  simp only []
  by_cases hn : h.node_to_elem.length = 0
  · simp only [hn, if_true, hfresh, List.length_nil]
    split <;> rfl
  · simp only [hn, if_false, hfresh, List.length_nil, if_true]
    split <;> rfl

/-- Buffers whose vectors for task `p` are those of new buffers hold no flags for `p`. -/
theorem flags_of_new_slot (buf : Buffers) (n p : Nat)
    (h : buf.slot p = (Buffers.create n).slot p) : buf.node_flags.getD p [] = [] := by
  have h1 := congrArg Buffers.node_flags h
  simp only [Buffers.slot, Buffers.create, List.cons.injEq, and_true] at h1
  rw [h1, List.getD_eq_getElem?_getD, List.getElem?_replicate]
  split <;> rfl

/-- A node that the interior `fill_sendbuffer` packs into a new vector is a node of the
mesh, with the GHOST bit set. -/
theorem fill_sendbuffer_node (X : Externals) (h : BuildHaloHelper) (buf : Buffers)
    (nodes_uid : List Int) (elems : List Nat) (p : Nat) (sb : Buffers) (n : Nat)
    (hs : buf.sized n) (hp : p < n) (hnew : buf.node_flags.getD p [] = [])
    (hvalid : ∀ (uid : Int) (j : Nat), uid2node_find h.uid2node uid = some j →
      j < h.mesh.nodes.length)
    (hfill : fill_sendbuffer X h buf nodes_uid elems p = Except.ok sb)
    (idx : Nat) (hidx : idx < sb.nb_nodes p) :
    ∃ nd ∈ h.mesh.nodes,
      (received_node X sb p idx).flags = nd.flags ||| Topology_GHOST ∧
      (received_node X sb p idx).part = nd.part ∧
      (received_node X sb p idx).xy = nd.xy := by
  obtain ⟨found, hf, rfl⟩ := fill_sendbuffer_ok X h buf nodes_uid elems p sb hfill
  obtain ⟨s1, s2, s3, s4, s5, _⟩ := hs
  have hall := find_nodes_ok h.uid2node p nodes_uid found hf
  simp only [Buffers.nb_nodes, getD_set_self _ p _ _ (by rw [s4]; exact hp),
    List.length_map] at hidx
  obtain ⟨uid, huid, hfind⟩ := forall2_getElem?_right hall idx found[idx]
    (List.getElem?_eq_getElem hidx)
  have hj := hvalid uid _ hfind
  have hget : h.mesh.nodes.getD found[idx] default = h.mesh.nodes[found[idx]] := by
    rw [List.getD_eq_getElem?_getD, List.getElem?_eq_getElem hj]
    rfl
  obtain ⟨hx, hy⟩ := getElem?_flatMap_pair
    (fun j => (h.mesh.nodes.getD j default).xy.x) (fun j => (h.mesh.nodes.getD j default).xy.y)
    found idx
  refine ⟨h.mesh.nodes[found[idx]], List.getElem_mem hj, ?_, ?_, ?_⟩
  · simp only [received_node, getD_set_self _ p _ _ (by rw [s3]; exact hp)]
    rw [packed_flags_of_empty _ found _ _ hnew hall.length_eq.symm,
      List.getD_eq_getElem?_getD, List.getElem?_map, List.getElem?_eq_getElem hidx]
    simp only [Option.map_some', Option.getD_some, hget, (topology_ghost_forced _).1]
  · simp only [received_node, getD_set_self _ p _ _ (by rw [s1]; exact hp)]
    rw [List.getD_eq_getElem?_getD, List.getElem?_map, List.getElem?_eq_getElem hidx]
    simp only [Option.map_some', Option.getD_some, hget]
  · simp only [received_node, Buffers.node_crd, getD_set_self _ p _ _ (by rw [s5]; exact hp)]
    rw [List.getD_eq_getElem?_getD, List.getD_eq_getElem?_getD, hx, hy,
      List.getElem?_eq_getElem hidx]
    simp only [Option.map_some', Option.getD_some, hget]

/-! ### The nodes added by the interior pass and by the periodic passes -/

theorem length_exchange_pass (X : Externals)
    (locate : Nat → BuildHaloHelper → Outcome BuildHaloHelper)
    (request : Nat → BuildHaloHelper → List Int)
    (pack : Nat → BuildHaloHelper → List (List Int) → Except Error Buffers)
    (periodic : Bool) (helpers : List BuildHaloHelper) :
    (exchange_pass X locate request pack periodic helpers).state.length = helpers.length :=
  (exchange_pass_rel X (fun _ _ => True) (fun _ _ _ _ _ => trivial) locate request pack periodic
    helpers (fun _ _ => trivial) (fun _ _ _ => trivial)).length_eq.symm

theorem lookup_values_in_range (X : Externals) (mesh : Mesh) (uid : Int) (j : Nat)
    (h : uid2node_find (build_lookup_uid2node X mesh).state uid = some j) :
    j < mesh.nodes.length := by
  rw [build_lookup_uid2node_eq] at h
  simp only [] at h
  rw [uid2node_find_entries] at h
  exact (first_node_with_uid_some X mesh _ uid j h).1

theorem increase_halo_interior_nodes_added (X : Externals) (helpers : List BuildHaloHelper)
    (hfresh : ∀ h ∈ helpers, h.uid2node = [])
    (hok : (increase_halo_interior X helpers).error = none) :
    List.Forall₂ (nodes_added X (helpers.map BuildHaloHelper.mesh))
      (helpers.map BuildHaloHelper.mesh)
      ((increase_halo_interior X helpers).state.map BuildHaloHelper.mesh) := by
  unfold increase_halo_interior at hok ⊢
  obtain ⟨reqs, hlen, hall⟩ := exchange_pass_new_nodes X _ _ _ false helpers
    (fun _ h => increase_halo_interior_locate_mesh X h) hok
  apply forall2_of_getElem?
  · simp [length_exchange_pass]
  · intro r m m2 hm hm2
    rw [List.getElem?_map] at hm hm2
    cases hh2 : (exchange_pass X (fun _ h => increase_halo_interior_locate X h)
        (fun _ h => increase_halo_interior_request X h)
        (fun r h recv => increase_halo_interior_pack X r h recv) false helpers).state[r]? with
    | none => rw [hh2] at hm2; cases hm2
    | some h2 =>
      rw [hh2] at hm2
      obtain ⟨h, extra, hh, hnodes, hex⟩ := hall r h2 hh2
      rw [hh] at hm
      simp only [Option.map_some', Option.some.injEq] at hm hm2
      subst hm hm2
      refine ⟨extra, hnodes, ?_⟩
      intro e he
      obtain ⟨p, hp, sb, idx, hhp, hpack, hidx, he2, hnew⟩ := hex e he
      right
      refine ⟨hnew, hp.mesh, List.mem_map_of_mem _ (first_mem_getElem? _ _ _ hhp), ?_⟩
      have hr : r < reqs.length := by
        rw [hlen]
        by_contra hc
        rw [List.getElem?_eq_none (by omega)] at hh
        cases hh
      unfold increase_halo_interior_pack at hpack
      obtain ⟨_, _, hslots⟩ := pack_loop_slots X p (increase_halo_interior_locate X hp).state
        (fill_sendbuffer X (increase_halo_interior_locate X hp).state) reqs.length
        (fun buf uids elems q sb1 hf =>
          ⟨(fill_sendbuffer_frame X _ buf uids elems q sb1 hf).1 _,
            (fill_sendbuffer_frame X _ buf uids elems q sb1 hf).2⟩)
        reqs 0 (Buffers.create reqs.length) sb (sized_create _) hpack
      obtain ⟨b0, sbj, hb0, hb0new, hfill, hslot⟩ := hslots r reqs[r]
        (List.getElem?_eq_getElem hr)
      rw [Nat.zero_add] at hfill hslot hb0new
      obtain ⟨s1, s2⟩ := received_node_of_slot_eq X sb sbj r r idx hslot
      rw [s2] at hidx
      obtain ⟨nd, hnd, f1, f2, f3⟩ := fill_sendbuffer_node X _ b0 _ _ r sbj reqs.length hb0 hr
        (flags_of_new_slot b0 _ r hb0new)
        (by
          intro uid j hj
          rw [increase_halo_interior_locate_uid2node X hp
            (hfresh hp (first_mem_getElem? _ _ _ hhp))] at hj
          rw [increase_halo_interior_locate_mesh]
          exact lookup_values_in_range X hp.mesh uid j hj)
        hfill idx hidx
      rw [increase_halo_interior_locate_mesh] at hnd
      refine ⟨nd, hnd, ?_, ?_, ?_⟩
      · rw [he2, s1]; exact f1
      · rw [he2, s1]; exact f2
      · rw [he2, s1]; exact f3

theorem increase_halo_periodic_nodes_added (X : Externals) (pp : List PeriodicPoints)
    (transform : Rat) (newflags : Nat) (helpers : List BuildHaloHelper)
    (hflag : Topology_check newflags Topology_PERIODIC = true)
    (hok : (increase_halo_periodic X pp transform newflags helpers).error = none) :
    List.Forall₂ (nodes_added X (helpers.map BuildHaloHelper.mesh))
      (helpers.map BuildHaloHelper.mesh)
      ((increase_halo_periodic X pp transform newflags helpers).state.map
        BuildHaloHelper.mesh) := by
  unfold increase_halo_periodic at hok ⊢
  obtain ⟨reqs, hlen, hall⟩ := exchange_pass_new_nodes X _ _ _ true helpers
    (fun _ h => increase_halo_periodic_locate_mesh X h) hok
  apply forall2_of_getElem?
  · simp [length_exchange_pass]
  · intro r m m2 hm hm2
    rw [List.getElem?_map] at hm hm2
    cases hh2 : (exchange_pass X (fun _ h => increase_halo_periodic_locate X h)
        (fun r h => increase_halo_periodic_request X h
          (pp.getD r { flags_ := [], flag_ := 0, N_ := 0 }) transform)
        (fun r h recv => increase_halo_periodic_pack X r h transform newflags recv)
        true helpers).state[r]? with
    | none => rw [hh2] at hm2; cases hm2
    | some h2 =>
      rw [hh2] at hm2
      obtain ⟨h, extra, hh, hnodes, hex⟩ := hall r h2 hh2
      rw [hh] at hm
      simp only [Option.map_some', Option.some.injEq] at hm hm2
      subst hm hm2
      refine ⟨extra, hnodes, ?_⟩
      intro e he
      obtain ⟨p, hp, sb, idx, hhp, hpack, hidx, he2, hnew⟩ := hex e he
      left
      have hr : r < reqs.length := by
        rw [hlen]
        by_contra hc
        rw [List.getElem?_eq_none (by omega)] at hh
        cases hh
      unfold increase_halo_periodic_pack at hpack
      obtain ⟨_, _, hslots⟩ := pack_loop_slots X p (increase_halo_periodic_locate X hp).state
        (fun buf nodes_uid elems q =>
          fill_sendbuffer_periodic X (increase_halo_periodic_locate X hp).state buf nodes_uid
            elems transform newflags q) reqs.length
        (fun buf uids elems q sb1 hf => by
          obtain ⟨_, _, _, _, f1, f2⟩ := fill_sendbuffer_periodic_ok X _ buf uids elems
            transform newflags q sb1 hf
          exact ⟨f1 _, f2⟩)
        reqs 0 (Buffers.create reqs.length) sb (sized_create _) hpack
      obtain ⟨b0, sbj, hb0, hb0new, hfill, hslot⟩ := hslots r reqs[r]
        (List.getElem?_eq_getElem hr)
      rw [Nat.zero_add] at hfill hslot hb0new
      obtain ⟨s1, s2⟩ := received_node_of_slot_eq X sb sbj r r idx hslot
      rw [s2] at hidx
      obtain ⟨found, hfound, g1, g2, _, _⟩ := fill_sendbuffer_periodic_ok X _ b0 _ _ transform
        newflags r sbj hfill
      rw [packed_flags_of_empty _ found (fun _ => newflags) _ (flags_of_new_slot b0 _ r hb0new)
        (find_nodes_ok _ r _ found hfound).length_eq.symm] at g2
      obtain ⟨_, _, t3, t4, _⟩ := hb0
      simp only [Buffers.nb_nodes, g1, getD_set_self _ r _ _ (by rw [t4]; exact hr),
        List.length_map] at hidx
      rw [he2, s1]
      simp only [received_node, g2, getD_set_self _ r _ _ (by rw [t3]; exact hr)]
      rw [List.getD_eq_getElem?_getD, List.getElem?_map, List.getElem?_eq_getElem hidx]
      simp only [Option.map_some', Option.getD_some, Topology_set, Topology_NONE, Nat.zero_or]
      exact hflag

/-! ### Ghost consistency through `BuildHalo::operator()` -/

theorem zipWith_glb_idx_views : ∀ (nodes : List Node) (g : List Int), g.length = nodes.length →
    (List.zipWith (fun (n : Node) v => { n with glb_idx := v }) nodes g).map node_view
      = nodes.map node_view
  | [], [], _ => rfl
  | n :: rest, v :: g, h => by
    simp only [List.zipWith_cons_cons, List.map_cons]
    rw [zipWith_glb_idx_views rest g (by simpa using h)]
    rfl
  | [], _ :: _, h => by simp at h
  | _ :: _, [], h => by simp at h

theorem make_nodes_keeps_views (sort : List Entity → List Entity) (do_all : Bool)
    (w : List BuildHalo) :
    List.Forall₂ (fun (b b1 : BuildHalo) =>
        b1.mesh_.nodes.map node_view = b.mesh_.nodes.map node_view)
      w (make_nodes_global_index_human_readable sort do_all w) := by
  unfold make_nodes_global_index_human_readable
  have h := renumber_global_index_lengths sort (nodes_glb_idx_max do_all w)
    (nodes_fields do_all w)
  unfold nodes_fields at h ⊢
  rw [List.forall₂_map_left_iff] at h
  refine forall2_zipWith_of_forall2 _ ?_ h
  intro b g hg
  simp only [length_nodes_glb_idx] at hg
  exact zipWith_glb_idx_views b.mesh_.nodes g hg

theorem BuildHalo_iteration_ghost (X : Externals) (jhalo : Int) (w : List BuildHalo)
    (hok : (BuildHalo_iteration X jhalo w).error = none)
    (hg : ghost_consistent_all (w.map BuildHalo.mesh_))
    (ho : owners_hold_nodes X (w.map BuildHalo.mesh_)) :
    ghost_consistent_all ((BuildHalo_iteration X jhalo w).state.map BuildHalo.mesh_) ∧
    owners_hold_nodes X ((BuildHalo_iteration X jhalo w).state.map BuildHalo.mesh_) := by
  unfold BuildHalo_iteration at hok ⊢
  simp only [] at hok ⊢
  split at hok
  · simp [Outcome.fatal] at hok
  · rename_i herr
    simp only [Outcome.done]
    obtain ⟨h12, h3, hst3⟩ := Outcome.bind_error_none _ _ herr
    obtain ⟨h1, h2, hst2⟩ := Outcome.bind_error_none _ _ h12
    rw [hst3]
    rw [hst2] at h3 ⊢
    have hmesh0 : (w.map (fun b => BuildHaloHelper.create b.mesh_)).map BuildHaloHelper.mesh
        = w.map BuildHalo.mesh_ := by
      rw [List.map_map]
      rfl
    have hfresh : ∀ h ∈ w.map (fun b => BuildHaloHelper.create b.mesh_), h.uid2node = [] := by
      intro h hh
      obtain ⟨b, _, rfl⟩ := List.mem_map.mp hh
      rfl
    have s1 := increase_halo_interior_nodes_added X _ hfresh h1
    rw [hmesh0] at s1
    obtain ⟨g1, o1⟩ := ghost_invariant_step X _ _ s1 hg ho
    have s2 := increase_halo_periodic_nodes_added X _ _ _ _ (by decide) h2
    obtain ⟨g2, o2⟩ := ghost_invariant_step X _ _ s2 g1 o1
    have s3 := increase_halo_periodic_nodes_added X _ _ _ _ (by decide) h3
    obtain ⟨g3, o3⟩ := ghost_invariant_step X _ _ s3 g2 o2
    refine ghost_invariant_of_views X _ _ ?_ g3 o3
    have hlen3 := (iteration_passes_extended X w
      (fun flag hs => List.zipWith (fun h N => PeriodicPoints.create h.mesh flag N) hs
        (w.map (fun b => b.mesh_.nodes.length)))).length_eq
    rw [hst3, hst2] at hlen3
    apply forall2_of_getElem?
    · simp only [List.length_map, List.length_zipWith]
      omega
    · intro r m m1 hm hm1
      rw [List.getElem?_map] at hm hm1
      rw [List.getElem?_zipWith] at hm1
      revert hm hm1
      cases w[r]? with
      | none => intro _ hm1; simp at hm1
      | some b =>
        intro hm hm1
        revert hm hm1
        generalize ((increase_halo_periodic X _ EastWest _ _).state)[r]? = x
        cases x with
        | none => intro hm _; simp at hm
        | some h3 =>
          intro hm hm1
          simp only [Option.map_some', Option.some.injEq] at hm hm1
          subst hm hm1
          rfl

theorem BuildHalo_loop_ghost (X : Externals) : ∀ (n : Nat) (jhalo : Int) (w : List BuildHalo),
    (BuildHalo_loop X n jhalo w).error = none →
    ghost_consistent_all (w.map BuildHalo.mesh_) →
    owners_hold_nodes X (w.map BuildHalo.mesh_) →
    ghost_consistent_all ((BuildHalo_loop X n jhalo w).state.map BuildHalo.mesh_) ∧
    owners_hold_nodes X ((BuildHalo_loop X n jhalo w).state.map BuildHalo.mesh_)
  | 0, _, _, _, hg, ho => ⟨hg, ho⟩
  | n + 1, jhalo, w, hok, hg, ho => by
    rw [BuildHalo_loop] at hok ⊢
    obtain ⟨h1, h2, hst⟩ := Outcome.bind_error_none _ _ hok
    rw [hst]
    obtain ⟨g1, o1⟩ := BuildHalo_iteration_ghost X jhalo w h1 hg ho
    exact BuildHalo_loop_ghost X n (jhalo + 1) _ h2 g1 o1

theorem BuildHalo_call_ghost (X : Externals) (nb_elems : Int) (w w1 : List BuildHalo)
    (hg : ghost_consistent_all (w.map BuildHalo.mesh_))
    (ho : owners_hold_nodes X (w.map BuildHalo.mesh_))
    (hcall : BuildHalo_call X nb_elems w = Outcome.done w1) :
    ghost_consistent_all (w1.map BuildHalo.mesh_) ∧
    owners_hold_nodes X (w1.map BuildHalo.mesh_) := by
  cases w with
  | nil =>
    rw [BuildHalo_call_nil] at hcall
    have := ((Outcome.eq_done _ _).mp hcall.symm).2
    simp only [Outcome.done] at this
    rw [this]
    exact ⟨hg, ho⟩
  | cons root rest =>
    rcases BuildHalo_call_cases X nb_elems root rest with ⟨_, h⟩ | ⟨n, _, h⟩ | ⟨_, h⟩
    · rw [h] at hcall
      have := ((Outcome.eq_done _ _).mp hcall.symm).2
      simp only [Outcome.done] at this
      rw [this]
      exact ⟨hg, ho⟩
    · rw [h] at hcall
      obtain ⟨herr, hstate⟩ := (Outcome.eq_done _ _).mp hcall
      obtain ⟨hloop, _, hst⟩ := Outcome.bind_error_none _ _ herr
      rw [hst] at hstate
      simp only [Outcome.done] at hstate
      obtain ⟨g1, o1⟩ := BuildHalo_loop_ghost X n root.mesh_.halo (root :: rest) hloop hg ho
      rw [← hstate]
      refine ghost_invariant_of_views X _ _ ?_ g1 o1
      rw [List.forall₂_map_left_iff, List.forall₂_map_right_iff]
      refine forall2_trans ?_ (make_nodes_keeps_views X.sort_entities false _)
        (make_cells_keeps X.sort_entities false _)
      intro a b c hab hbc
      rw [hbc.1]
      exact hab
    · rw [h] at hcall
      have := ((Outcome.eq_done _ _).mp hcall).1
      simp [Outcome.fatal] at this

set_option maxRecDepth 100000 in
/-- C11, ghost consistency. Let the meshes of all tasks be ghost consistent before the
call (a node with the GHOST bit and without the PERIODIC bit is not owned by its task),
and let every owner hold its nodes (a node without the PERIODIC bit whose partition is `r`
has its identifier among the nodes of task `r`). When `BuildHalo::operator()` completes,
every node with the GHOST bit on every task has a partition different from the rank of
the task, or has the PERIODIC bit; both properties hold again after the call. The
exception is needed: on one task with a periodic strip the call adds the ghost nodes with
flags 22 and 38 (PERIODIC, WEST or EAST, GHOST) and partition 0, the rank of the task. -/
theorem BuildHalo_call_ghost_consistency (X : Externals) (nb_elems : Int)
    (w w1 : List BuildHalo)
    (hg : ghost_consistent_all (w.map BuildHalo.mesh_))
    (ho : owners_hold_nodes X (w.map BuildHalo.mesh_))
    (hcall : BuildHalo_call X nb_elems w = Outcome.done w1) :
    (∀ (r : Nat) (b1 : BuildHalo) (nd : Node), w1[r]? = some b1 → nd ∈ b1.mesh_.nodes →
      Topology_check nd.flags Topology_GHOST = true →
      nd.part ≠ (r : Int) ∨ Topology_check nd.flags Topology_PERIODIC = true) ∧
    ghost_consistent_all (w1.map BuildHalo.mesh_) ∧
    owners_hold_nodes X (w1.map BuildHalo.mesh_) ∧
    ((BuildHalo_call example_externals 1 example_periodic_world).error = none ∧
      ((BuildHalo_call example_externals 1 example_periodic_world).state.map
        (fun b => b.mesh_.nodes.map (fun nd => (nd.flags, nd.part))))
        = [[(20, 0), (0, 0), (36, 0), (20, 0), (0, 0), (36, 0),
            (22, 0), (22, 0), (38, 0), (38, 0)]] ∧
      Topology_check 22 Topology_GHOST = true ∧ Topology_check 22 Topology_PERIODIC = true ∧
      Topology_check 38 Topology_GHOST = true ∧ Topology_check 38 Topology_PERIODIC = true) := by
  obtain ⟨g1, o1⟩ := BuildHalo_call_ghost X nb_elems w w1 hg ho hcall
  refine ⟨?_, g1, o1, by with_unfolding_all decide, by with_unfolding_all decide,
    by decide, by decide, by decide, by decide⟩
  intro r b1 nd hb1 hnd hghost
  cases hper : Topology_check nd.flags Topology_PERIODIC with
  | true => exact Or.inr rfl
  | false =>
    left
    refine g1 (r, b1.mesh_) ?_ nd hnd hghost hper
    rw [List.mk_mem_enum_iff_getElem?, List.getElem?_map, hb1]
    rfl

theorem BuildHalo_call_ghost_consistency_witness :
    ghost_consistent_all (example_world.map BuildHalo.mesh_) ∧
    owners_hold_nodes example_externals (example_world.map BuildHalo.mesh_) ∧
    (BuildHalo_call example_externals 1 example_world).error = none ∧
    ((BuildHalo_call example_externals 1 example_world).state.map
      (fun b => b.mesh_.nodes.map (fun nd => (nd.flags, nd.part))))
      = [[(0, 0), (0, 0), (0, 0), (0, 0), (2, 1), (2, 1)],
         [(0, 0), (0, 1), (0, 0), (0, 1), (2, 0), (2, 0)]] ∧
    ghost_consistent_all
      ((BuildHalo_call example_externals 1 example_world).state.map BuildHalo.mesh_) :=
  ⟨by decide, by decide, by decide, by decide,
    (BuildHalo_call_ghost_consistency example_externals 1 example_world
      (BuildHalo_call example_externals 1 example_world).state (by decide) (by decide)
      ((Outcome.eq_done _ _).mpr ⟨by decide, rfl⟩)).2.1⟩

/-! ### Shape of the packed buffers -/

theorem length_running_displs : ∀ (cs : List Nat) (acc : Nat),
    (running_displs acc cs).length = cs.length
  | [], _ => rfl
  | _ :: cs, acc => by simp [running_displs, length_running_displs cs]

theorem running_displs_zero (cs : List Nat) (acc : Nat) (h : 0 < cs.length) :
    (running_displs acc cs)[0]? = some acc := by
  cases cs with
  | nil => simp at h
  | cons c cs => simp [running_displs]

theorem running_displs_succ : ∀ (cs : List Nat) (acc j c : Nat),
    cs[j]? = some c → (running_displs acc (cs ++ [0]))[j + 1]?
      = ((running_displs acc cs)[j]?).map (fun d => d + c)
  | [], _, _, _, h => by simp at h
  | c0 :: cs, acc, 0, c, h => by
    simp only [List.getElem?_cons_zero, Option.some.injEq] at h
    subst h
    cases cs <;> simp [running_displs]
  | c0 :: cs, acc, j + 1, c, h => by
    simp only [List.getElem?_cons_succ] at h
    simp only [List.cons_append, running_displs, List.getElem?_cons_succ]
    exact running_displs_succ cs (acc + c0) j c h

theorem running_displs_append (cs ds : List Nat) : ∀ (acc : Nat),
    running_displs acc (cs ++ ds) = running_displs acc cs ++ running_displs (acc + cs.sum) ds := by
  induction cs with
  | nil => intro acc; simp [running_displs]
  | cons c cs ih =>
    intro acc
    show running_displs acc (c :: (cs ++ ds)) = _
    simp only [running_displs, List.sum_cons, List.cons_append]
    rw [ih (acc + c), Nat.add_assoc]

theorem running_displs_step (cs : List Nat) (acc j c d : Nat)
    (hj : cs[j]? = some c) (hd : (running_displs acc cs)[j]? = some d) (hlt : j + 1 < cs.length) :
    (running_displs acc cs)[j + 1]? = some (d + c) := by
  have h1 := running_displs_succ cs acc j c hj
  rw [hd] at h1
  rw [running_displs_append] at h1
  rw [List.getElem?_append_left (by rw [length_running_displs]; exact hlt)] at h1
  exact h1

theorem length_flatMap_map {α β : Type} (f : α → List β) (l : List α) :
    (l.flatMap f).length = (l.map (fun a => (f a).length)).sum := by
  induction l with
  | nil => rfl
  | cons a t ih => simp [List.flatMap_cons, ih]

theorem fill_sendbuffer_periodic_eq (X : Externals) (h : BuildHaloHelper) (buf : Buffers)
    (nodes_uid : List Int) (elems : List Nat) (transform : Rat) (newflags : Nat) (p : Nat)
    (sb : Buffers)
    (hfill : fill_sendbuffer_periodic X h buf nodes_uid elems transform newflags p
      = Except.ok sb) :
    ∃ found, find_nodes h.uid2node p nodes_uid = Except.ok found ∧
      sb =
      { node_part := buf.node_part.set p (found.map (fun j => (h.mesh.nodes.getD j default).part)),
        node_ridx := buf.node_ridx.set p (found.map (fun j => (h.mesh.nodes.getD j default).ridx)),
        node_xy := buf.node_xy.set p
          (found.flatMap (fun j => [(PeriodicTransform_apply transform (h.mesh.xy j) (-1)).x,
            (PeriodicTransform_apply transform (h.mesh.xy j) (-1)).y])),
        node_glb_idx := buf.node_glb_idx.set p
          (found.map (fun j =>
            X.unique_lonlat (PeriodicTransform_apply transform (h.mesh.xy j) (-1)))),
        node_flags := buf.node_flags.set p
          (List.zipWith (fun old _ => Topology_set old newflags)
            (resize_flags (buf.node_flags.getD p []) nodes_uid.length) found),
        elem_part := buf.elem_part.set p (elems.map (fun e => (h.mesh.cell e).part)),
        elem_type := buf.elem_type.set p (elems.map (fun e => h.mesh.type_idx e)),
        elem_nodes_id := buf.elem_nodes_id.set p
          (elems.flatMap (fun e => (h.mesh.cell e).nodes.map
            (fun j => X.unique_lonlat (PeriodicTransform_apply transform (h.mesh.xy j) (-1))))),
        elem_nodes_displs := buf.elem_nodes_displs.set p
          (running_displs 0 (elems.map (fun e => (h.mesh.cell e).nodes.length))),
        elem_glb_idx := buf.elem_glb_idx.set p
          (elems.map (fun e => - X.unique_lonlat_n ((h.mesh.cell e).nodes.map
            (fun j => PeriodicTransform_apply transform (h.mesh.xy j) (-1))))) } := by
  unfold fill_sendbuffer_periodic at hfill
  cases hf : find_nodes h.uid2node p nodes_uid with
  | error e => rw [hf] at hfill; cases hfill
  | ok found =>
    rw [hf] at hfill
    simp only [Except.ok.injEq] at hfill
    exact ⟨found, rfl, hfill.symm⟩

/-- The vectors for task `p` after a packing step that wrote `n` node entries and the
cells `elems`: their lengths and the displacement table. -/
theorem packed_shape (mesh : Mesh) (found : List Nat) (nodes_uid : List Int) (elems : List Nat)
    (hlen : found.length = nodes_uid.length)
    (glb part ridx : List Int) (flags : List Nat) (xy : List Rat)
    (eglb epart : List Int) (etype : List Nat) (eids : List Int) (displs : List Nat)
    (h1 : glb.length = found.length) (h2 : part.length = found.length)
    (h3 : ridx.length = found.length) (h4 : flags.length = found.length)
    (h5 : xy.length = 2 * found.length)
    (h6 : eglb.length = elems.length) (h7 : epart.length = elems.length)
    (h8 : etype.length = elems.length)
    (h9 : eids.length = (elems.map (fun e => (mesh.cell e).nodes.length)).sum)
    (h10 : displs = running_displs 0 (elems.map (fun e => (mesh.cell e).nodes.length))) :
    glb.length = nodes_uid.length ∧ part.length = nodes_uid.length ∧
    ridx.length = nodes_uid.length ∧ flags.length = nodes_uid.length ∧
    xy.length = 2 * nodes_uid.length ∧
    eglb.length = elems.length ∧ epart.length = elems.length ∧ etype.length = elems.length ∧
    displs.length = elems.length ∧
    (0 < elems.length → displs[0]? = some 0) ∧
    (∀ (j e d : Nat), elems[j]? = some e → displs[j]? = some d → j + 1 < elems.length →
      displs[j + 1]? = some (d + (mesh.cell e).nodes.length)) ∧
    (∀ (j e : Nat), elems[j]? = some e →
      displs[j]? = some (((elems.take j).map (fun e => (mesh.cell e).nodes.length)).sum)) ∧
    eids.length = (elems.map (fun e => (mesh.cell e).nodes.length)).sum := by
  subst h10
  refine ⟨by omega, by omega, by omega, by omega, by omega, h6, h7, h8, ?_, ?_, ?_, ?_, h9⟩
  · rw [length_running_displs, List.length_map]
  · intro hpos
    exact running_displs_zero _ 0 (by rw [List.length_map]; exact hpos)
  · intro j e d hj hd hlt
    exact running_displs_step _ 0 j _ d (by rw [List.getElem?_map, hj]; rfl) hd
      (by rw [List.length_map]; exact hlt)
  · intro j e hj
    have := (running_displs_spec (elems.map (fun e => (mesh.cell e).nodes)) 0 j
      (mesh.cell e).nodes (by rw [List.getElem?_map, hj]; rfl)).1
    simp only [List.map_map, Nat.zero_add, ← List.map_take] at this
    exact this

/-- C21, shape of the buffers after packing. Let the buffers have a vector for task `p`,
and let `fill_sendbuffer` of the interior pass or of the periodic pass complete for the
identifiers `nodes_uid` and the cells `elems`. Then the vectors of global indices,
partitions, remote indices and flags of the nodes for `p` have one entry per identifier
and the coordinates two; the vectors of global indices, partitions, types and
displacements of the cells have one entry per cell; the first displacement is `0`, each
next displacement is the one before plus the number of nodes of the cell before, so that
the displacement of cell `j` is the number of nodes of the cells before it; and the
vector of node identifiers of the cells is as long as the cells have nodes in total. -/
theorem fill_sendbuffer_buffer_shapes (X : Externals) (h : BuildHaloHelper) (buf : Buffers)
    (nodes_uid : List Int) (elems : List Nat) (transform : Rat) (newflags : Nat) (p : Nat)
    (sb : Buffers) (hslot : buf.has_slot p)
    (hfill : fill_sendbuffer X h buf nodes_uid elems p = Except.ok sb ∨
      fill_sendbuffer_periodic X h buf nodes_uid elems transform newflags p = Except.ok sb) :
    (sb.node_glb_idx.getD p []).length = nodes_uid.length ∧
    (sb.node_part.getD p []).length = nodes_uid.length ∧
    (sb.node_ridx.getD p []).length = nodes_uid.length ∧
    (sb.node_flags.getD p []).length = nodes_uid.length ∧
    (sb.node_xy.getD p []).length = 2 * nodes_uid.length ∧
    (sb.elem_glb_idx.getD p []).length = elems.length ∧
    (sb.elem_part.getD p []).length = elems.length ∧
    (sb.elem_type.getD p []).length = elems.length ∧
    (sb.elem_nodes_displs.getD p []).length = elems.length ∧
    (0 < elems.length → (sb.elem_nodes_displs.getD p [])[0]? = some 0) ∧
    (∀ (j e d : Nat), elems[j]? = some e → (sb.elem_nodes_displs.getD p [])[j]? = some d →
      j + 1 < elems.length →
      (sb.elem_nodes_displs.getD p [])[j + 1]? = some (d + (h.mesh.cell e).nodes.length)) ∧
    (∀ (j e : Nat), elems[j]? = some e →
      (sb.elem_nodes_displs.getD p [])[j]?
        = some (((elems.take j).map (fun e => (h.mesh.cell e).nodes.length)).sum)) ∧
    (sb.elem_nodes_id.getD p []).length
      = (elems.map (fun e => (h.mesh.cell e).nodes.length)).sum := by
  obtain ⟨s1, s2, s3, s4, s5, s6, s7, s8, s9, s10⟩ := hslot
  rcases hfill with hfill | hfill
  · obtain ⟨found, hf, rfl⟩ := fill_sendbuffer_ok X h buf nodes_uid elems p sb hfill
    have hlen := (find_nodes_ok h.uid2node p nodes_uid found hf).length_eq.symm
    simp only [getD_set_self _ p _ _ s1, getD_set_self _ p _ _ s2, getD_set_self _ p _ _ s3,
      getD_set_self _ p _ _ s4, getD_set_self _ p _ _ s5, getD_set_self _ p _ _ s6,
      getD_set_self _ p _ _ s7, getD_set_self _ p _ _ s8, getD_set_self _ p _ _ s9,
      getD_set_self _ p _ _ s10]
    exact packed_shape h.mesh found nodes_uid elems hlen _ _ _ _ _ _ _ _ _ _
      (by simp) (by simp) (by simp)
      (by rw [List.length_zipWith, length_resize_flags, hlen, Nat.min_self])
      (by rw [length_flatMap_pair])
      (by simp) (by simp) (by simp)
      (by rw [length_flatMap_map]; simp) rfl
  · obtain ⟨found, hf, rfl⟩ := fill_sendbuffer_periodic_eq X h buf nodes_uid elems transform
      newflags p sb hfill
    have hlen := (find_nodes_ok h.uid2node p nodes_uid found hf).length_eq.symm
    simp only [getD_set_self _ p _ _ s1, getD_set_self _ p _ _ s2, getD_set_self _ p _ _ s3,
      getD_set_self _ p _ _ s4, getD_set_self _ p _ _ s5, getD_set_self _ p _ _ s6,
      getD_set_self _ p _ _ s7, getD_set_self _ p _ _ s8, getD_set_self _ p _ _ s9,
      getD_set_self _ p _ _ s10]
    exact packed_shape h.mesh found nodes_uid elems hlen _ _ _ _ _ _ _ _ _ _
      (by simp) (by simp) (by simp)
      (by rw [List.length_zipWith, length_resize_flags, hlen, Nat.min_self])
      (by rw [length_flatMap_pair])
      (by simp) (by simp) (by simp)
      (by rw [length_flatMap_map]; simp) rfl

theorem fill_sendbuffer_buffer_shapes_witness :
    (Buffers.create 2).has_slot 0 ∧
    fill_sendbuffer example_externals example_helper1 (Buffers.create 2) example_found1.2
      example_found1.1 0 = Except.ok example_sent1 ∧
    (example_sent1.node_xy.getD 0 []).length = 2 * example_found1.2.length ∧
    (example_sent1.elem_nodes_displs.getD 0 [])[0]? = some 0 ∧
    (example_sent1.elem_nodes_id.getD 0 []).length
      = (example_found1.1.map (fun e => (example_helper1.mesh.cell e).nodes.length)).sum :=
  ⟨by decide, by rfl,
   (fill_sendbuffer_buffer_shapes example_externals example_helper1 (Buffers.create 2)
      example_found1.2 example_found1.1 0 0 0 example_sent1 (by decide)
      (Or.inl (by rfl))).2.2.2.2.1,
   (fill_sendbuffer_buffer_shapes example_externals example_helper1 (Buffers.create 2)
      example_found1.2 example_found1.1 0 0 0 example_sent1 (by decide)
      (Or.inl (by rfl))).2.2.2.2.2.2.2.2.2.1 (by decide),
   (fill_sendbuffer_buffer_shapes example_externals example_helper1 (Buffers.create 2)
      example_found1.2 example_found1.1 0 0 0 example_sent1 (by decide)
      (Or.inl (by rfl))).2.2.2.2.2.2.2.2.2.2.2.2⟩

/-! ### What the periodic passes pack and append -/

/-- A node that the periodic `fill_sendbuffer` packs: the forced flags set in the entry
that the resized vector held, the partition and remote index of the node that `uid2node`
holds for the identifier, its coordinates transformed with direction `-1`, and the
identifier of these as global index. -/
theorem fill_sendbuffer_periodic_node (X : Externals) (h : BuildHaloHelper) (buf : Buffers)
    (nodes_uid : List Int) (elems : List Nat) (transform : Rat) (newflags : Nat) (p : Nat)
    (sb : Buffers) (hslot : buf.has_slot p)
    (hfill : fill_sendbuffer_periodic X h buf nodes_uid elems transform newflags p
      = Except.ok sb) :
    sb.nb_nodes p = nodes_uid.length ∧
    ∀ (k : Nat) (uid : Int), nodes_uid[k]? = some uid →
      ∃ j, uid2node_find h.uid2node uid = some j ∧
        (sb.node_flags.getD p []).getD k 0
          = Topology_set ((buf.node_flags.getD p []).getD k Topology_NONE) newflags ∧
        (sb.node_part.getD p []).getD k 0 = (h.mesh.nodes.getD j default).part ∧
        (sb.node_ridx.getD p []).getD k 0 = (h.mesh.nodes.getD j default).ridx ∧
        sb.node_crd p k = PeriodicTransform_apply transform (h.mesh.xy j) (-1) ∧
        (sb.node_glb_idx.getD p []).getD k 0
          = X.unique_lonlat (PeriodicTransform_apply transform (h.mesh.xy j) (-1)) := by
  obtain ⟨found, hf, rfl⟩ := fill_sendbuffer_periodic_eq X h buf nodes_uid elems transform
    newflags p sb hfill
  obtain ⟨s1, s2, s3, s4, s5, _⟩ := hslot
  have hall := find_nodes_ok h.uid2node p nodes_uid found hf
  constructor
  · simp only [Buffers.nb_nodes, getD_set_self _ p _ _ s4, List.length_map]
    exact hall.length_eq.symm
  intro k uid hk
  obtain ⟨j, hj, hfind⟩ := forall2_getElem? hall k uid hk
  obtain ⟨hx, hy⟩ := getElem?_flatMap_pair
    (fun j => (PeriodicTransform_apply transform (h.mesh.xy j) (-1)).x)
    (fun j => (PeriodicTransform_apply transform (h.mesh.xy j) (-1)).y) found k
  refine ⟨j, hfind, ?_, ?_, ?_, ?_, ?_⟩
  · have hflags := getElem?_packed_flags (buf.node_flags.getD p []) found
      (fun _ => newflags) k j hj
    rw [← hall.length_eq] at hflags
    simp only [getD_set_self _ p _ _ s3]
    rw [List.getD_eq_getElem?_getD, hflags]
    rfl
  · simp only [getD_set_self _ p _ _ s1]
    rw [List.getD_eq_getElem?_getD, List.getElem?_map, hj]
    rfl
  · simp only [getD_set_self _ p _ _ s2]
    rw [List.getD_eq_getElem?_getD, List.getElem?_map, hj]
    rfl
  · simp only [Buffers.node_crd, getD_set_self _ p _ _ s5]
    rw [List.getD_eq_getElem?_getD, List.getD_eq_getElem?_getD, hx, hy, hj]
    rfl
  · simp only [getD_set_self _ p _ _ s4]
    rw [List.getD_eq_getElem?_getD, List.getElem?_map, hj]
    rfl

theorem sized_has_slot (buf : Buffers) (n p : Nat) (hs : buf.sized n) (hp : p < n) :
    buf.has_slot p := by
  obtain ⟨s1, s2, s3, s4, s5, s6, s7, s8, s9, s10⟩ := hs
  exact ⟨by omega, by omega, by omega, by omega, by omega, by omega, by omega, by omega,
    by omega, by omega⟩

theorem increase_halo_periodic_locate_uid2node (X : Externals) (h : BuildHaloHelper) :
    (increase_halo_periodic_locate X h).state.uid2node = (build_lookup_uid2node X h.mesh).state := by
  unfold increase_halo_periodic_locate Outcome.bind Outcome.done
  simp only []
  split
  · split <;> rfl
  · rfl

/-- The nodes that a completed periodic pass appends on task `r`: each is the copy of a
node `src` of some task, with the forced flags, the coordinates of `src` transformed with
direction `-1`, the partition and remote index of `src`, and the identifier of the
transformed coordinates as global index. -/
theorem increase_halo_periodic_appended (X : Externals) (pp : List PeriodicPoints)
    (transform : Rat) (newflags : Nat) (helpers : List BuildHaloHelper)
    (hok : (increase_halo_periodic X pp transform newflags helpers).error = none)
    (r : Nat) (h2 : BuildHaloHelper)
    (hr2 : (increase_halo_periodic X pp transform newflags helpers).state[r]? = some h2) :
    ∃ h extra, helpers[r]? = some h ∧ h2.mesh.nodes = h.mesh.nodes ++ extra ∧
      ∀ e ∈ extra, ∃ (p : Nat) (hp : BuildHaloHelper), helpers[p]? = some hp ∧
        ∃ src ∈ hp.mesh.nodes,
          e.flags = newflags ∧
          e.xy = PeriodicTransform_apply transform src.xy (-1) ∧
          e.part = src.part ∧ e.ridx = src.ridx ∧
          e.glb_idx = X.unique_lonlat (PeriodicTransform_apply transform src.xy (-1)) ∧
          e.ghost = (if Topology_check newflags Topology_GHOST then 1 else 0) ∧
          e.lonlat = X.projection_lonlat e.xy := by
  unfold increase_halo_periodic at hok hr2
  obtain ⟨reqs, hlen, hall⟩ := exchange_pass_new_nodes X _ _ _ true helpers
    (fun _ h => increase_halo_periodic_locate_mesh X h) hok
  obtain ⟨h, extra, hh, hnodes, hex⟩ := hall r h2 hr2
  refine ⟨h, extra, hh, hnodes, ?_⟩
  intro e he
  obtain ⟨p, hp, sb, idx, hhp, hpack, hidx, he2, _⟩ := hex e he
  have hr : r < reqs.length := by
    rw [hlen]
    by_contra hc
    rw [List.getElem?_eq_none (by omega)] at hh
    cases hh
  unfold increase_halo_periodic_pack at hpack
  obtain ⟨_, _, hslots⟩ := pack_loop_slots X p (increase_halo_periodic_locate X hp).state
    (fun buf nodes_uid elems q =>
      fill_sendbuffer_periodic X (increase_halo_periodic_locate X hp).state buf nodes_uid
        elems transform newflags q) reqs.length
    (fun buf uids elems q sb1 hf => by
      obtain ⟨_, _, _, _, f1, f2⟩ := fill_sendbuffer_periodic_ok X _ buf uids elems
        transform newflags q sb1 hf
      exact ⟨f1 _, f2⟩)
    reqs 0 (Buffers.create reqs.length) sb (sized_create _) hpack
  obtain ⟨b0, sbj, hb0, hb0new, hfill, hslot⟩ := hslots r reqs[r]
    (List.getElem?_eq_getElem hr)
  rw [Nat.zero_add] at hfill hslot hb0new
  obtain ⟨s1, s2⟩ := received_node_of_slot_eq X sb sbj r r idx hslot
  rw [s2] at hidx
  obtain ⟨hn, hnode⟩ := fill_sendbuffer_periodic_node X _ b0 _ _ transform newflags r sbj
    (sized_has_slot b0 _ r hb0 hr) hfill
  rw [hn] at hidx
  obtain ⟨uid, huid⟩ : ∃ uid, (accumulate_elements X p
      (increase_halo_periodic_locate X hp).state.mesh reqs[r]
      (increase_halo_periodic_locate X hp).state.uid2node
      (increase_halo_periodic_locate X hp).state.node_to_elem).2[idx]? = some uid :=
    ⟨_, List.getElem?_eq_getElem hidx⟩
  obtain ⟨j, hfind, g0, g2, g3, g4, g5⟩ := hnode idx uid huid
  have g1 : (sbj.node_flags.getD r []).getD idx 0 = newflags := by
    rw [g0, flags_of_new_slot b0 _ r hb0new]
    simp [Topology_set, Topology_NONE]
  rw [increase_halo_periodic_locate_uid2node] at hfind
  rw [increase_halo_periodic_locate_mesh] at g2 g3 g4 g5
  have hj := lookup_values_in_range X hp.mesh _ j hfind
  have hget : hp.mesh.nodes.getD j default = hp.mesh.nodes[j] := by
    rw [List.getD_eq_getElem?_getD, List.getElem?_eq_getElem hj]
    rfl
  have hxy : hp.mesh.xy j = hp.mesh.nodes[j].xy := by
    unfold Mesh.xy
    rw [hget]
  rw [hget] at g2 g3
  rw [hxy] at g4 g5
  refine ⟨p, hp, hhp, hp.mesh.nodes[j], List.getElem_mem hj, ?_⟩
  rw [he2, s1]
  simp only [received_node, g1, g2, g3, g4, g5]
  exact ⟨trivial, trivial, trivial, trivial, trivial, trivial, trivial⟩

/-- C22, payload of a periodic pass. The forced flags are `PERIODIC|WEST|GHOST = 22` and
`PERIODIC|EAST|GHOST = 38`; the transform of the WEST pass, applied with direction `-1`,
subtracts 360 from `x`, that of the EAST pass adds 360, and both keep `y`. The periodic
`fill_sendbuffer` packs for the `k`-th identifier the partition and remote index of the
node that `uid2node` holds for it, its transformed coordinates, the identifier of these as
global index, and sets `newflags` in the entry of the flags: in a vector that was empty,
as in the new buffers of a pass, the flags are exactly `newflags`, whatever the flags of
the node. Every node that a completed WEST (EAST) pass appends on a task is the copy of a
node `src` of some task: its flags are 22 (38), its coordinates those of `src` with `x`
shifted by `-360` (`+360`), its partition and remote index those of `src`, its global
index the identifier of the shifted coordinates. -/
theorem periodic_pass_payload (X : Externals) :
    (Topology_PERIODIC ||| Topology_WEST ||| Topology_GHOST = 22 ∧
      Topology_PERIODIC ||| Topology_EAST ||| Topology_GHOST = 38) ∧
    (∀ crd : PointXY,
      PeriodicTransform_apply WestEast crd (-1) = { x := crd.x - 360, y := crd.y } ∧
      PeriodicTransform_apply EastWest crd (-1) = { x := crd.x + 360, y := crd.y }) ∧
    (∀ (h : BuildHaloHelper) (buf : Buffers) (nodes_uid : List Int) (elems : List Nat)
      (transform : Rat) (newflags : Nat) (p : Nat) (sb : Buffers), buf.has_slot p →
      fill_sendbuffer_periodic X h buf nodes_uid elems transform newflags p = Except.ok sb →
      sb.nb_nodes p = nodes_uid.length ∧
      ∀ (k : Nat) (uid : Int), nodes_uid[k]? = some uid →
        ∃ j, uid2node_find h.uid2node uid = some j ∧
          (sb.node_flags.getD p []).getD k 0
            = Topology_set ((buf.node_flags.getD p []).getD k Topology_NONE) newflags ∧
          (buf.node_flags.getD p [] = [] → (sb.node_flags.getD p []).getD k 0 = newflags) ∧
          (sb.node_part.getD p []).getD k 0 = (h.mesh.nodes.getD j default).part ∧
          (sb.node_ridx.getD p []).getD k 0 = (h.mesh.nodes.getD j default).ridx ∧
          sb.node_crd p k = PeriodicTransform_apply transform (h.mesh.xy j) (-1) ∧
          (sb.node_glb_idx.getD p []).getD k 0
            = X.unique_lonlat (PeriodicTransform_apply transform (h.mesh.xy j) (-1))) ∧
    (∀ (pp : List PeriodicPoints) (helpers : List BuildHaloHelper),
      (increase_halo_periodic X pp WestEast
        (Topology_PERIODIC ||| Topology_WEST ||| Topology_GHOST) helpers).error = none →
      ∀ (r : Nat) (h2 : BuildHaloHelper),
        (increase_halo_periodic X pp WestEast
          (Topology_PERIODIC ||| Topology_WEST ||| Topology_GHOST) helpers).state[r]? = some h2 →
        ∃ h extra, helpers[r]? = some h ∧ h2.mesh.nodes = h.mesh.nodes ++ extra ∧
          ∀ e ∈ extra, ∃ (p : Nat) (hp : BuildHaloHelper), helpers[p]? = some hp ∧
            ∃ src ∈ hp.mesh.nodes,
              e.flags = 22 ∧ e.xy = { x := src.xy.x - 360, y := src.xy.y } ∧
              e.part = src.part ∧ e.ridx = src.ridx ∧ e.glb_idx = X.unique_lonlat e.xy) ∧
    (∀ (pp : List PeriodicPoints) (helpers : List BuildHaloHelper),
      (increase_halo_periodic X pp EastWest
        (Topology_PERIODIC ||| Topology_EAST ||| Topology_GHOST) helpers).error = none →
      ∀ (r : Nat) (h2 : BuildHaloHelper),
        (increase_halo_periodic X pp EastWest
          (Topology_PERIODIC ||| Topology_EAST ||| Topology_GHOST) helpers).state[r]? = some h2 →
        ∃ h extra, helpers[r]? = some h ∧ h2.mesh.nodes = h.mesh.nodes ++ extra ∧
          ∀ e ∈ extra, ∃ (p : Nat) (hp : BuildHaloHelper), helpers[p]? = some hp ∧
            ∃ src ∈ hp.mesh.nodes,
              e.flags = 38 ∧ e.xy = { x := src.xy.x + 360, y := src.xy.y } ∧
              e.part = src.part ∧ e.ridx = src.ridx ∧ e.glb_idx = X.unique_lonlat e.xy) := by
  have hshift : ∀ crd : PointXY,
      PeriodicTransform_apply WestEast crd (-1) = { x := crd.x - 360, y := crd.y } ∧
      PeriodicTransform_apply EastWest crd (-1) = { x := crd.x + 360, y := crd.y } := by
    intro crd
    constructor
    · simp only [PeriodicTransform_apply, WestEast, PointXY.mk.injEq, and_true]
      ring
    · simp only [PeriodicTransform_apply, EastWest, PointXY.mk.injEq, and_true]
      ring
  refine ⟨⟨by decide, by decide⟩, hshift, ?_, ?_, ?_⟩
  · intro h buf nodes_uid elems transform newflags p sb hslot hfill
    obtain ⟨hn, hnode⟩ := fill_sendbuffer_periodic_node X h buf nodes_uid elems transform
      newflags p sb hslot hfill
    refine ⟨hn, ?_⟩
    intro k uid hk
    obtain ⟨j, hfind, g0, g2, g3, g4, g5⟩ := hnode k uid hk
    refine ⟨j, hfind, g0, ?_, g2, g3, g4, g5⟩
    intro hnew
    rw [g0, hnew]
    simp [Topology_set, Topology_NONE]
  · intro pp helpers hok r h2 hr2
    obtain ⟨h, extra, hh, hnodes, hex⟩ := increase_halo_periodic_appended X pp WestEast _ helpers
      hok r h2 hr2
    refine ⟨h, extra, hh, hnodes, ?_⟩
    intro e he
    obtain ⟨p, hp, hhp, src, hsrc, e1, e2, e3, e4, e5, _⟩ := hex e he
    refine ⟨p, hp, hhp, src, hsrc, ?_, ?_, e3, e4, ?_⟩
    · rw [e1]; decide
    · rw [e2, (hshift src.xy).1]
    · rw [e5, e2]
  · intro pp helpers hok r h2 hr2
    obtain ⟨h, extra, hh, hnodes, hex⟩ := increase_halo_periodic_appended X pp EastWest _ helpers
      hok r h2 hr2
    refine ⟨h, extra, hh, hnodes, ?_⟩
    intro e he
    obtain ⟨p, hp, hhp, src, hsrc, e1, e2, e3, e4, e5, _⟩ := hex e he
    refine ⟨p, hp, hhp, src, hsrc, ?_, ?_, e3, e4, ?_⟩
    · rw [e1]; decide
    · rw [e2, (hshift src.xy).2]
    · rw [e5, e2]

/-! ### The filter of the periodic passes -/

theorem node2elem_push_eq (e : Nat) (nodes : List Nat) :
    ∀ (n2e : List (List Nat)) (i : Nat), i < n2e.length →
      (nodes.foldl (fun acc node => acc.modify (fun l => l ++ [e]) node) n2e).getD i []
        = n2e.getD i [] ++ List.replicate (nodes.count i) e := by
  induction nodes with
  | nil => intro n2e i _; simp
  | cons node rest ih =>
    intro n2e i hi
    rw [List.foldl_cons, ih _ i (by rw [List.length_modify]; exact hi)]
    have hget : (n2e.modify (fun l => l ++ [e]) node).getD i []
        = if node = i then n2e.getD i [] ++ [e] else n2e.getD i [] := by
      rw [List.getD_eq_getElem?_getD, List.getElem?_modify, List.getD_eq_getElem?_getD,
        List.getElem?_eq_getElem hi]
      by_cases hn : node = i <;> simp [hn]
    rw [hget, List.count_cons]
    by_cases hn : node = i
    · subst hn
      simp only [if_true, beq_self_eq_true, List.append_assoc, List.singleton_append]
      rw [← List.replicate_succ]
    · have hb : (node == i) = false := beq_false_of_ne hn
      simp only [hn, if_false, hb, Nat.add_zero]
      rfl

theorem node2elem_fold_eq : ∀ (cells : List Cell) (k : Nat) (n2e : List (List Nat)) (i : Nat),
    i < n2e.length →
    ((cells.enumFrom k).foldl
        (fun n2e ec =>
          if ec.2.patch = 0 then
            ec.2.nodes.foldl (fun acc node => acc.modify (fun l => l ++ [ec.1]) node) n2e
          else n2e) n2e).getD i []
      = n2e.getD i [] ++ (cells.enumFrom k).flatMap
          (fun ec => if ec.2.patch = 0 then List.replicate (ec.2.nodes.count i) ec.1 else []) := by
  intro cells
  induction cells with
  | nil => intro k n2e i _; simp
  | cons c rest ih =>
    intro k n2e i hi
    rw [List.enumFrom_cons, List.foldl_cons, List.flatMap_cons]
    by_cases hp : c.patch = 0
    · simp only [hp, if_true]
      rw [ih (k + 1) _ i (by rw [(node2elem_push_spec k c.nodes n2e).1]; exact hi),
        node2elem_push_eq k c.nodes n2e i hi, List.append_assoc]
    · simp only [hp, if_false, List.nil_append]
      exact ih (k + 1) n2e i hi

theorem count_cells_flatMap (i : Nat) : ∀ (cells : List Cell) (k e : Nat),
    ((cells.enumFrom k).flatMap
        (fun ec => if ec.2.patch = 0 then List.replicate (ec.2.nodes.count i) ec.1 else [])).count e
      = if k ≤ e then
          match cells[e - k]? with
          | some c => if c.patch = 0 then c.nodes.count i else 0
          | none => 0
        else 0 := by
  intro cells
  induction cells with
  | nil => intro k e; simp
  | cons c rest ih =>
    intro k e
    rw [List.enumFrom_cons, List.flatMap_cons, List.count_append, ih (k + 1) e]
    by_cases hek : e = k
    · subst hek
      have h1 : ¬ (e + 1 ≤ e) := by omega
      simp only [h1, if_false, Nat.add_zero, Nat.le_refl, if_true, Nat.sub_self,
        List.getElem?_cons_zero]
      by_cases hp : c.patch = 0
      · simp only [hp, if_true, List.count_replicate_self]
      · simp only [hp, if_false, List.count_nil]
    · have h0 : (if c.patch = 0 then List.replicate (c.nodes.count i) k else []).count e = 0 := by
        apply List.count_eq_zero_of_not_mem
        intro hm
        split at hm
        · exact hek (List.eq_of_mem_replicate hm)
        · cases hm
      simp only [] at h0 ⊢
      rw [h0, Nat.zero_add]
      by_cases hle : k ≤ e
      · have h1 : k + 1 ≤ e := by omega
        have h2 : e - k = (e - (k + 1)) + 1 := by omega
        simp only [h1, hle, if_true]
        rw [h2, List.getElem?_cons_succ]
      · have h1 : ¬ (k + 1 ≤ e) := by omega
        simp only [h1, hle, if_false]

theorem sorted_cells_flatMap (i : Nat) : ∀ (cells : List Cell) (k : Nat),
    ((cells.enumFrom k).flatMap
        (fun ec => if ec.2.patch = 0 then List.replicate (ec.2.nodes.count i) ec.1 else [])).Sorted
      (fun a b => a ≤ b) ∧
    ∀ x ∈ (cells.enumFrom k).flatMap
        (fun ec => if ec.2.patch = 0 then List.replicate (ec.2.nodes.count i) ec.1 else []),
      k ≤ x := by
  intro cells
  induction cells with
  | nil => intro k; simp
  | cons c rest ih =>
    intro k
    rw [List.enumFrom_cons, List.flatMap_cons]
    obtain ⟨a1, a2⟩ := ih (k + 1)
    have hhead : ∀ x ∈ (if c.patch = 0 then List.replicate (c.nodes.count i) k else []), x = k := by
      intro x hx
      split at hx
      · exact List.eq_of_mem_replicate hx
      · cases hx
    constructor
    · unfold List.Sorted
      rw [List.pairwise_append]
      refine ⟨?_, a1, ?_⟩
      · simp only []
        split
        · rw [List.pairwise_replicate]
          right
          exact Nat.le_refl k
        · exact List.Pairwise.nil
      · intro x hx y hy
        have := hhead x hx
        have := a2 y hy
        omega
    · intro x hx
      rcases List.mem_append.mp hx with h1 | h1
      · exact (hhead x h1).ge
      · have := a2 x h1
        omega

theorem node2elem_eq_cells_around (mesh : Mesh) (n : Nat) (hn : n < mesh.nodes.length) :
    (build_lookup_node2elem mesh).getD n [] = cells_around_node mesh n := by
  unfold build_lookup_node2elem cells_around_node
  simp only [List.enum]
  rw [node2elem_fold_eq mesh.all_cells 0 _ n (by rw [List.length_replicate]; exact hn)]
  have hrep : (List.replicate mesh.nodes.length ([] : List Nat)).getD n [] = [] := by
    rw [List.getD_eq_getElem?_getD, List.getElem?_replicate]
    split <;> rfl
  rw [hrep, List.nil_append]

/-- C24, the lookup from nodes to cells. `build_lookup_node2elem` returns one list per
node, and the list of node `n` is the one that the specification describes
(`cells_around_node`): a cell `e` occurs in it as often as `n` occurs in the row of `e`
when `e` is not a patch cell, and not at all when it is one; an index that is not a cell
does not occur; the list is ascending. The start of a periodic pass replaces the lookup
of the helper by the one built from the mesh, whatever it held, and so does the start of
an interior pass when the lookup is empty. -/
theorem build_lookup_node2elem_multiplicities (X : Externals) (mesh : Mesh) :
    (build_lookup_node2elem mesh).length = mesh.nodes.length ∧
    (∀ n, n < mesh.nodes.length →
      (build_lookup_node2elem mesh).getD n [] = cells_around_node mesh n) ∧
    (∀ n e, n < mesh.nodes.length → e < mesh.nb_cells →
      ((build_lookup_node2elem mesh).getD n []).count e
        = if (mesh.cell e).patch = 0 then (mesh.cell e).nodes.count n else 0) ∧
    (∀ n e, n < mesh.nodes.length → mesh.nb_cells ≤ e →
      ((build_lookup_node2elem mesh).getD n []).count e = 0) ∧
    (∀ n, n < mesh.nodes.length →
      ((build_lookup_node2elem mesh).getD n []).Sorted (fun a b => a ≤ b)) ∧
    (∀ h : BuildHaloHelper,
      (increase_halo_periodic_locate X h).state.node_to_elem = build_lookup_node2elem h.mesh ∧
      (h.node_to_elem.length = 0 →
        (increase_halo_interior_locate X h).state.node_to_elem
          = build_lookup_node2elem h.mesh)) := by
  refine ⟨(build_lookup_node2elem_spec mesh).1, node2elem_eq_cells_around mesh, ?_, ?_, ?_, ?_⟩
  · intro n e hn he
    rw [node2elem_eq_cells_around mesh n hn]
    unfold cells_around_node
    simp only [List.enum]
    rw [count_cells_flatMap n mesh.all_cells 0 e]
    unfold Mesh.nb_cells at he
    simp only [Nat.zero_le, if_true, Nat.sub_zero, List.getElem?_eq_getElem he]
    unfold Mesh.cell
    rw [List.getD_eq_getElem?_getD, List.getElem?_eq_getElem he]
    rfl
  · intro n e hn he
    rw [node2elem_eq_cells_around mesh n hn]
    unfold cells_around_node
    simp only [List.enum]
    rw [count_cells_flatMap n mesh.all_cells 0 e]
    unfold Mesh.nb_cells at he
    simp only [Nat.zero_le, if_true, Nat.sub_zero, List.getElem?_eq_none he]
  · intro n hn
    rw [node2elem_eq_cells_around mesh n hn]
    exact (sorted_cells_flatMap n mesh.all_cells 0).1
  · intro h
    constructor
    · unfold increase_halo_periodic_locate Outcome.bind Outcome.done
      simp only []
      split
      · split <;> rfl
      · rfl
    · intro hz
      unfold increase_halo_interior_locate Outcome.bind Outcome.done
      simp only [hz, if_true]
      split
      · split
        · rfl
        · rfl
      · split
        · rfl
        · rfl

/-! ### `add_nodes` on a lookup built from the mesh -/

theorem add_nodes_loop_uid2node (X : Externals) (periodic : Bool) (buf : Buffers) (nb : Nat) :
    ∀ (pairs : List (Nat × Nat)) (c : Nat) (h : BuildHaloHelper),
      nb + c + pairs.length ≤ h.mesh.nodes.length →
      (add_nodes_loop X periodic buf nb pairs c h).error = none →
      (add_nodes_loop X periodic buf nb pairs c h).state.uid2node
        = h.uid2node ++ (pairs.enumFrom c).map
            (fun kp => (buf.node_uid X kp.2.1 kp.2.2, nb + kp.1)) := by
  intro pairs
  induction pairs with
  | nil => intro c h _ _; simp [add_nodes_loop, Outcome.done]
  | cons p rest ih =>
    intro c h hlen hok
    obtain ⟨jpart, idx⟩ := p
    simp only [List.length_cons] at hlen
    obtain ⟨_, s2, s3⟩ := add_nodes_store_spec X periodic buf nb h c jpart idx (by omega)
    simp only [add_nodes_loop] at hok ⊢
    cases herr : (add_nodes_store X periodic buf nb h c jpart idx).error with
    | some e =>
      rw [herr] at hok
      simp only [] at hok
      rw [herr] at hok
      cases hok
    | none =>
      rw [herr] at hok
      simp only [] at hok ⊢
      rw [ih (c + 1) _ (by rw [s2]; omega) hok, s3 herr]
      simp only [List.enumFrom_cons, List.map_cons, List.append_assoc, List.singleton_append]

theorem add_nodes_uid2node (X : Externals) (mpi_size : Nat) (h : BuildHaloHelper) (buf : Buffers)
    (periodic : Bool) (hok : (add_nodes X mpi_size h buf periodic).error = none) :
    (add_nodes X mpi_size h buf periodic).state.uid2node
      = h.uid2node ++ (add_nodes_selected X mpi_size h.mesh buf).enum.map
          (fun kp => (buf.node_uid X kp.2.1 kp.2.2, h.mesh.nodes.length + kp.1)) := by
  unfold add_nodes at hok ⊢
  simp only [] at hok ⊢
  have := add_nodes_loop_uid2node X periodic buf h.mesh.nodes.length _ 0 _
    (by simp only [List.length_append, List.length_replicate, length_visit_order]; omega) hok
  rw [this]
  rfl

theorem uid2node_find_enumFrom {α : Type} (f : α → Int) (nb : Nat) :
    ∀ (l : List α) (c k : Nat) (a : α), (l.map f).Nodup → l[k]? = some a →
      uid2node_find ((l.enumFrom c).map (fun kp => (f kp.2, nb + kp.1))) (f a)
        = some (nb + (c + k)) := by
  intro l
  induction l with
  | nil => intro c k a _ hk; simp at hk
  | cons x t ih =>
    intro c k a hnd hk
    simp only [List.map_cons, List.nodup_cons] at hnd
    cases k with
    | zero =>
      simp only [List.getElem?_cons_zero, Option.some.injEq] at hk
      subst hk
      simp [uid2node_find, List.find?]
    | succ k =>
      simp only [List.getElem?_cons_succ] at hk
      have hne : f x ≠ f a := by
        intro hc
        apply hnd.1
        rw [hc]
        exact List.mem_map.mpr ⟨a, first_mem_getElem? _ _ _ hk, rfl⟩
      have := ih (c + 1) k a hnd.2 hk
      simp only [uid2node_find, List.enumFrom_cons, List.map_cons, List.find?, hne, decide_False]
        at this ⊢
      rw [this]
      congr 2
      omega

theorem lookup_keys_are_uids (X : Externals) (mesh : Mesh) (u : Int) (j : Nat)
    (h : uid2node_find (build_lookup_uid2node X mesh).state u = some j) :
    j < mesh.nodes.length ∧ compute_uid X mesh j = u ∧ u ∈ mesh.uids X := by
  rw [build_lookup_uid2node_eq] at h
  simp only [] at h
  rw [uid2node_find_entries] at h
  obtain ⟨a, b, _⟩ := first_node_with_uid_some X mesh _ u j h
  refine ⟨a, b, ?_⟩
  rw [← range_map_compute_uid, ← b]
  exact List.mem_map.mpr ⟨j, List.mem_range.mpr a, rfl⟩

/-- With the lookup built from the mesh, `uid2node` holds the identifier of no kept node,
and `add_nodes` completes. -/
theorem add_nodes_lookup_ok (X : Externals) (mpi_size : Nat) (h : BuildHaloHelper)
    (buf : Buffers) (periodic : Bool)
    (hu : h.uid2node = (build_lookup_uid2node X h.mesh).state) :
    (∀ pk ∈ add_nodes_selected X mpi_size h.mesh buf,
      uid2node_find h.uid2node (buf.node_uid X pk.1 pk.2) = none) ∧
    (add_nodes X mpi_size h buf periodic).error = none ∧
    (add_buffers X mpi_size h buf periodic).error = none := by
  have hnone : ∀ pk ∈ add_nodes_selected X mpi_size h.mesh buf,
      uid2node_find h.uid2node (buf.node_uid X pk.1 pk.2) = none := by
    intro pk hpk
    obtain ⟨_, _, hnew⟩ := mem_add_nodes_selected X mpi_size h.mesh buf pk hpk
    cases hf : uid2node_find h.uid2node (buf.node_uid X pk.1 pk.2) with
    | none => rfl
    | some j =>
      rw [hu] at hf
      exact absurd (lookup_keys_are_uids X h.mesh _ j hf).2.2 hnew
  have hok : (add_nodes X mpi_size h buf periodic).error = none :=
    (add_nodes_completes_iff X mpi_size h buf periodic).mpr hnone
  refine ⟨hnone, hok, ?_⟩
  rw [(add_buffers_state X mpi_size h buf periodic).1]
  exact hok

/-- C27, `add_nodes` on the lookup built from the mesh. Let `uid2node` be the lookup that
`build_lookup_uid2node` has built from the mesh of the helper. Then no received node that
passes the duplicate filter has an identifier that `uid2node` holds; `add_nodes` and
`add_buffers` complete, without the error of an identifier that exists already; the nodes
that pass the filter are appended in order, the `k`-th at the local index `nb_nodes + k`
with the identifier received, and `uid2node` after the merge maps that identifier to that
index and keeps every entry that it held: when the lookup was built without error it
still maps the identifier of every node of the mesh to its index. -/
theorem add_nodes_fresh_lookup_completes (X : Externals) (mpi_size : Nat) (h : BuildHaloHelper)
    (buf : Buffers) (periodic : Bool)
    (hu : h.uid2node = (build_lookup_uid2node X h.mesh).state) :
    (∀ pk ∈ add_nodes_selected X mpi_size h.mesh buf,
      uid2node_find h.uid2node (buf.node_uid X pk.1 pk.2) = none) ∧
    (add_nodes X mpi_size h buf periodic).error = none ∧
    (add_buffers X mpi_size h buf periodic).error = none ∧
    (add_nodes X mpi_size h buf periodic).state.mesh.nodes
      = h.mesh.nodes ++ received_nodes X buf (add_nodes_selected X mpi_size h.mesh buf) ∧
    (∀ (k : Nat) (pk : Nat × Nat), (add_nodes_selected X mpi_size h.mesh buf)[k]? = some pk →
      (add_nodes X mpi_size h buf periodic).state.mesh.nodes[h.mesh.nodes.length + k]?
        = some (received_node X buf pk.1 pk.2) ∧
      compute_uid X (add_nodes X mpi_size h buf periodic).state.mesh (h.mesh.nodes.length + k)
        = buf.node_uid X pk.1 pk.2 ∧
      uid2node_find (add_nodes X mpi_size h buf periodic).state.uid2node
          (buf.node_uid X pk.1 pk.2) = some (h.mesh.nodes.length + k)) ∧
    uid2node_keeps h.uid2node (add_nodes X mpi_size h buf periodic).state.uid2node ∧
    ((build_lookup_uid2node X h.mesh).error = none → ∀ j, j < h.mesh.nodes.length →
      uid2node_find (add_nodes X mpi_size h buf periodic).state.uid2node (compute_uid X h.mesh j)
        = some j) := by
  obtain ⟨hnone, hok, hok2⟩ := add_nodes_lookup_ok X mpi_size h buf periodic hu
  have hnodes := add_nodes_mesh_ok X mpi_size h buf periodic hok
  have hnodes2 : (add_nodes X mpi_size h buf periodic).state.mesh.nodes
      = h.mesh.nodes ++ received_nodes X buf (add_nodes_selected X mpi_size h.mesh buf) := by
    rw [hnodes]
  have hmap := add_nodes_uid2node X mpi_size h buf periodic hok
  have hkeep : uid2node_keeps h.uid2node (add_nodes X mpi_size h buf periodic).state.uid2node := by
    intro u n hun
    rw [hmap, uid2node_find_append, hun]
    rfl
  refine ⟨hnone, hok, ?_, hnodes2, ?_, hkeep, ?_⟩
  · exact hok2
  · intro k pk hk
    have hget : (add_nodes X mpi_size h buf periodic).state.mesh.nodes[h.mesh.nodes.length + k]?
        = some (received_node X buf pk.1 pk.2) := by
      rw [hnodes2, List.getElem?_append_right (by omega), Nat.add_sub_cancel_left]
      unfold received_nodes
      rw [List.getElem?_map, hk]
      rfl
    refine ⟨hget, ?_, ?_⟩
    · unfold compute_uid Mesh.xy
      rw [List.getD_eq_getElem?_getD, hget]
      rfl
    · rw [hmap, uid2node_find_append, hnone pk (first_mem_getElem? _ _ _ hk)]
      have := uid2node_find_enumFrom (fun p : Nat × Nat => buf.node_uid X p.1 p.2)
        h.mesh.nodes.length (add_nodes_selected X mpi_size h.mesh buf) 0 k pk
        (add_nodes_rfn_idx_spec X mpi_size h.mesh buf).2 hk
      simp only [Nat.zero_add] at this
      simp only [Option.or, List.enum]
      exact this
  · intro hb j hj
    apply hkeep
    rw [hu]
    exact ((build_lookup_uid2node_raises_iff X h.mesh).2.2 hb).2.2 j hj

theorem add_nodes_fresh_lookup_completes_witness :
    example_helper.uid2node = (build_lookup_uid2node example_externals example_helper.mesh).state ∧
    (add_nodes example_externals 2 example_helper example_received false).error = none :=
  ⟨by decide,
   (add_nodes_fresh_lookup_completes example_externals 2 example_helper example_received false
      (by decide)).2.1⟩

/-! ### The packing step finds every node it is asked for -/

/-- Every entry of the connectivity of the cells is a local node index. -/
theorem cell_nodes_valid (mesh : Mesh)
    (hvalid : ∀ c ∈ mesh.all_cells, ∀ n ∈ c.nodes, n < mesh.nodes.length) (e : Nat) :
    ∀ n ∈ (mesh.cell e).nodes, n < mesh.nodes.length := by
  intro n hn
  unfold Mesh.cell at hn
  rw [List.getD_eq_getElem?_getD] at hn
  cases hc : mesh.all_cells[e]? with
  | none =>
    rw [hc] at hn
    cases hn
  | some c =>
    rw [hc] at hn
    exact hvalid c (first_mem_getElem? _ _ _ hc) n hn

theorem new_nodes_are_keys (X : Externals) (mpi_rank : Nat) (mesh : Mesh)
    (request : List Int) (node2elem : List (List Nat))
    (hb : (build_lookup_uid2node X mesh).error = none)
    (hvalid : ∀ c ∈ mesh.all_cells, ∀ n ∈ c.nodes, n < mesh.nodes.length) :
    ∀ u ∈ (accumulate_elements X mpi_rank mesh request (build_lookup_uid2node X mesh).state
        node2elem).2,
      ∃ j, uid2node_find (build_lookup_uid2node X mesh).state u = some j ∧
        j < mesh.nodes.length ∧ compute_uid X mesh j = u := by
  intro u hu
  obtain ⟨⟨e, _, n, hn, hnu⟩, _⟩ := (accumulate_elements_payload X mpi_rank mesh request
    (build_lookup_uid2node X mesh).state node2elem).2 u |>.mp hu
  have hlt := cell_nodes_valid mesh hvalid e n hn
  refine ⟨n, ?_, hlt, hnu⟩
  rw [← hnu]
  exact ((build_lookup_uid2node_raises_iff X mesh).2.2 hb).2.2 n hlt

/-- C28, `fill_sendbuffer` finds the new nodes. Let `uid2node` be the lookup that
`build_lookup_uid2node` has built without error from the mesh of the helper, and let every
entry of the connectivity of the cells be a valid local node index. Then every identifier
in the set of new nodes that `accumulate_elements` computes on that mesh, for any request
and any lookup from nodes to cells, is a key of `uid2node`, held for a node of the mesh
with that identifier; `find_nodes` finds them all, and `fill_sendbuffer` of the interior
pass and of the periodic pass complete: the failure of an identifier that was not found
does not occur. -/
theorem fill_sendbuffer_finds_new_nodes (X : Externals) (mpi_rank : Nat) (h : BuildHaloHelper)
    (request : List Int) (node2elem : List (List Nat)) (buf : Buffers) (p : Nat)
    (transform : Rat) (newflags : Nat)
    (hb : (build_lookup_uid2node X h.mesh).error = none)
    (hu : h.uid2node = (build_lookup_uid2node X h.mesh).state)
    (hvalid : ∀ c ∈ h.mesh.all_cells, ∀ n ∈ c.nodes, n < h.mesh.nodes.length) :
    (∀ u ∈ (accumulate_elements X mpi_rank h.mesh request h.uid2node node2elem).2,
      ∃ j, uid2node_find h.uid2node u = some j ∧ j < h.mesh.nodes.length ∧
        compute_uid X h.mesh j = u) ∧
    (∃ found, find_nodes h.uid2node p
        (accumulate_elements X mpi_rank h.mesh request h.uid2node node2elem).2
      = Except.ok found) ∧
    (∃ sb, fill_sendbuffer X h buf
        (accumulate_elements X mpi_rank h.mesh request h.uid2node node2elem).2
        (accumulate_elements X mpi_rank h.mesh request h.uid2node node2elem).1 p
      = Except.ok sb) ∧
    (∃ sb, fill_sendbuffer_periodic X h buf
        (accumulate_elements X mpi_rank h.mesh request h.uid2node node2elem).2
        (accumulate_elements X mpi_rank h.mesh request h.uid2node node2elem).1
        transform newflags p
      = Except.ok sb) ∧
    (∀ e : Error,
      fill_sendbuffer X h buf
        (accumulate_elements X mpi_rank h.mesh request h.uid2node node2elem).2
        (accumulate_elements X mpi_rank h.mesh request h.uid2node node2elem).1 p
      ≠ Except.error e) := by
  have hkeys : ∀ u ∈ (accumulate_elements X mpi_rank h.mesh request h.uid2node node2elem).2,
      ∃ j, uid2node_find h.uid2node u = some j ∧ j < h.mesh.nodes.length ∧
        compute_uid X h.mesh j = u := by
    rw [hu]
    exact new_nodes_are_keys X mpi_rank h.mesh request node2elem hb hvalid
  obtain ⟨found, hfound⟩ := (find_nodes_isOk_iff h.uid2node p
    (accumulate_elements X mpi_rank h.mesh request h.uid2node node2elem).2).mpr (by
      intro u hu2
      obtain ⟨j, hj, _⟩ := hkeys u hu2
      rw [hj]
      rfl)
  refine ⟨hkeys, ⟨found, hfound⟩, ?_, ?_, ?_⟩
  · unfold fill_sendbuffer
    rw [hfound]
    exact ⟨_, rfl⟩
  · unfold fill_sendbuffer_periodic
    rw [hfound]
    exact ⟨_, rfl⟩
  · intro e hc
    unfold fill_sendbuffer at hc
    rw [hfound] at hc
    cases hc

theorem fill_sendbuffer_finds_new_nodes_witness :
    (build_lookup_uid2node example_externals example_helper1.mesh).error = none ∧
    example_helper1.uid2node
      = (build_lookup_uid2node example_externals example_helper1.mesh).state ∧
    (∀ c ∈ example_helper1.mesh.all_cells, ∀ n ∈ c.nodes,
      n < example_helper1.mesh.nodes.length) ∧
    ∃ sb, fill_sendbuffer example_externals example_helper1 (Buffers.create 2)
        (accumulate_elements example_externals 1 example_helper1.mesh example_request0
          example_helper1.uid2node example_helper1.node_to_elem).2
        (accumulate_elements example_externals 1 example_helper1.mesh example_request0
          example_helper1.uid2node example_helper1.node_to_elem).1 0
      = Except.ok sb :=
  ⟨by decide, by decide, by decide,
   (fill_sendbuffer_finds_new_nodes example_externals 1 example_helper1 example_request0
      example_helper1.node_to_elem (Buffers.create 2) 0 0 0 (by decide) (by decide)
      (by decide)).2.2.1⟩

/-! ### A pass, case by case -/

theorem first_error_of_all_none : ∀ (l : List (Option Error)),
    (∀ x ∈ l, x = none) → first_error l = none
  | [], _ => rfl
  | some e :: _, h => by
    have := h (some e) (List.mem_cons_self _ _)
    cases this
  | none :: rest, h => by
    simp only [first_error]
    exact first_error_of_all_none rest (fun x hx => h x (List.mem_cons_of_mem _ hx))

/-- The state that a pass leaves: that of the located helpers when a task throws before
the buffers are exchanged; otherwise what every task has merged, where task `r` merges
from task `p` what `p` packed for `r`. -/
theorem exchange_pass_state (X : Externals)
    (locate : Nat → BuildHaloHelper → Outcome BuildHaloHelper)
    (request : Nat → BuildHaloHelper → List Int)
    (pack : Nat → BuildHaloHelper → List (List Int) → Except Error Buffers)
    (periodic : Bool) (helpers : List BuildHaloHelper) :
    (exchange_pass X locate request pack periodic helpers).state
        = helpers.enum.map (fun rh => (locate rh.1 rh.2).state) ∨
    ∃ reqs : List (List Int), reqs.length = helpers.length ∧
      ∀ (r : Nat) (h2 : BuildHaloHelper),
        (exchange_pass X locate request pack periodic helpers).state[r]? = some h2 →
        ∃ h recv, helpers[r]? = some h ∧
          h2 = (add_buffers X helpers.length (locate r h).state recv periodic).state ∧
          ∀ (p : Nat) (hp : BuildHaloHelper), helpers[p]? = some hp →
            ∃ sb, pack p (locate p hp).state reqs = Except.ok sb ∧ recv.slot p = sb.slot r := by
  unfold exchange_pass
  simp only []
  cases h1 : first_error ((helpers.enum.map (fun rh => locate rh.1 rh.2)).map Outcome.error) with
  | some e =>
    left
    simp [Outcome.fatal]
  | none =>
    simp only []
    cases h2 : first_error
        ((((helpers.enum.map (fun rh => locate rh.1 rh.2)).map Outcome.state).enum.map
          (fun rh => pack rh.1 rh.2
            (((helpers.enum.map (fun rh => locate rh.1 rh.2)).map Outcome.state).enum.map
              (fun rh => request rh.1 rh.2)))).map pack_error) with
    | some e =>
      left
      simp [Outcome.fatal]
    | none =>
      right
      simp only []
      refine ⟨((helpers.enum.map (fun rh => locate rh.1 rh.2)).map Outcome.state).enum.map
              (fun rh => request rh.1 rh.2), by simp, ?_⟩
      intro r hr2 hget
      rw [List.getElem?_map, List.getElem?_zipWith] at hget
      simp only [List.getElem?_map, List.getElem?_enum] at hget
      cases hh : helpers[r]? with
      | none => rw [hh] at hget; simp at hget
      | some h =>
        rw [hh] at hget
        simp only [Option.map_some'] at hget
        cases hrecv : (all_to_all
            ((((helpers.enum.map (fun rh => locate rh.1 rh.2)).map Outcome.state).enum.map
              (fun rh => pack rh.1 rh.2
                (((helpers.enum.map (fun rh => locate rh.1 rh.2)).map Outcome.state).enum.map
                  (fun rh => request rh.1 rh.2)))).map (pack_buffers helpers.length)))[r]? with
        | none => rw [hrecv] at hget; simp at hget
        | some recv =>
          rw [hrecv] at hget
          simp only [Option.map_some', Option.some.injEq] at hget
          refine ⟨h, recv, rfl, hget.symm, ?_⟩
          intro p hp hhp
          have hpk : (((helpers.enum.map (fun rh => locate rh.1 rh.2)).map Outcome.state).enum.map
              (fun rh => pack rh.1 rh.2
                (((helpers.enum.map (fun rh => locate rh.1 rh.2)).map Outcome.state).enum.map
                  (fun rh => request rh.1 rh.2))))[p]?
              = some (pack p (locate p hp).state
                (((helpers.enum.map (fun rh => locate rh.1 rh.2)).map Outcome.state).enum.map
                  (fun rh => request rh.1 rh.2))) := by
            simp only [List.getElem?_map, List.getElem?_enum, hhp, Option.map_some']
          cases hres : pack p (locate p hp).state
              (((helpers.enum.map (fun rh => locate rh.1 rh.2)).map Outcome.state).enum.map
                (fun rh => request rh.1 rh.2)) with
          | error e =>
            exfalso
            have := first_error_none _ h2 (some e) (by
              rw [List.mem_map]
              exact ⟨_, first_mem_getElem? _ _ _ hpk, by rw [hres]; rfl⟩)
            cases this
          | ok sb =>
            refine ⟨sb, rfl, ?_⟩
            apply all_to_all_slot _ r p recv sb hrecv
            rw [List.getElem?_map, hpk, hres]
            rfl

/-- A pass completes when no task can throw while it locates, packs or merges. -/
theorem exchange_pass_completes (X : Externals)
    (locate : Nat → BuildHaloHelper → Outcome BuildHaloHelper)
    (request : Nat → BuildHaloHelper → List Int)
    (pack : Nat → BuildHaloHelper → List (List Int) → Except Error Buffers)
    (periodic : Bool) (helpers : List BuildHaloHelper)
    (hloc : ∀ r h, helpers[r]? = some h → (locate r h).error = none)
    (hpack : ∀ r h reqs, helpers[r]? = some h →
      ∃ sb, pack r (locate r h).state reqs = Except.ok sb)
    (hmerge : ∀ r h recv, helpers[r]? = some h →
      (add_buffers X helpers.length (locate r h).state recv periodic).error = none) :
    (exchange_pass X locate request pack periodic helpers).error = none := by
  unfold exchange_pass
  simp only []
  have h1 : first_error ((helpers.enum.map (fun rh => locate rh.1 rh.2)).map Outcome.error)
      = none := by
    apply first_error_of_all_none
    intro x hx
    obtain ⟨i, hi⟩ := List.mem_iff_getElem?.mp hx
    simp only [List.getElem?_map, List.getElem?_enum] at hi
    cases hh : helpers[i]? with
    | none => rw [hh] at hi; simp at hi
    | some h =>
      rw [hh] at hi
      simp only [Option.map_some', Option.some.injEq] at hi
      rw [← hi]
      exact hloc i h hh
  rw [h1]
  simp only []
  have h2 : first_error
      ((((helpers.enum.map (fun rh => locate rh.1 rh.2)).map Outcome.state).enum.map
        (fun rh => pack rh.1 rh.2
          (((helpers.enum.map (fun rh => locate rh.1 rh.2)).map Outcome.state).enum.map
            (fun rh => request rh.1 rh.2)))).map pack_error) = none := by
    apply first_error_of_all_none
    intro x hx
    obtain ⟨i, hi⟩ := List.mem_iff_getElem?.mp hx
    simp only [List.getElem?_map, List.getElem?_enum] at hi
    cases hh : helpers[i]? with
    | none => rw [hh] at hi; simp at hi
    | some h =>
      rw [hh] at hi
      simp only [Option.map_some', Option.some.injEq] at hi
      obtain ⟨sb, hsb⟩ := hpack i h
        (((helpers.enum.map (fun rh => locate rh.1 rh.2)).map Outcome.state).enum.map
          (fun rh => request rh.1 rh.2)) hh
      rw [hsb] at hi
      rw [← hi]
      rfl
  rw [h2]
  simp only []
  apply first_error_of_all_none
  intro x hx
  obtain ⟨i, hi⟩ := List.mem_iff_getElem?.mp hx
  rw [List.getElem?_map, List.getElem?_zipWith] at hi
  simp only [List.getElem?_map, List.getElem?_enum] at hi
  cases hh : helpers[i]? with
  | none => rw [hh] at hi; simp at hi
  | some h =>
    rw [hh] at hi
    simp only [Option.map_some'] at hi
    cases hrecv : (all_to_all
        ((((helpers.enum.map (fun rh => locate rh.1 rh.2)).map Outcome.state).enum.map
          (fun rh => pack rh.1 rh.2
            (((helpers.enum.map (fun rh => locate rh.1 rh.2)).map Outcome.state).enum.map
              (fun rh => request rh.1 rh.2)))).map (pack_buffers helpers.length)))[i]? with
    | none => rw [hrecv] at hi; simp at hi
    | some recv =>
      rw [hrecv] at hi
      simp only [Option.map_some', Option.some.injEq] at hi
      rw [← hi]
      exact hmerge i h recv hh

/-! ### What a task packs for itself in the interior pass -/

theorem elem_of_slot_eq (buf1 buf2 : Buffers) (p r k : Nat) (h : buf1.slot p = buf2.slot r) :
    buf1.elem_id p k = buf2.elem_id r k ∧ buf1.nb_elems p = buf2.nb_elems r := by
  have h1 : buf1.elem_glb_idx.getD p [] = buf2.elem_glb_idx.getD r [] := by
    have := congrArg Buffers.elem_glb_idx h
    simpa [Buffers.slot] using this
  simp only [Buffers.elem_id, Buffers.nb_elems, h1]
  exact ⟨trivial, trivial⟩

theorem increase_halo_interior_locate_node_to_elem (X : Externals) (h : BuildHaloHelper)
    (hfresh : h.node_to_elem = []) :
    (increase_halo_interior_locate X h).state.node_to_elem = build_lookup_node2elem h.mesh := by
  unfold increase_halo_interior_locate Outcome.bind Outcome.done
  simp only [hfresh, List.length_nil, if_true]
  split
  · split
    · rfl
    · rfl
  · split
    · rfl
    · rfl

theorem increase_halo_interior_locate_error (X : Externals) (h : BuildHaloHelper)
    (hfresh : h.uid2node = []) :
    (increase_halo_interior_locate X h).error = (build_lookup_uid2node X h.mesh).error := by
  unfold increase_halo_interior_locate Outcome.bind Outcome.done
  simp only []
  by_cases hn : h.node_to_elem.length = 0
  · simp only [hn, if_true, hfresh, List.length_nil]
    split
    · rename_i he
      exact he.symm
    · rfl
  · simp only [hn, if_false, hfresh, List.length_nil, if_true]
    split
    · rename_i he
      exact he.symm
    · rfl

/-- The cells that `accumulate_elements` finds with the lookup `node2elem` of the mesh are
cells of the mesh. -/
theorem found_elements_in_range (X : Externals) (mpi_rank : Nat) (mesh : Mesh)
    (request : List Int) (uid2node : Uid2Node) :
    ∀ e ∈ (accumulate_elements X mpi_rank mesh request uid2node
        (build_lookup_node2elem mesh)).1, e < mesh.nb_cells := by
  intro e he
  obtain ⟨uid, _, inode, _, hlt, hmem, _⟩ := (accumulate_elements_found X mpi_rank mesh request
    uid2node (build_lookup_node2elem mesh)).2 e |>.mp he
  rw [(build_lookup_node2elem_spec mesh).1] at hlt
  exact ((build_lookup_node2elem_spec mesh).2 inode e hlt |>.mp hmem).1

/-- What the interior `fill_sendbuffer` packs into a new vector from the lookups of the mesh
exists in the mesh: the identifier of every packed node is that of a node, the global index of every
packed cell that of a cell. -/
theorem fill_sendbuffer_packs_existing (X : Externals) (mpi_rank : Nat) (h : BuildHaloHelper)
    (request : List Int) (buf sb : Buffers) (n p : Nat)
    (hu : h.uid2node = (build_lookup_uid2node X h.mesh).state)
    (hn : h.node_to_elem = build_lookup_node2elem h.mesh)
    (hs : buf.sized n) (hp : p < n) (hnew : buf.node_flags.getD p [] = [])
    (hfill : fill_sendbuffer X h buf
      (accumulate_elements X mpi_rank h.mesh request h.uid2node h.node_to_elem).2
      (accumulate_elements X mpi_rank h.mesh request h.uid2node h.node_to_elem).1 p
      = Except.ok sb) :
    (∀ idx, idx < sb.nb_nodes p → sb.node_uid X p idx ∈ h.mesh.uids X) ∧
    (∀ k, k < sb.nb_elems p → sb.elem_id p k ∈ h.mesh.cells_glb_idx) := by
  constructor
  · intro idx hidx
    obtain ⟨nd, hnd, _, _, f3⟩ := fill_sendbuffer_node X h buf _ _ p sb n hs hp hnew
      (by
        intro uid j hj
        rw [hu] at hj
        exact lookup_values_in_range X h.mesh uid j hj)
      hfill idx hidx
    have : sb.node_uid X p idx = X.unique_lonlat nd.xy := by
      rw [← f3]
      rfl
    rw [this]
    exact List.mem_map.mpr ⟨nd, hnd, rfl⟩
  · intro k hk
    obtain ⟨found, _, rfl⟩ := fill_sendbuffer_ok X h buf _ _ p sb hfill
    obtain ⟨_, _, _, _, _, s6, _⟩ := hs
    simp only [Buffers.nb_elems, getD_set_self _ p _ _ (by rw [s6]; exact hp),
      List.length_map] at hk
    simp only [Buffers.elem_id, getD_set_self _ p _ _ (by rw [s6]; exact hp)]
    obtain ⟨e, he⟩ : ∃ e, (accumulate_elements X mpi_rank h.mesh request h.uid2node
        h.node_to_elem).1[k]? = some e := ⟨_, List.getElem?_eq_getElem hk⟩
    rw [List.getD_eq_getElem?_getD, List.getElem?_map, he]
    simp only [Option.map_some', Option.getD_some]
    have hin := first_mem_getElem? _ _ _ he
    rw [hn] at hin
    have hlt := found_elements_in_range X mpi_rank h.mesh request h.uid2node _ hin
    unfold Mesh.nb_cells at hlt
    unfold Mesh.cells_glb_idx Mesh.cell
    rw [List.getD_eq_getElem?_getD, List.getElem?_eq_getElem hlt]
    exact List.mem_map.mpr ⟨_, List.getElem_mem hlt, rfl⟩

theorem mem_add_elements_accepted (X : Externals) (mpi_size : Nat) (mesh : Mesh) (buf : Buffers)
    (pk : Nat × Nat) (h : pk ∈ add_elements_accepted X mpi_size mesh buf) :
    pk.1 < mpi_size ∧ pk.2 < buf.nb_elems pk.1 ∧ buf.elem_id pk.1 pk.2 ∉ mesh.elem_ids X := by
  rw [add_elements_accepted_eq] at h
  have hsub : pk ∈ scan_order mpi_size buf.nb_elems := (kept_entries_sublist _ _ _ _).subset h
  obtain ⟨a, b⟩ := (mem_scan_order _ _ pk).mp hsub
  refine ⟨a, b, ?_⟩
  have := ((kept_entries_uids (mesh.elem_ids X) buf.elem_id (scan_order mpi_size buf.nb_elems)
    []).2 (buf.elem_id pk.1 pk.2)).mp (List.mem_map.mpr ⟨pk, h, rfl⟩)
  exact this.2.1

theorem cells_glb_idx_subset_elem_ids (X : Externals) (m m1 : Mesh) (hc : m1.cells = m.cells)
    (u : Int) (hu : u ∈ m.cells_glb_idx) : u ∈ m1.elem_ids X := by
  rw [mem_elem_ids]
  unfold Mesh.cells_glb_idx at hu
  obtain ⟨c, hc1, hc2⟩ := List.mem_map.mp hu
  refine ⟨c, ?_, Or.inr hc2.symm⟩
  unfold Mesh.all_cells at hc1 ⊢
  rw [hc]
  exact hc1

/-- In the interior pass a task keeps nothing of what it has packed for itself. -/
theorem interior_self_rejected (X : Externals) (r : Nat) (h : BuildHaloHelper)
    (reqs : List (List Int)) (sb recv : Buffers) (mpi_size : Nat)
    (hu : h.uid2node = []) (hn : h.node_to_elem = []) (hr : r < reqs.length)
    (hpack : increase_halo_interior_pack X r (increase_halo_interior_locate X h).state reqs
      = Except.ok sb)
    (hslot : recv.slot r = sb.slot r) :
    (∀ idx, idx < recv.nb_nodes r → recv.node_uid X r idx ∈ h.mesh.uids X) ∧
    (∀ k, k < recv.nb_elems r → recv.elem_id r k ∈ h.mesh.cells_glb_idx) ∧
    (∀ pk ∈ add_nodes_selected X mpi_size h.mesh recv, pk.1 ≠ r) ∧
    (∀ m1 : Mesh, m1.cells = h.mesh.cells →
      ∀ pk ∈ add_elements_accepted X mpi_size m1 recv, pk.1 ≠ r) := by
  unfold increase_halo_interior_pack at hpack
  obtain ⟨_, _, hslots⟩ := pack_loop_slots X r (increase_halo_interior_locate X h).state
    (fill_sendbuffer X (increase_halo_interior_locate X h).state) reqs.length
    (fun buf uids elems q sb1 hf =>
      ⟨(fill_sendbuffer_frame X _ buf uids elems q sb1 hf).1 _,
        (fill_sendbuffer_frame X _ buf uids elems q sb1 hf).2⟩)
    reqs 0 (Buffers.create reqs.length) sb (sized_create _) hpack
  obtain ⟨b0, sbj, hb0, hb0new, hfill, hslot2⟩ := hslots r reqs[r]
    (List.getElem?_eq_getElem hr)
  rw [Nat.zero_add] at hfill hslot2 hb0new
  have hslot3 : recv.slot r = sbj.slot r := hslot.trans hslot2
  obtain ⟨e1, e2⟩ := fill_sendbuffer_packs_existing X r (increase_halo_interior_locate X h).state
    reqs[r] b0 sbj reqs.length r
    (by rw [increase_halo_interior_locate_uid2node X h hu, increase_halo_interior_locate_mesh])
    (by rw [increase_halo_interior_locate_node_to_elem X h hn,
      increase_halo_interior_locate_mesh])
    hb0 hr (flags_of_new_slot b0 _ r hb0new) hfill
  rw [increase_halo_interior_locate_mesh] at e1 e2
  have hnodes : ∀ idx, idx < recv.nb_nodes r → recv.node_uid X r idx ∈ h.mesh.uids X := by
    intro idx hidx
    obtain ⟨s1, s2⟩ := received_node_of_slot_eq X recv sbj r r idx hslot3
    have : recv.node_uid X r idx = sbj.node_uid X r idx := by
      have := congrArg Node.xy s1
      simp only [received_node] at this
      simp only [Buffers.node_uid, this]
    rw [this]
    exact e1 idx (by rw [← s2]; exact hidx)
  have helems : ∀ k, k < recv.nb_elems r → recv.elem_id r k ∈ h.mesh.cells_glb_idx := by
    intro k hk
    obtain ⟨s1, s2⟩ := elem_of_slot_eq recv sbj r r k hslot3
    rw [s1]
    exact e2 k (by rw [← s2]; exact hk)
  refine ⟨hnodes, helems, ?_, ?_⟩
  · intro pk hpk hc
    obtain ⟨_, b, c⟩ := mem_add_nodes_selected X mpi_size h.mesh recv pk hpk
    rw [hc] at b c
    exact c (hnodes pk.2 b)
  · intro m1 hm1 pk hpk hc
    obtain ⟨_, b, c⟩ := mem_add_elements_accepted X mpi_size m1 recv pk hpk
    rw [hc] at b c
    exact c (cells_glb_idx_subset_elem_ids X h.mesh m1 hm1 _ (helems pk.2 b))

/-! ### The interior pass on a task alone, and when the pass completes -/

theorem pack_loop_ok (X : Externals) (mpi_rank : Nat) (h : BuildHaloHelper)
    (fill : Buffers → List Int → List Nat → Nat → Except Error Buffers)
    (hfill : ∀ (buf : Buffers) (req : List Int) (p : Nat), ∃ sb,
      fill buf (accumulate_elements X mpi_rank h.mesh req h.uid2node h.node_to_elem).2
        (accumulate_elements X mpi_rank h.mesh req h.uid2node h.node_to_elem).1 p
        = Except.ok sb) :
    ∀ (l : List (Nat × List Int)) (buf : Buffers), ∃ sb,
      pack_loop X mpi_rank h fill l buf = Except.ok sb := by
  intro l
  induction l with
  | nil => intro buf; exact ⟨buf, rfl⟩
  | cons a rest ih =>
    intro buf
    obtain ⟨jpart, req⟩ := a
    obtain ⟨sb1, h1⟩ := hfill buf req jpart
    obtain ⟨sb, h2⟩ := ih sb1
    refine ⟨sb, ?_⟩
    simp only [pack_loop]
    rw [h1]
    exact h2

theorem fill_sendbuffer_total (X : Externals) (mpi_rank : Nat) (h : BuildHaloHelper)
    (hb : (build_lookup_uid2node X h.mesh).error = none)
    (hu : h.uid2node = (build_lookup_uid2node X h.mesh).state)
    (hvalid : ∀ c ∈ h.mesh.all_cells, ∀ n ∈ c.nodes, n < h.mesh.nodes.length)
    (buf : Buffers) (request : List Int) (p : Nat) :
    ∃ sb, fill_sendbuffer X h buf
      (accumulate_elements X mpi_rank h.mesh request h.uid2node h.node_to_elem).2
      (accumulate_elements X mpi_rank h.mesh request h.uid2node h.node_to_elem).1 p
      = Except.ok sb := by
  obtain ⟨found, hfound⟩ := (find_nodes_isOk_iff h.uid2node p
    (accumulate_elements X mpi_rank h.mesh request h.uid2node h.node_to_elem).2).mpr (by
      intro u hu2
      rw [hu] at hu2 ⊢
      obtain ⟨j, hj, _⟩ := new_nodes_are_keys X mpi_rank h.mesh request h.node_to_elem hb hvalid
        u hu2
      rw [hj]
      rfl)
  unfold fill_sendbuffer
  rw [hfound]
  exact ⟨_, rfl⟩

/-- The interior pass completes on meshes whose nodes have distinct identifiers and whose
connectivity holds local node indices only. -/
theorem increase_halo_interior_completes (X : Externals) (helpers : List BuildHaloHelper)
    (hfresh : ∀ h ∈ helpers, h.uid2node = [])
    (hgood : ∀ h ∈ helpers, h.mesh.distinct_uids X ∧
      ∀ c ∈ h.mesh.all_cells, ∀ n ∈ c.nodes, n < h.mesh.nodes.length) :
    (increase_halo_interior X helpers).error = none := by
  unfold increase_halo_interior
  have hbuild : ∀ h ∈ helpers, (build_lookup_uid2node X h.mesh).error = none := by
    intro h hh
    rcases build_lookup_uid2node_error_cases X h.mesh with ⟨_, h2⟩ | ⟨h1, _⟩
    · exact h2
    · exact absurd (hgood h hh).1 h1
  apply exchange_pass_completes
  · intro r h hr
    have hh := first_mem_getElem? _ _ _ hr
    rw [increase_halo_interior_locate_error X h (hfresh h hh)]
    exact hbuild h hh
  · intro r h reqs hr
    have hh := first_mem_getElem? _ _ _ hr
    unfold increase_halo_interior_pack
    apply pack_loop_ok
    intro buf req p
    apply fill_sendbuffer_total
    · rw [increase_halo_interior_locate_mesh]
      exact hbuild h hh
    · rw [increase_halo_interior_locate_uid2node X h (hfresh h hh),
        increase_halo_interior_locate_mesh]
    · rw [increase_halo_interior_locate_mesh]
      exact (hgood h hh).2
  · intro r h recv hr
    have hh := first_mem_getElem? _ _ _ hr
    exact (add_nodes_lookup_ok X helpers.length _ recv false (by
      rw [increase_halo_interior_locate_uid2node X h (hfresh h hh),
        increase_halo_interior_locate_mesh])).2.2

theorem mesh_eq_of_fields (a b : Mesh) (h1 : a.nodes = b.nodes) (h2 : a.cells = b.cells)
    (h3 : a.metadata = b.metadata)
    (h4 : a.nodes_global_index_metadata = b.nodes_global_index_metadata)
    (h5 : a.cells_global_index_metadata = b.cells_global_index_metadata) : a = b := by
  cases a
  cases b
  simp only [Mesh.mk.injEq]
  exact ⟨h1, h2, h3, h4, h5⟩

/-- Merging buffers of which nothing is kept leaves the mesh as it is. -/
theorem add_buffers_nothing_kept (X : Externals) (mpi_size : Nat) (h : BuildHaloHelper)
    (buf : Buffers) (periodic : Bool)
    (hn : add_nodes_selected X mpi_size h.mesh buf = [])
    (he : ∀ m1 : Mesh, m1.cells = h.mesh.cells → add_elements_accepted X mpi_size m1 buf = []) :
    (add_buffers X mpi_size h buf periodic).error = none ∧
    (add_buffers X mpi_size h buf periodic).state.mesh = h.mesh := by
  have hok : (add_nodes X mpi_size h buf periodic).error = none := by
    rw [add_nodes_completes_iff, hn]
    intro p hp
    cases hp
  obtain ⟨b1, b2, _⟩ := add_buffers_state X mpi_size h buf periodic
  have hmesh1 : (add_nodes X mpi_size h buf periodic).state.mesh = h.mesh := by
    rw [add_nodes_mesh_ok X mpi_size h buf periodic hok, hn]
    simp [received_nodes]
  refine ⟨by rw [b1]; exact hok, ?_⟩
  rw [b2 hok]
  have hacc := he (add_nodes X mpi_size h buf periodic).state.mesh (by rw [hmesh1])
  obtain ⟨c1, c2⟩ := add_elements_block X mpi_size (add_nodes X mpi_size h buf periodic).state buf
    periodic
  have hext := add_elements_extended X mpi_size (add_nodes X mpi_size h buf periodic).state buf
    periodic
  have hcells : (add_elements X mpi_size (add_nodes X mpi_size h buf periodic).state buf
      periodic).mesh.cells = (add_nodes X mpi_size h buf periodic).state.mesh.cells := by
    apply List.ext_getElem c1
    intro t ht1 ht2
    obtain ⟨m1, _, hblock⟩ := c2 t ht2
    have hnil : add_elements_accepted_of_type X mpi_size
        (add_nodes X mpi_size h buf periodic).state.mesh buf t = [] := by
      unfold add_elements_accepted_of_type
      rw [hacc]
      rfl
    rw [hnil] at hblock
    simp only [add_elements_cells, List.append_nil] at hblock
    rw [List.getD_eq_getElem?_getD, List.getD_eq_getElem?_getD, List.getElem?_eq_getElem ht1,
      List.getElem?_eq_getElem ht2] at hblock
    simp only [Option.getD_some] at hblock
    exact hblock
  rw [← hmesh1]
  exact mesh_eq_of_fields _ _ (add_elements_nodes X mpi_size _ buf periodic) hcells hext.2.2.1
    hext.2.2.2.1 hext.2.2.2.2

/-! ### Construction of an array from a shape and a layout -/

theorem layout_equals_of_length (layout : List Nat) : ∀ (pattern : List Nat) (i : Nat),
    i + pattern.length ≤ layout.length →
    layout_equals layout i pattern
      = Except.ok (decide ((layout.drop i).take pattern.length = pattern)) := by
  intro pattern
  induction pattern with
  | nil => intro i _; simp [layout_equals]
  | cons v vs ih =>
    intro i hi
    simp only [List.length_cons] at hi
    have hlt : i < layout.length := by omega
    simp only [layout_equals, List.getElem?_eq_getElem hlt, List.length_cons]
    rw [List.drop_eq_getElem_cons hlt]
    simp only [List.take_succ_cons]
    by_cases hx : layout[i] = v
    · rw [if_pos hx, ih (i + 1) (by omega)]
      simp [hx]
    · rw [if_neg hx]
      simp [hx]

theorem try_layout_same_rank (shape layout pattern : List Nat) (otherwise : Construction)
    (hl : layout.length = pattern.length) (hs : shape.length = pattern.length) :
    try_layout shape layout pattern otherwise
      = if layout = pattern then Construction.with_layout pattern shape else otherwise := by
  unfold try_layout
  rw [layout_equals_of_length layout pattern 0 (by omega)]
  simp only [List.drop_zero, ← hl, List.take_length]
  by_cases h : layout = pattern
  · simp only [h, decide_True, if_true, shape_arguments, hs, Nat.le_refl]
    rw [← hs, List.take_length]
  · simp only [h, decide_False, if_false]

theorem list_of_length_four (l : List Nat) (h : l.length = 4) :
    ∃ a b c d, l = [a, b, c, d] := by
  match l, h with
  | [a, b, c, d], _ => exact ⟨a, b, c, d, rfl⟩

theorem list_of_length_five (l : List Nat) (h : l.length = 5) :
    ∃ a b c d e, l = [a, b, c, d, e] := by
  match l, h with
  | [a, b, c, d, e], _ => exact ⟨a, b, c, d, e, rfl⟩

/-- C29, construction of an array from a shape and a layout of the same length. A layout
that is implemented for its rank gives the array with that layout and the shape; rank 1
ignores the layout; for rank 5 every other layout ends with the message of a layout that
is not implemented. For the ranks 2, 3 and 4 this is not so: the cases of the `switch`
have no `break`, so with a layout that is not implemented the run continues in the case
of the next rank, whose tests read the layout beyond its size. With the shape `[a, b]` and
the layout `[0, 2]` the read of `layout[2]` is reached, with `[a, b, c]` and `[3, 2, 1]`
the read of `layout[3]`, with `[a, b, c, d]` and `[4, 3, 2, 1]` the read of `layout[4]`.
For rank 2 the layouts `[0, 2]`, `[1, 2]`, `[2, 0]`, `[2, 1]`, `[3, 2]` and `[4, 3]` reach
the read of `layout[2]`, and every other layout that is not implemented ends with the
message. -/
theorem ArrayT_construct_layouts :
    (∀ a b : Nat, ArrayT_impl.construct [a, b] [0, 2] = Construction.read_beyond_size 2) ∧
    (∀ a b c : Nat, ArrayT_impl.construct [a, b, c] [3, 2, 1] = Construction.read_beyond_size 3) ∧
    (∀ a b c d : Nat,
      ArrayT_impl.construct [a, b, c, d] [4, 3, 2, 1] = Construction.read_beyond_size 4) ∧
    (∀ a b l0 l1 : Nat, ArrayT_impl.construct [a, b] [l0, l1] =
      if [l0, l1] ∈ [[0, 1], [1, 0]] then Construction.with_layout [l0, l1] [a, b]
      else if [l0, l1] ∈ [[0, 2], [1, 2], [2, 0], [2, 1], [3, 2], [4, 3]] then
        Construction.read_beyond_size 2
      else Construction.layout_not_implemented [l0, l1]) ∧
    (∀ shape layout : List Nat, shape.length = 5 → layout.length = 5 →
      ArrayT_impl.construct shape layout =
        if layout = [0, 1, 2, 3, 4] ∨ layout = [4, 3, 2, 1, 0] then
          Construction.with_layout layout shape
        else Construction.layout_not_implemented layout) ∧
    (∀ shape layout : List Nat, layout ∈ implemented_layouts → shape.length = layout.length →
      ArrayT_impl.construct shape layout = Construction.with_layout layout shape) ∧
    (∀ a l : Nat, ArrayT_impl.construct [a] [l] = Construction.default_layout [a]) := by
  refine ⟨?_, ?_, ?_, ?_, ?_, ?_, ?_⟩
  · intro a b
    rfl
  · intro a b c
    rfl
  · intro a b c d
    rfl
  · intro a b l0 l1
    rcases l0 with _ | _ | _ | _ | _ | l0 <;> rcases l1 with _ | _ | _ | _ | _ | l1 <;>
      simp [ArrayT_impl.construct, construct_case2, construct_case3, construct_case4,
        construct_case5, construct_default, try_layout, layout_equals, shape_arguments]
  · intro shape layout hs hl
    unfold ArrayT_impl.construct
    simp only [hs, hl, gt_iff_lt, Nat.lt_irrefl, not_true_eq_false, if_false, not_false_eq_true,
      Nat.zero_lt_succ]
    unfold construct_case5 construct_default
    rw [try_layout_same_rank shape layout [0, 1, 2, 3, 4] _ hl hs,
      try_layout_same_rank shape layout [4, 3, 2, 1, 0] _ hl hs]
    by_cases h1 : layout = [0, 1, 2, 3, 4]
    · simp [h1]
    · by_cases h2 : layout = [4, 3, 2, 1, 0]
      · simp [h2]
      · simp [h1, h2, hs]
  · intro shape layout hmem hs
    simp only [implemented_layouts, List.mem_cons, List.mem_singleton, List.not_mem_nil,
      or_false] at hmem
    rcases hmem with rfl | rfl | rfl | rfl | rfl | rfl | rfl | rfl | rfl | rfl | rfl | rfl
    all_goals
      first
      | (obtain ⟨a, b, rfl⟩ := List.length_eq_two.mp hs; rfl)
      | (obtain ⟨a, b, c, rfl⟩ := List.length_eq_three.mp hs; rfl)
      | (obtain ⟨a, b, c, d, rfl⟩ := list_of_length_four shape hs; rfl)
      | (obtain ⟨a, b, c, d, e, rfl⟩ := list_of_length_five shape hs; rfl)
  · intro a l
    rfl

/-! ### The level check of the gradient -/

set_option maxRecDepth 100000 in
/-- C30, the check of the levels in `Nabla::gradient`. For a scalar input (at most one
variable) the call raises the error of the levels exactly when the numbers of levels of
the input and of `grad_field` differ, a field without levels counting for one level, and
then it leaves `grad_field` as it is. For a vector input (more than one variable) the call
never raises the error: `gradient_of_vector` compares the number of levels of the input
with itself. On the example, a vector field with 1 level and a gradient field with 2
levels give no error and the gradient field is written at level 0, while the scalar field
with the same gradient field raises the error. -/
theorem Nabla_gradient_level_check :
    (∀ (fvm_ : Method) (field grad_field : Field), ¬ field.nb_variables > 1 →
      (if grad_field.levels ≠ 0 then grad_field.levels else 1)
        ≠ (if field.levels ≠ 0 then field.levels else 1) →
      Nabla.gradient fvm_ field grad_field
        = { grad_field := grad_field, error := some NablaError.gradient_levels }) ∧
    (∀ (fvm_ : Method) (field grad_field : Field), ¬ field.nb_variables > 1 →
      (if grad_field.levels ≠ 0 then grad_field.levels else 1)
        = (if field.levels ≠ 0 then field.levels else 1) →
      (Nabla.gradient fvm_ field grad_field).error = none) ∧
    (∀ (fvm_ : Method) (field grad_field : Field), field.nb_variables > 1 →
      (Nabla.gradient fvm_ field grad_field).error = none) ∧
    (example_vector_field.nb_variables > 1 ∧
      example_vector_field.levels ≠ example_grad_field.levels) ∧
    (Nabla.gradient example_method example_vector_field example_grad_field).error = none ∧
    (Nabla.gradient example_method example_vector_field example_grad_field).grad_field.values
      = [[[4, 0, 6, 0], [7, 7, 7, 7]], [[-4, 0, -6, 0], [7, 7, 7, 7]]] ∧
    example_grad_field.values
      = [[[7, 7, 7, 7], [7, 7, 7, 7]], [[7, 7, 7, 7], [7, 7, 7, 7]]] ∧
    Nabla.gradient example_method example_scalar_field example_grad_field
      = { grad_field := example_grad_field, error := some NablaError.gradient_levels } := by
  refine ⟨?_, ?_, ?_, ⟨by decide, by decide⟩, ?_, ?_, ?_, ?_⟩
  · intro fvm_ field grad_field hv hl
    unfold Nabla.gradient Nabla.gradient_of_scalar
    simp only [hv, if_false]
    rw [if_pos hl]
  · intro fvm_ field grad_field hv hl
    unfold Nabla.gradient Nabla.gradient_of_scalar
    simp only [hv, if_false]
    rw [if_neg (not_not.mpr hl)]
  · intro fvm_ field grad_field hv
    unfold Nabla.gradient Nabla.gradient_of_vector
    simp only [hv, if_true, ne_eq, not_true_eq_false, if_false]
  · with_unfolding_all decide
  · with_unfolding_all decide
  · with_unfolding_all decide
  · with_unfolding_all decide

/-! ### The recorded positions of the periodic ghost cells -/

set_option maxRecDepth 1000000 in
/-- C26, the positions stored in `periodic_cells_local_index_`. At the end of a growth
iteration the record appends, for every new periodic ghost cell of a type, its position
in the type plus the number of cells of the types before, and it does not shift what it
stored in the iterations before. On one task holding a quadrilateral (type 0) and a
triangle (type 1) around the globe: a call with depth 1 stores `[1, 3]`, the positions of
the two cells with halo 1 that the periodic passes appended. In a call with depth 2 the
second iteration brings the blocks to 3 and 3 cells and stores `2` and `5`, while `1` and
`3` stay: position 3 is now the triangle of the input (halo 0, nodes `[1, 2, 5]`, global
index 2), and the periodic ghost triangle of the first iteration, now at position 4, is
not stored. The renumbering at the end of the call gives the triangle of the input the
global index 3 and leaves the provisional index 179996 on the cell at position 4. -/
theorem periodic_cells_local_index_positions :
    (∀ (jhalo : Int) (b : BuildHalo) (helper : BuildHaloHelper),
      (BuildHalo_record jhalo b helper).periodic_cells_local_index_
        = b.periodic_cells_local_index_
          ++ periodic_cells_indices helper.mesh.cells
              helper.status.new_periodic_ghost_cells 0) ∧
    (example_hybrid_world.map (fun b => b.mesh_.all_cells.map Cell.nodes)
        = [[[0, 1, 4, 3], [1, 2, 5]]] ∧
      example_hybrid_world.map (fun b => b.mesh_.all_cells.map Cell.glb_idx) = [[1, 2]] ∧
      example_hybrid_world.map (fun b => b.mesh_.cells.map (fun t => t.cells.length))
        = [[1, 1]]) ∧
    ((BuildHalo_call example_externals 1 example_hybrid_world).error = none ∧
      (BuildHalo_call example_externals 1 example_hybrid_world).state.map
          BuildHalo.periodic_cells_local_index_ = [[1, 3]] ∧
      (BuildHalo_call example_externals 1 example_hybrid_world).state.map
          (fun b => b.mesh_.cells.map (fun t => t.cells.length)) = [[2, 2]] ∧
      (BuildHalo_call example_externals 1 example_hybrid_world).state.map
          (fun b => b.mesh_.all_cells.map Cell.halo) = [[0, 1, 0, 1]] ∧
      (BuildHalo_call example_externals 1 example_hybrid_world).state.map
          (fun b => b.mesh_.all_cells.map Cell.glb_idx) = [[1, 4, 2, 3]]) ∧
    ((BuildHalo_loop example_externals 2 0 example_hybrid_world).state.map
          BuildHalo.periodic_cells_local_index_ = [[1, 3, 2, 5]] ∧
      (BuildHalo_loop example_externals 2 0 example_hybrid_world).state.map
          (fun b => b.mesh_.cells.map (fun t => t.cells.length)) = [[3, 3]] ∧
      (BuildHalo_loop example_externals 2 0 example_hybrid_world).state.map
          (fun b => b.mesh_.all_cells.map Cell.halo) = [[0, 1, 2, 0, 1, 2]] ∧
      (BuildHalo_loop example_externals 2 0 example_hybrid_world).state.map
          (fun b => b.mesh_.all_cells.map Cell.glb_idx)
        = [[1, 1800006, 1079994, 2, 179996, 1980004]]) ∧
    ((BuildHalo_call example_externals 2 example_hybrid_world).error = none ∧
      (BuildHalo_call example_externals 2 example_hybrid_world).state.map
          BuildHalo.periodic_cells_local_index_ = [[1, 3, 2, 5]] ∧
      (BuildHalo_call example_externals 2 example_hybrid_world).state.map
          (fun b => b.mesh_.all_cells.map Cell.nodes)
        = [[[0, 1, 4, 3], [2, 7, 8, 5], [9, 6, 11, 10], [1, 2, 5], [6, 0, 3], [7, 12, 13]]] ∧
      (BuildHalo_call example_externals 2 example_hybrid_world).state.map
          (fun b => b.mesh_.all_cells.map Cell.halo) = [[0, 1, 2, 0, 1, 2]] ∧
      (BuildHalo_call example_externals 2 example_hybrid_world).state.map
          (fun b => b.mesh_.all_cells.map Cell.glb_idx) = [[1, 5, 4, 3, 179996, 6]]) := by
  refine ⟨fun _ _ _ => rfl, ⟨?_, ?_, ?_⟩, ⟨?_, ?_, ?_, ?_, ?_⟩, ⟨?_, ?_, ?_, ?_⟩,
    ⟨?_, ?_, ?_, ?_, ?_⟩⟩ <;> with_unfolding_all decide

/-! ### Ghost consistency without the owners -/

/-- When every node with the GHOST bit on every task has a partition different from the
rank of the task or has the PERIODIC bit, the meshes are ghost consistent. -/
theorem ghost_consistent_of_nodes (w1 : List BuildHalo)
    (h : ∀ (r : Nat) (b1 : BuildHalo) (nd : Node), w1[r]? = some b1 → nd ∈ b1.mesh_.nodes →
      Topology_check nd.flags Topology_GHOST = true →
      nd.part ≠ (r : Int) ∨ Topology_check nd.flags Topology_PERIODIC = true) :
    ghost_consistent_all (w1.map BuildHalo.mesh_) := by
  intro rm hrm nd hnd hg hp
  obtain ⟨r, m⟩ := rm
  rw [List.mk_mem_enum_iff_getElem?, List.getElem?_map] at hrm
  cases hb : w1[r]? with
  | none => rw [hb] at hrm; cases hrm
  | some b1 =>
    rw [hb] at hrm
    simp only [Option.map_some', Option.some.injEq] at hrm
    subst hrm
    rcases h r b1 nd hb hnd hg with h1 | h1
    · exact h1
    · rw [hp] at h1
      cases h1

set_option maxRecDepth 100000 in
/-- C11 as it is written fails on meshes in which an owner does not hold its node. In the
example two tasks share an edge, no node has the GHOST bit, so ghost consistency holds,
and the node at `(2, 0)`, which only task 1 holds, carries the partition 0. The call with
depth 1 completes, and task 0 has received that node: it has the GHOST bit (flags 2), no
PERIODIC bit, and the partition 0, the rank of the task. Nor does the call repair a mesh
that is not ghost consistent: a node of the input with the GHOST bit and the partition of
its task is still there after the call, here with depth 0 and with depth 1. -/
theorem ghost_consistency_needs_owners :
    ghost_consistent_all (example_mislabelled_world.map BuildHalo.mesh_) ∧
    ¬ owners_hold_nodes example_externals (example_mislabelled_world.map BuildHalo.mesh_) ∧
    (BuildHalo_call example_externals 1 example_mislabelled_world).error = none ∧
    ((BuildHalo_call example_externals 1 example_mislabelled_world).state.map
      (fun b => b.mesh_.nodes.map (fun nd => (nd.flags, nd.part))))
      = [[(0, 0), (0, 0), (0, 0), (0, 0), (2, 0), (2, 1)],
         [(0, 0), (0, 0), (0, 0), (0, 1), (2, 0), (2, 0)]] ∧
    Topology_check 2 Topology_GHOST = true ∧ Topology_check 2 Topology_PERIODIC = false ∧
    ¬ (∀ (r : Nat) (b1 : BuildHalo) (nd : Node),
      (BuildHalo_call example_externals 1 example_mislabelled_world).state[r]? = some b1 →
      nd ∈ b1.mesh_.nodes → Topology_check nd.flags Topology_GHOST = true →
      nd.part ≠ (r : Int) ∨ Topology_check nd.flags Topology_PERIODIC = true) ∧
    (¬ ghost_consistent_all (example_own_ghost_world.map BuildHalo.mesh_) ∧
      (BuildHalo_call example_externals 0 example_own_ghost_world).error = none ∧
      ((BuildHalo_call example_externals 0 example_own_ghost_world).state.map
        (fun b => b.mesh_.nodes.map (fun nd => (nd.flags, nd.part))))
        = [[(2, 0), (0, 0), (0, 0), (0, 0)]] ∧
      (BuildHalo_call example_externals 1 example_own_ghost_world).error = none ∧
      ((BuildHalo_call example_externals 1 example_own_ghost_world).state.map
        (fun b => b.mesh_.nodes.map (fun nd => (nd.flags, nd.part))))
        = [[(2, 0), (0, 0), (0, 0), (0, 0)]]) := by
  refine ⟨by decide, by decide, by decide, by decide, by decide, by decide, ?_,
    by decide, by decide, by decide, by decide, by decide⟩
  intro h
  have hg := ghost_consistent_of_nodes _ h
  revert hg
  decide

/-! ### Pack and merge of a cell -/

/-- C16, pack then merge preserves the connectivity up to identifiers, as far as the
block of the destination goes. Let the interior `fill_sendbuffer` of a source task pack the
cells `elems` for task `r`, and let the destination merge with `add_elements` buffers whose
vectors `elem_nodes_id` and `elem_nodes_displs` of task `p` are the packed ones. Let the
`k`-th packed cell `e` be accepted as the `i`-th new cell of the shipped type `t`, and let
`uid2node` of the destination hold the identifiers of all nodes of `e`. Then the new cell,
at position `old size + i` of the block of type `t`, has as many nodes as that block of the
destination has columns; for every position `n` of `e` the identifier read at
`elem_nodes_displs[k] + n` is the identifier of the `n`-th node of `e`, and when `n` is
below the number of columns the `n`-th node of the new cell is the node that `uid2node`
holds for it. When the block has as many columns as `e` has nodes, the new cell has the
number of nodes of `e` and this holds at every position of `e`. -/
theorem pack_merge_preserves_connectivity (X : Externals)
    (src : BuildHaloHelper) (sendbuf : Buffers) (nodes_uid : List Int) (elems : List Nat)
    (r : Nat) (sb : Buffers)
    (dst : BuildHaloHelper) (recv : Buffers) (mpi_size : Nat) (periodic : Bool)
    (p k e t i : Nat)
    (hslot : sendbuf.has_slot r)
    (hfill : fill_sendbuffer X src sendbuf nodes_uid elems r = Except.ok sb)
    (hrecv : recv.elem_nodes_id.getD p [] = sb.elem_nodes_id.getD r [] ∧
      recv.elem_nodes_displs.getD p [] = sb.elem_nodes_displs.getD r [])
    (hk : elems[k]? = some e)
    (ht : t < dst.mesh.cells.length)
    (hknown : ∀ n ∈ (src.mesh.cell e).nodes,
      (uid2node_find dst.uid2node (compute_uid X src.mesh n)).isSome = true)
    (hacc : (add_elements_accepted_of_type X mpi_size dst.mesh recv t)[i]? = some (p, k)) :
    ∃ c, (add_elements X mpi_size dst recv periodic).mesh.cell_of_type t
          ((dst.mesh.cells.getD t default).cells.length + i) = some c ∧
      c.nodes.length = (dst.mesh.cells.getD t default).nb_nodes ∧
      (∀ (n node : Nat), (src.mesh.cell e).nodes[n]? = some node →
        recv.elem_node_id p k n = compute_uid X src.mesh node ∧
        (n < (dst.mesh.cells.getD t default).nb_nodes →
          c.nodes[n]? = uid2node_find dst.uid2node (compute_uid X src.mesh node) ∧
          c.nodes[n]? = some (uid2node_value dst.uid2node (compute_uid X src.mesh node)))) ∧
      ((dst.mesh.cells.getD t default).nb_nodes = (src.mesh.cell e).nodes.length →
        c.nodes.length = (src.mesh.cell e).nodes.length ∧
        ∀ (n node : Nat), (src.mesh.cell e).nodes[n]? = some node →
          recv.elem_node_id p k n = compute_uid X src.mesh node ∧
          c.nodes[n]? = uid2node_find dst.uid2node (compute_uid X src.mesh node) ∧
          c.nodes[n]? = some (uid2node_value dst.uid2node (compute_uid X src.mesh node))) := by
  obtain ⟨_, _, _, h4, _⟩ := add_elements_cells_of_type X mpi_size dst recv periodic t ht
  obtain ⟨m1, hkeep, hc⟩ := h4 i (p, k) hacc
  obtain ⟨_, _, _, _, _, s6, s7⟩ := add_elements_store_spec recv dst.halo
    (dst.mesh.cells.getD t default).nb_nodes m1 p k
  have hpos : ∀ (n node : Nat), (src.mesh.cell e).nodes[n]? = some node →
      recv.elem_node_id p k n = compute_uid X src.mesh node ∧
      (n < (dst.mesh.cells.getD t default).nb_nodes →
        (add_elements_store recv dst.halo (dst.mesh.cells.getD t default).nb_nodes m1 p k).1.nodes[n]?
            = uid2node_find dst.uid2node (compute_uid X src.mesh node) ∧
        (add_elements_store recv dst.halo (dst.mesh.cells.getD t default).nb_nodes m1 p k).1.nodes[n]?
            = some (uid2node_value dst.uid2node (compute_uid X src.mesh node))) := by
    intro n node hn
    have hid : recv.elem_node_id p k n = compute_uid X src.mesh node := by
      unfold Buffers.elem_node_id
      rw [hrecv.1, hrecv.2]
      exact fill_sendbuffer_elem_nodes X src sendbuf nodes_uid elems r sb hslot hfill k e hk n
        node hn
    refine ⟨hid, ?_⟩
    intro hnlt
    obtain ⟨m2, hkeep2, hnode⟩ := s7 n hnlt
    have hsome := hknown node (first_mem_getElem? _ _ _ hn)
    cases hf : uid2node_find dst.uid2node (compute_uid X src.mesh node) with
    | none => rw [hf] at hsome; cases hsome
    | some v =>
      have hv : uid2node_find m2 (compute_uid X src.mesh node) = some v :=
        hkeep2 _ _ (hkeep _ _ hf)
      constructor
      · rw [hnode, hid, hv]
        rfl
      · rw [hnode, hid, hv]
        simp [uid2node_value, uid2node_index, hf]
  refine ⟨_, hc, s6, hpos, ?_⟩
  intro hcols
  refine ⟨by rw [s6, hcols], ?_⟩
  intro n node hn
  have hnlt : n < (dst.mesh.cells.getD t default).nb_nodes := by
    rw [hcols]
    by_contra hcon
    rw [List.getElem?_eq_none (by omega)] at hn
    cases hn
  exact ⟨(hpos n node hn).1, (hpos n node hn).2 hnlt⟩

theorem pack_merge_preserves_connectivity_witness :
    (Buffers.create 2).has_slot 0 ∧
    fill_sendbuffer example_externals example_helper1 (Buffers.create 2) example_found1.2
      example_found1.1 0 = Except.ok example_sent1 ∧
    (add_elements_accepted_of_type example_externals 2 example_helper_merged.mesh
      example_received 0)[0]? = some (1, 0) ∧
    ∃ c, (add_elements example_externals 2 example_helper_merged example_received false).mesh.cell_of_type
          0 ((example_helper_merged.mesh.cells.getD 0 default).cells.length + 0) = some c ∧
      c.nodes.length = (example_helper1.mesh.cell 0).nodes.length ∧
      ∀ (n node : Nat), (example_helper1.mesh.cell 0).nodes[n]? = some node →
        example_received.elem_node_id 1 0 n = compute_uid example_externals example_helper1.mesh node ∧
        c.nodes[n]? = uid2node_find example_helper_merged.uid2node
          (compute_uid example_externals example_helper1.mesh node) ∧
        c.nodes[n]? = some (uid2node_value example_helper_merged.uid2node
          (compute_uid example_externals example_helper1.mesh node)) :=
  ⟨by decide, by rfl, by decide,
    (pack_merge_preserves_connectivity example_externals example_helper1 (Buffers.create 2)
      example_found1.2 example_found1.1 0 example_sent1 example_helper_merged example_received 2
      false 1 0 0 0 0 (by decide) (by rfl) (by decide) (by decide) (by decide)
      (by decide) (by decide)).imp
      (fun _ h => ⟨h.1, (h.2.2.2 (by decide)).1, (h.2.2.2 (by decide)).2⟩)⟩

/-- C16 as it is written fails when the block of the shipped type has another number of
columns on the destination. The cell that task 1 packs for task 0 in the example has the
four nodes with the identifiers `1001, 2001, 2002, 1002`, all held by `uid2node` of the
destination, and the shipped type 0; on a destination whose block of type 0 holds
triangles the cell is accepted and stored with the three nodes `1, 4, 5`. -/
theorem pack_merge_other_columns :
    (Buffers.create 2).has_slot 0 ∧
    fill_sendbuffer example_externals example_helper1 (Buffers.create 2) example_found1.2
      example_found1.1 0 = Except.ok example_sent1 ∧
    (example_received.elem_nodes_id.getD 1 [] = example_sent1.elem_nodes_id.getD 0 [] ∧
      example_received.elem_nodes_displs.getD 1 [] = example_sent1.elem_nodes_displs.getD 0 []) ∧
    example_found1.1[0]? = some 0 ∧
    (example_helper1.mesh.cell 0).nodes.map (compute_uid example_externals example_helper1.mesh)
      = [1001, 2001, 2002, 1002] ∧
    (∀ n ∈ (example_helper1.mesh.cell 0).nodes,
      (uid2node_find example_triangle_helper_merged.uid2node
        (compute_uid example_externals example_helper1.mesh n)).isSome = true) ∧
    (add_elements_accepted_of_type example_externals 2 example_triangle_helper_merged.mesh
      example_received 0)[0]? = some (1, 0) ∧
    (example_triangle_helper_merged.mesh.cells.getD 0 default).nb_nodes = 3 ∧
    ((add_elements example_externals 2 example_triangle_helper_merged example_received
        false).mesh.cell_of_type 0
        ((example_triangle_helper_merged.mesh.cells.getD 0 default).cells.length + 0)).map
      Cell.nodes = some [1, 4, 5] ∧
    ¬ ∃ c, (add_elements example_externals 2 example_triangle_helper_merged example_received
        false).mesh.cell_of_type 0
          ((example_triangle_helper_merged.mesh.cells.getD 0 default).cells.length + 0) = some c ∧
      c.nodes.length = (example_helper1.mesh.cell 0).nodes.length := by
  have hcell : ((add_elements example_externals 2 example_triangle_helper_merged
      example_received false).mesh.cell_of_type 0
        ((example_triangle_helper_merged.mesh.cells.getD 0 default).cells.length + 0)).map
      Cell.nodes = some [1, 4, 5] := by decide
  refine ⟨by decide, by rfl, by decide, by decide, by decide, by decide, by decide, by decide,
    hcell, ?_⟩
  rintro ⟨c, hc, hlen⟩
  rw [hc] at hcell
  simp only [Option.map_some', Option.some.injEq] at hcell
  rw [hcell] at hlen
  revert hlen
  decide

/-! ### What the tasks receive in a pass that completes -/

theorem length_exchange_pass_requests
    (locate : Nat → BuildHaloHelper → Outcome BuildHaloHelper)
    (request : Nat → BuildHaloHelper → List Int) (helpers : List BuildHaloHelper) :
    (exchange_pass_requests locate request helpers).length = helpers.length := by
  simp [exchange_pass_requests]

theorem length_exchange_pass_received
    (locate : Nat → BuildHaloHelper → Outcome BuildHaloHelper)
    (request : Nat → BuildHaloHelper → List Int)
    (pack : Nat → BuildHaloHelper → List (List Int) → Except Error Buffers)
    (helpers : List BuildHaloHelper) :
    (exchange_pass_received locate request pack helpers).length = helpers.length := by
  simp [exchange_pass_received, all_to_all]

/-- A pass that completes, with the buffers named: task `r` merges entry `r` of the
received buffers, and what that entry holds from task `p` is what `p` has packed for `r`
from the requests of the pass. -/
theorem exchange_pass_ok_received (X : Externals)
    (locate : Nat → BuildHaloHelper → Outcome BuildHaloHelper)
    (request : Nat → BuildHaloHelper → List Int)
    (pack : Nat → BuildHaloHelper → List (List Int) → Except Error Buffers)
    (periodic : Bool) (helpers : List BuildHaloHelper)
    (hok : (exchange_pass X locate request pack periodic helpers).error = none) :
    ∀ (r : Nat) (h2 : BuildHaloHelper),
      (exchange_pass X locate request pack periodic helpers).state[r]? = some h2 →
      ∃ h recv, helpers[r]? = some h ∧
        (exchange_pass_received locate request pack helpers)[r]? = some recv ∧
        h2 = (add_buffers X helpers.length (locate r h).state recv periodic).state ∧
        ∀ (p : Nat) (hp : BuildHaloHelper), helpers[p]? = some hp →
          ∃ sb, pack p (locate p hp).state (exchange_pass_requests locate request helpers)
              = Except.ok sb ∧ recv.slot p = sb.slot r := by
  unfold exchange_pass at hok ⊢
  unfold exchange_pass_received exchange_pass_requests
  simp only [] at hok ⊢
  cases h1 : first_error ((helpers.enum.map (fun rh => locate rh.1 rh.2)).map Outcome.error) with
  | some e => rw [h1] at hok; simp [Outcome.fatal] at hok
  | none =>
    rw [h1] at hok
    simp only [] at hok ⊢
    cases h2 : first_error
        ((((helpers.enum.map (fun rh => locate rh.1 rh.2)).map Outcome.state).enum.map
          (fun rh => pack rh.1 rh.2
            (((helpers.enum.map (fun rh => locate rh.1 rh.2)).map Outcome.state).enum.map
              (fun rh => request rh.1 rh.2)))).map pack_error) with
    | some e => rw [h2] at hok; simp [Outcome.fatal] at hok
    | none =>
      rw [h2] at hok
      simp only [] at hok ⊢
      intro r hr2 hget
      rw [List.getElem?_map, List.getElem?_zipWith] at hget
      simp only [List.getElem?_map, List.getElem?_enum] at hget
      cases hh : helpers[r]? with
      | none => rw [hh] at hget; simp at hget
      | some h =>
        rw [hh] at hget
        simp only [Option.map_some'] at hget
        cases hrecv : (all_to_all
            ((((helpers.enum.map (fun rh => locate rh.1 rh.2)).map Outcome.state).enum.map
              (fun rh => pack rh.1 rh.2
                (((helpers.enum.map (fun rh => locate rh.1 rh.2)).map Outcome.state).enum.map
                  (fun rh => request rh.1 rh.2)))).map (pack_buffers helpers.length)))[r]? with
        | none => rw [hrecv] at hget; simp at hget
        | some recv =>
          rw [hrecv] at hget
          simp only [Option.map_some', Option.some.injEq] at hget
          refine ⟨h, recv, rfl, rfl, hget.symm, ?_⟩
          intro p hp hhp
          have hpk : (((helpers.enum.map (fun rh => locate rh.1 rh.2)).map Outcome.state).enum.map
              (fun rh => pack rh.1 rh.2
                (((helpers.enum.map (fun rh => locate rh.1 rh.2)).map Outcome.state).enum.map
                  (fun rh => request rh.1 rh.2))))[p]?
              = some (pack p (locate p hp).state
                (((helpers.enum.map (fun rh => locate rh.1 rh.2)).map Outcome.state).enum.map
                  (fun rh => request rh.1 rh.2))) := by
            simp only [List.getElem?_map, List.getElem?_enum, hhp, Option.map_some']
          cases hres : pack p (locate p hp).state
              (((helpers.enum.map (fun rh => locate rh.1 rh.2)).map Outcome.state).enum.map
                (fun rh => request rh.1 rh.2)) with
          | error e =>
            exfalso
            have := first_error_none _ h2 (some e) (by
              rw [List.mem_map]
              exact ⟨_, first_mem_getElem? _ _ _ hpk, by rw [hres]; rfl⟩)
            cases this
          | ok sb =>
            refine ⟨sb, rfl, ?_⟩
            apply all_to_all_slot _ r p recv sb hrecv
            rw [List.getElem?_map, hpk, hres]
            rfl

/-! ### The interior pass on a task alone, and when the pass completes -/

/-- C25, a task rejects what it sends to itself in the interior pass. On meshes whose
nodes have pairwise distinct identifiers and whose connectivity holds valid local node
indices, the interior pass over new helpers completes. When the pass completes, task `r`
ends with the merge, into its helper, of the buffers `recv` that it has received in the
pass; what `recv` holds from `r` itself is what `r` has packed for `r` from the requests
of the pass; every node that `recv` holds from `r` has the identifier of a node of the mesh
of `r`, every cell that `recv` holds from `r` has the global index of a cell of that mesh,
and the merge selects no node and accepts no cell received from `r`. With a single task
the pass leaves the mesh as it is, for every mesh, so that the counts of nodes and cells
are unchanged. On the two tasks of the example each task receives from itself its own
cell and no node, from the other task one cell and two nodes, and ends with six nodes and
two cells. -/
theorem interior_self_send_rejected (X : Externals) (ms : List Mesh) :
    ((∀ m ∈ ms, m.distinct_uids X ∧ ∀ c ∈ m.all_cells, ∀ n ∈ c.nodes, n < m.nodes.length) →
      (increase_halo_interior X (ms.map BuildHaloHelper.create)).error = none) ∧
    ((increase_halo_interior X (ms.map BuildHaloHelper.create)).error = none →
      ∀ (r : Nat) (m : Mesh) (recv : Buffers), ms[r]? = some m →
        (increase_halo_interior_received X (ms.map BuildHaloHelper.create))[r]? = some recv →
        (increase_halo_interior X (ms.map BuildHaloHelper.create)).state[r]?
          = some (add_buffers X ms.length
            (increase_halo_interior_locate X (BuildHaloHelper.create m)).state recv
            false).state ∧
        (∃ sb, increase_halo_interior_pack X r
            (increase_halo_interior_locate X (BuildHaloHelper.create m)).state
            (increase_halo_interior_requests X (ms.map BuildHaloHelper.create))
              = Except.ok sb ∧
          recv.slot r = sb.slot r) ∧
        (∀ idx, idx < recv.nb_nodes r → recv.node_uid X r idx ∈ m.uids X) ∧
        (∀ k, k < recv.nb_elems r → recv.elem_id r k ∈ m.cells_glb_idx) ∧
        (∀ pk ∈ add_nodes_selected X ms.length m recv, pk.1 ≠ r) ∧
        (∀ pk ∈ add_elements_accepted X ms.length
            (add_nodes X ms.length
              (increase_halo_interior_locate X (BuildHaloHelper.create m)).state recv
              false).state.mesh recv,
          pk.1 ≠ r)) ∧
    ((increase_halo_interior X (ms.map BuildHaloHelper.create)).error = none →
      (increase_halo_interior_received X (ms.map BuildHaloHelper.create)).length
        = ms.length) ∧
    (∀ m : Mesh,
      (increase_halo_interior X [BuildHaloHelper.create m]).state.map BuildHaloHelper.mesh = [m] ∧
      ∀ h2 ∈ (increase_halo_interior X [BuildHaloHelper.create m]).state,
        h2.mesh.nodes.length = m.nodes.length ∧ h2.mesh.nb_cells = m.nb_cells) ∧
    ((increase_halo_interior_received example_externals
        (example_world.map (fun b => BuildHaloHelper.create b.mesh_))).map
        (fun recv => [recv.nb_nodes 0, recv.nb_elems 0, recv.nb_nodes 1, recv.nb_elems 1])
      = [[0, 1, 2, 1], [2, 1, 0, 1]] ∧
      (increase_halo_interior example_externals
        (example_world.map (fun b => BuildHaloHelper.create b.mesh_))).error = none ∧
      (increase_halo_interior example_externals
        (example_world.map (fun b => BuildHaloHelper.create b.mesh_))).state.map
        (fun h => [h.mesh.nodes.length, h.mesh.nb_cells]) = [[6, 2], [6, 2]]) := by
  have hsingle : ∀ m : Mesh,
      (increase_halo_interior X [BuildHaloHelper.create m]).state.map BuildHaloHelper.mesh
        = [m] := by
    intro m
    have hlen : (increase_halo_interior X [BuildHaloHelper.create m]).state.length = 1 := by
      unfold increase_halo_interior
      rw [length_exchange_pass]
      rfl
    unfold increase_halo_interior at hlen ⊢
    rcases exchange_pass_state X (fun _ h => increase_halo_interior_locate X h)
      (fun _ h => increase_halo_interior_request X h)
      (fun r h recv => increase_halo_interior_pack X r h recv) false
      [BuildHaloHelper.create m] with hleft | ⟨reqs, hreqs, hall⟩
    · rw [hleft]
      simp only [List.enum_singleton, List.map_cons, List.map_nil,
        increase_halo_interior_locate_mesh]
      rfl
    · generalize hst : (exchange_pass X (fun _ h => increase_halo_interior_locate X h)
        (fun _ h => increase_halo_interior_request X h)
        (fun r h recv => increase_halo_interior_pack X r h recv) false
        [BuildHaloHelper.create m]).state = st at hlen hall ⊢
      match st, hlen with
      | [h2], _ =>
        obtain ⟨h, recv, hh, hh2, hpk⟩ := hall 0 h2 rfl
        simp only [List.getElem?_cons_zero, Option.some.injEq] at hh
        subst hh
        obtain ⟨sb, hsb, hslot⟩ := hpk 0 (BuildHaloHelper.create m) rfl
        simp only [List.length_singleton] at hreqs hh2
        obtain ⟨_, _, s3, s4⟩ := interior_self_rejected X 0 (BuildHaloHelper.create m) reqs sb
          recv 1 rfl rfl (by omega) hsb hslot
        have hn : add_nodes_selected X 1
            (increase_halo_interior_locate X (BuildHaloHelper.create m)).state.mesh recv = [] := by
          rw [increase_halo_interior_locate_mesh, List.eq_nil_iff_forall_not_mem]
          intro pk hpk1
          have h1 := (mem_add_nodes_selected X 1 _ recv pk hpk1).1
          exact s3 pk hpk1 (by omega)
        have he : ∀ m1 : Mesh,
            m1.cells = (increase_halo_interior_locate X (BuildHaloHelper.create m)).state.mesh.cells →
            add_elements_accepted X 1 m1 recv = [] := by
          intro m1 hm1
          rw [increase_halo_interior_locate_mesh] at hm1
          rw [List.eq_nil_iff_forall_not_mem]
          intro pk hpk1
          have h1 := (mem_add_elements_accepted X 1 m1 recv pk hpk1).1
          exact s4 m1 hm1 pk hpk1 (by omega)
        have := (add_buffers_nothing_kept X 1 _ recv false hn he).2
        rw [← hh2, increase_halo_interior_locate_mesh] at this
        simp only [List.map_cons, List.map_nil, this]
        rfl
  refine ⟨?_, ?_, ?_, ?_, ?_⟩
  · intro hgood
    apply increase_halo_interior_completes
    · intro h hh
      obtain ⟨m, _, rfl⟩ := List.mem_map.mp hh
      rfl
    · intro h hh
      obtain ⟨m, hm, rfl⟩ := List.mem_map.mp hh
      exact hgood m hm
  · intro hok r m recv hm hrecv
    unfold increase_halo_interior at hok ⊢
    unfold increase_halo_interior_received at hrecv
    unfold increase_halo_interior_requests
    have hr : r < ms.length := by
      by_contra hc
      rw [List.getElem?_eq_none (by omega)] at hm
      cases hm
    have hlen := length_exchange_pass X (fun _ h => increase_halo_interior_locate X h)
      (fun _ h => increase_halo_interior_request X h)
      (fun r h recv => increase_halo_interior_pack X r h recv) false
      (ms.map BuildHaloHelper.create)
    rw [List.length_map] at hlen
    obtain ⟨h2, hr2⟩ : ∃ h2, (exchange_pass X (fun _ h => increase_halo_interior_locate X h)
        (fun _ h => increase_halo_interior_request X h)
        (fun r h recv => increase_halo_interior_pack X r h recv) false
        (ms.map BuildHaloHelper.create)).state[r]? = some h2 :=
      ⟨_, List.getElem?_eq_getElem (by rw [hlen]; exact hr)⟩
    obtain ⟨h, recv1, hh, hrecv1, hh2, hpk⟩ := exchange_pass_ok_received X _ _ _ false
      (ms.map BuildHaloHelper.create) hok r h2 hr2
    rw [hrecv] at hrecv1
    cases hrecv1
    rw [List.getElem?_map, hm] at hh
    simp only [Option.map_some', Option.some.injEq] at hh
    subst hh
    rw [List.length_map] at hh2
    obtain ⟨sb, hsb, hslot⟩ := hpk r (BuildHaloHelper.create m) (by
      rw [List.getElem?_map, hm]; rfl)
    have hr3 : r < (exchange_pass_requests (fun _ h => increase_halo_interior_locate X h)
        (fun _ h => increase_halo_interior_request X h)
        (ms.map BuildHaloHelper.create)).length := by
      rw [length_exchange_pass_requests, List.length_map]
      exact hr
    obtain ⟨s1, s2, s3, s4⟩ := interior_self_rejected X r (BuildHaloHelper.create m) _ sb
      recv ms.length rfl rfl hr3 hsb hslot
    refine ⟨by rw [hr2, hh2], ⟨sb, hsb, hslot⟩, s1, s2, s3, ?_⟩
    apply s4
    obtain ⟨k, _, hmesh, _⟩ := add_nodes_mesh X ms.length
      (increase_halo_interior_locate X (BuildHaloHelper.create m)).state recv false
    rw [hmesh, increase_halo_interior_locate_mesh]
  · intro _
    unfold increase_halo_interior_received
    rw [length_exchange_pass_received, List.length_map]
  · intro m
    refine ⟨hsingle m, ?_⟩
    intro h2 hh2
    have : h2.mesh ∈ (increase_halo_interior X [BuildHaloHelper.create m]).state.map
        BuildHaloHelper.mesh := List.mem_map_of_mem _ hh2
    rw [hsingle m, List.mem_singleton] at this
    rw [this]
    exact ⟨rfl, rfl⟩
  · exact ⟨by decide, by decide, by decide⟩

/-! ### Rounding to `double` -/

theorem round_half_even_error (s : Rat) : |(round_half_even s : Rat) - s| ≤ 1 / 2 := by
  have h0 := Int.floor_le s
  have h1 := Int.lt_floor_add_one s
  unfold round_half_even
  rw [abs_le]
  split_ifs <;> push_cast <;> constructor <;> linarith

theorem round_half_even_intCast (n : Int) : round_half_even (n : Rat) = n := by
  unfold round_half_even
  rw [Int.floor_intCast]
  simp

/-- The exponent that `round_binary64` takes for `t`. -/
theorem binary64_exponent_le (t : Rat) (k : Int) (hk : 0 ≤ k) (ht : |t| < 2 ^ (k + 1)) :
    max (Int.log 2 |t|) (-1022) ≤ k := by
  apply max_le _ (by omega)
  rcases (abs_nonneg t).eq_or_lt with h | h
  · rw [← h, Int.log_zero_right]
    omega
  · have := (Int.lt_zpow_iff_log_lt (b := 2) (by norm_num) h).1 (by
      rw [Nat.cast_ofNat]
      exact ht)
    omega

/-- The error of `round_binary64` is at most half of the spacing at the exponent taken. -/
theorem round_binary64_error (t : Rat) :
    |round_binary64 t - t| ≤ 2 ^ (max (Int.log 2 |t|) (-1022) - 53) := by
  unfold round_binary64
  simp only []
  generalize max (Int.log 2 |t|) (-1022) = e
  have hq : (0 : Rat) < 2 ^ (e - 52) := zpow_pos (by norm_num) _
  have hsplit : (2 : Rat) ^ (e - 53) = 1 / 2 * 2 ^ (e - 52) := by
    rw [show e - 53 = (e - 52) + (-1) by ring, zpow_add₀ (by norm_num)]
    norm_num
    ring
  have heq : (round_half_even (t / 2 ^ (e - 52)) : Rat) * 2 ^ (e - 52) - t
      = ((round_half_even (t / 2 ^ (e - 52)) : Rat) - t / 2 ^ (e - 52)) * 2 ^ (e - 52) := by
    field_simp
  rw [heq, abs_mul, abs_of_pos hq, hsplit]
  exact mul_le_mul_of_nonneg_right (round_half_even_error _) hq.le

/-- Below `2 ^ 11` the error of `round_binary64` is at most `2 ^ (-43)`. -/
theorem round_binary64_error_small (t : Rat) (ht : |t| < 2048) :
    |round_binary64 t - t| ≤ 1 / 2 ^ 43 := by
  have he := binary64_exponent_le t 10 (by norm_num) (by
    rw [show (2 : Rat) ^ ((10 : Int) + 1) = 2048 by norm_num]
    exact ht)
  refine (round_binary64_error t).trans ?_
  have := zpow_le_zpow_right₀ (a := (2 : Rat)) (by norm_num)
    (show max (Int.log 2 |t|) (-1022) - 53 ≤ -43 by omega)
  refine this.trans (le_of_eq ?_)
  norm_num

theorem round_binary64_zero : round_binary64 0 = 0 := by
  unfold round_binary64
  simp [round_half_even]

/-- The relative error of `round_binary64` is at most `2 ^ (-53)`, apart from the spacing
`2 ^ (-1074)` of the smallest values. -/
theorem round_binary64_error_rel (t : Rat) :
    |round_binary64 t - t| ≤ |t| / 2 ^ 53 + 1 / 2 ^ 1075 := by
  rcases (abs_nonneg t).eq_or_lt with h | h
  · have ht : t = 0 := abs_eq_zero.mp h.symm
    subst ht
    rw [round_binary64_zero]
    norm_num
  · refine (round_binary64_error t).trans ?_
    rcases le_total (Int.log 2 |t|) (-1022) with hl | hl
    · rw [max_eq_right hl]
      have hpos : (0 : Rat) ≤ |t| / 2 ^ 53 := by positivity
      have : (2 : Rat) ^ ((-1022 : Int) - 53) = 1 / 2 ^ 1075 := by
        rw [show ((-1022 : Int) - 53) = -((1075 : Nat) : Int) by norm_num, zpow_neg,
          zpow_natCast]
        norm_num
      rw [this]
      linarith
    · rw [max_eq_left hl]
      have hlog := Int.zpow_log_le_self (b := 2) (by norm_num) h
      rw [Nat.cast_ofNat] at hlog
      have hsplit : (2 : Rat) ^ (Int.log 2 |t| - 53) = 2 ^ (Int.log 2 |t|) / 2 ^ 53 := by
        rw [sub_eq_add_neg, zpow_add₀ (by norm_num)]
        rw [show (-53 : Int) = -((53 : Nat) : Int) by norm_num, zpow_neg, zpow_natCast]
        rfl
      rw [hsplit]
      have h53 : (0 : Rat) < 2 ^ 53 := by positivity
      have : (2 : Rat) ^ (Int.log 2 |t|) / 2 ^ 53 ≤ |t| / 2 ^ 53 :=
        div_le_div_of_nonneg_right hlog h53.le
      have hp : (0 : Rat) ≤ 1 / 2 ^ 1075 := by positivity
      linarith

/-- A multiple of the spacing at its exponent is a value of type `double`. -/
theorem round_binary64_of_multiple (t : Rat) (e n : Int) (h1 : 2 ^ e ≤ |t|)
    (h2 : |t| < 2 ^ (e + 1)) (he : -1022 ≤ e) (hn : t = n * 2 ^ (e - 52)) :
    round_binary64 t = t := by
  have hpos : 0 < |t| := lt_of_lt_of_le (zpow_pos (by norm_num) _) h1
  have hlog : Int.log 2 |t| = e := by
    apply le_antisymm
    · have := (Int.lt_zpow_iff_log_lt (b := 2) (by norm_num) hpos).1 (by
        rw [Nat.cast_ofNat]
        exact h2)
      omega
    · exact (Int.zpow_le_iff_le_log (b := 2) (by norm_num) hpos).1 (by
        rw [Nat.cast_ofNat]
        exact h1)
  unfold round_binary64
  simp only []
  rw [hlog, max_eq_left he]
  have hq : (2 : Rat) ^ (e - 52) ≠ 0 := (zpow_pos (by norm_num) _).ne'
  rw [hn, mul_div_assoc, div_self hq, mul_one, round_half_even_intCast]

theorem round_binary64_360 : round_binary64 360 = 360 ∧ round_binary64 (-360) = -360 := by
  constructor
  · apply round_binary64_of_multiple 360 8 (360 * 2 ^ 44) <;> norm_num
  · apply round_binary64_of_multiple (-360) 8 (-(360 * 2 ^ 44)) <;> norm_num

/-! ### The periodic transforms: the round trip in the arithmetic of `double` -/

theorem round_half_even_eq (s : Rat) (n : Int) (h : |s - n| < 1 / 2) :
    round_half_even s = n := by
  rw [abs_lt] at h
  obtain ⟨h1, h2⟩ := h
  unfold round_half_even
  rcases le_or_lt (n : Rat) s with hn | hn
  · have hf : ⌊s⌋ = n := by
      rw [Int.floor_eq_iff]
      constructor <;> linarith
    rw [hf, if_pos (by linarith)]
  · have hf : ⌊s⌋ = n - 1 := by
      rw [Int.floor_eq_iff]
      push_cast
      constructor <;> linarith
    rw [hf]
    push_cast
    rw [if_neg (by linarith), if_pos (by linarith)]
    omega

/-- The value of `round_binary64` from the exponent and the nearest multiple. -/
theorem round_binary64_eval (t : Rat) (e n : Int) (h1 : 2 ^ e ≤ |t|)
    (h2 : |t| < 2 ^ (e + 1)) (he : -1022 ≤ e) (hn : |t / 2 ^ (e - 52) - n| < 1 / 2) :
    round_binary64 t = n * 2 ^ (e - 52) := by
  have hpos : 0 < |t| := lt_of_lt_of_le (zpow_pos (by norm_num) _) h1
  have hlog : Int.log 2 |t| = e := by
    apply le_antisymm
    · have := (Int.lt_zpow_iff_log_lt (b := 2) (by norm_num) hpos).1 (by
        rw [Nat.cast_ofNat]
        exact h2)
      omega
    · exact (Int.zpow_le_iff_le_log (b := 2) (by norm_num) hpos).1 (by
        rw [Nat.cast_ofNat]
        exact h1)
  unfold round_binary64
  simp only []
  rw [hlog, max_eq_left he, round_half_even_eq _ n hn]

/-- Adding `a` and then `-a`, with `|a| = 360`, to a longitude of at most 720 degrees, each
sum rounded: the result is within `2 ^ (-42)` of the longitude. -/
theorem round_trip_binary64_small (x a : Rat) (ha : |a| = 360) (hx : |x| ≤ 720) :
    |round_binary64 (round_binary64 (x + a) + -a) - x| ≤ 1 / 2 ^ 42 := by
  have h1 : |x + a| < 2048 := by
    have := abs_add x a
    rw [ha] at this
    linarith
  have e1 := round_binary64_error_small (x + a) h1
  have h2 : |round_binary64 (x + a) + -a| < 2048 := by
    have heq : round_binary64 (x + a) + -a = (round_binary64 (x + a) - (x + a)) + x := by ring
    rw [heq]
    have := abs_add (round_binary64 (x + a) - (x + a)) x
    have hsmall : (1 : Rat) / 2 ^ 43 < 1 := by norm_num
    linarith
  have e2 := round_binary64_error_small _ h2
  have heq : round_binary64 (round_binary64 (x + a) + -a) - x
      = (round_binary64 (round_binary64 (x + a) + -a) - (round_binary64 (x + a) + -a))
        + (round_binary64 (x + a) - (x + a)) := by ring
  rw [heq]
  refine (abs_add _ _).trans ?_
  have : (1 : Rat) / 2 ^ 42 = 1 / 2 ^ 43 + 1 / 2 ^ 43 := by norm_num
  rw [this]
  exact add_le_add e2 e1

/-- The same round trip for every longitude: the result is within
`(|x| + 360) * 2 ^ (-51)` of the longitude. -/
theorem round_trip_binary64_rel (x a : Rat) (ha : |a| = 360) :
    |round_binary64 (round_binary64 (x + a) + -a) - x| ≤ (|x| + 360) / 2 ^ 51 := by
  have hx0 := abs_nonneg x
  have h1 : |x + a| ≤ |x| + 360 := by
    have := abs_add x a
    rw [ha] at this
    exact this
  have e1 := round_binary64_error_rel (x + a)
  have h2 : |round_binary64 (x + a) + -a| ≤ |round_binary64 (x + a) - (x + a)| + |x| := by
    have heq : round_binary64 (x + a) + -a = (round_binary64 (x + a) - (x + a)) + x := by ring
    rw [heq]
    exact abs_add _ _
  have e2 := round_binary64_error_rel (round_binary64 (x + a) + -a)
  have heq : round_binary64 (round_binary64 (x + a) + -a) - x
      = (round_binary64 (round_binary64 (x + a) + -a) - (round_binary64 (x + a) + -a))
        + (round_binary64 (x + a) - (x + a)) := by ring
  rw [heq]
  refine (abs_add _ _).trans ?_
  generalize |round_binary64 (round_binary64 (x + a) + -a) - (round_binary64 (x + a) + -a)| = E2
    at e2 ⊢
  generalize |round_binary64 (x + a) - (x + a)| = E1 at e1 e2 h2 ⊢
  generalize |round_binary64 (x + a) + -a| = Y at e2 h2
  generalize |x + a| = A at e1 h1
  generalize |x| = X at *
  have hv : (1 : Rat) / 2 ^ 1075 ≤ 1 / 2 ^ 53 := by
    apply one_div_le_one_div_of_le (by positivity)
    exact pow_le_pow_right₀ (by norm_num) (by norm_num)
  have hu : (0 : Rat) < 1 / 2 ^ 53 := by positivity
  have hA : A / 2 ^ 53 ≤ (X + 360) / 2 ^ 53 := div_le_div_of_nonneg_right h1 (by positivity)
  have hE1 : E1 ≤ (X + 360) / 2 ^ 53 + 1 / 2 ^ 53 := by linarith
  have hY : Y / 2 ^ 53 ≤ (E1 + X) / 2 ^ 53 := div_le_div_of_nonneg_right h2 (by positivity)
  have hE1' : E1 / 2 ^ 53 ≤ ((X + 360) / 2 ^ 53 + 1 / 2 ^ 53) / 2 ^ 53 :=
    div_le_div_of_nonneg_right hE1 (by positivity)
  have hsq : ((X + 360) / 2 ^ 53 + 1 / 2 ^ 53) / 2 ^ 53 ≤ (X + 360) / 2 ^ 53 := by
    rw [div_le_iff₀ (by positivity)]
    have hW : (360 : Rat) / 2 ^ 53 ≤ (X + 360) / 2 ^ 53 :=
      div_le_div_of_nonneg_right (by linarith) (by positivity)
    norm_num at hW ⊢
    linarith
  have h360 : (3 : Rat) / 2 ^ 53 ≤ (X + 360) / 2 ^ 53 :=
    div_le_div_of_nonneg_right (by linarith) (by positivity)
  have hfour : (X + 360) / 2 ^ 51 = 4 * ((X + 360) / 2 ^ 53) := by
    rw [show (2 : Rat) ^ 53 = 4 * 2 ^ 51 by norm_num]
    field_simp
    ring
  have hsplit : (E1 + X) / 2 ^ 53 = E1 / 2 ^ 53 + X / 2 ^ 53 := by ring
  have hX : X / 2 ^ 53 ≤ (X + 360) / 2 ^ 53 :=
    div_le_div_of_nonneg_right (by linarith) (by positivity)
  have h3 : (3 : Rat) / 2 ^ 53 = 1 / 2 ^ 53 + 1 / 2 ^ 53 + 1 / 2 ^ 53 := by ring
  rw [hfour]
  linarith

/-- C12, round trip of the periodic transforms. Over exact arithmetic `WestEast` after
`EastWest`, and `EastWest` after `WestEast`, give back every coordinate pair: `EastWest`
subtracts 360 from the longitude, `WestEast` adds 360, and neither touches the latitude;
one transform applied with direction `+1` and then `-1` (or `-1` and then `+1`) gives
back the coordinate pair. In the arithmetic of `double` each of these round trips leaves
the latitude as it is and gives back the longitude within a tolerance: within `2 ^ (-42)`
for a longitude of at most 720 degrees in absolute value, and within
`(|x| + 360) * 2 ^ (-51)` for every longitude `x`. The tolerance is needed: from the
`double` nearest to `0.1` the round trip gives `879609302221 / 2 ^ 43`, which is
`0.10000000000002274` and not the longitude at the start. -/
theorem periodic_transform_round_trip :
    (∀ c : PointXY,
      PeriodicTransform_apply WestEast (PeriodicTransform_apply EastWest c 1) 1 = c) ∧
    (∀ c : PointXY,
      PeriodicTransform_apply EastWest (PeriodicTransform_apply WestEast c 1) 1 = c) ∧
    (∀ c : PointXY, (PeriodicTransform_apply EastWest c 1).x = c.x - 360 ∧
      (PeriodicTransform_apply EastWest c 1).y = c.y) ∧
    (∀ c : PointXY, (PeriodicTransform_apply WestEast c 1).x = c.x + 360 ∧
      (PeriodicTransform_apply WestEast c 1).y = c.y) ∧
    (∀ (x_translation : Rat) (c : PointXY),
      PeriodicTransform_apply x_translation (PeriodicTransform_apply x_translation c 1) (-1)
        = c) ∧
    (∀ (x_translation : Rat) (c : PointXY),
      PeriodicTransform_apply x_translation (PeriodicTransform_apply x_translation c (-1)) 1
        = c) ∧
    (∀ c : PointXY,
      (PeriodicTransform_apply_binary64 WestEast
        (PeriodicTransform_apply_binary64 EastWest c 1) 1).y = c.y ∧
      (PeriodicTransform_apply_binary64 EastWest
        (PeriodicTransform_apply_binary64 WestEast c 1) 1).y = c.y ∧
      (|c.x| ≤ 720 →
        |(PeriodicTransform_apply_binary64 WestEast
          (PeriodicTransform_apply_binary64 EastWest c 1) 1).x - c.x| ≤ 1 / 2 ^ 42 ∧
        |(PeriodicTransform_apply_binary64 EastWest
          (PeriodicTransform_apply_binary64 WestEast c 1) 1).x - c.x| ≤ 1 / 2 ^ 42) ∧
      |(PeriodicTransform_apply_binary64 WestEast
        (PeriodicTransform_apply_binary64 EastWest c 1) 1).x - c.x| ≤ (|c.x| + 360) / 2 ^ 51 ∧
      |(PeriodicTransform_apply_binary64 EastWest
        (PeriodicTransform_apply_binary64 WestEast c 1) 1).x - c.x| ≤ (|c.x| + 360) / 2 ^ 51) ∧
    (∀ x_translation ∈ [EastWest, WestEast], ∀ direction ∈ [(1 : Rat), -1], ∀ c : PointXY,
      (PeriodicTransform_apply_binary64 x_translation
        (PeriodicTransform_apply_binary64 x_translation c direction) (-direction)).y = c.y ∧
      (|c.x| ≤ 720 →
        |(PeriodicTransform_apply_binary64 x_translation
          (PeriodicTransform_apply_binary64 x_translation c direction) (-direction)).x - c.x|
          ≤ 1 / 2 ^ 42) ∧
      |(PeriodicTransform_apply_binary64 x_translation
        (PeriodicTransform_apply_binary64 x_translation c direction) (-direction)).x - c.x|
        ≤ (|c.x| + 360) / 2 ^ 51) ∧
    (round_binary64 (1 / 10) = 3602879701896397 / 2 ^ 55 ∧
      (PeriodicTransform_apply_binary64 WestEast
        (PeriodicTransform_apply_binary64 EastWest
          { x := 3602879701896397 / 2 ^ 55, y := 0 } 1) 1).x = 879609302221 / 2 ^ 43 ∧
      (879609302221 : Rat) / 2 ^ 43 ≠ 3602879701896397 / 2 ^ 55 ∧
      |(879609302221 : Rat) / 2 ^ 43 - 3602879701896397 / 2 ^ 55| ≤ 1 / 2 ^ 42) := by
  have hp : round_binary64 360 = 360 ∧ round_binary64 (-360) = -360 := round_binary64_360
  have hx : ∀ (t : Rat) (c : PointXY) (d : Rat),
      (PeriodicTransform_apply_binary64 t c d).x
        = round_binary64 (c.x + round_binary64 (d * t)) := fun _ _ _ => rfl
  have hwe : ∀ c : PointXY, (PeriodicTransform_apply_binary64 WestEast
      (PeriodicTransform_apply_binary64 EastWest c 1) 1).x
        = round_binary64 (round_binary64 (c.x + -360) + - -360) := by
    intro c
    rw [hx, hx, show (1 : Rat) * WestEast = 360 by norm_num [WestEast],
      show (1 : Rat) * EastWest = -360 by norm_num [EastWest], hp.1, hp.2, neg_neg]
  have hew : ∀ c : PointXY, (PeriodicTransform_apply_binary64 EastWest
      (PeriodicTransform_apply_binary64 WestEast c 1) 1).x
        = round_binary64 (round_binary64 (c.x + 360) + -360) := by
    intro c
    rw [hx, hx, show (1 : Rat) * WestEast = 360 by norm_num [WestEast],
      show (1 : Rat) * EastWest = -360 by norm_num [EastWest], hp.1, hp.2]
  have hdir : ∀ t ∈ [EastWest, WestEast], ∀ d ∈ [(1 : Rat), -1], ∀ c : PointXY,
      ∃ a : Rat, |a| = 360 ∧ (PeriodicTransform_apply_binary64 t
        (PeriodicTransform_apply_binary64 t c d) (-d)).x
          = round_binary64 (round_binary64 (c.x + a) + -a) := by
    intro t ht d hd c
    simp only [List.mem_cons, List.mem_singleton, List.not_mem_nil, or_false] at ht hd
    rcases ht with rfl | rfl <;> rcases hd with rfl | rfl
    · refine ⟨-360, by norm_num, ?_⟩
      rw [hx, hx, show (1 : Rat) * EastWest = -360 by norm_num [EastWest],
        show -(1 : Rat) * EastWest = 360 by norm_num [EastWest], hp.1, hp.2, neg_neg]
    · refine ⟨360, by norm_num, ?_⟩
      rw [hx, hx, show (-1 : Rat) * EastWest = 360 by norm_num [EastWest],
        show - -(1 : Rat) * EastWest = -360 by norm_num [EastWest], hp.1, hp.2]
    · refine ⟨360, by norm_num, ?_⟩
      rw [hx, hx, show (1 : Rat) * WestEast = 360 by norm_num [WestEast],
        show -(1 : Rat) * WestEast = -360 by norm_num [WestEast], hp.1, hp.2]
    · refine ⟨-360, by norm_num, ?_⟩
      rw [hx, hx, show (-1 : Rat) * WestEast = -360 by norm_num [WestEast],
        show - -(1 : Rat) * WestEast = 360 by norm_num [WestEast], hp.1, hp.2, neg_neg]
  have htenth : round_binary64 (1 / 10) = 3602879701896397 / 2 ^ 55 := by
    rw [round_binary64_eval (1 / 10) (-4) 7205759403792794
      (by rw [abs_of_pos (by norm_num)]; norm_num)
      (by rw [abs_of_pos (by norm_num)]; norm_num)
      (by norm_num) (by norm_num [abs_lt])]
    norm_num
  have hfirst : round_binary64 (3602879701896397 / 2 ^ 55 + -360)
      = -3165713878692659 / 2 ^ 43 := by
    rw [round_binary64_eval (3602879701896397 / 2 ^ 55 + -360) 8 (-6331427757385318)
      (by rw [abs_of_neg (by norm_num)]; norm_num)
      (by rw [abs_of_neg (by norm_num)]; norm_num) (by norm_num)
      (by norm_num [abs_lt])]
    norm_num
  have hsecond : round_binary64 (-3165713878692659 / 2 ^ 43 + - -360)
      = 879609302221 / 2 ^ 43 := by
    have h : (-3165713878692659 : Rat) / 2 ^ 43 + - -360 = 879609302221 / 2 ^ 43 := by norm_num
    rw [h]
    apply round_binary64_of_multiple _ (-4) (879609302221 * 2 ^ 13)
    · rw [abs_of_pos (by norm_num)]
      norm_num
    · rw [abs_of_pos (by norm_num)]
      norm_num
    · norm_num
    · norm_num
  refine ⟨?_, ?_, ?_, ?_, ?_, ?_, ?_, ?_, ?_⟩
  · intro c
    cases c
    simp only [PeriodicTransform_apply, WestEast, EastWest, PointXY.mk.injEq, and_true]
    ring
  · intro c
    cases c
    simp only [PeriodicTransform_apply, WestEast, EastWest, PointXY.mk.injEq, and_true]
    ring
  · intro c
    simp only [PeriodicTransform_apply, EastWest, and_true]
    ring
  · intro c
    simp only [PeriodicTransform_apply, WestEast, and_true]
    ring
  · intro t c
    cases c
    simp only [PeriodicTransform_apply, PointXY.mk.injEq, and_true]
    ring
  · intro t c
    cases c
    simp only [PeriodicTransform_apply, PointXY.mk.injEq, and_true]
    ring
  · intro c
    refine ⟨rfl, rfl, ?_, ?_, ?_⟩
    · intro hc
      rw [hwe, hew]
      have h1 := round_trip_binary64_small c.x (-360) (by norm_num) hc
      have h2 := round_trip_binary64_small c.x 360 (by norm_num) hc
      exact ⟨h1, h2⟩
    · rw [hwe]
      exact round_trip_binary64_rel c.x (-360) (by norm_num)
    · rw [hew]
      exact round_trip_binary64_rel c.x 360 (by norm_num)
  · intro t ht d hd c
    obtain ⟨a, ha, heq⟩ := hdir t ht d hd c
    refine ⟨rfl, ?_, ?_⟩
    · intro hc
      rw [heq]
      exact round_trip_binary64_small c.x a ha hc
    · rw [heq]
      exact round_trip_binary64_rel c.x a ha
  · refine ⟨htenth, ?_, by norm_num, by norm_num [abs_le]⟩
    rw [hwe, hfirst, hsecond]

end Atlas
